import Mathlib

/-!
# Gloo listener subsystem: route configuration and filter chains

A shallow embedding of `projects/gloo/pkg/translator/route_config.go` and
`projects/gloo/pkg/translator/filter_chain.go`.

Conventions of the embedding
* Go pointers to messages are values; a message that is mutated through a pointer is
  passed in and returned (explicit state passing).
* A Go slice is a `List`; a `nil` slice and an empty slice are both `[]`.
* An index expression `xs[i]` that is out of range makes the Go program fail; the
  embedding returns `none` there.
* The text of a report entry is kept as the format and the arguments that the Go code
  hands to `fmt.Sprintf` or takes from `err.Error()` (type `Reason`), not as the
  rendered string.
* Functions of packages that are not part of the translator sources (upstream
  reference conversion, cluster naming, TLS resolution, plugins) are parameters.
-/

namespace Gloo

/-! ## Errors -/

/-- A `core.ResourceRef`: namespace and name. -/
structure ResourceRef where
  Namespace : String
  name : String
  deriving DecidableEq, Repr

/-- Go `error` values that reach the translator. The two package-level variables of
`route_config.go` are constructors of their own, because the code compares against
them by identity. -/
inductive Err where
  /-- Go `NoDestinationSpecifiedError` -/
  | NoDestinationSpecifiedError
  /-- Go `SubsetsMisconfiguredErr` -/
  | SubsetsMisconfiguredErr
  /-- Go `pluginutils.NewUpstreamNotFoundErr(ref)` -/
  | UpstreamNotFoundErr (ref : ResourceRef)
  /-- Go `pluginutils.NewUpstreamGroupNotFoundErr(ref)` -/
  | UpstreamGroupNotFoundErr (ref : ResourceRef)
  /-- Go `errors.Errorf(msg)` and `fmt.Errorf(msg)` -/
  | errorf (msg : String)
  /-- Go `errors.Wrap(err, msg)` -/
  | wrap (err : Err) (msg : String)
  /-- an error value produced outside the translator (plugins, TLS resolution) -/
  | other (msg : String)
  deriving DecidableEq, Repr

/-- The text of a report entry: the format used by the Go code with its arguments. -/
inductive Reason where
  /-- Go `err.Error()` -/
  | errText (err : Err)
  /-- a string literal -/
  | literal (s : String)
  /-- Go `fmt.Sprintf("virtual host %s has an empty domain", name)` -/
  | emptyDomain (vhostName : String)
  /-- Go `fmt.Sprintf("domain %v is shared by the following virtual hosts: %v", domain, names)` -/
  | domainShared (domain : String) (vHostNames : List String)
  /-- Go `fmt.Sprintf("invalid virtual host [%s]: %v", name, err.Error())` -/
  | invalidVirtualHost (vhostName : String) (err : Err)
  /-- Go `fmt.Sprintf("%T: %v", plugin, err.Error())` -/
  | pluginErr (pluginType : String) (err : Err)
  /-- Go `fmt.Sprintf("listener %s: %s", name, err.Error())` -/
  | listenerErr (listenerName : String) (err : Err)
  deriving DecidableEq, Repr

/-! ## Validation reports -/

inductive RouteReport_Error_Type where
  | InvalidMatcherError
  | ProcessingError
  deriving DecidableEq, Repr

inductive RouteReport_Warning_Type where
  | InvalidDestinationWarning
  deriving DecidableEq, Repr

structure RouteReport_Error where
  type : RouteReport_Error_Type
  reason : Reason
  routeName : String
  deriving DecidableEq, Repr

structure RouteReport_Warning where
  type : RouteReport_Warning_Type
  reason : Reason
  deriving DecidableEq, Repr

structure RouteReport where
  errors : List RouteReport_Error
  warnings : List RouteReport_Warning
  deriving DecidableEq, Repr

/-- Go `validation.AppendRouteError` -/
def AppendRouteError (routeReport : RouteReport) (errType : RouteReport_Error_Type)
    (reason : Reason) (routeName : String) : RouteReport :=
  { routeReport with errors := routeReport.errors ++ [⟨errType, reason, routeName⟩] }

/-- Go `validation.AppendRouteWarning` -/
def AppendRouteWarning (routeReport : RouteReport) (warnType : RouteReport_Warning_Type)
    (reason : Reason) : RouteReport :=
  { routeReport with warnings := routeReport.warnings ++ [⟨warnType, reason⟩] }

inductive VirtualHostReport_Error_Type where
  | DomainsNotUniqueError
  | ProcessingError
  | EmptyDomainError
  deriving DecidableEq, Repr

structure VirtualHostReport_Error where
  type : VirtualHostReport_Error_Type
  reason : Reason
  deriving DecidableEq, Repr

structure VirtualHostReport where
  errors : List VirtualHostReport_Error
  routeReports : List RouteReport
  deriving DecidableEq, Repr

/-- Go `validation.AppendVirtualHostError` -/
def AppendVirtualHostError (vhostReport : VirtualHostReport)
    (errType : VirtualHostReport_Error_Type) (reason : Reason) : VirtualHostReport :=
  { vhostReport with errors := vhostReport.errors ++ [⟨errType, reason⟩] }

inductive HttpListenerReport_Error_Type where
  | ProcessingError
  deriving DecidableEq, Repr

structure HttpListenerReport_Error where
  type : HttpListenerReport_Error_Type
  reason : Reason
  deriving DecidableEq, Repr

structure HttpListenerReport where
  errors : List HttpListenerReport_Error
  virtualHostReports : List VirtualHostReport
  deriving DecidableEq, Repr

/-! ## Input resources (`v1` API) -/

/-- The oneof `Destination.DestinationType`. -/
inductive DestinationType where
  | Upstream (ref : ResourceRef)
  | Kube (ref : ResourceRef) (port : Nat)
  | Consul (serviceName : String)
  | unset
  deriving DecidableEq, Repr

/-- A Go `map[string]string`, as an association list. Only the key set is observed by
the translator: `GoMap.len` is the number of distinct keys and `GoMap.contains` is
the comma-ok lookup. -/
abbrev GoMap := List (String × String)

def GoMap.keySet (m : GoMap) : List String := (m.map Prod.fst).dedup

def GoMap.len (m : GoMap) : Nat := (GoMap.keySet m).length

def GoMap.contains (m : GoMap) (k : String) : Bool := decide (k ∈ m.map Prod.fst)

structure Subset where
  values : GoMap
  deriving DecidableEq, Repr

structure Destination where
  destinationType : DestinationType
  subset : Option Subset
  deriving DecidableEq, Repr

structure WeightedDestination where
  destination : Destination
  /-- a `uint32` -/
  weight : Nat
  deriving DecidableEq, Repr

structure MultiDestination where
  destinations : List WeightedDestination
  deriving DecidableEq, Repr

/-- The oneof `RouteAction.Destination`. -/
inductive RouteAction_Destination where
  | Single (single : Destination)
  | Multi (multi : MultiDestination)
  | UpstreamGroup (ref : ResourceRef)
  | ClusterHeader (header : String)
  | unset
  deriving DecidableEq, Repr

structure RouteAction where
  destination : RouteAction_Destination
  deriving DecidableEq, Repr

structure DirectResponseAction where
  status : Nat
  body : String
  deriving DecidableEq, Repr

/-- The oneof `RedirectAction.PathRewriteSpecifier`. -/
inductive RedirectAction_PathRewriteSpecifier where
  | PathRedirect (s : String)
  | PrefixRewrite (s : String)
  | unset
  deriving DecidableEq, Repr

structure RedirectAction where
  hostRedirect : String
  responseCode : Nat
  httpsRedirect : Bool
  stripQuery : Bool
  pathRewriteSpecifier : RedirectAction_PathRewriteSpecifier
  deriving DecidableEq, Repr

/-- The oneof `Route.Action`. -/
inductive Route_Action where
  | RouteAction (a : RouteAction)
  | DirectResponseAction (a : DirectResponseAction)
  | RedirectAction (a : RedirectAction)
  | unset
  deriving DecidableEq, Repr

/-- The oneof `Matcher.PathSpecifier`. -/
inductive Matcher_PathSpecifier where
  | Exact (s : String)
  | Regex (s : String)
  | Prefix (s : String)
  deriving DecidableEq, Repr

structure HeaderMatcher where
  name : String
  value : String
  regex : Bool
  invertMatch : Bool
  deriving DecidableEq, Repr

structure QueryParameterMatcher where
  name : String
  value : String
  regex : Bool
  deriving DecidableEq, Repr

structure Matcher where
  pathSpecifier : Option Matcher_PathSpecifier
  caseSensitive : Option Bool
  headers : List HeaderMatcher
  queryParameters : List QueryParameterMatcher
  methods : List String
  deriving DecidableEq, Repr

structure Route where
  name : String
  matchers : List Matcher
  action : Route_Action
  deriving DecidableEq, Repr

structure VirtualHost where
  name : String
  domains : List String
  routes : List Route
  deriving DecidableEq, Repr

structure Selector where
  keys : List String
  deriving DecidableEq, Repr

structure SubsetSpec where
  selectors : List Selector
  deriving DecidableEq, Repr

/-- The oneof `Upstream.UpstreamType`, split by whether the variant implements
`v1.SubsetSpecGetter`. -/
inductive UpstreamType where
  | withSubsetSpecGetter (kind : String) (subsetSpec : Option SubsetSpec)
  | withoutSubsetSpecGetter (kind : String)
  | unset
  deriving DecidableEq, Repr

structure Upstream where
  metadata : ResourceRef
  upstreamType : UpstreamType
  deriving DecidableEq, Repr

structure UpstreamGroup where
  metadata : ResourceRef
  destinations : List WeightedDestination
  deriving DecidableEq, Repr

structure Secret where
  metadata : ResourceRef
  data : String
  deriving DecidableEq, Repr

structure ApiSnapshot where
  upstreams : List Upstream
  upstreamGroups : List UpstreamGroup
  secrets : List Secret
  deriving DecidableEq, Repr

/-- Modelled from the spec: `UpstreamList.Find(namespace, name)` of the generated
resource list, which is not part of the translator sources. The snapshot is
addressable by (namespace, name) and a lookup that matches nothing fails. -/
def UpstreamList.Find (list : List Upstream) (ns name : String) : Option Upstream :=
  list.find? (fun us => us.metadata.name == name && us.metadata.Namespace == ns)

/-- Modelled from the spec: `UpstreamGroupList.Find(namespace, name)` of the generated
resource list, which is not part of the translator sources. The snapshot is
addressable by (namespace, name) and a lookup that matches nothing fails. -/
def UpstreamGroupList.Find (list : List UpstreamGroup) (ns name : String) :
    Option UpstreamGroup :=
  list.find? (fun ug => ug.metadata.name == name && ug.metadata.Namespace == ns)

/-! ## Domain uniqueness (`ValidateVirtualHostDomains`) -/

/-- The Go `map[string][]int` named `domainsToVirtualHosts`, as an association list
with one entry per key, in order of first insertion. -/
abbrev DomainMap := List (String × List Nat)

/-- Go `m[k]`: the bucket of `k`, empty when `k` is not a key. -/
def DomainMap.get : DomainMap → String → List Nat
  | [], _ => []
  | (k', v) :: rest, k => if k' = k then v else DomainMap.get rest k

/-- Go `m[k] = append(m[k], i)` -/
def DomainMap.appendIdx : DomainMap → String → Nat → DomainMap
  | [], k, i => [(k, [i])]
  | (k', v) :: rest, k, i =>
    if k' = k then (k', v ++ [i]) :: rest else (k', v) :: DomainMap.appendIdx rest k i

/-- Go `validation.AppendVirtualHostError(httpListenerReport.GetVirtualHostReports()[i], ..)`;
`none` when `i` is out of range. -/
def appendVirtualHostErrorAt (reports : List VirtualHostReport) (i : Nat)
    (errType : VirtualHostReport_Error_Type) (reason : Reason) :
    Option (List VirtualHostReport) :=
  match reports[i]? with
  | none => none
  | some r => some (reports.set i (AppendVirtualHostError r errType reason))

/-- The loop `for _, domain := range vHost.GetDomains()` of the first pass, for the
virtual host at index `i`. -/
def collectDomains (i : Nat) (vHost : VirtualHost) :
    List String → DomainMap × List VirtualHostReport →
    Option (DomainMap × List VirtualHostReport)
  | [], st => some st
  | domain :: rest, (m, reports) =>
    if domain = "" then
      match appendVirtualHostErrorAt reports i .EmptyDomainError
          (.emptyDomain vHost.name) with
      | none => none
      | some reports1 =>
        collectDomains i vHost rest (DomainMap.appendIdx m domain i, reports1)
    else
      collectDomains i vHost rest (DomainMap.appendIdx m domain i, reports)

/-- The first pass `for i, vHost := range virtualHosts`, from index `i` on. -/
def collectVirtualHosts :
    Nat → List VirtualHost → DomainMap × List VirtualHostReport →
    Option (DomainMap × List VirtualHostReport)
  | _, [], st => some st
  | i, vHost :: rest, (m, reports) =>
    let m1 := if vHost.domains.length = 0 then DomainMap.appendIdx m "*" i else m
    match collectDomains i vHost vHost.domains (m1, reports) with
    | none => none
    | some st => collectVirtualHosts (i + 1) rest st

/-- The loop collecting `virtualHosts[vHost].GetName()` for the indices of a bucket. -/
def collectNames (virtualHosts : List VirtualHost) : List Nat → Option (List String)
  | [] => some []
  | vHost :: rest =>
    match virtualHosts[vHost]?, collectNames virtualHosts rest with
    | some vh, some names => some (vh.name :: names)
    | _, _ => none

/-- The loop appending one `DomainsNotUniqueError` per index of a bucket. -/
def reportBucket (domain : String) (vHostNames : List String) :
    List Nat → List VirtualHostReport → Option (List VirtualHostReport)
  | [], reports => some reports
  | vHost :: rest, reports =>
    match appendVirtualHostErrorAt reports vHost .DomainsNotUniqueError
        (.domainShared domain vHostNames) with
    | none => none
    | some reports1 => reportBucket domain vHostNames rest reports1

/-- The second pass `for domain, vHosts := range domainsToVirtualHosts`, over the
entries in the order given. -/
def reportConflicts (virtualHosts : List VirtualHost) :
    List (String × List Nat) → List VirtualHostReport → Option (List VirtualHostReport)
  | [], reports => some reports
  | (domain, vHosts) :: rest, reports =>
    if vHosts.length > 1 then
      match collectNames virtualHosts vHosts with
      | none => none
      | some vHostNames =>
        match reportBucket domain vHostNames vHosts reports with
        | none => none
        | some reports1 => reportConflicts virtualHosts rest reports1
    else
      reportConflicts virtualHosts rest reports

/-- Go `ValidateVirtualHostDomains`. Go leaves the iteration order of a map unspecified;
`order` is the order in which the second pass visits the entries of the map. -/
def ValidateVirtualHostDomains (order : DomainMap → DomainMap)
    (virtualHosts : List VirtualHost) (httpListenerReport : HttpListenerReport) :
    Option HttpListenerReport :=
  match collectVirtualHosts 0 virtualHosts ([], httpListenerReport.virtualHostReports) with
  | none => none
  | some (m, reports) =>
    match reportConflicts virtualHosts (order m) reports with
    | none => none
    | some reports1 => some { httpListenerReport with virtualHostReports := reports1 }

/-- A virtual host claims the domain `D`: it lists `D`, or it lists nothing and `D` is
the wildcard. -/
def claimsDomain (D : String) (vh : VirtualHost) : Bool :=
  decide (D ∈ vh.domains) || (decide (vh.domains = []) && decide (D = "*"))

/-- The entry is a `DomainsNotUniqueError` written for the domain `D`. -/
def isDomainsNotUniqueFor (D : String) (e : VirtualHostReport_Error) : Bool :=
  decide (e.type = .DomainsNotUniqueError) &&
    (match e.reason with
     | .domainShared d _ => decide (d = D)
     | _ => false)

/-- The report carries a `DomainsNotUniqueError` for the domain `D`. -/
def flaggedFor (D : String) (r : VirtualHostReport) : Bool :=
  r.errors.any (isDomainsNotUniqueFor D)


/-- The number of `DomainsNotUniqueError` entries for `D` in one report. -/
def dnuCount (D : String) (r : VirtualHostReport) : Nat :=
  r.errors.countP (isDomainsNotUniqueFor D)

/-- The number of `DomainsNotUniqueError` entries for `D` in the report at index `j`
(zero when there is no such report). -/
def dnuCountAt (D : String) (reports : List VirtualHostReport) (j : Nat) : Nat :=
  match reports[j]? with
  | some r => dnuCount D r
  | none => 0

/-- The indices the first pass puts into the bucket of `D`, for the virtual hosts at
indices `i`, `i+1`, ... : one per occurrence of `D` in a domain list, and one for an
empty domain list when `D` is the wildcard. -/
def claimIdxs (D : String) : Nat → List VirtualHost → List Nat
  | _, [] => []
  | i, vh :: rest =>
    (if vh.domains.length = 0 ∧ D = "*" then [i] else [])
      ++ List.replicate (vh.domains.count D) i ++ claimIdxs D (i + 1) rest

/-- The number of `DomainsNotUniqueError` entries for `D` that the second pass adds
to the report at index `j`, for the given entries. -/
def conflictBump (D : String) (j : Nat) : List (String × List Nat) → Nat
  | [] => 0
  | (d, vHosts) :: rest =>
    (if d = D ∧ vHosts.length > 1 then vHosts.count j else 0) + conflictBump D j rest

/-- The number of times the first pass of `ValidateVirtualHostDomains` puts a virtual
host into the bucket of `D`: once per occurrence of `D` in a domain list, and once for
an empty domain list when `D` is the wildcard. -/
def claimCount (D : String) (virtualHosts : List VirtualHost) : Nat :=
  (virtualHosts.map (fun vh =>
    (if vh.domains.length = 0 ∧ D = "*" then 1 else 0) + vh.domains.count D)).sum

/-- The report at index `j` carries the entry `e`. -/
def hasErrorAt (reports : List VirtualHostReport) (j : Nat) (e : VirtualHostReport_Error) :
    Bool :=
  match reports[j]? with
  | some r => decide (e ∈ r.errors)
  | none => false

/-! ## Output resources (Envoy API) -/

namespace Envoy

structure RegexMatcher where
  maxProgramSize : Option Nat
  regex : String
  deriving DecidableEq, Repr

/-- The oneof `HeaderMatcher.HeaderMatchSpecifier`. -/
inductive HeaderMatchSpecifier where
  | PresentMatch (b : Bool)
  | SafeRegexMatch (r : RegexMatcher)
  | ExactMatch (s : String)
  deriving DecidableEq, Repr

structure HeaderMatcher where
  name : String
  headerMatchSpecifier : Option HeaderMatchSpecifier
  invertMatch : Bool
  deriving DecidableEq, Repr

/-- The oneof `StringMatcher.MatchPattern`. -/
inductive StringMatcher where
  | SafeRegex (r : RegexMatcher)
  | Exact (s : String)
  deriving DecidableEq, Repr

/-- The oneof `QueryParameterMatcher.QueryParameterMatchSpecifier`. -/
inductive QueryParameterMatchSpecifier where
  | PresentMatch (b : Bool)
  | StringMatch (m : StringMatcher)
  deriving DecidableEq, Repr

structure QueryParameterMatcher where
  name : String
  queryParameterMatchSpecifier : Option QueryParameterMatchSpecifier
  deriving DecidableEq, Repr

/-- The oneof `RouteMatch.PathSpecifier`. -/
inductive RouteMatch_PathSpecifier where
  | Path (s : String)
  | SafeRegex (r : RegexMatcher)
  | Prefix (s : String)
  deriving DecidableEq, Repr

structure RouteMatch where
  pathSpecifier : Option RouteMatch_PathSpecifier
  headers : List HeaderMatcher
  queryParameters : List QueryParameterMatcher
  caseSensitive : Option Bool
  deriving DecidableEq, Repr

/-- Go `core.Metadata`, as its `filter_metadata` table. -/
structure Metadata where
  filterMetadata : List (String × List (String × String))
  deriving DecidableEq, Repr

structure ClusterWeight where
  name : String
  weight : Option Nat
  metadataMatch : Option Metadata
  deriving DecidableEq, Repr

structure WeightedCluster where
  clusters : List ClusterWeight
  totalWeight : Option Nat
  deriving DecidableEq, Repr

/-- The oneof `RouteAction.ClusterSpecifier`. -/
inductive ClusterSpecifier where
  | Cluster (cluster : String)
  | ClusterHeader (header : String)
  | WeightedClusters (wc : WeightedCluster)
  deriving DecidableEq, Repr

structure RouteAction where
  clusterSpecifier : Option ClusterSpecifier
  metadataMatch : Option Metadata
  deriving DecidableEq, Repr

structure DataSource where
  inlineString : String
  deriving DecidableEq, Repr

structure DirectResponseAction where
  status : Nat
  body : Option DataSource
  deriving DecidableEq, Repr

/-- The oneof `RedirectAction.PathRewriteSpecifier`. -/
inductive PathRewriteSpecifier where
  | PathRedirect (s : String)
  | PrefixRewrite (s : String)
  deriving DecidableEq, Repr

structure RedirectAction where
  hostRedirect : String
  responseCode : Nat
  httpsRedirect : Bool
  stripQuery : Bool
  pathRewriteSpecifier : Option PathRewriteSpecifier
  deriving DecidableEq, Repr

/-- The oneof `Route.Action`. -/
inductive Route_Action where
  | Route (route : RouteAction)
  | DirectResponse (directResponse : DirectResponseAction)
  | Redirect (redirect : RedirectAction)
  deriving DecidableEq, Repr

structure Route where
  name : String
  Match : Option RouteMatch
  action : Option Route_Action
  deriving DecidableEq, Repr

/-- Go `out.GetRoute()` -/
def Route.GetRoute (out : Route) : Option RouteAction :=
  match out.action with
  | some (.Route r) => some r
  | _ => none

/-- Go `google.protobuf.Duration` -/
structure Duration where
  seconds : Int
  nanos : Int
  deriving DecidableEq, Repr

/-- Go `google.protobuf.Any` -/
structure Any where
  typeUrl : String
  value : String
  deriving DecidableEq, Repr

/-- The downstream TLS context; the translator only passes it on. -/
structure DownstreamTlsContext where
  commonTlsContext : String
  requireClientCertificate : Option Bool
  deriving DecidableEq, Repr

structure CidrRange where
  addressPrefix : String
  prefixLen : Option Nat
  deriving DecidableEq, Repr

/-- A network filter of a listener. -/
structure Filter where
  name : String
  typedConfig : Option Any
  deriving DecidableEq, Repr

structure FilterChainMatch where
  destinationPort : Option Nat
  serverNames : List String
  transportProtocol : String
  sourcePrefixRanges : List CidrRange
  deriving DecidableEq, Repr

structure TransportSocket where
  name : String
  typedConfig : Option Any
  deriving DecidableEq, Repr

structure FilterChain where
  filterChainMatch : Option FilterChainMatch
  filters : List Filter
  transportSocket : Option TransportSocket
  transportSocketConnectTimeout : Option Duration
  deriving DecidableEq, Repr

end Envoy

/-! ## TLS configuration and listener reports -/

/-- Go `v3.CidrRange` of the Gloo API. -/
structure CidrRange where
  addressPrefix : String
  prefixLen : Option Nat
  deriving DecidableEq, Repr

/-- Go `ssl.SslConfig` -/
structure SslConfig where
  secretRef : Option ResourceRef
  sniDomains : List String
  verifySubjectAltName : List String
  alpnProtocols : List String
  oneWayTls : Option Bool
  disableTlsSessionResumption : Option Bool
  transportSocketConnectTimeout : Option Envoy.Duration
  deriving DecidableEq, Repr

inductive ListenerReport_Error_Type where
  | NameNotUniqueError
  | BindPortNotUniqueError
  | SSLConfigError
  | ProcessingError
  deriving DecidableEq, Repr

structure ListenerReport_Error where
  type : ListenerReport_Error_Type
  reason : Reason
  deriving DecidableEq, Repr

inductive TcpListenerReport_Error_Type where
  | ProcessingError
  deriving DecidableEq, Repr

structure TcpListenerReport_Error where
  type : TcpListenerReport_Error_Type
  reason : Reason
  deriving DecidableEq, Repr

structure TcpListenerReport where
  errors : List TcpListenerReport_Error
  deriving DecidableEq, Repr

/-- The oneof `MatchedListenerReport.ListenerReportType`. -/
inductive MatchedListenerReport where
  | HttpListenerReport (r : HttpListenerReport)
  | TcpListenerReport (r : TcpListenerReport)
  | unset
  deriving DecidableEq, Repr

/-- The report of a Hybrid listener: a Go map from the route-configuration name of a
matched listener to its report, as an association list. -/
structure HybridListenerReport where
  matchedListenerReports : List (String × MatchedListenerReport)
  deriving DecidableEq, Repr

/-- The report of an Aggregate listener: Go maps from route-configuration names to
reports, as association lists. -/
structure AggregateListenerReport where
  httpListenerReports : List (String × HttpListenerReport)
  tcpListenerReports : List (String × TcpListenerReport)
  deriving DecidableEq, Repr

/-- The oneof `ListenerReport.ListenerTypeReport`. -/
inductive ListenerTypeReport where
  | HttpListenerReport (r : HttpListenerReport)
  | TcpListenerReport (r : TcpListenerReport)
  | HybridListenerReport (r : HybridListenerReport)
  | AggregateListenerReport (r : AggregateListenerReport)
  | unset
  deriving DecidableEq, Repr

structure ListenerReport where
  errors : List ListenerReport_Error
  listenerTypeReport : ListenerTypeReport
  deriving DecidableEq, Repr

/-- Go `validation.AppendListenerError` -/
def AppendListenerError (listenerReport : ListenerReport)
    (errType : ListenerReport_Error_Type) (reason : Reason) : ListenerReport :=
  { listenerReport with errors := listenerReport.errors ++ [⟨errType, reason⟩] }

/-! ## Listeners (`v1` API) and Envoy virtual hosts -/

namespace Envoy

/-- The enum `VirtualHost.TlsRequirementType`; `NONE` is the zero value. -/
inductive TlsRequirementType where
  | NONE
  | EXTERNAL_ONLY
  | ALL
  deriving DecidableEq, Repr

structure VirtualHost where
  name : String
  domains : List String
  routes : List Route
  requireTls : TlsRequirementType
  deriving DecidableEq, Repr

end Envoy

/-- The options of an HTTP listener; the translator only passes them on. -/
structure HttpListenerOptions where
  tag : String
  deriving DecidableEq, Repr

structure HttpListener where
  virtualHosts : List VirtualHost
  options : Option HttpListenerOptions
  deriving DecidableEq, Repr

/-- A TCP host; the translator only passes it on to the TCP plugins. -/
structure TcpHost where
  name : String
  deriving DecidableEq, Repr

structure TcpListener where
  tcpHosts : List TcpHost
  deriving DecidableEq, Repr

/-- The matcher `v1.Matcher` of a matched listener or of an HTTP filter chain. -/
structure Listener_Matcher where
  sslConfig : Option SslConfig
  sourcePrefixRanges : List CidrRange
  deriving DecidableEq, Repr

/-- The oneof `MatchedListener.ListenerType`. -/
inductive MatchedListener_ListenerType where
  | HttpListener (l : HttpListener)
  | TcpListener (l : TcpListener)
  | unset
  deriving DecidableEq, Repr

structure MatchedListener where
  matcher : Option Listener_Matcher
  listenerType : MatchedListener_ListenerType
  sslConfigurations : List SslConfig
  deriving DecidableEq, Repr

structure HybridListener where
  matchedListeners : List MatchedListener
  deriving DecidableEq, Repr

structure AggregateListener_HttpResources where
  virtualHosts : List (String × VirtualHost)
  httpOptions : List (String × HttpListenerOptions)
  deriving DecidableEq, Repr

structure AggregateListener_HttpFilterChain where
  matcher : Option Listener_Matcher
  httpOptionsRef : String
  virtualHostRefs : List String
  deriving DecidableEq, Repr

structure AggregateListener where
  httpResources : AggregateListener_HttpResources
  httpFilterChains : List AggregateListener_HttpFilterChain
  deriving DecidableEq, Repr

/-- The oneof `Listener.ListenerType`. -/
inductive Listener_ListenerType where
  | HttpListener (l : HttpListener)
  | TcpListener (l : TcpListener)
  | HybridListener (l : HybridListener)
  | AggregateListener (l : AggregateListener)
  | unset
  deriving DecidableEq, Repr

/-- Go `v1.RouteConfigurationOptions` -/
structure RouteConfigurationOptions where
  maxDirectResponseBodySizeBytes : Option Nat
  deriving DecidableEq, Repr

structure Listener where
  name : String
  bindAddress : String
  bindPort : Nat
  sslConfigurations : List SslConfig
  listenerType : Listener_ListenerType
  routeOptions : Option RouteConfigurationOptions
  deriving DecidableEq, Repr

/-- Go `listener.GetHttpListener()` -/
def Listener.GetHttpListener (listener : Listener) : Option HttpListener :=
  match listener.listenerType with
  | .HttpListener l => some l
  | _ => none

/-- Go `listener.GetTcpListener()` -/
def Listener.GetTcpListener (listener : Listener) : Option TcpListener :=
  match listener.listenerType with
  | .TcpListener l => some l
  | _ => none

/-- Go `listenerReport.GetHttpListenerReport()` -/
def ListenerReport.GetHttpListenerReport (listenerReport : ListenerReport) :
    Option HttpListenerReport :=
  match listenerReport.listenerTypeReport with
  | .HttpListenerReport r => some r
  | _ => none

/-- Go `listenerReport.GetTcpListenerReport()` -/
def ListenerReport.GetTcpListenerReport (listenerReport : ListenerReport) :
    Option TcpListenerReport :=
  match listenerReport.listenerTypeReport with
  | .TcpListenerReport r => some r
  | _ => none

/-- Go `listenerReport.GetHybridListenerReport()` -/
def ListenerReport.GetHybridListenerReport (listenerReport : ListenerReport) :
    Option HybridListenerReport :=
  match listenerReport.listenerTypeReport with
  | .HybridListenerReport r => some r
  | _ => none

/-- Go `listenerReport.GetAggregateListenerReport()` -/
def ListenerReport.GetAggregateListenerReport (listenerReport : ListenerReport) :
    Option AggregateListenerReport :=
  match listenerReport.listenerTypeReport with
  | .AggregateListenerReport r => some r
  | _ => none

/-- Go `validation.AppendTCPListenerError` -/
def AppendTCPListenerError (tcpListenerReport : TcpListenerReport)
    (errType : TcpListenerReport_Error_Type) (reason : Reason) : TcpListenerReport :=
  { tcpListenerReport with errors := tcpListenerReport.errors ++ [⟨errType, reason⟩] }

/-! ## Parameters: plugins and functions of other packages -/

structure Params where
  snapshot : ApiSnapshot
  deriving DecidableEq, Repr

structure RouteParams where
  params : Params
  virtualHost : VirtualHost
  deriving DecidableEq, Repr

structure RouteActionParams where
  routeParams : RouteParams
  route : Route
  deriving DecidableEq, Repr

/-- The parameters of the virtual-host hooks (the proxy and the listener, which the
translator only passes on, are left out). -/
structure VirtualHostParams where
  params : Params
  deriving DecidableEq, Repr

/-- A registered plugin. A hook the plugin does not implement is `none` (the Go code
probes the hook interfaces by type assertion). A hook receives the output message it
may mutate and returns it together with its error, if any. -/
structure Plugin where
  /-- the `%T` rendering of the plugin -/
  typeName : String
  /-- the plugin is a `*headers.Plugin` -/
  isHeadersPlugin : Bool
  ProcessRoute : Option (RouteParams → Route → Envoy.Route → Envoy.Route × Option Err)
  ProcessRouteAction :
    Option (RouteActionParams → RouteAction → Envoy.RouteAction →
      Envoy.RouteAction × Option Err)
  ProcessWeightedDestination :
    Option (RouteParams → WeightedDestination → Envoy.ClusterWeight →
      Envoy.ClusterWeight × Option Err)
  ProcessVirtualHost :
    Option (VirtualHostParams → VirtualHost → Envoy.VirtualHost →
      Envoy.VirtualHost × Option Err)

structure translatorInstance where
  plugins : List Plugin

/-- Functions the translator calls that live outside `route_config.go` and
`filter_chain.go`. -/
structure External where
  /-- Go `usconversion.DestinationToUpstreamRef` -/
  DestinationToUpstreamRef : Destination → Except Err ResourceRef
  /-- Go `UpstreamToClusterName` -/
  UpstreamToClusterName : ResourceRef → String
  /-- Go `getLbMetadata(nil, values, "")` -/
  getLbMetadata : GoMap → Option Envoy.Metadata
  /-- Go `regexutils.NewRegex(ctx, regex)` -/
  NewRegex : String → Envoy.RegexMatcher
  /-- Go `utils.MessageToAny`, on a downstream TLS context -/
  MessageToAny : Envoy.DownstreamTlsContext → Except Err Envoy.Any
  /-- Go `wellknown.TransportSocketTls` -/
  TransportSocketTls : String
  /-- Go `ConsolidateSslConfigurations` -/
  ConsolidateSslConfigurations : List SslConfig → List SslConfig
  /-- Go `MergeSslConfig` -/
  MergeSslConfig : SslConfig → SslConfig → SslConfig
  /-- Go `utils.SanitizeForEnvoy(ctx, name, "virtual host")` -/
  SanitizeForEnvoy : String → String

/-- Modelled from the spec: `pluginutils.IsDestinationNotFoundErr`, which is not part
of the translator sources. The destination-not-found kinds are the upstream-not-found
and the upstream-group-not-found errors. -/
def IsDestinationNotFoundErr : Err → Bool
  | .UpstreamNotFoundErr _ => true
  | .UpstreamGroupNotFoundErr _ => true
  | _ => false

/-! ## Route actions (`route_config.go`) -/

/-- Go `isWarningErr` -/
def isWarningErr (err : Err) : Bool :=
  if err = .SubsetsMisconfiguredErr then true
  else if IsDestinationNotFoundErr err then true
  else false

/-- Go `getSubsets` -/
def getSubsets (upstream : Upstream) : Option SubsetSpec :=
  match upstream.upstreamType with
  | .withSubsetSpecGetter _ subsetSpec => subsetSpec
  | _ => none

/-- Go `getSubsetMatch` -/
def getSubsetMatch (ext : External) (destination : Destination) : Option Envoy.Metadata :=
  match destination.subset with
  | some subset => ext.getLbMetadata subset.values
  | none => none

/-- The inner loop `for _, k := range keys` of `checkThatSubsetMatchesUpstream`:
`false` when it leaves through `continue Outerloop`. -/
def allKeysInRouteSubset (routeSubset : GoMap) : List String → Bool
  | [] => true
  | k :: keys =>
    if GoMap.contains routeSubset k then allKeysInRouteSubset routeSubset keys else false

/-- The loop labelled `Outerloop` of `checkThatSubsetMatchesUpstream`; the result is
the final value of `found`. -/
def findMatchingSelector (routeSubset : GoMap) : List Selector → Bool
  | [] => false
  | subset :: rest =>
    if subset.keys.length ≠ GoMap.len routeSubset then
      findMatchingSelector routeSubset rest
    else if allKeysInRouteSubset routeSubset subset.keys then true
    else findMatchingSelector routeSubset rest

/-- Go `checkThatSubsetMatchesUpstream`; `none` is the `nil` error. -/
def checkThatSubsetMatchesUpstream (ext : External) (params : Params)
    (dest : Destination) : Option Err :=
  match dest.subset with
  | none => none
  | some subset =>
    if GoMap.len subset.values = 0 then none
    else
      let routeSubset := subset.values
      match ext.DestinationToUpstreamRef dest with
      | .error err => some err
      | .ok ref =>
        match UpstreamList.Find params.snapshot.upstreams ref.Namespace ref.name with
        | none => some (.UpstreamNotFoundErr ref)
        | some upstream =>
          match getSubsets upstream with
          | none => some .SubsetsMisconfiguredErr
          | some subsetConfig =>
            if findMatchingSelector routeSubset subsetConfig.selectors then none
            else some (.errorf
              "route has a subset config, but none of the subsets in the upstream match it")

/-- Go `validateSingleDestination` -/
def validateSingleDestination (ext : External) (upstreams : List Upstream)
    (destination : Destination) : Option Err :=
  match ext.DestinationToUpstreamRef destination with
  | .error err => some err
  | .ok upstreamRef =>
    match UpstreamList.Find upstreams upstreamRef.Namespace upstreamRef.name with
    | none => some (.UpstreamNotFoundErr upstreamRef)
    | some _ => none

/-- Go `validateMultiDestination` -/
def validateMultiDestination (ext : External) (upstreams : List Upstream) :
    List WeightedDestination → Option Err
  | [] => none
  | dest :: rest =>
    match validateSingleDestination ext upstreams dest.destination with
    | some err => some (.wrap err "invalid destination in weighted destination list")
    | none => validateMultiDestination ext upstreams rest

/-- Go `validateUpstreamGroup` -/
def validateUpstreamGroup (ext : External) (snap : ApiSnapshot) (ref : ResourceRef) :
    Option Err :=
  match UpstreamGroupList.Find snap.upstreamGroups ref.Namespace ref.name with
  | none => some (.UpstreamGroupNotFoundErr ref)
  | some upstreamGroup =>
    match validateMultiDestination ext snap.upstreams upstreamGroup.destinations with
    | some err => some err
    | none => none

/-- The bytes of a Go string (its UTF-8 encoding). -/
def goBytes (s : String) : List Nat :=
  (s.data.flatMap String.utf8EncodeChar).map UInt8.toNat

/-- Go `validateClusterHeader` -/
def validateClusterHeader (header : String) : Option Err :=
  if (goBytes header).any (fun b => decide (b > 127) || decide (b = 58)) then
    some (.errorf (header ++ " is an invalid HTTP header name"))
  else none

/-- Go `ValidateRouteDestinations` -/
def ValidateRouteDestinations (ext : External) (snap : ApiSnapshot)
    (action : RouteAction) : Option Err :=
  match action.destination with
  | .Single single => validateSingleDestination ext snap.upstreams single
  | .Multi multi => validateMultiDestination ext snap.upstreams multi.destinations
  | .UpstreamGroup ref => validateUpstreamGroup ext snap ref
  | .ClusterHeader header => validateClusterHeader header
  | .unset => some (.errorf
      "must specify either 'singleDestination', 'multipleDestinations' or 'upstreamGroup' for action")

/-- The loop over the plugins implementing `WeightedDestinationPlugin`, for one
weighted destination; a failing plugin appends a `ProcessingError`. -/
def runWeightedDestinationPlugins (params : RouteParams) (weightedDest : WeightedDestination)
    (routeName : String) :
    List Plugin → Envoy.ClusterWeight × RouteReport → Envoy.ClusterWeight × RouteReport
  | [], st => st
  | plug :: rest, (weightedCluster, routeReport) =>
    match plug.ProcessWeightedDestination with
    | none => runWeightedDestinationPlugins params weightedDest routeName rest
        (weightedCluster, routeReport)
    | some hook =>
      match hook params weightedDest weightedCluster with
      | (weightedCluster1, some err) =>
        runWeightedDestinationPlugins params weightedDest routeName rest
          (weightedCluster1,
            AppendRouteError routeReport .ProcessingError (.errText err) routeName)
      | (weightedCluster1, none) =>
        runWeightedDestinationPlugins params weightedDest routeName rest
          (weightedCluster1, routeReport)

/-- The variables the loop of `setWeightedClusters` updates: the cluster list of the
specifier, the `uint32` accumulator and the route report. -/
structure WeightedState where
  clusters : List Envoy.ClusterWeight
  totalWeight : Nat
  routeReport : RouteReport

/-- The loop `for _, weightedDest := range multiDest.GetDestinations()` of
`setWeightedClusters`. The second component is the error the loop returns with, if
any. Addition on `uint32` wraps. -/
def weightedClustersLoop (ext : External) (t : translatorInstance) (params : RouteParams)
    (routeName : String) :
    List WeightedDestination → WeightedState → WeightedState × Option Err
  | [], st => (st, none)
  | weightedDest :: rest, st =>
    match ext.DestinationToUpstreamRef weightedDest.destination with
    | .error err => (st, some err)
    | .ok usRef =>
      let totalWeight := (st.totalWeight + weightedDest.weight) % 2 ^ 32
      let weightedCluster : Envoy.ClusterWeight :=
        { name := ext.UpstreamToClusterName usRef
          weight := some weightedDest.weight
          metadataMatch := getSubsetMatch ext weightedDest.destination }
      let (weightedCluster1, routeReport1) :=
        runWeightedDestinationPlugins params weightedDest routeName t.plugins
          (weightedCluster, st.routeReport)
      let st1 : WeightedState :=
        { clusters := st.clusters ++ [weightedCluster1]
          totalWeight := totalWeight
          routeReport := routeReport1 }
      match checkThatSubsetMatchesUpstream ext params.params weightedDest.destination with
      | some err => (st1, some err)
      | none => weightedClustersLoop ext t params routeName rest st1

/-- Go `translatorInstance.setWeightedClusters`. The specifier is attached to `out` before
anything else; the loop fills its cluster list, and `TotalWeight` is written only
when the loop ends without an error. -/
def setWeightedClusters (ext : External) (t : translatorInstance) (params : RouteParams)
    (multiDest : MultiDestination) (out : Envoy.RouteAction) (routeReport : RouteReport)
    (routeName : String) : Envoy.RouteAction × RouteReport × Option Err :=
  if multiDest.destinations.length = 0 then
    ({ out with clusterSpecifier := some (.WeightedClusters ⟨[], none⟩) }, routeReport,
      some .NoDestinationSpecifiedError)
  else
    match weightedClustersLoop ext t params routeName multiDest.destinations
        ⟨[], 0, routeReport⟩ with
    | (st, some err) =>
      ({ out with clusterSpecifier := some (.WeightedClusters ⟨st.clusters, none⟩) },
        st.routeReport, some err)
    | (st, none) =>
      let weightedClusters : Envoy.WeightedCluster := ⟨st.clusters, some st.totalWeight⟩
      ({ out with clusterSpecifier := some (.WeightedClusters weightedClusters) },
        st.routeReport, none)

/-- Go `translatorInstance.setRouteAction` -/
def setRouteAction (ext : External) (t : translatorInstance) (params : RouteParams)
    (input : RouteAction) (out : Envoy.RouteAction) (routeReport : RouteReport)
    (routeName : String) : Envoy.RouteAction × RouteReport × Option Err :=
  match input.destination with
  | .Single single =>
    match ext.DestinationToUpstreamRef single with
    | .error err => ({ out with clusterSpecifier := some (.Cluster "") }, routeReport, some err)
    | .ok usRef =>
      ({ out with
          clusterSpecifier := some (.Cluster (ext.UpstreamToClusterName usRef)),
          metadataMatch := getSubsetMatch ext single },
        routeReport, checkThatSubsetMatchesUpstream ext params.params single)
  | .Multi multi => setWeightedClusters ext t params multi out routeReport routeName
  | .UpstreamGroup upstreamGroupRef =>
    match UpstreamGroupList.Find params.params.snapshot.upstreamGroups
        upstreamGroupRef.Namespace upstreamGroupRef.name with
    | none =>
      ({ out with clusterSpecifier := some (.Cluster "") }, routeReport,
        some (.UpstreamGroupNotFoundErr upstreamGroupRef))
    | some upstreamGroup =>
      setWeightedClusters ext t params ⟨upstreamGroup.destinations⟩ out routeReport routeName
  | .ClusterHeader header =>
    ({ out with clusterSpecifier := some (.ClusterHeader header) }, routeReport, none)
  | .unset => (out, routeReport, some (.errorf "unknown upstream destination type"))

/-- The loop of `setAction` over the plugins implementing `RoutePlugin`. An error of a
warning kind is skipped; any other error appends a `ProcessingError`. -/
def runRoutePlugins (params : RouteParams) (input : Route) :
    List Plugin → Envoy.Route × RouteReport → Envoy.Route × RouteReport
  | [], st => st
  | plug :: rest, (out, routeReport) =>
    match plug.ProcessRoute with
    | none => runRoutePlugins params input rest (out, routeReport)
    | some hook =>
      match hook params input out with
      | (out1, some err) =>
        if isWarningErr err then runRoutePlugins params input rest (out1, routeReport)
        else
          runRoutePlugins params input rest
            (out1, AppendRouteError routeReport .ProcessingError
              (.pluginErr plug.typeName err) out1.name)
      | (out1, none) => runRoutePlugins params input rest (out1, routeReport)

/-- The loop of `setAction` over the plugins implementing `RouteActionPlugin`, for the
route action `inAction` of the input route. A plugin is skipped when the output
route has no route action. -/
def runRouteActionPlugins (params : RouteParams) (input : Route) (inAction : RouteAction) :
    List Plugin → Envoy.Route × RouteReport → Envoy.Route × RouteReport
  | [], st => st
  | plug :: rest, (out, routeReport) =>
    match plug.ProcessRouteAction, out.GetRoute with
    | some hook, some outRoute =>
      match hook ⟨params, input⟩ inAction outRoute with
      | (outRoute1, some err) =>
        let out1 : Envoy.Route := { out with action := some (.Route outRoute1) }
        if isWarningErr err then
          runRouteActionPlugins params input inAction rest (out1, routeReport)
        else
          runRouteActionPlugins params input inAction rest
            (out1, AppendRouteError routeReport .ProcessingError (.errText err) out1.name)
      | (outRoute1, none) =>
        runRouteActionPlugins params input inAction rest
          ({ out with action := some (.Route outRoute1) }, routeReport)
    | _, _ => runRouteActionPlugins params input inAction rest (out, routeReport)

/-- The loop of `setAction` for a direct response: only a `*headers.Plugin` runs. -/
def runHeadersPlugins (params : RouteParams) (input : Route) :
    List Plugin → Envoy.Route × RouteReport → Envoy.Route × RouteReport
  | [], st => st
  | plug :: rest, (out, routeReport) =>
    match plug.isHeadersPlugin, plug.ProcessRoute with
    | true, some hook =>
      match hook params input out with
      | (out1, some err) =>
        if isWarningErr err then runHeadersPlugins params input rest (out1, routeReport)
        else
          runHeadersPlugins params input rest
            (out1, AppendRouteError routeReport .ProcessingError
              (.pluginErr plug.typeName err) out1.name)
      | (out1, none) => runHeadersPlugins params input rest (out1, routeReport)
    | _, _ => runHeadersPlugins params input rest (out, routeReport)

/-- Go `DataSourceFromString` -/
def DataSourceFromString (str : String) : Envoy.DataSource :=
  { inlineString := str }

/-- Go `translatorInstance.setAction` -/
def setAction (ext : External) (t : translatorInstance) (params : RouteParams)
    (routeReport : RouteReport) (input : Route) (out : Envoy.Route) :
    Envoy.Route × RouteReport :=
  match input.action with
  | .RouteAction action =>
    let routeReport1 :=
      match ValidateRouteDestinations ext params.params.snapshot action with
      | some err => AppendRouteWarning routeReport .InvalidDestinationWarning (.errText err)
      | none => routeReport
    let (outRoute, routeReport2, err) :=
      setRouteAction ext t params action ⟨none, none⟩ routeReport1 out.name
    let out1 : Envoy.Route := { out with action := some (.Route outRoute) }
    let routeReport3 :=
      match err with
      | some err =>
        if isWarningErr err then
          AppendRouteWarning routeReport2 .InvalidDestinationWarning (.errText err)
        else AppendRouteError routeReport2 .ProcessingError (.errText err) out1.name
      | none => routeReport2
    runRouteActionPlugins params input action t.plugins
      (runRoutePlugins params input t.plugins (out1, routeReport3))
  | .DirectResponseAction action =>
    let out1 : Envoy.Route :=
      { out with action := some (.DirectResponse
          { status := action.status, body := some (DataSourceFromString action.body) }) }
    runHeadersPlugins params input t.plugins (out1, routeReport)
  | .RedirectAction action =>
    let redirect : Envoy.RedirectAction :=
      { hostRedirect := action.hostRedirect
        responseCode := action.responseCode
        httpsRedirect := action.httpsRedirect
        stripQuery := action.stripQuery
        pathRewriteSpecifier :=
          match action.pathRewriteSpecifier with
          | .PathRedirect s => some (.PathRedirect s)
          | .PrefixRewrite s => some (.PrefixRewrite s)
          | .unset => none }
    ({ out with action := some (.Redirect redirect) }, routeReport)
  | .unset => (out, routeReport)

/-! ## Matchers and routes (`route_config.go`) -/

/-- Go `envoyHeaderMatcher` -/
def envoyHeaderMatcher (ext : External) : List HeaderMatcher → List Envoy.HeaderMatcher
  | [] => []
  | matcher :: rest =>
    let specifier : Envoy.HeaderMatchSpecifier :=
      if matcher.value = "" then .PresentMatch true
      else if matcher.regex then .SafeRegexMatch (ext.NewRegex matcher.value)
      else .ExactMatch matcher.value
    let envoyMatch : Envoy.HeaderMatcher :=
      { name := matcher.name
        headerMatchSpecifier := some specifier
        invertMatch := if matcher.invertMatch then true else false }
    envoyMatch :: envoyHeaderMatcher ext rest

/-- Go `envoyQueryMatcher` -/
def envoyQueryMatcher (ext : External) :
    List QueryParameterMatcher → List Envoy.QueryParameterMatcher
  | [] => []
  | matcher :: rest =>
    let specifier : Envoy.QueryParameterMatchSpecifier :=
      if matcher.value = "" then .PresentMatch true
      else if matcher.regex then .StringMatch (.SafeRegex (ext.NewRegex matcher.value))
      else .StringMatch (.Exact matcher.value)
    let envoyMatch : Envoy.QueryParameterMatcher :=
      { name := matcher.name
        queryParameterMatchSpecifier := some specifier }
    envoyMatch :: envoyQueryMatcher ext rest

/-- Go `setEnvoyPathMatcher` -/
def setEnvoyPathMatcher (ext : External) (input : Matcher) (out : Envoy.RouteMatch) :
    Envoy.RouteMatch :=
  match input.pathSpecifier with
  | some (.Exact path) => { out with pathSpecifier := some (.Path path) }
  | some (.Regex path) => { out with pathSpecifier := some (.SafeRegex (ext.NewRegex path)) }
  | some (.Prefix path) => { out with pathSpecifier := some (.Prefix path) }
  | none => out

/-- Go `GlooMatcherToEnvoyMatcher` -/
def GlooMatcherToEnvoyMatcher (ext : External) (matcher : Matcher) : Envoy.RouteMatch :=
  let match0 : Envoy.RouteMatch :=
    { pathSpecifier := none
      headers := envoyHeaderMatcher ext matcher.headers
      queryParameters := envoyQueryMatcher ext matcher.queryParameters
      caseSensitive := none }
  let match1 : Envoy.RouteMatch :=
    if matcher.methods.length > 0 then
      { match0 with headers := match0.headers ++
          [⟨":method", some (.SafeRegexMatch
            (ext.NewRegex (String.intercalate "|" matcher.methods))), false⟩] }
    else match0
  let match2 := setEnvoyPathMatcher ext matcher match1
  { match2 with caseSensitive := matcher.caseSensitive }

/-- The loop `for i, matcher := range in.GetMatchers()` of `initRoutes`, from index `i`
on. `%d` prints the index in decimal. -/
def initRoutesLoop (ext : External) (input : Route) (generatedName : String) :
    Nat → List Matcher → RouteReport → List Envoy.Route × RouteReport
  | _, [], routeReport => ([], routeReport)
  | i, matcher :: rest, routeReport =>
    let routeReport1 :=
      match matcher.pathSpecifier with
      | none =>
        AppendRouteError routeReport .InvalidMatcherError
          (.literal "no path specifier provided") generatedName
      | some _ => routeReport
    let envoyMatch := GlooMatcherToEnvoyMatcher ext matcher
    let name :=
      if input.name ≠ "" then
        generatedName ++ "-" ++ input.name ++ "-matcher-" ++ toString i
      else generatedName ++ "-matcher-" ++ toString i
    let (outs, routeReport2) := initRoutesLoop ext input generatedName (i + 1) rest routeReport1
    (⟨name, some envoyMatch, none⟩ :: outs, routeReport2)

/-- Go `initRoutes` -/
def initRoutes (ext : External) (input : Route) (routeReport : RouteReport)
    (generatedName : String) : List Envoy.Route × RouteReport :=
  if input.matchers.length = 0 then
    ([⟨"", some ⟨some (.Prefix "/"), [], [], none⟩, none⟩], routeReport)
  else initRoutesLoop ext input generatedName 0 input.matchers routeReport

/-! ## Filter chains (`filter_chain.go`) -/

/-- Go `utils.SslConfigTranslator` -/
structure SslConfigTranslator where
  ResolveDownstreamSslConfig :
    List Secret → SslConfig → Except Err Envoy.DownstreamTlsContext

/-- Go `NetworkFilterTranslator`: it returns the filters and its error, and it may write
to the listener report. -/
structure NetworkFilterTranslator where
  ComputeNetworkFilters :
    Params → ListenerReport → (List Envoy.Filter × Option Err) × ListenerReport

/-- Go `httpFilterChainTranslator`. The field `parentReport` is a pointer to the report
under construction; the functions below take the report as an argument and return it. -/
structure httpFilterChainTranslator where
  networkFilterTranslator : NetworkFilterTranslator
  sslConfigurations : List SslConfig
  sslConfigTranslator : SslConfigTranslator
  defaultSslConfig : Option SslConfig
  sourcePrefixRanges : List CidrRange

/-- Go `cloneListenerFilters`: `proto.Clone` gives a copy equal in value. -/
def cloneListenerFilters (originalListenerFilters : List Envoy.Filter) : List Envoy.Filter :=
  originalListenerFilters.map (fun lf => lf)

/-- Go `newSslFilterChain` -/
def newSslFilterChain (ext : External) (downstreamTlsContext : Envoy.DownstreamTlsContext)
    (sniDomains : List String) (listenerFilters : List Envoy.Filter)
    (timeout : Option Envoy.Duration) : Except Err Envoy.FilterChain :=
  let clonedListenerFilters := cloneListenerFilters listenerFilters
  match ext.MessageToAny downstreamTlsContext with
  | .error err => .error err
  | .ok typedConfig =>
    .ok
      { filterChainMatch := some
          { destinationPort := none, serverNames := sniDomains, transportProtocol := "",
            sourcePrefixRanges := [] }
        filters := clonedListenerFilters
        transportSocket := some ⟨ext.TransportSocketTls, some typedConfig⟩
        transportSocketConnectTimeout := timeout }

/-- The loop `for _, sslConfig := range sslConfigurations` of
`createFilterChainsFromSslConfiguration`. -/
def secureFilterChainsLoop (ext : External) (h : httpFilterChainTranslator)
    (snap : ApiSnapshot) (networkFilters : List Envoy.Filter) :
    List SslConfig → List Envoy.FilterChain × ListenerReport →
    List Envoy.FilterChain × ListenerReport
  | [], st => st
  | sslConfig :: rest, (secureFilterChains, parentReport) =>
    match h.sslConfigTranslator.ResolveDownstreamSslConfig snap.secrets sslConfig with
    | .error err =>
      secureFilterChainsLoop ext h snap networkFilters rest
        (secureFilterChains, AppendListenerError parentReport .SSLConfigError (.errText err))
    | .ok downstreamTlsContext =>
      match newSslFilterChain ext downstreamTlsContext sslConfig.sniDomains networkFilters
          sslConfig.transportSocketConnectTimeout with
      | .error err =>
        secureFilterChainsLoop ext h snap networkFilters rest
          (secureFilterChains,
            AppendListenerError parentReport .SSLConfigError (.errText err))
      | .ok filterChain =>
        secureFilterChainsLoop ext h snap networkFilters rest
          (secureFilterChains ++ [filterChain], parentReport)

/-- Go `httpFilterChainTranslator.createFilterChainsFromSslConfiguration` -/
def createFilterChainsFromSslConfiguration (ext : External) (h : httpFilterChainTranslator)
    (snap : ApiSnapshot) (networkFilters : List Envoy.Filter)
    (sslConfigurations : List SslConfig) (parentReport : ListenerReport) :
    List Envoy.FilterChain × ListenerReport :=
  if sslConfigurations.length = 0 then
    ([{ filterChainMatch := none, filters := networkFilters, transportSocket := none,
        transportSocketConnectTimeout := none }], parentReport)
  else
    secureFilterChainsLoop ext h snap networkFilters sslConfigurations ([], parentReport)

/-- Go `httpFilterChainTranslator.getSslConfigurationWithDefaults` -/
def getSslConfigurationWithDefaults (ext : External) (h : httpFilterChainTranslator) :
    List SslConfig :=
  let mergedSslConfigurations := ext.ConsolidateSslConfigurations h.sslConfigurations
  match h.defaultSslConfig with
  | none => mergedSslConfigurations
  | some defaultSslConfig =>
    mergedSslConfigurations.map (fun ssl => ext.MergeSslConfig ssl defaultSslConfig)

/-- Go `applySourcePrefixRangesToFilterChain`, on a chain that is not `nil`. -/
def applySourcePrefixRangesToFilterChain (filterChain : Envoy.FilterChain)
    (sourcePrefixRanges : List CidrRange) : Envoy.FilterChain :=
  if sourcePrefixRanges.length = 0 then filterChain
  else
    let filterChainMatch : Envoy.FilterChainMatch :=
      match filterChain.filterChainMatch with
      | none =>
        { destinationPort := none, serverNames := [], transportProtocol := "",
          sourcePrefixRanges := [] }
      | some m => m
    let envoySourcePrefixRanges : List Envoy.CidrRange :=
      sourcePrefixRanges.map (fun spr => ⟨spr.addressPrefix, spr.prefixLen⟩)
    { filterChain with
      filterChainMatch := some
        { filterChainMatch with sourcePrefixRanges := envoySourcePrefixRanges } }

/-- Go `httpFilterChainTranslator.ComputeFilterChains`. When the network filter translator
fails, the Go code logs through `DPanic` and returns `nil`. -/
def httpFilterChainTranslator.ComputeFilterChains (ext : External)
    (h : httpFilterChainTranslator) (params : Params) (parentReport : ListenerReport) :
    List Envoy.FilterChain × ListenerReport :=
  match h.networkFilterTranslator.ComputeNetworkFilters params parentReport with
  | ((_, some _), parentReport1) => ([], parentReport1)
  | ((networkFilters, none), parentReport1) =>
    if networkFilters.length = 0 then ([], parentReport1)
    else
      let sslConfigWithDefaults := getSslConfigurationWithDefaults ext h
      let (filterChains, parentReport2) :=
        createFilterChainsFromSslConfiguration ext h params.snapshot networkFilters
          sslConfigWithDefaults parentReport1
      if h.sourcePrefixRanges.length > 0 then
        (filterChains.map
          (fun fc => applySourcePrefixRangesToFilterChain fc h.sourcePrefixRanges),
          parentReport2)
      else (filterChains, parentReport2)

/-- The outcome of one TLS config in `createFilterChainsFromSslConfiguration`: its
chain when the downstream TLS context resolves and serialises, its error otherwise. -/
def sslFilterChainOf (ext : External) (h : httpFilterChainTranslator) (snap : ApiSnapshot)
    (networkFilters : List Envoy.Filter) (sslConfig : SslConfig) :
    Except Err Envoy.FilterChain :=
  match h.sslConfigTranslator.ResolveDownstreamSslConfig snap.secrets sslConfig with
  | .error err => .error err
  | .ok downstreamTlsContext =>
    newSslFilterChain ext downstreamTlsContext sslConfig.sniDomains networkFilters
      sslConfig.transportSocketConnectTimeout

/-- The chain of a TLS config that resolves and serialises. -/
def sslFilterChainOf.chain? (r : Except Err Envoy.FilterChain) : Option Envoy.FilterChain :=
  match r with
  | .ok filterChain => some filterChain
  | .error _ => none

/-- The `SSLConfigError` entry of a TLS config that fails. -/
def sslFilterChainOf.error? (r : Except Err Envoy.FilterChain) : Option ListenerReport_Error :=
  match r with
  | .ok _ => none
  | .error err => some ⟨.SSLConfigError, .errText err⟩

/-! ## Virtual hosts (`route_config.go`) -/

/-- The name the claim gives to the route of matcher `j` of the route at index `i`
(whose own name is `routeName`) of the virtual host named `vh`; indices in decimal. -/
def specRouteName (vh : String) (i : Nat) (routeName : String) (j : Nat) : String :=
  if routeName = "" then vh ++ "-route-" ++ toString i ++ "-matcher-" ++ toString j
  else vh ++ "-route-" ++ toString i ++ "-" ++ routeName ++ "-matcher-" ++ toString j

/-- The loop `for i := range out` of `envoyRoutes`, which runs `setAction` on every
route. -/
def setActions (ext : External) (t : translatorInstance) (params : RouteParams)
    (input : Route) : List Envoy.Route → RouteReport → List Envoy.Route × RouteReport
  | [], routeReport => ([], routeReport)
  | out :: rest, routeReport =>
    let (out1, routeReport1) := setAction ext t params routeReport input out
    let (outs, routeReport2) := setActions ext t params input rest routeReport1
    (out1 :: outs, routeReport2)

/-- Go `translatorInstance.envoyRoutes` -/
def envoyRoutes (ext : External) (t : translatorInstance) (params : RouteParams)
    (routeReport : RouteReport) (input : Route) (generatedName : String) :
    List Envoy.Route × RouteReport :=
  let (out, routeReport1) := initRoutes ext input routeReport generatedName
  setActions ext t params input out routeReport1

/-- The loop `for i, route := range virtualHost.GetRoutes()` of `computeVirtualHost`,
from index `i` on; `none` when a route report index is out of range. `%d` prints the
index in decimal. -/
def computeRoutesLoop (ext : External) (t : translatorInstance) (params : VirtualHostParams)
    (virtualHost : VirtualHost) :
    Nat → List Route → List Envoy.Route × VirtualHostReport →
    Option (List Envoy.Route × VirtualHostReport)
  | _, [], st => some st
  | i, route :: rest, (envoyRoutes0, vhostReport) =>
    match vhostReport.routeReports[i]? with
    | none => none
    | some routeReport =>
      let generatedName := virtualHost.name ++ "-route-" ++ toString i
      let (computedRoutes, routeReport1) :=
        envoyRoutes ext t ⟨params.params, virtualHost⟩ routeReport route generatedName
      computeRoutesLoop ext t params virtualHost (i + 1) rest
        (envoyRoutes0 ++ computedRoutes,
          { vhostReport with routeReports := vhostReport.routeReports.set i routeReport1 })

/-- The loop of `computeVirtualHost` over the plugins implementing `VirtualHostPlugin`;
a failing plugin appends a `ProcessingError`. -/
def runVirtualHostPlugins (params : VirtualHostParams) (virtualHost : VirtualHost) :
    List Plugin → Envoy.VirtualHost × VirtualHostReport →
    Envoy.VirtualHost × VirtualHostReport
  | [], st => st
  | plug :: rest, (out, vhostReport) =>
    match plug.ProcessVirtualHost with
    | none => runVirtualHostPlugins params virtualHost rest (out, vhostReport)
    | some hook =>
      match hook params virtualHost out with
      | (out1, some err) =>
        runVirtualHostPlugins params virtualHost rest
          (out1, AppendVirtualHostError vhostReport .ProcessingError
            (.invalidVirtualHost virtualHost.name err))
      | (out1, none) => runVirtualHostPlugins params virtualHost rest (out1, vhostReport)

/-- Go `translatorInstance.computeVirtualHost`. The argument is a value, so the caller's
virtual host is untouched; the sanitized name lives in the local copy. -/
def computeVirtualHost (ext : External) (t : translatorInstance) (params : VirtualHostParams)
    (virtualHost : VirtualHost) (requireTls : Bool) (vhostReport : VirtualHostReport) :
    Option (Envoy.VirtualHost × VirtualHostReport) :=
  let virtualHost1 : VirtualHost :=
    { virtualHost with name := ext.SanitizeForEnvoy virtualHost.name }
  match computeRoutesLoop ext t params virtualHost1 0 virtualHost1.routes
      ([], vhostReport) with
  | none => none
  | some (envoyRoutes0, vhostReport1) =>
    let domains :=
      if virtualHost1.domains.length = 0 ∨
          (virtualHost1.domains.length = 1 ∧ virtualHost1.domains.head? = some "") then
        ["*"]
      else virtualHost1.domains
    let envoyRequireTls : Envoy.TlsRequirementType := if requireTls then .ALL else .NONE
    let out : Envoy.VirtualHost :=
      { name := virtualHost1.name
        domains := domains
        routes := envoyRoutes0
        requireTls := envoyRequireTls }
    some (runVirtualHostPlugins params virtualHost1 t.plugins (out, vhostReport1))

/-- The names the claim gives to the routes generated for the route at index `i`; the
implicit route of a route without matchers has the empty name. -/
def specRouteNames (vh : String) (i : Nat) (route : Route) : List String :=
  if route.matchers.length = 0 then [""]
  else (List.range route.matchers.length).map (specRouteName vh i route.name)

/-- The names of all routes generated for the routes at the indices `i`, `i+1`, ... -/
def specVirtualHostRouteNames (vh : String) : Nat → List Route → List String
  | _, [] => []
  | i, route :: rest => specRouteNames vh i route ++ specVirtualHostRouteNames vh (i + 1) rest

/-! ## TCP and multi filter chain translators (`filter_chain.go`) -/

/-- Go `plugins.TcpFilterChainPlugin`: the hook returns its chains and its error. -/
structure TcpFilterChainPlugin where
  CreateTcpFilterChains :
    Params → Listener → TcpListener → List Envoy.FilterChain × Option Err

/-- Go `tcpFilterChainTranslator`. The field `report` is a pointer to the report under
construction; the functions below take the report as an argument and return it. -/
structure tcpFilterChainTranslator where
  plugins : List TcpFilterChainPlugin
  parentListener : Listener
  listener : TcpListener
  sourcePrefixRanges : List CidrRange

/-- The loop `for _, plug := range t.plugins` of
`tcpFilterChainTranslator.ComputeFilterChains`. -/
def tcpPluginsLoop (t : tcpFilterChainTranslator) (params : Params) :
    List TcpFilterChainPlugin → List Envoy.FilterChain × TcpListenerReport →
    List Envoy.FilterChain × TcpListenerReport
  | [], st => st
  | plug :: rest, (filterChains, report) =>
    match plug.CreateTcpFilterChains params t.parentListener t.listener with
    | (_, some err) =>
      tcpPluginsLoop t params rest
        (filterChains,
          AppendTCPListenerError report .ProcessingError
            (.listenerErr t.parentListener.name err))
    | (pluginFilterChains, none) =>
      tcpPluginsLoop t params rest (filterChains ++ pluginFilterChains, report)

/-- Go `tcpFilterChainTranslator.ComputeFilterChains` -/
def tcpFilterChainTranslator.ComputeFilterChains (t : tcpFilterChainTranslator)
    (params : Params) (report : TcpListenerReport) :
    List Envoy.FilterChain × TcpListenerReport :=
  let (filterChains, report1) := tcpPluginsLoop t params t.plugins ([], report)
  if t.sourcePrefixRanges.length > 0 then
    (filterChains.map
      (fun fc => applySourcePrefixRangesToFilterChain fc t.sourcePrefixRanges), report1)
  else (filterChains, report1)

/-- Go `applySourcePrefixRangesToFilterChain` on a pointer: `none` is the `nil` chain,
which the function leaves alone. -/
def applySourcePrefixRangesToFilterChainPtr (filterChain : Option Envoy.FilterChain)
    (sourcePrefixRanges : List CidrRange) : Option Envoy.FilterChain :=
  match filterChain with
  | none => none
  | some fc => some (applySourcePrefixRangesToFilterChain fc sourcePrefixRanges)

/-- The outcome of one TCP plugin: the chains it contributes (none when it fails). -/
def tcpPluginChains (t : tcpFilterChainTranslator) (params : Params)
    (plug : TcpFilterChainPlugin) : List Envoy.FilterChain :=
  match plug.CreateTcpFilterChains params t.parentListener t.listener with
  | (_, some _) => []
  | (pluginFilterChains, none) => pluginFilterChains

/-- The outcome of one TCP plugin: the `ProcessingError` entry of a failing plugin. -/
def tcpPluginError (t : tcpFilterChainTranslator) (params : Params)
    (plug : TcpFilterChainPlugin) : Option TcpListenerReport_Error :=
  match plug.CreateTcpFilterChains params t.parentListener t.listener with
  | (_, some err) => some ⟨.ProcessingError, .listenerErr t.parentListener.name err⟩
  | (_, none) => none

/-- The interface `FilterChainTranslator`. A translator computes its chains and may write
to the report tree, whose state has the type `σ`. -/
structure FilterChainTranslator (σ : Type) where
  ComputeFilterChains : Params → σ → List Envoy.FilterChain × σ

/-- Go `multiFilterChainTranslator`; a child that is the `nil` interface is `none`. -/
structure multiFilterChainTranslator (σ : Type) where
  translators : List (Option (FilterChainTranslator σ))

/-- The loop `for _, translator := range m.translators` of
`multiFilterChainTranslator.ComputeFilterChains`; `none` when a child is `nil`, where
the method call fails. A `nil` result is skipped. -/
def multiFilterChainsLoop {σ : Type} (params : Params) :
    List (Option (FilterChainTranslator σ)) → List Envoy.FilterChain × σ →
    Option (List Envoy.FilterChain × σ)
  | [], st => some st
  | none :: _, _ => none
  | some translator :: rest, (outFilterChains, s) =>
    match translator.ComputeFilterChains params s with
    | ([], s1) => multiFilterChainsLoop params rest (outFilterChains, s1)
    | (newFilterChains, s1) =>
      multiFilterChainsLoop params rest (outFilterChains ++ newFilterChains, s1)

/-- Go `multiFilterChainTranslator.ComputeFilterChains` -/
def multiFilterChainTranslator.ComputeFilterChains {σ : Type}
    (m : multiFilterChainTranslator σ) (params : Params) (s : σ) :
    Option (List Envoy.FilterChain × σ) :=
  multiFilterChainsLoop params m.translators ([], s)

/-- The chain lists the children return, one list per child, when they run one after the
other on the report tree. -/
def childFilterChains {σ : Type} (params : Params) :
    List (FilterChainTranslator σ) → σ → List (List Envoy.FilterChain) × σ
  | [], s => ([], s)
  | translator :: rest, s =>
    let (chains, s1) := translator.ComputeFilterChains params s
    let (others, s2) := childFilterChains params rest s1
    (chains :: others, s2)

/-- The conversion of one header matcher as the claim words it: an empty value gives a
present match, a non-empty value with the regex flag a regex match, otherwise an exact
match on the value; the invert flag is copied. -/
def specHeaderMatcher (ext : External) (matcher : HeaderMatcher) : Envoy.HeaderMatcher :=
  { name := matcher.name
    headerMatchSpecifier :=
      some (if matcher.value = "" then .PresentMatch true
        else if matcher.regex then .SafeRegexMatch (ext.NewRegex matcher.value)
        else .ExactMatch matcher.value)
    invertMatch := matcher.invertMatch }

/-- One failure of a plugin hook: the `%T` of the plugin, the error, and the name of the
output route when the hook returned. -/
structure HookFailure where
  pluginType : String
  err : Err
  routeName : String
  deriving DecidableEq, Repr

/-- The failures the `RoutePlugin` hooks return when they run one after the other on
the output route, in registration order. -/
def routePluginFailures (params : RouteParams) (input : Route) :
    List Plugin → Envoy.Route → List HookFailure
  | [], _ => []
  | plug :: rest, out =>
    match plug.ProcessRoute with
    | none => routePluginFailures params input rest out
    | some hook =>
      match hook params input out with
      | (out1, some err) =>
        ⟨plug.typeName, err, out1.name⟩ :: routePluginFailures params input rest out1
      | (out1, none) => routePluginFailures params input rest out1

/-- The failures the `RouteActionPlugin` hooks return when they run one after the other
on the route action of the output route, in registration order. -/
def routeActionPluginFailures (params : RouteParams) (input : Route) (inAction : RouteAction) :
    List Plugin → Envoy.Route → List HookFailure
  | [], _ => []
  | plug :: rest, out =>
    match plug.ProcessRouteAction, out.GetRoute with
    | some hook, some outRoute =>
      match hook ⟨params, input⟩ inAction outRoute with
      | (outRoute1, some err) =>
        ⟨plug.typeName, err, out.name⟩ ::
          routeActionPluginFailures params input inAction rest
            { out with action := some (.Route outRoute1) }
      | (outRoute1, none) =>
        routeActionPluginFailures params input inAction rest
          { out with action := some (.Route outRoute1) }
    | _, _ => routeActionPluginFailures params input inAction rest out

/-- The output route after all `RoutePlugin` hooks have run. -/
def routeAfterRoutePlugins (params : RouteParams) (input : Route) :
    List Plugin → Envoy.Route → Envoy.Route
  | [], out => out
  | plug :: rest, out =>
    match plug.ProcessRoute with
    | none => routeAfterRoutePlugins params input rest out
    | some hook => routeAfterRoutePlugins params input rest (hook params input out).1

/-! ## Route configuration (`route_config.go`) -/

namespace Envoy

structure RouteConfiguration where
  name : String
  virtualHosts : List VirtualHost
  maxDirectResponseBodySizeBytes : Option Nat
  deriving DecidableEq, Repr

end Envoy

/-- The loop `for i, virtualHost := range virtualHosts` of `computeVirtualHosts`, from
index `i` on; `none` when a report index is out of range. -/
def computeVirtualHostsLoop (ext : External) (t : translatorInstance)
    (params : VirtualHostParams) (requireTls : Bool) :
    Nat → List VirtualHost → List Envoy.VirtualHost × List VirtualHostReport →
    Option (List Envoy.VirtualHost × List VirtualHostReport)
  | _, [], st => some st
  | i, virtualHost :: rest, (envoyVirtualHosts, reports) =>
    match reports[i]? with
    | none => none
    | some vhostReport =>
      match computeVirtualHost ext t params virtualHost requireTls vhostReport with
      | none => none
      | some (out, vhostReport1) =>
        computeVirtualHostsLoop ext t params requireTls (i + 1) rest
          (envoyVirtualHosts ++ [out], reports.set i vhostReport1)

/-- Go `translatorInstance.computeVirtualHosts`; `order` is the order in which
`ValidateVirtualHostDomains` visits its map. -/
def computeVirtualHosts (ext : External) (order : DomainMap → DomainMap)
    (t : translatorInstance) (params : Params) (listener : Listener)
    (httpListenerReport : HttpListenerReport) :
    Option (List Envoy.VirtualHost × HttpListenerReport) :=
  match listener.listenerType with
  | .HttpListener httpListener =>
    let virtualHosts := httpListener.virtualHosts
    match ValidateVirtualHostDomains order virtualHosts httpListenerReport with
    | none => none
    | some httpListenerReport1 =>
      let requireTls := decide (listener.sslConfigurations.length > 0)
      match computeVirtualHostsLoop ext t ⟨params⟩ requireTls 0 virtualHosts
          ([], httpListenerReport1.virtualHostReports) with
      | none => none
      | some (envoyVirtualHosts, reports) =>
        some (envoyVirtualHosts, { httpListenerReport1 with virtualHostReports := reports })
  | _ => some ([], httpListenerReport)

/-- The loop `for _, ssl := range listener.GetSslConfigurations()` of
`validateListenerSslConfig`, which returns the first error. -/
def validateListenerSslConfigLoop (sslCfgTranslator : SslConfigTranslator) (params : Params) :
    List SslConfig → Option Err
  | [] => none
  | ssl :: rest =>
    match sslCfgTranslator.ResolveDownstreamSslConfig params.snapshot.secrets ssl with
    | .error err => some err
    | .ok _ => validateListenerSslConfigLoop sslCfgTranslator params rest

/-- Go `validateListenerSslConfig`; `sslCfgTranslator` is the translator that
`utils.NewSslConfigTranslator()` creates. -/
def validateListenerSslConfig (sslCfgTranslator : SslConfigTranslator) (params : Params)
    (listener : Listener) : Option Err :=
  validateListenerSslConfigLoop sslCfgTranslator params listener.sslConfigurations

/-- Go `translatorInstance.computeRouteConfig`. The outer `none` is a failed index
expression; the inner `none` is the `nil` result. A listener report that is not of the
HTTP type is logged through `DPanic` and read as an empty HTTP report. -/
def computeRouteConfig (ext : External) (sslCfgTranslator : SslConfigTranslator)
    (order : DomainMap → DomainMap) (t : translatorInstance) (params : Params)
    (listener : Listener) (routeCfgName : String) (listenerReport : ListenerReport) :
    Option (Option Envoy.RouteConfiguration × ListenerReport) :=
  match listener.GetHttpListener with
  | none => some (none, listenerReport)
  | some _ =>
    let httpListenerReport := listenerReport.GetHttpListenerReport
    match computeVirtualHosts ext order t params listener
        (httpListenerReport.getD ⟨[], []⟩) with
    | none => none
    | some (virtualHosts, httpListenerReport1) =>
      let listenerReport1 : ListenerReport :=
        match httpListenerReport with
        | some _ =>
          { listenerReport with listenerTypeReport := .HttpListenerReport httpListenerReport1 }
        | none => listenerReport
      let listenerReport2 :=
        match validateListenerSslConfig sslCfgTranslator params listener with
        | some err => AppendListenerError listenerReport1 .SSLConfigError (.errText err)
        | none => listenerReport1
      some (some
        { name := routeCfgName
          virtualHosts := virtualHosts
          maxDirectResponseBodySizeBytes :=
            match listener.routeOptions with
            | some o => o.maxDirectResponseBodySizeBytes
            | none => none },
        listenerReport2)

/-- The reports are index-aligned with the virtual hosts: one virtual-host report per
virtual host, holding one route report per route. -/
def reportsAligned : List VirtualHost → List VirtualHostReport → Bool
  | [], [] => true
  | vh :: vhs, r :: rs =>
    decide (r.routeReports.length = vh.routes.length) && reportsAligned vhs rs
  | _, _ => false

/-- The domains the claim gives to the emitted virtual host. -/
def specDomains (domains : List String) : List String :=
  if domains = [] ∨ domains = [""] then ["*"] else domains

/-! ## The listener subsystem factory (`listener_subsystem.go`) -/

/-- Go `plugins.ListenerPlugin`; the factory only passes these plugins on. -/
structure ListenerPlugin where
  typeName : String
  deriving DecidableEq, Repr

/-- Go `plugins.HttpFilterPlugin`; the factory only passes these plugins on. -/
structure HttpFilterPlugin where
  typeName : String
  deriving DecidableEq, Repr

/-- Go `plugins.HttpConnectionManagerPlugin`; the factory only passes these plugins on. -/
structure HttpConnectionManagerPlugin where
  typeName : String
  deriving DecidableEq, Repr

/-- Go `plugins.PluginRegistry`, by the plugin lists the factory reads from it. -/
structure PluginRegistry where
  listenerPlugins : List ListenerPlugin
  tcpFilterChainPlugins : List TcpFilterChainPlugin
  httpFilterPlugins : List HttpFilterPlugin
  httpConnectionManagerPlugins : List HttpConnectionManagerPlugin

/-- Go `*v1.HttpListener` as a translator holds it. The virtual hosts are pointers: the
listener that `GetAggregateListenerTranslators` builds holds `nil` for a reference that
the resources do not define. -/
structure HttpListenerPtr where
  virtualHosts : List (Option VirtualHost)
  options : Option HttpListenerOptions
  deriving DecidableEq, Repr

/-- A listener of the API, whose virtual hosts are all present. -/
def HttpListener.ptr (l : HttpListener) : HttpListenerPtr :=
  ⟨l.virtualHosts.map some, l.options⟩

/-- Go `listener.GetHybridListener()` -/
def Listener.GetHybridListener (listener : Listener) : Option HybridListener :=
  match listener.listenerType with
  | .HybridListener l => some l
  | _ => none

/-- Go `listener.GetAggregateListener()` -/
def Listener.GetAggregateListener (listener : Listener) : Option AggregateListener :=
  match listener.listenerType with
  | .AggregateListener l => some l
  | _ => none

/-- Go `matcher.GetSslConfig()`, on a matcher that may be `nil`. -/
def Listener_Matcher.GetSslConfig (matcher : Option Listener_Matcher) : Option SslConfig :=
  match matcher with
  | some m => m.sslConfig
  | none => none

/-- Go `matcher.GetSourcePrefixRanges()`, on a matcher that may be `nil`. -/
def Listener_Matcher.GetSourcePrefixRanges (matcher : Option Listener_Matcher) :
    List CidrRange :=
  match matcher with
  | some m => m.sourcePrefixRanges
  | none => []

/-- Go `report.GetHttpListenerReport()`, on a matched-listener report that may be `nil`. -/
def MatchedListenerReport.GetHttpListenerReport (report : Option MatchedListenerReport) :
    Option Gloo.HttpListenerReport :=
  match report with
  | some (.HttpListenerReport r) => some r
  | _ => none

/-- Go `report.GetTcpListenerReport()`, on a matched-listener report that may be `nil`. -/
def MatchedListenerReport.GetTcpListenerReport (report : Option MatchedListenerReport) :
    Option Gloo.TcpListenerReport :=
  match report with
  | some (.TcpListenerReport r) => some r
  | _ => none

/-- The functions of the package `utils` that name a route configuration. -/
structure RouteConfigNames where
  /-- Go `utils.RouteConfigName` -/
  RouteConfigName : Listener → String
  /-- Go `utils.MatchedRouteConfigName` -/
  MatchedRouteConfigName : Listener → Option Listener_Matcher → String

namespace Factory

/-- The translator that `NewHttpListenerNetworkFilterTranslator` returns, kept as the
arguments of the call. -/
structure httpNetworkFilterTranslator where
  parentListener : Listener
  listener : Option HttpListenerPtr
  report : Option HttpListenerReport
  httpPlugins : List HttpFilterPlugin
  hcmPlugins : List HttpConnectionManagerPlugin
  routeConfigName : String

/-- Go `httpFilterChainTranslator` as the factory fills it; a report field holds the
report the pointer refers to, `none` for `nil`. -/
structure httpFilterChainTranslator where
  parentReport : ListenerReport
  networkFilterTranslator : httpNetworkFilterTranslator
  sslConfigTranslator : SslConfigTranslator
  sslConfigurations : List (Option SslConfig)
  defaultSslConfig : Option SslConfig
  sourcePrefixRanges : List CidrRange

/-- Go `tcpFilterChainTranslator` as the factory fills it. -/
structure tcpFilterChainTranslator where
  plugins : List TcpFilterChainPlugin
  parentListener : Listener
  listener : Option TcpListener
  report : Option TcpListenerReport
  sourcePrefixRanges : List CidrRange

/-- The values of the interface `FilterChainTranslator` that the factory builds; a child
of the multi translator may be the `nil` interface. -/
inductive FilterChainTranslator where
  | httpFilterChainTranslator (t : httpFilterChainTranslator)
  | tcpFilterChainTranslator (t : tcpFilterChainTranslator)
  | multiFilterChainTranslator (translators : List (Option FilterChainTranslator))

/-- Go `listenerTranslatorInstance` as the factory fills it. -/
structure listenerTranslatorInstance where
  listener : Listener
  report : ListenerReport
  plugins : List ListenerPlugin
  filterChainTranslator : FilterChainTranslator

/-- The values of the interface `ListenerTranslator` that the factory builds. -/
inductive ListenerTranslator where
  | listenerTranslatorInstance (t : listenerTranslatorInstance)
  | emptyListenerTranslator

/-- Go `httpRouteConfigurationTranslator` as the factory fills it (the proxy, which is
only passed on, is left out). -/
structure httpRouteConfigurationTranslator where
  pluginRegistry : PluginRegistry
  parentListener : Listener
  listener : Option HttpListenerPtr
  parentReport : ListenerReport
  report : Option HttpListenerReport
  routeConfigName : String
  requireTlsOnVirtualHosts : Bool

/-- The values of the interface `RouteConfigurationTranslator` that the factory builds;
a child of the multi translator may be the `nil` interface. -/
inductive RouteConfigurationTranslator where
  | httpRouteConfigurationTranslator (t : httpRouteConfigurationTranslator)
  | emptyRouteConfigurationTranslator
  | multiRouteConfigurationTranslator (translators : List (Option RouteConfigurationTranslator))

end Factory

/-- Go `ListenerSubsystemTranslatorFactory` -/
structure ListenerSubsystemTranslatorFactory where
  pluginRegistry : PluginRegistry
  sslConfigTranslator : SslConfigTranslator

/-- Go `ListenerSubsystemTranslatorFactory.GetHttpListenerTranslators`. A report of
another type is logged through `DPanic`, and the translators are built with a `nil`
HTTP report. -/
def ListenerSubsystemTranslatorFactory.GetHttpListenerTranslators
    (utils : RouteConfigNames) (l : ListenerSubsystemTranslatorFactory)
    (listener : Listener) (listenerReport : ListenerReport) :
    Option Factory.ListenerTranslator × Option Factory.RouteConfigurationTranslator :=
  let httpListenerReport := listenerReport.GetHttpListenerReport
  let routeConfigurationName := utils.RouteConfigName listener
  let networkFilterTranslator : Factory.httpNetworkFilterTranslator :=
    { parentListener := listener
      listener := listener.GetHttpListener.map HttpListener.ptr
      report := httpListenerReport
      httpPlugins := l.pluginRegistry.httpFilterPlugins
      hcmPlugins := l.pluginRegistry.httpConnectionManagerPlugins
      routeConfigName := routeConfigurationName }
  let filterChainTranslator : Factory.httpFilterChainTranslator :=
    { parentReport := listenerReport
      networkFilterTranslator := networkFilterTranslator
      sslConfigTranslator := l.sslConfigTranslator
      sslConfigurations := listener.sslConfigurations.map some
      defaultSslConfig := none
      sourcePrefixRanges := [] }
  let listenerTranslator : Factory.listenerTranslatorInstance :=
    { listener := listener
      report := listenerReport
      plugins := l.pluginRegistry.listenerPlugins
      filterChainTranslator := .httpFilterChainTranslator filterChainTranslator }
  let routeConfigurationTranslator : Factory.httpRouteConfigurationTranslator :=
    { pluginRegistry := l.pluginRegistry
      parentListener := listener
      listener := listener.GetHttpListener.map HttpListener.ptr
      parentReport := listenerReport
      report := httpListenerReport
      routeConfigName := routeConfigurationName
      requireTlsOnVirtualHosts := decide (listener.sslConfigurations.length > 0) }
  (some (.listenerTranslatorInstance listenerTranslator),
    some (.httpRouteConfigurationTranslator routeConfigurationTranslator))

/-- Go `ListenerSubsystemTranslatorFactory.GetTcpListenerTranslators`. A report of
another type is logged through `DPanic`, and the translators are built with a `nil`
TCP report. -/
def ListenerSubsystemTranslatorFactory.GetTcpListenerTranslators
    (l : ListenerSubsystemTranslatorFactory)
    (listener : Listener) (listenerReport : ListenerReport) :
    Option Factory.ListenerTranslator × Option Factory.RouteConfigurationTranslator :=
  let tcpListenerReport := listenerReport.GetTcpListenerReport
  let filterChainTranslator : Factory.tcpFilterChainTranslator :=
    { plugins := l.pluginRegistry.tcpFilterChainPlugins
      parentListener := listener
      listener := listener.GetTcpListener
      report := tcpListenerReport
      sourcePrefixRanges := [] }
  let listenerTranslator : Factory.listenerTranslatorInstance :=
    { listener := listener
      report := listenerReport
      plugins := l.pluginRegistry.listenerPlugins
      filterChainTranslator := .tcpFilterChainTranslator filterChainTranslator }
  (some (.listenerTranslatorInstance listenerTranslator),
    some .emptyRouteConfigurationTranslator)

/-- The body of the loop of `GetHybridListenerTranslators`: the filter-chain translator
and the route-configuration translator of one matched listener. A listener type that is
neither HTTP nor TCP leaves both variables `nil`. The report of the matched listener is
looked up by its route-configuration name; a missing entry gives a `nil` report. -/
def hybridMatchedListenerTranslators
    (utils : RouteConfigNames) (l : ListenerSubsystemTranslatorFactory)
    (listener : Listener) (listenerReport : ListenerReport)
    (hybridListenerReport : HybridListenerReport) (matchedListener : MatchedListener) :
    Option Factory.FilterChainTranslator × Option Factory.RouteConfigurationTranslator :=
  let matcher := matchedListener.matcher
  match matchedListener.listenerType with
  | .HttpListener httpListener =>
    let routeConfigurationName := utils.MatchedRouteConfigName listener matcher
    let httpListenerReport := MatchedListenerReport.GetHttpListenerReport
      (hybridListenerReport.matchedListenerReports.lookup routeConfigurationName)
    let networkFilterTranslator : Factory.httpNetworkFilterTranslator :=
      { parentListener := listener
        listener := some httpListener.ptr
        report := httpListenerReport
        httpPlugins := l.pluginRegistry.httpFilterPlugins
        hcmPlugins := l.pluginRegistry.httpConnectionManagerPlugins
        routeConfigName := routeConfigurationName }
    let filterChainTranslator : Factory.httpFilterChainTranslator :=
      { parentReport := listenerReport
        networkFilterTranslator := networkFilterTranslator
        sslConfigTranslator := l.sslConfigTranslator
        sslConfigurations := matchedListener.sslConfigurations.map some
        defaultSslConfig := Listener_Matcher.GetSslConfig matcher
        sourcePrefixRanges := Listener_Matcher.GetSourcePrefixRanges matcher }
    let routeConfigurationTranslator : Factory.httpRouteConfigurationTranslator :=
      { pluginRegistry := l.pluginRegistry
        parentListener := listener
        listener := some httpListener.ptr
        parentReport := listenerReport
        report := httpListenerReport
        routeConfigName := routeConfigurationName
        requireTlsOnVirtualHosts := (Listener_Matcher.GetSslConfig matcher).isSome }
    (some (.httpFilterChainTranslator filterChainTranslator),
      some (.httpRouteConfigurationTranslator routeConfigurationTranslator))
  | .TcpListener tcpListener =>
    let filterChainTranslator : Factory.tcpFilterChainTranslator :=
      { plugins := l.pluginRegistry.tcpFilterChainPlugins
        parentListener := listener
        listener := some tcpListener
        report := MatchedListenerReport.GetTcpListenerReport
          (hybridListenerReport.matchedListenerReports.lookup
            (utils.MatchedRouteConfigName listener matcher))
        sourcePrefixRanges := Listener_Matcher.GetSourcePrefixRanges matcher }
    (some (.tcpFilterChainTranslator filterChainTranslator),
      some .emptyRouteConfigurationTranslator)
  | .unset => (none, none)

/-- The loop `for _, matchedListener := range ...GetMatchedListeners()` of
`GetHybridListenerTranslators`, which appends one child to each of the two lists. -/
def hybridTranslatorsLoop
    (utils : RouteConfigNames) (l : ListenerSubsystemTranslatorFactory)
    (listener : Listener) (listenerReport : ListenerReport)
    (hybridListenerReport : HybridListenerReport) :
    List MatchedListener →
    List (Option Factory.RouteConfigurationTranslator) ×
      List (Option Factory.FilterChainTranslator) →
    List (Option Factory.RouteConfigurationTranslator) ×
      List (Option Factory.FilterChainTranslator)
  | [], st => st
  | matchedListener :: rest, (routeConfigurationTranslators, filterChainTranslators) =>
    let (filterChainTranslator, routeConfigurationTranslator) :=
      hybridMatchedListenerTranslators utils l listener listenerReport hybridListenerReport
        matchedListener
    hybridTranslatorsLoop utils l listener listenerReport hybridListenerReport rest
      (routeConfigurationTranslators ++ [routeConfigurationTranslator],
        filterChainTranslators ++ [filterChainTranslator])

/-- Go `ListenerSubsystemTranslatorFactory.GetHybridListenerTranslators`. A report of
another type is logged through `DPanic` and the function returns `nil, nil`. -/
def ListenerSubsystemTranslatorFactory.GetHybridListenerTranslators
    (utils : RouteConfigNames) (l : ListenerSubsystemTranslatorFactory)
    (listener : Listener) (listenerReport : ListenerReport) :
    Option Factory.ListenerTranslator × Option Factory.RouteConfigurationTranslator :=
  match listenerReport.GetHybridListenerReport with
  | none => (none, none)
  | some hybridListenerReport =>
    let matchedListeners :=
      match listener.GetHybridListener with
      | some hybridListener => hybridListener.matchedListeners
      | none => []
    let (routeConfigurationTranslators, filterChainTranslators) :=
      hybridTranslatorsLoop utils l listener listenerReport hybridListenerReport
        matchedListeners ([], [])
    let listenerTranslator : Factory.listenerTranslatorInstance :=
      { listener := listener
        report := listenerReport
        plugins := l.pluginRegistry.listenerPlugins
        filterChainTranslator := .multiFilterChainTranslator filterChainTranslators }
    (some (.listenerTranslatorInstance listenerTranslator),
      some (.multiRouteConfigurationTranslator routeConfigurationTranslators))

/-- The loop `for _, vhostRef := range httpFilterChain.GetVirtualHostRefs()` of
`GetAggregateListenerTranslators`: each reference is looked up in the resources and the
result, `nil` for an unknown reference, is appended. -/
def aggregateVirtualHostsLoop (httpResources : AggregateListener_HttpResources) :
    List String → List (Option VirtualHost) → List (Option VirtualHost)
  | [], virtualHosts => virtualHosts
  | vhostRef :: rest, virtualHosts =>
    aggregateVirtualHostsLoop httpResources rest
      (virtualHosts ++ [httpResources.virtualHosts.lookup vhostRef])

/-- The body of the loop of `GetAggregateListenerTranslators`: the translators of one
HTTP filter chain, over the HTTP listener built from its references. -/
def aggregateFilterChainTranslators
    (utils : RouteConfigNames) (l : ListenerSubsystemTranslatorFactory)
    (listener : Listener) (listenerReport : ListenerReport)
    (aggregateListenerReport : AggregateListenerReport)
    (httpResources : AggregateListener_HttpResources)
    (httpFilterChain : AggregateListener_HttpFilterChain) :
    Option Factory.FilterChainTranslator × Option Factory.RouteConfigurationTranslator :=
  let routeConfigurationName := utils.MatchedRouteConfigName listener httpFilterChain.matcher
  let httpListener : HttpListenerPtr :=
    { options := httpResources.httpOptions.lookup httpFilterChain.httpOptionsRef
      virtualHosts := aggregateVirtualHostsLoop httpResources httpFilterChain.virtualHostRefs [] }
  let httpListenerReport := aggregateListenerReport.httpListenerReports.lookup
    routeConfigurationName
  let networkFilterTranslator : Factory.httpNetworkFilterTranslator :=
    { parentListener := listener
      listener := some httpListener
      report := httpListenerReport
      httpPlugins := l.pluginRegistry.httpFilterPlugins
      hcmPlugins := l.pluginRegistry.httpConnectionManagerPlugins
      routeConfigName := routeConfigurationName }
  let filterChainTranslator : Factory.httpFilterChainTranslator :=
    { parentReport := listenerReport
      networkFilterTranslator := networkFilterTranslator
      sslConfigTranslator := l.sslConfigTranslator
      sslConfigurations := [Listener_Matcher.GetSslConfig httpFilterChain.matcher]
      defaultSslConfig := none
      sourcePrefixRanges := Listener_Matcher.GetSourcePrefixRanges httpFilterChain.matcher }
  let routeConfigurationTranslator : Factory.httpRouteConfigurationTranslator :=
    { pluginRegistry := l.pluginRegistry
      parentListener := listener
      listener := some httpListener
      parentReport := listenerReport
      report := httpListenerReport
      routeConfigName := routeConfigurationName
      requireTlsOnVirtualHosts :=
        (Listener_Matcher.GetSslConfig httpFilterChain.matcher).isSome }
  (some (.httpFilterChainTranslator filterChainTranslator),
    some (.httpRouteConfigurationTranslator routeConfigurationTranslator))

/-- The loop `for _, httpFilterChain := range ...GetHttpFilterChains()` of
`GetAggregateListenerTranslators`. -/
def aggregateTranslatorsLoop
    (utils : RouteConfigNames) (l : ListenerSubsystemTranslatorFactory)
    (listener : Listener) (listenerReport : ListenerReport)
    (aggregateListenerReport : AggregateListenerReport)
    (httpResources : AggregateListener_HttpResources) :
    List AggregateListener_HttpFilterChain →
    List (Option Factory.RouteConfigurationTranslator) ×
      List (Option Factory.FilterChainTranslator) →
    List (Option Factory.RouteConfigurationTranslator) ×
      List (Option Factory.FilterChainTranslator)
  | [], st => st
  | httpFilterChain :: rest, (routeConfigurationTranslators, filterChainTranslators) =>
    let (filterChainTranslator, routeConfigurationTranslator) :=
      aggregateFilterChainTranslators utils l listener listenerReport
        aggregateListenerReport httpResources httpFilterChain
    aggregateTranslatorsLoop utils l listener listenerReport aggregateListenerReport
      httpResources rest
      (routeConfigurationTranslators ++ [routeConfigurationTranslator],
        filterChainTranslators ++ [filterChainTranslator])

/-- Go `ListenerSubsystemTranslatorFactory.GetAggregateListenerTranslators`. A report of
another type is logged through `DPanic` and the function returns `nil, nil`. The getters
of a listener that is not an Aggregate listener give empty resources and no chains. -/
def ListenerSubsystemTranslatorFactory.GetAggregateListenerTranslators
    (utils : RouteConfigNames) (l : ListenerSubsystemTranslatorFactory)
    (listener : Listener) (listenerReport : ListenerReport) :
    Option Factory.ListenerTranslator × Option Factory.RouteConfigurationTranslator :=
  match listenerReport.GetAggregateListenerReport with
  | none => (none, none)
  | some aggregateListenerReport =>
    let httpResources : AggregateListener_HttpResources :=
      match listener.GetAggregateListener with
      | some aggregateListener => aggregateListener.httpResources
      | none => ⟨[], []⟩
    let httpFilterChains :=
      match listener.GetAggregateListener with
      | some aggregateListener => aggregateListener.httpFilterChains
      | none => []
    let (routeConfigurationTranslators, filterChainTranslators) :=
      aggregateTranslatorsLoop utils l listener listenerReport aggregateListenerReport
        httpResources httpFilterChains ([], [])
    let listenerTranslator : Factory.listenerTranslatorInstance :=
      { listener := listener
        report := listenerReport
        plugins := l.pluginRegistry.listenerPlugins
        filterChainTranslator := .multiFilterChainTranslator filterChainTranslators }
    (some (.listenerTranslatorInstance listenerTranslator),
      some (.multiRouteConfigurationTranslator routeConfigurationTranslators))

/-- Go `ListenerSubsystemTranslatorFactory.GetTranslators` -/
def ListenerSubsystemTranslatorFactory.GetTranslators
    (utils : RouteConfigNames) (l : ListenerSubsystemTranslatorFactory)
    (listener : Listener) (listenerReport : ListenerReport) :
    Option Factory.ListenerTranslator × Option Factory.RouteConfigurationTranslator :=
  match listener.listenerType with
  | .HttpListener _ => l.GetHttpListenerTranslators utils listener listenerReport
  | .TcpListener _ => l.GetTcpListenerTranslators listener listenerReport
  | .HybridListener _ => l.GetHybridListenerTranslators utils listener listenerReport
  | .AggregateListener _ => l.GetAggregateListenerTranslators utils listener listenerReport
  | .unset => (some .emptyListenerTranslator, some .emptyRouteConfigurationTranslator)

/-! ## Filter lists in memory (`filter_chain.go`)

The chains of an HTTP segment hold their filters as a slice of pointers. To state who
shares what, this section runs `cloneListenerFilters`, `newSslFilterChain` and
`createFilterChainsFromSslConfiguration` on an explicit heap. -/

/-- The part of the Go heap that holds network filters: the `Filter` messages and the
backing arrays of the `[]*Filter` slices. A `*Filter` is an index into `messages`, a
slice is the index of its backing array in `arrays`, and an allocation appends a cell. -/
structure FilterHeap where
  messages : List Envoy.Filter
  arrays : List (List Nat)
  deriving DecidableEq, Repr

/-- The messages behind a list of pointers; `none` when a pointer refers to no cell. -/
def FilterHeap.deref (heap : FilterHeap) : List Nat → Option (List Envoy.Filter)
  | [] => some []
  | p :: rest =>
    match heap.messages[p]?, FilterHeap.deref heap rest with
    | some v, some vs => some (v :: vs)
    | _, _ => none

/-- The filters a slice holds, by value. -/
def FilterHeap.read (heap : FilterHeap) (slice : Nat) : Option (List Envoy.Filter) :=
  match heap.arrays[slice]? with
  | none => none
  | some ptrs => FilterHeap.deref heap ptrs

/-- A write through the pointer `p`: the message at `p` becomes `v`. -/
def FilterHeap.store (heap : FilterHeap) (p : Nat) (v : Envoy.Filter) : FilterHeap :=
  { heap with messages := heap.messages.set p v }

/-- Go `slice[i] = p`: element `i` of the backing array is replaced by the pointer `p`. -/
def FilterHeap.storeAt (heap : FilterHeap) (slice i p : Nat) : FilterHeap :=
  match heap.arrays[slice]? with
  | none => heap
  | some ptrs => { heap with arrays := heap.arrays.set slice (ptrs.set i p) }

/-- Go `proto.Clone(lf)`: a new message, equal in value to the one at `lf`. -/
def FilterHeap.clone (heap : FilterHeap) (lf : Nat) : Option (Nat × FilterHeap) :=
  match heap.messages[lf]? with
  | none => none
  | some v => some (heap.messages.length, { heap with messages := heap.messages ++ [v] })

/-- The loop `for i, lf := range originalListenerFilters` of `cloneListenerFilters`. -/
def cloneListenerFiltersLoop :
    List Nat → List Nat × FilterHeap → Option (List Nat × FilterHeap)
  | [], st => some st
  | lf :: rest, (clonedListenerFilters, heap) =>
    match FilterHeap.clone heap lf with
    | none => none
    | some (p, heap1) => cloneListenerFiltersLoop rest (clonedListenerFilters ++ [p], heap1)

/-- Go `cloneListenerFilters` on the heap: `make` gives a new backing array, which the
loop fills with clones of the messages of the original slice. -/
def cloneListenerFiltersOnHeap (heap : FilterHeap) (originalListenerFilters : Nat) :
    Option (Nat × FilterHeap) :=
  match heap.arrays[originalListenerFilters]? with
  | none => none
  | some ptrs =>
    match cloneListenerFiltersLoop ptrs ([], heap) with
    | none => none
    | some (clonedListenerFilters, heap1) =>
      some (heap1.arrays.length,
        { heap1 with arrays := heap1.arrays ++ [clonedListenerFilters] })

/-- An Envoy filter chain whose field `Filters` is a slice on the heap. -/
structure FilterChainOnHeap where
  filterChainMatch : Option Envoy.FilterChainMatch
  filters : Nat
  transportSocket : Option Envoy.TransportSocket
  transportSocketConnectTimeout : Option Envoy.Duration
  deriving DecidableEq, Repr

/-- The chain by value. -/
def FilterChainOnHeap.value (heap : FilterHeap) (fc : FilterChainOnHeap) :
    Option Envoy.FilterChain :=
  match FilterHeap.read heap fc.filters with
  | none => none
  | some filters =>
    some
      { filterChainMatch := fc.filterChainMatch
        filters := filters
        transportSocket := fc.transportSocket
        transportSocketConnectTimeout := fc.transportSocketConnectTimeout }

/-- Go `newSslFilterChain` on the heap; the filters are cloned before the TLS context
is serialised, so the clones exist also when the function returns an error. -/
def newSslFilterChainOnHeap (ext : External)
    (downstreamTlsContext : Envoy.DownstreamTlsContext) (sniDomains : List String)
    (listenerFilters : Nat) (timeout : Option Envoy.Duration) (heap : FilterHeap) :
    Option (Except Err FilterChainOnHeap × FilterHeap) :=
  match cloneListenerFiltersOnHeap heap listenerFilters with
  | none => none
  | some (clonedListenerFilters, heap1) =>
    match ext.MessageToAny downstreamTlsContext with
    | .error err => some (.error err, heap1)
    | .ok typedConfig =>
      some (.ok
        { filterChainMatch := some
            { destinationPort := none, serverNames := sniDomains, transportProtocol := "",
              sourcePrefixRanges := [] }
          filters := clonedListenerFilters
          transportSocket := some ⟨ext.TransportSocketTls, some typedConfig⟩
          transportSocketConnectTimeout := timeout }, heap1)

/-- The state of the loop of `createFilterChainsFromSslConfiguration` on the heap. -/
structure SecureChainsState where
  secureFilterChains : List FilterChainOnHeap
  parentReport : ListenerReport
  heap : FilterHeap
  deriving DecidableEq, Repr

/-- The loop `for _, sslConfig := range sslConfigurations` of
`createFilterChainsFromSslConfiguration`, on the heap. -/
def secureFilterChainsLoopOnHeap (ext : External) (h : httpFilterChainTranslator)
    (snap : ApiSnapshot) (networkFilters : Nat) :
    List SslConfig → SecureChainsState → Option SecureChainsState
  | [], st => some st
  | sslConfig :: rest, st =>
    match h.sslConfigTranslator.ResolveDownstreamSslConfig snap.secrets sslConfig with
    | .error err =>
      secureFilterChainsLoopOnHeap ext h snap networkFilters rest
        { st with
          parentReport := AppendListenerError st.parentReport .SSLConfigError (.errText err) }
    | .ok downstreamTlsContext =>
      match newSslFilterChainOnHeap ext downstreamTlsContext sslConfig.sniDomains
          networkFilters sslConfig.transportSocketConnectTimeout st.heap with
      | none => none
      | some (.error err, heap1) =>
        secureFilterChainsLoopOnHeap ext h snap networkFilters rest
          { st with
            parentReport :=
              AppendListenerError st.parentReport .SSLConfigError (.errText err),
            heap := heap1 }
      | some (.ok filterChain, heap1) =>
        secureFilterChainsLoopOnHeap ext h snap networkFilters rest
          { st with
            secureFilterChains := st.secureFilterChains ++ [filterChain],
            heap := heap1 }

/-- Go `httpFilterChainTranslator.createFilterChainsFromSslConfiguration` on the heap.
Without a TLS config the single chain holds the slice `networkFilters` itself. -/
def createFilterChainsFromSslConfigurationOnHeap (ext : External)
    (h : httpFilterChainTranslator) (snap : ApiSnapshot) (networkFilters : Nat)
    (sslConfigurations : List SslConfig) (parentReport : ListenerReport)
    (heap : FilterHeap) : Option SecureChainsState :=
  if sslConfigurations.length = 0 then
    some
      { secureFilterChains :=
          [{ filterChainMatch := none, filters := networkFilters, transportSocket := none,
             transportSocketConnectTimeout := none }]
        parentReport := parentReport
        heap := heap }
  else
    secureFilterChainsLoopOnHeap ext h snap networkFilters sslConfigurations
      ⟨[], parentReport, heap⟩

/-- The chains own their filters with respect to an earlier heap `heap0`: the heap
extends `heap0`, the backing array and the messages of every chain were allocated after
`heap0` and hold the values `vals`, and no two chains share a backing array or a
message. -/
def chainsOwnFilters (heap0 : FilterHeap) (vals : List Envoy.Filter) (heap : FilterHeap)
    (chains : List FilterChainOnHeap) : Prop :=
  heap0.messages <+: heap.messages ∧ heap0.arrays <+: heap.arrays ∧
  (∀ c ∈ chains, heap0.arrays.length ≤ c.filters ∧
    ∃ ptrs, heap.arrays[c.filters]? = some ptrs ∧
      (∀ p ∈ ptrs, heap0.messages.length ≤ p) ∧ FilterHeap.deref heap ptrs = some vals) ∧
  chains.Pairwise (fun c d => c.filters ≠ d.filters ∧
    ∀ ptrs qtrs, heap.arrays[c.filters]? = some ptrs → heap.arrays[d.filters]? = some qtrs →
      ∀ p ∈ ptrs, p ∉ qtrs)

/-! ## Virtual hosts in memory (`route_config.go`)

`computeVirtualHost` receives a pointer into the snapshot. To state what it writes,
this section runs it on an explicit heap. -/

/-- The part of the Go heap that holds `v1.VirtualHost` messages. A `*v1.VirtualHost` is
an index, and an allocation appends a cell. A cell holds the whole message, its routes
included: `proto.Clone` is a deep copy. -/
abbrev VirtualHostHeap := List VirtualHost

/-- Go `translatorInstance.computeVirtualHost` on the heap. The first statement points
the local variable `virtualHost` to a clone, the second writes the sanitized name to it,
and everything after reads the clone. Plugins are functions of the values they are
handed. `none` when the pointer refers to no cell or a route report is missing. -/
def computeVirtualHostOnHeap (ext : External) (t : translatorInstance)
    (params : VirtualHostParams) (virtualHost : Nat) (requireTls : Bool)
    (vhostReport : VirtualHostReport) (heap : VirtualHostHeap) :
    Option ((Envoy.VirtualHost × VirtualHostReport) × VirtualHostHeap) :=
  match heap[virtualHost]? with
  | none => none
  | some original =>
    let clone := heap.length
    let heap1 := heap ++ [original]
    let heap2 := heap1.set clone { original with name := ext.SanitizeForEnvoy original.name }
    match heap2[clone]? with
    | none => none
    | some virtualHost1 =>
      match computeRoutesLoop ext t params virtualHost1 0 virtualHost1.routes
          ([], vhostReport) with
      | none => none
      | some (envoyRoutes0, vhostReport1) =>
        let domains :=
          if virtualHost1.domains.length = 0 ∨
              (virtualHost1.domains.length = 1 ∧ virtualHost1.domains.head? = some "") then
            ["*"]
          else virtualHost1.domains
        let envoyRequireTls : Envoy.TlsRequirementType := if requireTls then .ALL else .NONE
        let out : Envoy.VirtualHost :=
          { name := virtualHost1.name
            domains := domains
            routes := envoyRoutes0
            requireTls := envoyRequireTls }
        some (runVirtualHostPlugins params virtualHost1 t.plugins (out, vhostReport1), heap2)

/-- The weighted cluster that `setWeightedClusters` appends for one destination: the
cluster named after the upstream reference with the destination's weight and subset
metadata, as the weighted-destination plugins leave it; `none` when the reference does
not convert. -/
def weightedClusterFor (ext : External) (t : translatorInstance) (params : RouteParams)
    (routeName : String) (weightedDest : WeightedDestination) : Option Envoy.ClusterWeight :=
  match ext.DestinationToUpstreamRef weightedDest.destination with
  | .error _ => none
  | .ok usRef =>
    some (runWeightedDestinationPlugins params weightedDest routeName t.plugins
      ({ name := ext.UpstreamToClusterName usRef
         weight := some weightedDest.weight
         metadataMatch := getSubsetMatch ext weightedDest.destination }, ⟨[], []⟩)).1

/-- The translator of `filter_chain.go` that a descriptor of the factory stands for;
`net` is the network filter translator that `NewHttpListenerNetworkFilterTranslator`
builds from the recorded arguments. `none` when the TLS list holds a `nil` config, which
only the Aggregate branch can put there. -/
def Factory.httpFilterChainTranslator.toTranslator (net : NetworkFilterTranslator)
    (fct : Factory.httpFilterChainTranslator) : Option Gloo.httpFilterChainTranslator :=
  match fct.sslConfigurations.allSome with
  | none => none
  | some sslConfigurations =>
    some
      { networkFilterTranslator := net
        sslConfigurations := sslConfigurations
        sslConfigTranslator := fct.sslConfigTranslator
        defaultSslConfig := fct.defaultSslConfig
        sourcePrefixRanges := fct.sourcePrefixRanges }

/-! ## TLS consolidation and merge, from the spec

`ConsolidateSslConfigurations` and `MergeSslConfig` are functions of the translator
package whose source is not among the sources; `getSslConfigurationWithDefaults` calls
them. -/

/-- Modelled from the spec: the identity of a TLS config under consolidation, which is
part of `ConsolidateSslConfigurations`, missing from the sources. The spec dedupes "by
identity of secret ref + SNI set": two configs are the same when their secret references
are equal and their SNI domains are the same set. -/
def specSameTlsIdentity (a b : SslConfig) : Bool :=
  decide (a.secretRef = b.secretRef) &&
    (a.sniDomains.all (fun d => decide (d ∈ b.sniDomains)) &&
      b.sniDomains.all (fun d => decide (d ∈ a.sniDomains)))

/-- Modelled from the spec: the loop of `ConsolidateSslConfigurations`, missing from the
sources. A config is kept unless a config kept before has the same identity. -/
def specConsolidateInto : List SslConfig → List SslConfig → List SslConfig
  | kept, [] => kept
  | kept, sslConfig :: rest =>
    if kept.any (fun k => specSameTlsIdentity sslConfig k) then specConsolidateInto kept rest
    else specConsolidateInto (kept ++ [sslConfig]) rest

/-- Modelled from the spec: `ConsolidateSslConfigurations`, missing from the sources.
"Consolidate duplicate TLS configs (dedupe by identity of secret ref + SNI set)": of the
configs with the same identity the first survives, and the survivors keep their order. -/
def specConsolidateSslConfigurations (sslConfigurations : List SslConfig) : List SslConfig :=
  specConsolidateInto [] sslConfigurations

/-- Modelled from the spec: `MergeSslConfig`, missing from the sources. "The specific
config's set fields always win; unset fields fall back to the default"; a repeated field
is unset when it is empty. -/
def specMergeSslConfig (ssl defaults : SslConfig) : SslConfig where
  secretRef := ssl.secretRef <|> defaults.secretRef
  sniDomains := if ssl.sniDomains = [] then defaults.sniDomains else ssl.sniDomains
  verifySubjectAltName :=
    if ssl.verifySubjectAltName = [] then defaults.verifySubjectAltName
    else ssl.verifySubjectAltName
  alpnProtocols := if ssl.alpnProtocols = [] then defaults.alpnProtocols else ssl.alpnProtocols
  oneWayTls := ssl.oneWayTls <|> defaults.oneWayTls
  disableTlsSessionResumption :=
    ssl.disableTlsSessionResumption <|> defaults.disableTlsSessionResumption
  transportSocketConnectTimeout :=
    ssl.transportSocketConnectTimeout <|> defaults.transportSocketConnectTimeout

/-- The outside functions with the consolidation and the merge as the spec words them. -/
def specTlsExternal (ext : External) : External :=
  { ext with
    ConsolidateSslConfigurations := specConsolidateSslConfigurations,
    MergeSslConfig := specMergeSslConfig }

/-- One application of the consolidate-then-merge step of
`getSslConfigurationWithDefaults` to a list of TLS configs and an optional default, with
the consolidation and the merge as the spec words them. -/
def specSslConfigStep (ext : External) (h : httpFilterChainTranslator)
    (sslConfigurations : List SslConfig) (defaultSslConfig : Option SslConfig) :
    List SslConfig :=
  getSslConfigurationWithDefaults (specTlsExternal ext)
    ⟨h.networkFilterTranslator, sslConfigurations, h.sslConfigTranslator, defaultSslConfig,
      h.sourcePrefixRanges⟩

/-- No two configs of the list have the same identity. -/
def tlsIdentitiesDistinct (sslConfigurations : List SslConfig) : Prop :=
  sslConfigurations.Pairwise (fun earlier later => specSameTlsIdentity later earlier = false)

/-! ## Upstream connection options (`upstreamconn/plugin.go`)

`roundToSecond` computes in `float64`.  A finite `float64` is represented by a fraction
`num / den` equal to it; every arithmetic operation is the exact operation followed by
`roundFloat64` (IEEE-754 binary64, round to nearest, ties to even).  All values that occur
are below `2 ^ 64` in magnitude, so infinities and NaN do not arise. -/

/-- A finite Go `float64`: the number `num / den`, with `den` positive. -/
structure Float64 where
  num : Int
  den : Nat
  deriving DecidableEq, Repr

/-- Nearest integer to `n / d`, a tie going to the even neighbour. -/
def roundHalfEven (n d : Nat) : Nat :=
  let q := n / d
  let r := n % d
  if 2 * r < d then q
  else if d < 2 * r then q + 1
  else if q % 2 = 0 then q else q + 1

/-- Number of binary digits of `n`, found by at most `fuel` halvings. -/
def bitLength : Nat → Nat → Nat
  | 0, _ => 0
  | fuel + 1, n => if n = 0 then 0 else bitLength fuel (n / 2) + 1

/-- Position of the leading binary digit of a positive `n`. -/
def leadingBit (n : Nat) : Nat := bitLength n n - 1

/-- The binary64 value nearest to `num / den` (ties to even): the significand has 53 bits,
and the exponent of its last bit is at least `-1074`. -/
def roundFloat64 (num : Int) (den : Nat) : Float64 :=
  let n := num.natAbs
  if n = 0 then ⟨0, 1⟩
  else
    let k0 : Int := (leadingBit n : Int) - (leadingBit den : Int)
    let k : Int := if n * 2 ^ (-k0).toNat < den * 2 ^ k0.toNat then k0 - 1 else k0
    let e : Int := max (k - 52) (-1074)
    let m := roundHalfEven (n * 2 ^ (-e).toNat) (den * 2 ^ e.toNat)
    let v : Int := ((m * 2 ^ e.toNat : Nat) : Int)
    ⟨if num < 0 then -v else v, 2 ^ (-e).toNat⟩

/-- Go `float64(i)` of an integer -/
def Float64.ofInt (i : Int) : Float64 := roundFloat64 i 1

/-- Go `x + y` on `float64` -/
def Float64.add (x y : Float64) : Float64 :=
  roundFloat64 (x.num * y.den + y.num * x.den) (x.den * y.den)

/-- Go `x / y` on `float64`, for a positive divisor -/
def Float64.div (x y : Float64) : Float64 :=
  roundFloat64 (x.num * y.den) (x.den * y.num.natAbs)

/-- Go `prototime.DurationFromProto(d)`: the duration in nanoseconds, for a duration within
the range of `time.Duration` (an `int64` count of nanoseconds). -/
def DurationFromProto (d : Envoy.Duration) : Int :=
  d.seconds * 1000000000 + d.nanos

/-- Go `time.Duration.Seconds`:
`sec := d / Second; nsec := d % Second; return float64(sec) + float64(nsec)/1e9`. -/
def Seconds (d : Int) : Float64 :=
  let sec := Int.tdiv d 1000000000
  let nsec := Int.tmod d 1000000000
  (Float64.ofInt sec).add ((Float64.ofInt nsec).div ⟨1000000000, 1⟩)

/-- Go `math.Round`: the nearest integer, a half rounding away from zero. -/
def mathRound (x : Float64) : Float64 :=
  let a : Int := (((2 * x.num.natAbs + x.den) / (2 * x.den) : Nat) : Int)
  ⟨if x.num < 0 then -a else a, 1⟩

/-- Go `uint32(x)` of a `float64`: the fraction is discarded; the language fixes the result
for values within `uint32`, other values are reduced modulo `2 ^ 32` here. -/
def toUint32 (x : Float64) : Nat :=
  (Int.tdiv x.num x.den % 2 ^ 32).toNat

/-- Go `roundToSecond` in `upstreamconn/plugin.go`; the result is the `Value` of the
`UInt32Value`, `none` is the nil pointer. -/
def roundToSecond (d : Option Envoy.Duration) : Option Nat :=
  match d with
  | none => none
  | some d =>
    -- round up
    let seconds := mathRound ((Seconds (DurationFromProto d)).add (roundFloat64 4999 10000))
    some (toUint32 seconds)

/-- Go `v1.ConnectionConfig_TcpKeepAlive` -/
structure ConnectionConfig_TcpKeepAlive where
  keepaliveProbes : Nat
  keepaliveTime : Option Envoy.Duration
  keepaliveInterval : Option Envoy.Duration
  deriving DecidableEq, Repr

/-- Go `envoy_config_core_v3.TcpKeepalive` -/
structure Envoy.TcpKeepalive where
  keepaliveProbes : Option Nat
  keepaliveTime : Option Nat
  keepaliveInterval : Option Nat
  deriving DecidableEq, Repr

/-- Go `convertTcpKeepAlive` in `upstreamconn/plugin.go` -/
def convertTcpKeepAlive (tcp : ConnectionConfig_TcpKeepAlive) : Envoy.TcpKeepalive :=
  let probes : Option Nat :=
    if tcp.keepaliveProbes > 0 then some tcp.keepaliveProbes else none
  { keepaliveInterval := roundToSecond tcp.keepaliveInterval
    keepaliveTime := roundToSecond tcp.keepaliveTime
    keepaliveProbes := probes }

/-- The least whole number of seconds that is not less than the non-negative duration
`d`. -/
def specRoundUpSeconds (d : Envoy.Duration) : Nat :=
  ((DurationFromProto d).toNat + 999999999) / 1000000000

/-! ## Concrete inputs -/

/-- A sample instance of the outside functions: a destination converts when it names
an upstream, and a cluster is named after the reference. -/
def sampleExternal : External where
  DestinationToUpstreamRef := fun d =>
    match d.destinationType with
    | .Upstream ref => .ok ref
    | _ => .error (.errorf "no destination type specified")
  UpstreamToClusterName := fun ref => ref.name ++ "_" ++ ref.Namespace
  getLbMetadata := fun values => some ⟨[("envoy.lb", values)]⟩
  NewRegex := fun s => ⟨none, s⟩
  MessageToAny := fun ctx =>
    .ok ⟨"type.googleapis.com/envoy.extensions.transport_sockets.tls.v3.DownstreamTlsContext",
      ctx.commonTlsContext⟩
  TransportSocketTls := "envoy.transport_sockets.tls"
  ConsolidateSslConfigurations := fun cfgs => cfgs.eraseDups
  MergeSslConfig := fun ssl defaults =>
    { ssl with
      secretRef := ssl.secretRef <|> defaults.secretRef,
      oneWayTls := ssl.oneWayTls <|> defaults.oneWayTls,
      transportSocketConnectTimeout :=
        ssl.transportSocketConnectTimeout <|> defaults.transportSocketConnectTimeout }
  SanitizeForEnvoy := fun name => name

/-- A translator without plugins. -/
def sampleTranslator : translatorInstance := ⟨[]⟩

/-- A snapshot with one upstream `gloo-system/web` that declares no subset spec and one
upstream `gloo-system/db` whose subset spec has the selector `[a, a]`. -/
def sampleSnapshot : ApiSnapshot where
  upstreams :=
    [ ⟨⟨"gloo-system", "web"⟩, .withSubsetSpecGetter "kube" none⟩,
      ⟨⟨"gloo-system", "db"⟩, .withSubsetSpecGetter "kube" (some ⟨[⟨["a", "a"]⟩]⟩)⟩ ]
  upstreamGroups := []
  secrets := []

def sampleParams : RouteParams := ⟨⟨sampleSnapshot⟩, ⟨"vh", ["example.com"], []⟩⟩

/-- A route to the upstream `gloo-system/web` with the subset `env: prod`. -/
def sampleSubsetRoute : Route where
  name := ""
  matchers := []
  action := .RouteAction ⟨.Single
    ⟨.Upstream ⟨"gloo-system", "web"⟩, some ⟨[("env", "prod")]⟩⟩⟩

/-- Two weighted destinations of weight `2^31` each, both to `gloo-system/web`. -/
def sampleHeavyDestinations : MultiDestination where
  destinations :=
    [ ⟨⟨.Upstream ⟨"gloo-system", "web"⟩, none⟩, 2147483648⟩,
      ⟨⟨.Upstream ⟨"gloo-system", "web"⟩, none⟩, 2147483648⟩ ]

/-- A route to the upstream group `gloo-system/missing`, which `sampleSnapshot` lacks. -/
def sampleGroupRoute : Route where
  name := ""
  matchers := []
  action := .RouteAction ⟨.UpstreamGroup ⟨"gloo-system", "missing"⟩⟩

/-- An output route as `initRoutes` leaves it: a match, a name, no action yet. -/
def sampleOut : Envoy.Route where
  name := "vh-route-0-matcher-0"
  Match := some ⟨some (.Prefix "/"), [], [], none⟩
  action := none

/-- A network filter translator that builds three filters and writes no report entry. -/
def sampleNetworkFilterTranslator : NetworkFilterTranslator where
  ComputeNetworkFilters := fun _ report =>
    (([⟨"envoy.filters.network.a", none⟩, ⟨"envoy.filters.network.b", none⟩,
        ⟨"envoy.filters.network.http_connection_manager", none⟩], none), report)

/-- A network filter translator that builds no filter. -/
def sampleEmptyNetworkFilterTranslator : NetworkFilterTranslator where
  ComputeNetworkFilters := fun _ report => (([], none), report)

/-- A resolver that succeeds exactly for a config whose secret reference is in the list
of secrets. -/
def sampleSslConfigTranslator : SslConfigTranslator where
  ResolveDownstreamSslConfig := fun secrets sslConfig =>
    match sslConfig.secretRef with
    | none => .error (.other "no secret ref")
    | some ref =>
      match secrets.find? (fun s => s.metadata == ref) with
      | none => .error (.other "secret not found")
      | some secret => .ok ⟨secret.data, none⟩

/-- A snapshot holding the TLS secrets `gloo-system/cert-a` and `gloo-system/cert-b`. -/
def sampleTlsSnapshot : ApiSnapshot where
  upstreams := []
  upstreamGroups := []
  secrets := [⟨⟨"gloo-system", "cert-a"⟩, "A"⟩, ⟨⟨"gloo-system", "cert-b"⟩, "B"⟩]

/-- Two TLS configs with different SNI domains, both resolvable in `sampleTlsSnapshot`. -/
def sampleSslConfigs : List SslConfig :=
  [ ⟨some ⟨"gloo-system", "cert-a"⟩, ["a.example.com"], [], [], none, none, some ⟨5, 0⟩⟩,
    ⟨some ⟨"gloo-system", "cert-b"⟩, ["b.example.com"], [], [], none, none, none⟩ ]

def sampleHttpFilterChainTranslator : httpFilterChainTranslator where
  networkFilterTranslator := sampleNetworkFilterTranslator
  sslConfigurations := sampleSslConfigs
  sslConfigTranslator := sampleSslConfigTranslator
  defaultSslConfig := none
  sourcePrefixRanges := []

def sampleEmptyHttpFilterChainTranslator : httpFilterChainTranslator where
  networkFilterTranslator := sampleEmptyNetworkFilterTranslator
  sslConfigurations := sampleSslConfigs
  sslConfigTranslator := sampleSslConfigTranslator
  defaultSslConfig := none
  sourcePrefixRanges := [⟨"10.0.0.0", some 8⟩]

/-- The three filters `sampleNetworkFilterTranslator` builds. -/
def sampleFilters : List Envoy.Filter :=
  [⟨"envoy.filters.network.a", none⟩, ⟨"envoy.filters.network.b", none⟩,
    ⟨"envoy.filters.network.http_connection_manager", none⟩]

/-- Three TLS configs; the second names a secret that `sampleTlsSnapshot` lacks. -/
def sampleMixedSslConfigs : List SslConfig :=
  [ ⟨some ⟨"gloo-system", "cert-a"⟩, ["a.example.com"], [], [], none, none, some ⟨5, 0⟩⟩,
    ⟨some ⟨"gloo-system", "gone"⟩, ["c.example.com"], [], [], none, none, none⟩,
    ⟨some ⟨"gloo-system", "cert-b"⟩, ["b.example.com"], [], [], none, none, none⟩ ]

/-- The keys of a selector and the keys of a route subset are the same set. -/
def sameKeySet (keys : List String) (routeSubset : GoMap) : Bool :=
  keys.all (fun k => GoMap.contains routeSubset k) &&
    (routeSubset.map Prod.fst).all (fun k => decide (k ∈ keys))

/-- A destination to the upstream `gloo-system/db` with the subset keys `a` and `b`. -/
def sampleTwoKeyDestination : Destination :=
  ⟨.Upstream ⟨"gloo-system", "db"⟩, some ⟨[("a", "1"), ("b", "2")]⟩⟩

/-- A destination to the upstream `gloo-system/db` with the single subset key `a`. -/
def sampleOneKeyDestination : Destination :=
  ⟨.Upstream ⟨"gloo-system", "db"⟩, some ⟨[("a", "1")]⟩⟩

/-- A route to the upstream `gloo-system/absent`, which `sampleSnapshot` lacks, with the
subset `env: prod`. -/
def sampleAbsentUpstreamRoute : Route where
  name := ""
  matchers := []
  action := .RouteAction ⟨.Single
    ⟨.Upstream ⟨"gloo-system", "absent"⟩, some ⟨[("env", "prod")]⟩⟩⟩

/-- A route named `api` with two matchers, the second without a path specifier. -/
def sampleMatcherRoute : Route where
  name := "api"
  matchers :=
    [ ⟨some (.Prefix "/a"), none, [], [], []⟩,
      ⟨none, none, [⟨"x-env", "prod", false, false⟩], [], ["GET", "POST"]⟩ ]
  action := .unset


/-- A virtual host named `vh` with two routes: the sample route with two matchers and a
route without matchers. -/
def sampleVirtualHost : VirtualHost where
  name := "vh"
  domains := ["example.com"]
  routes := [sampleMatcherRoute, sampleGroupRoute]

/-- A virtual-host report with one empty route report for each of two routes. -/
def sampleVirtualHostReport : VirtualHostReport := ⟨[], [⟨[], []⟩, ⟨[], []⟩]⟩

/-- A TCP plugin that contributes two chains. -/
def sampleTcpPluginTwo : TcpFilterChainPlugin where
  CreateTcpFilterChains := fun _ _ _ =>
    ([⟨none, [⟨"envoy.filters.network.tcp_proxy", none⟩], none, none⟩,
      ⟨some ⟨none, ["a.example.com"], "tls", []⟩,
        [⟨"envoy.filters.network.tcp_proxy", none⟩], none, none⟩], none)

/-- A TCP plugin that fails, returning a chain together with its error. -/
def sampleTcpPluginFailing : TcpFilterChainPlugin where
  CreateTcpFilterChains := fun _ _ _ =>
    ([⟨none, [⟨"envoy.filters.network.broken", none⟩], none, none⟩], some (.other "boom"))

/-- A TCP plugin that contributes one chain. -/
def sampleTcpPluginOne : TcpFilterChainPlugin where
  CreateTcpFilterChains := fun _ _ _ =>
    ([⟨none, [⟨"envoy.filters.network.echo", none⟩], none, none⟩], none)

/-- A TCP translator with a failing plugin between two working ones and one
source-prefix range. -/
def sampleTcpFilterChainTranslator : tcpFilterChainTranslator where
  plugins := [sampleTcpPluginTwo, sampleTcpPluginFailing, sampleTcpPluginOne]
  parentListener := ⟨"tcp-listener", "::", 8443, [], .TcpListener ⟨[]⟩, none⟩
  listener := ⟨[]⟩
  sourcePrefixRanges := [⟨"10.0.0.0", some 8⟩]

/-- A child translator that returns the three sample chains of nothing but filters and
counts its call in the state. -/
def sampleChildTwo : FilterChainTranslator Nat where
  ComputeFilterChains := fun _ n =>
    ([⟨none, sampleFilters, none, none⟩, ⟨none, [], none, none⟩], n + 1)

/-- A child translator that returns `nil`. -/
def sampleChildNil : FilterChainTranslator Nat where
  ComputeFilterChains := fun _ n => ([], n + 1)

/-- A chain with match criteria, filters, a transport socket and a connect timeout. -/
def sampleTlsChain : Envoy.FilterChain where
  filterChainMatch := some ⟨some 443, ["a.example.com"], "tls", []⟩
  filters := sampleFilters
  transportSocket := some ⟨"envoy.transport_sockets.tls", none⟩
  transportSocketConnectTimeout := some ⟨5, 0⟩

/-- Two virtual hosts: `a` lists the empty-string domain, `b` has an empty domain list. -/
def sampleEmptyDomainVirtualHosts : List VirtualHost :=
  [⟨"a", [""], []⟩, ⟨"b", [], []⟩]

/-- Two virtual hosts: `a` lists the empty-string domain, `b` lists the wildcard. -/
def sampleEmptyAndWildcardVirtualHosts : List VirtualHost :=
  [⟨"a", [""], []⟩, ⟨"b", ["*"], []⟩]

/-- An HTTP listener report with two empty virtual-host reports. -/
def sampleTwoVirtualHostReports : HttpListenerReport := ⟨[], [⟨[], []⟩, ⟨[], []⟩]⟩

/-- A route plugin whose hook fails with an upstream-not-found error. -/
def sampleNotFoundPlugin : Plugin where
  typeName := "*sample.notFoundPlugin"
  isHeadersPlugin := false
  ProcessRoute := some (fun _ _ out => (out, some (.UpstreamNotFoundErr ⟨"gloo-system", "web"⟩)))
  ProcessRouteAction := none
  ProcessWeightedDestination := none
  ProcessVirtualHost := none

/-- A route plugin whose hook fails with an error of its own. -/
def sampleFailingPlugin : Plugin where
  typeName := "*sample.failingPlugin"
  isHeadersPlugin := false
  ProcessRoute := some (fun _ _ out => (out, some (.other "bad option")))
  ProcessRouteAction := none
  ProcessWeightedDestination := none
  ProcessVirtualHost := none

/-- A route to the cluster named by the header `x-cluster`. -/
def sampleClusterHeaderRoute : Route where
  name := ""
  matchers := []
  action := .RouteAction ⟨.ClusterHeader "x-cluster"⟩

/-- A redirect to https that sets neither a path redirect nor a prefix rewrite. -/
def sampleHttpsRedirectRoute : Route where
  name := ""
  matchers := []
  action := .RedirectAction ⟨"", 0, true, false, .unset⟩

/-- A redirect with a prefix rewrite. -/
def samplePrefixRedirectRoute : Route where
  name := ""
  matchers := []
  action := .RedirectAction ⟨"example.com", 1, false, true, .PrefixRewrite "/new"⟩

/-- An HTTP listener with three TLS configs and two virtual hosts that share the domain
`example.com`; its routes include one to an upstream group the sample snapshot lacks. -/
def sampleHttpListenerResource : Listener where
  name := "http"
  bindAddress := "::"
  bindPort := 8443
  sslConfigurations := sampleMixedSslConfigs
  listenerType := .HttpListener ⟨[sampleVirtualHost, ⟨"b", ["example.com"], [sampleGroupRoute]⟩], none⟩
  routeOptions := some ⟨some 4096⟩

/-- A report aligned with `sampleHttpListenerResource`. -/
def sampleHttpListenerResourceReport : ListenerReport :=
  ⟨[], .HttpListenerReport ⟨[], [sampleVirtualHostReport, ⟨[], [⟨[], []⟩]⟩]⟩⟩

/-- A TCP listener. -/
def sampleTcpListenerResource : Listener :=
  ⟨"tcp-listener", "::", 8443, [], .TcpListener ⟨[]⟩, none⟩

/-- A factory with one plugin of each kind and the sample TLS resolver. -/
def sampleFactory : ListenerSubsystemTranslatorFactory where
  pluginRegistry :=
    { listenerPlugins := [⟨"*sample.listenerPlugin"⟩]
      tcpFilterChainPlugins := [sampleTcpPluginOne]
      httpFilterPlugins := [⟨"*sample.httpFilterPlugin"⟩]
      httpConnectionManagerPlugins := [⟨"*sample.hcmPlugin"⟩] }
  sslConfigTranslator := sampleSslConfigTranslator

/-- Route-configuration names built from the listener name and, for a matched listener,
the address prefixes of the matcher. -/
def sampleRouteConfigNames : RouteConfigNames where
  RouteConfigName := fun listener => listener.name ++ "-routes"
  MatchedRouteConfigName := fun listener matcher =>
    listener.name ++ "-routes-" ++
      String.join ((Listener_Matcher.GetSourcePrefixRanges matcher).map
        (fun r => r.addressPrefix))

/-- A Hybrid listener with an HTTP, a TCP and a second HTTP matched listener. -/
def sampleHybridListener : Listener where
  name := "hybrid"
  bindAddress := "::"
  bindPort := 8443
  sslConfigurations := []
  listenerType := .HybridListener ⟨
    [ ⟨some ⟨some ⟨none, [], [], [], some true, none, none⟩, [⟨"10.0.0.0", some 8⟩]⟩,
        .HttpListener ⟨[sampleVirtualHost], none⟩, sampleSslConfigs⟩,
      ⟨some ⟨none, [⟨"192.168.0.0", some 16⟩]⟩, .TcpListener ⟨[⟨"db"⟩]⟩, []⟩,
      ⟨none, .HttpListener ⟨[], none⟩, []⟩ ]⟩
  routeOptions := none

/-- A Hybrid report with an entry for each matched listener of `sampleHybridListener`. -/
def sampleHybridListenerReport : ListenerReport :=
  ⟨[], .HybridListenerReport ⟨
    [ ("hybrid-routes-10.0.0.0", .HttpListenerReport ⟨[], [sampleVirtualHostReport]⟩),
      ("hybrid-routes-192.168.0.0", .TcpListenerReport ⟨[]⟩),
      ("hybrid-routes-", .HttpListenerReport ⟨[], []⟩) ]⟩⟩

/-- An Aggregate listener with one HTTP filter chain. -/
def sampleAggregateListener : Listener where
  name := "aggregate"
  bindAddress := "::"
  bindPort := 8443
  sslConfigurations := []
  listenerType := .AggregateListener
    ⟨⟨[("vh", sampleVirtualHost)], [("opts", ⟨"default"⟩)]⟩, [⟨none, "opts", ["vh"]⟩]⟩
  routeOptions := none

/-- A heap whose slice `0` holds the three sample filters. -/
def sampleFilterHeap : FilterHeap := ⟨sampleFilters, [[0, 1, 2]]⟩

/-- A heap holding a virtual host whose name is not a valid Envoy name, and the sample
virtual host. -/
def sampleVirtualHostHeap : VirtualHostHeap :=
  [⟨"My Host", ["example.com"], [sampleMatcherRoute, sampleGroupRoute]⟩, sampleVirtualHost]

/-- The outside functions of `sampleExternal`, with a sanitizer that replaces blanks. -/
def sampleSanitizingExternal : External :=
  { sampleExternal with
    SanitizeForEnvoy := fun name =>
      String.mk (name.data.map (fun c => if c = ' ' then '-' else c)) }

/-- Three weighted destinations whose references convert; the second has the subset
`env: prod`, which its upstream `gloo-system/web` does not declare. -/
def sampleSecondSubsetFails : MultiDestination where
  destinations :=
    [ ⟨⟨.Upstream ⟨"gloo-system", "web"⟩, none⟩, 1⟩,
      ⟨⟨.Upstream ⟨"gloo-system", "web"⟩, some ⟨[("env", "prod")]⟩⟩, 2⟩,
      ⟨⟨.Upstream ⟨"gloo-system", "db"⟩, none⟩, 3⟩ ]

/-- Two HTTP matched listeners: the first has two TLS configs and a matcher without TLS
config, the second has no TLS config and a matcher with one. -/
def sampleTlsMismatchMatchedListeners : List MatchedListener :=
  [ ⟨some ⟨none, [⟨"10.0.0.0", some 8⟩]⟩, .HttpListener ⟨[sampleVirtualHost], none⟩,
      sampleSslConfigs⟩,
    ⟨some ⟨some ⟨some ⟨"gloo-system", "cert-a"⟩, [], [], [], none, none, none⟩, []⟩,
      .HttpListener ⟨[], none⟩, []⟩ ]

/-- A Hybrid listener over `sampleTlsMismatchMatchedListeners`. -/
def sampleHybridTlsMismatch : Listener where
  name := "hybrid"
  bindAddress := "::"
  bindPort := 8443
  sslConfigurations := []
  listenerType := .HybridListener ⟨sampleTlsMismatchMatchedListeners⟩
  routeOptions := none

/-- An HTTP matched listener followed by a matched listener without listener type. -/
def sampleUnsetMatchedListeners : List MatchedListener :=
  [ ⟨some ⟨none, [⟨"10.0.0.0", some 8⟩]⟩, .HttpListener ⟨[sampleVirtualHost], none⟩, []⟩,
    ⟨some ⟨none, [⟨"192.168.0.0", some 16⟩]⟩, .unset, []⟩ ]

/-- A Hybrid listener over `sampleUnsetMatchedListeners`. -/
def sampleHybridUnsetListener : Listener where
  name := "hybrid"
  bindAddress := "::"
  bindPort := 8443
  sslConfigurations := []
  listenerType := .HybridListener ⟨sampleUnsetMatchedListeners⟩
  routeOptions := none

/-- Two TLS configs for the SNI domain `a.example.com`: the first names no secret, the
second names `gloo-system/cert-a`. -/
def sampleDefaultedSslConfigs : List SslConfig :=
  [ ⟨none, ["a.example.com"], [], [], none, none, none⟩,
    ⟨some ⟨"gloo-system", "cert-a"⟩, ["a.example.com"], [], [], none, none, none⟩ ]

/-- A default TLS config that names the secret `gloo-system/cert-a`. -/
def sampleDefaultSslConfig : SslConfig :=
  ⟨some ⟨"gloo-system", "cert-a"⟩, [], [], [], none, none, none⟩


/-! # Theorems -/

/-! ### Lemmas on the domain map -/

theorem DomainMap.get_appendIdx (m : DomainMap) (k : String) (i : Nat) (d : String) :
    DomainMap.get (DomainMap.appendIdx m k i) d
      = if d = k then DomainMap.get m d ++ [i] else DomainMap.get m d := by
  induction m with
  | nil =>
    by_cases h : d = k
    · subst h; simp [DomainMap.appendIdx, DomainMap.get]
    · have h' : ¬ k = d := fun e => h e.symm
      simp [DomainMap.appendIdx, DomainMap.get, h, h']
  | cons b rest ih =>
    obtain ⟨k', v⟩ := b
    by_cases hk : k' = k
    · subst hk
      by_cases hd : d = k'
      · subst hd; simp [DomainMap.appendIdx, DomainMap.get]
      · have hd' : ¬ k' = d := fun e => hd e.symm
        simp [DomainMap.appendIdx, DomainMap.get, hd, hd']
    · by_cases hd : k' = d
      · subst hd
        have : ¬ k' = k := hk
        simp [DomainMap.appendIdx, DomainMap.get, hk]
      · simp [DomainMap.appendIdx, DomainMap.get, hk, hd, ih]

theorem DomainMap.keys_appendIdx (m : DomainMap) (k : String) (i : Nat) :
    (DomainMap.appendIdx m k i).map Prod.fst
      = if k ∈ m.map Prod.fst then m.map Prod.fst else m.map Prod.fst ++ [k] := by
  induction m with
  | nil => simp [DomainMap.appendIdx]
  | cons b rest ih =>
    obtain ⟨k', v⟩ := b
    by_cases hk : k' = k
    · subst hk; simp [DomainMap.appendIdx]
    · have hk' : ¬ k = k' := fun e => hk e.symm
      by_cases hmem : k ∈ rest.map Prod.fst
      · simp only [DomainMap.appendIdx, hk, if_false, List.map_cons, ih, hmem, if_true,
          List.mem_cons, or_true]
      · simp only [DomainMap.appendIdx, hk, if_false, List.map_cons, ih, hmem,
          List.mem_cons, hk', or_self, List.cons_append]

theorem DomainMap.nodup_appendIdx (m : DomainMap) (k : String) (i : Nat)
    (h : (m.map Prod.fst).Nodup) : ((DomainMap.appendIdx m k i).map Prod.fst).Nodup := by
  rw [DomainMap.keys_appendIdx]
  by_cases hmem : k ∈ m.map Prod.fst
  · simpa [hmem] using h
  · simp only [hmem, if_false]
    rw [List.nodup_append]
    refine ⟨h, List.nodup_singleton k, ?_⟩
    intro a ha hb
    simp at hb
    subst hb
    exact hmem ha

theorem DomainMap.bounded_appendIdx (n : Nat) (m : DomainMap) (k : String) (i : Nat)
    (hi : i < n) (h : ∀ b ∈ m, ∀ x ∈ b.2, x < n) :
    ∀ b ∈ DomainMap.appendIdx m k i, ∀ x ∈ b.2, x < n := by
  induction m with
  | nil =>
    intro b hb x hx
    simp [DomainMap.appendIdx] at hb
    subst hb
    simp at hx
    omega
  | cons c rest ih =>
    obtain ⟨k', v⟩ := c
    intro b hb x hx
    by_cases hk : k' = k
    · simp only [DomainMap.appendIdx, hk, if_true, List.mem_cons] at hb
      rcases hb with hb | hb
      · subst hb
        simp only [List.mem_append, List.mem_singleton] at hx
        rcases hx with hx | hx
        · exact h (k', v) (List.mem_cons_self _ _) x hx
        · omega
      · exact h b (List.mem_cons_of_mem _ hb) x hx
    · simp only [DomainMap.appendIdx, hk, if_false, List.mem_cons] at hb
      rcases hb with hb | hb
      · subst hb
        exact h (k', v) (List.mem_cons_self _ _) x hx
      · exact ih (fun b hb => h b (List.mem_cons_of_mem _ hb)) b hb x hx

theorem DomainMap.mem_of_get_ne_nil (m : DomainMap) (d : String)
    (h : DomainMap.get m d ≠ []) : (d, DomainMap.get m d) ∈ m := by
  induction m with
  | nil => simp [DomainMap.get] at h
  | cons b rest ih =>
    obtain ⟨k', v⟩ := b
    by_cases hk : k' = d
    · subst hk; simp [DomainMap.get]
    · simp only [DomainMap.get, hk, if_false] at h ⊢
      exact List.mem_cons_of_mem _ (ih h)

/-! ### The first pass of `ValidateVirtualHostDomains` -/

theorem appendVirtualHostErrorAt_spec (D : String) (reports : List VirtualHostReport)
    (i : Nat) (t : VirtualHostReport_Error_Type) (reason : Reason)
    (hi : i < reports.length) :
    ∃ rs, appendVirtualHostErrorAt reports i t reason = some rs ∧
      rs.length = reports.length ∧
      ∀ j, dnuCountAt D rs j = dnuCountAt D reports j +
        (if j = i ∧ isDomainsNotUniqueFor D ⟨t, reason⟩ = true then 1 else 0) := by
  have hget : reports[i]? = some reports[i] := List.getElem?_eq_getElem hi
  refine ⟨reports.set i (AppendVirtualHostError reports[i] t reason), ?_, ?_, ?_⟩
  · simp [appendVirtualHostErrorAt, hget]
  · simp
  · intro j
    by_cases hj : j = i
    · subst hj
      simp only [dnuCountAt, hget, List.getElem?_set_self hi, dnuCount,
        AppendVirtualHostError, List.countP_append, true_and]
      by_cases hp : isDomainsNotUniqueFor D ⟨t, reason⟩ = true
      · simp [List.countP_cons, hp]
      · simp [List.countP_cons, hp]
    · have hj' : ¬ i = j := fun e => hj e.symm
      simp [dnuCountAt, List.getElem?_set_ne hj', hj]

theorem collectDomains_spec (n i : Nat) (vh : VirtualHost) (hi : i < n) :
    ∀ (ds : List String) (m : DomainMap) (reports : List VirtualHostReport),
      reports.length = n →
      ∃ m1 rs, collectDomains i vh ds (m, reports) = some (m1, rs) ∧
        rs.length = n ∧
        (∀ D j, dnuCountAt D rs j = dnuCountAt D reports j) ∧
        (∀ D, DomainMap.get m1 D = DomainMap.get m D ++ List.replicate (ds.count D) i) ∧
        ((m.map Prod.fst).Nodup → (m1.map Prod.fst).Nodup) ∧
        ((∀ b ∈ m, ∀ x ∈ b.2, x < n) → ∀ b ∈ m1, ∀ x ∈ b.2, x < n) := by
  intro ds
  induction ds with
  | nil =>
    intro m reports hlen
    exact ⟨m, reports, rfl, hlen, fun _ _ => rfl, by simp, id, id⟩
  | cons d rest ih =>
    intro m reports hlen
    have step : ∀ rs0 : List VirtualHostReport, rs0.length = n →
        (∀ D j, dnuCountAt D rs0 j = dnuCountAt D reports j) →
        ∃ m1 rs, collectDomains i vh rest (DomainMap.appendIdx m d i, rs0) = some (m1, rs) ∧
          rs.length = n ∧
          (∀ D j, dnuCountAt D rs j = dnuCountAt D reports j) ∧
          (∀ D, DomainMap.get m1 D
            = DomainMap.get m D ++ List.replicate ((d :: rest).count D) i) ∧
          ((m.map Prod.fst).Nodup → (m1.map Prod.fst).Nodup) ∧
          ((∀ b ∈ m, ∀ x ∈ b.2, x < n) → ∀ b ∈ m1, ∀ x ∈ b.2, x < n) := by
      intro rs0 hlen0 hcnt0
      obtain ⟨m1, rs, hrun, hl, hc, hg, hn, hb⟩ := ih (DomainMap.appendIdx m d i) rs0 hlen0
      refine ⟨m1, rs, hrun, hl, fun D j => (hc D j).trans (hcnt0 D j), ?_, ?_, ?_⟩
      · intro D
        rw [hg D, DomainMap.get_appendIdx]
        by_cases hD : D = d
        · subst hD
          simp [List.count_cons_self, List.replicate_succ]
        · have hD' : ¬ d = D := fun e => hD e.symm
          simp [hD, List.count_cons_of_ne hD']
      · exact fun h => hn (DomainMap.nodup_appendIdx m d i h)
      · exact fun h => hb (DomainMap.bounded_appendIdx n m d i hi h)
    by_cases hd : d = ""
    · obtain ⟨rs0, hrs0, hlen0, hcnt0⟩ :=
        appendVirtualHostErrorAt_spec "" reports i .EmptyDomainError (.emptyDomain vh.name)
          (by omega)
      have hcnt : ∀ D j, dnuCountAt D rs0 j = dnuCountAt D reports j := by
        intro D j
        obtain ⟨rs0', hrs0', _, hcnt0'⟩ :=
          appendVirtualHostErrorAt_spec D reports i .EmptyDomainError (.emptyDomain vh.name)
            (by omega)
        rw [hrs0] at hrs0'
        cases hrs0'
        rw [hcnt0' j]
        simp [isDomainsNotUniqueFor]
      obtain ⟨m1, rs, hrun, rest'⟩ := step rs0 (by omega) hcnt
      refine ⟨m1, rs, ?_, rest'⟩
      simp only [collectDomains, hd, if_true, hrs0]
      rw [← hrun, hd]
    · obtain ⟨m1, rs, hrun, rest'⟩ := step reports hlen (fun _ _ => rfl)
      refine ⟨m1, rs, ?_, rest'⟩
      simp only [collectDomains, hd, if_false]
      exact hrun

theorem collectVirtualHosts_spec (n : Nat) :
    ∀ (vhs : List VirtualHost) (i0 : Nat) (m : DomainMap) (reports : List VirtualHostReport),
      reports.length = n → i0 + vhs.length ≤ n →
      ∃ m1 rs, collectVirtualHosts i0 vhs (m, reports) = some (m1, rs) ∧
        rs.length = n ∧
        (∀ D j, dnuCountAt D rs j = dnuCountAt D reports j) ∧
        (∀ D, DomainMap.get m1 D = DomainMap.get m D ++ claimIdxs D i0 vhs) ∧
        ((m.map Prod.fst).Nodup → (m1.map Prod.fst).Nodup) ∧
        ((∀ b ∈ m, ∀ x ∈ b.2, x < n) → ∀ b ∈ m1, ∀ x ∈ b.2, x < n) := by
  intro vhs
  induction vhs with
  | nil =>
    intro i0 m reports hlen _
    exact ⟨m, reports, rfl, hlen, fun _ _ => rfl, by simp [claimIdxs], id, id⟩
  | cons vh rest ih =>
    intro i0 m reports hlen hle
    simp only [List.length_cons] at hle
    have hi : i0 < n := by omega
    obtain ⟨m1, rs1, hrun1, hl1, hc1, hg1, hn1, hb1⟩ :=
      collectDomains_spec n i0 vh hi vh.domains
        (if vh.domains.length = 0 then DomainMap.appendIdx m "*" i0 else m) reports hlen
    obtain ⟨m2, rs2, hrun2, hl2, hc2, hg2, hn2, hb2⟩ :=
      ih (i0 + 1) m1 rs1 hl1 (by omega)
    refine ⟨m2, rs2, ?_, hl2, fun D j => (hc2 D j).trans (hc1 D j), ?_, ?_, ?_⟩
    · simp only [collectVirtualHosts, hrun1]
      exact hrun2
    · intro D
      rw [hg2 D, hg1 D]
      by_cases he : vh.domains.length = 0
      · by_cases hD : D = "*"
        · subst hD
          simp [claimIdxs, he, DomainMap.get_appendIdx]
        · simp [claimIdxs, he, hD, DomainMap.get_appendIdx]
      · simp [claimIdxs, he]
    · intro h
      apply hn2
      apply hn1
      by_cases he : vh.domains.length = 0
      · simpa [he] using DomainMap.nodup_appendIdx m "*" i0 h
      · simpa [he] using h
    · intro h
      apply hb2
      apply hb1
      by_cases he : vh.domains.length = 0
      · simpa [he] using DomainMap.bounded_appendIdx n m "*" i0 hi h
      · simpa [he] using h

/-! ### The second pass of `ValidateVirtualHostDomains` -/

theorem collectNames_isSome (vhs : List VirtualHost) :
    ∀ idxs : List Nat, (∀ x ∈ idxs, x < vhs.length) →
      ∃ names, collectNames vhs idxs = some names := by
  intro idxs
  induction idxs with
  | nil => intro _; exact ⟨[], rfl⟩
  | cons x rest ih =>
    intro h
    obtain ⟨names, hn⟩ := ih (fun y hy => h y (List.mem_cons_of_mem _ hy))
    have hx : x < vhs.length := h x (List.mem_cons_self _ _)
    refine ⟨vhs[x].name :: names, ?_⟩
    simp [collectNames, List.getElem?_eq_getElem hx, hn]

theorem reportBucket_spec (D d : String) (names : List String) :
    ∀ (idxs : List Nat) (reports : List VirtualHostReport),
      (∀ x ∈ idxs, x < reports.length) →
      ∃ rs, reportBucket d names idxs reports = some rs ∧
        rs.length = reports.length ∧
        ∀ j, dnuCountAt D rs j = dnuCountAt D reports j +
          (if d = D then idxs.count j else 0) := by
  intro idxs
  induction idxs with
  | nil =>
    intro reports _
    exact ⟨reports, rfl, rfl, by simp⟩
  | cons x rest ih =>
    intro reports h
    have hx : x < reports.length := h x (List.mem_cons_self _ _)
    obtain ⟨rs0, hrs0, hlen0, hcnt0⟩ :=
      appendVirtualHostErrorAt_spec D reports x .DomainsNotUniqueError
        (.domainShared d names) hx
    obtain ⟨rs, hrs, hlen, hcnt⟩ :=
      ih rs0 (fun y hy => by rw [hlen0]; exact h y (List.mem_cons_of_mem _ hy))
    refine ⟨rs, ?_, by omega, ?_⟩
    · simp only [reportBucket, hrs0]
      exact hrs
    · intro j
      rw [hcnt j, hcnt0 j]
      by_cases hd : d = D
      · by_cases hj : j = x
        · subst hj
          simp [hd, isDomainsNotUniqueFor, List.count_cons_self]
          omega
        · have hj' : ¬ x = j := fun e => hj e.symm
          simp [hd, hj, List.count_cons_of_ne hj']
      · simp [hd, isDomainsNotUniqueFor]

theorem reportConflicts_spec (D : String) (vhs : List VirtualHost) :
    ∀ (bs : List (String × List Nat)) (reports : List VirtualHostReport),
      reports.length = vhs.length →
      (∀ b ∈ bs, ∀ x ∈ b.2, x < vhs.length) →
      ∃ rs, reportConflicts vhs bs reports = some rs ∧
        rs.length = vhs.length ∧
        ∀ j, dnuCountAt D rs j = dnuCountAt D reports j + conflictBump D j bs := by
  intro bs
  induction bs with
  | nil =>
    intro reports hlen _
    exact ⟨reports, rfl, hlen, by simp [conflictBump]⟩
  | cons b rest ih =>
    obtain ⟨d, idxs⟩ := b
    intro reports hlen hb
    have hidx : ∀ x ∈ idxs, x < vhs.length := hb (d, idxs) (List.mem_cons_self _ _)
    have hrest : ∀ b ∈ rest, ∀ x ∈ b.2, x < vhs.length :=
      fun b hbm => hb b (List.mem_cons_of_mem _ hbm)
    by_cases hgt : idxs.length > 1
    · obtain ⟨names, hnames⟩ := collectNames_isSome vhs idxs hidx
      obtain ⟨rs0, hrs0, hlen0, hcnt0⟩ :=
        reportBucket_spec D d names idxs reports (by rw [hlen]; exact hidx)
      obtain ⟨rs, hrs, hl, hcnt⟩ := ih rs0 (by omega) hrest
      refine ⟨rs, ?_, hl, ?_⟩
      · simp only [reportConflicts, hgt, if_true, hnames, hrs0]
        exact hrs
      · intro j
        rw [hcnt j, hcnt0 j]
        by_cases hd : d = D
        · simp [conflictBump, hd, hgt]; omega
        · simp [conflictBump, hd]
    · obtain ⟨rs, hrs, hl, hcnt⟩ := ih reports hlen hrest
      refine ⟨rs, ?_, hl, ?_⟩
      · simp only [reportConflicts, hgt, if_false]
        exact hrs
      · intro j
        rw [hcnt j]
        simp [conflictBump, hgt]

theorem conflictBump_perm (D : String) (j : Nat) {bs bs1 : List (String × List Nat)}
    (h : bs.Perm bs1) : conflictBump D j bs = conflictBump D j bs1 := by
  induction h with
  | nil => rfl
  | cons b _ ih =>
    obtain ⟨d, v⟩ := b
    simp [conflictBump, ih]
  | swap a b l =>
    obtain ⟨d, v⟩ := a
    obtain ⟨e, w⟩ := b
    simp only [conflictBump]
    omega
  | trans _ _ ih1 ih2 => exact ih1.trans ih2

theorem conflictBump_of_not_mem (D : String) (j : Nat) :
    ∀ bs : List (String × List Nat), D ∉ bs.map Prod.fst → conflictBump D j bs = 0 := by
  intro bs
  induction bs with
  | nil => intro _; rfl
  | cons b rest ih =>
    obtain ⟨d, v⟩ := b
    intro h
    simp only [List.map_cons, List.mem_cons, not_or] at h
    have hd : ¬ d = D := fun e => h.1 e.symm
    simp [conflictBump, hd, ih h.2]

theorem conflictBump_of_mem (D : String) (j : Nat) (idxs : List Nat) :
    ∀ bs : List (String × List Nat), (bs.map Prod.fst).Nodup → (D, idxs) ∈ bs →
      conflictBump D j bs = if idxs.length > 1 then idxs.count j else 0 := by
  intro bs
  induction bs with
  | nil => intro _ h; simp at h
  | cons b rest ih =>
    obtain ⟨d, v⟩ := b
    intro hnd hmem
    simp only [List.map_cons, List.nodup_cons] at hnd
    simp only [List.mem_cons] at hmem
    rcases hmem with hmem | hmem
    · cases hmem
      simp [conflictBump, conflictBump_of_not_mem D j rest hnd.1]
    · have hd : ¬ d = D := by
        intro e
        subst e
        exact hnd.1 (List.mem_map_of_mem Prod.fst hmem)
      simp [conflictBump, hd, ih hnd.2 hmem]

/-! ### The bucket of a domain -/

theorem claimsDomain_iff (D : String) (vh : VirtualHost) :
    claimsDomain D vh = true ↔ (D ∈ vh.domains ∨ (vh.domains = [] ∧ D = "*")) := by
  simp [claimsDomain]

theorem count_claimIdxs_pos (D : String) :
    ∀ (vhs : List VirtualHost) (i0 j : Nat),
      0 < (claimIdxs D i0 vhs).count j ↔
        ∃ vh, i0 ≤ j ∧ vhs[j - i0]? = some vh ∧ claimsDomain D vh = true := by
  intro vhs
  induction vhs with
  | nil => intro i0 j; simp [claimIdxs]
  | cons vh rest ih =>
    intro i0 j
    simp only [claimIdxs, List.count_append, List.count_replicate]
    by_cases hj : j = i0
    · subst hj
      have hnot : ¬ 0 < (claimIdxs D (j + 1) rest).count j := by
        rw [ih (j + 1) j]
        rintro ⟨_, hle, _⟩
        omega
      have hzero : (claimIdxs D (j + 1) rest).count j = 0 := by omega
      simp only [hzero, Nat.sub_self, List.getElem?_cons_zero, Option.some.injEq,
        le_refl, true_and, exists_eq_left', Nat.add_zero, beq_self_eq_true, if_true]
      rw [claimsDomain_iff]
      by_cases he : vh.domains = []
      · by_cases hD : D = "*"
        · simp [he, hD]
        · simp [he, hD]
      · have he' : ¬ vh.domains.length = 0 := by
          intro h; exact he (List.length_eq_zero.mp h)
        simp only [he', false_and, if_false, List.count_nil, Nat.zero_add, he, or_false]
        exact List.count_pos_iff
    · have hne : ¬ i0 = j := fun e => hj e.symm
      have h1 : (if vh.domains.length = 0 ∧ D = "*" then [i0] else []).count j = 0 := by
        split
        · simp [List.count_cons, hne]
        · simp
      have h2 : (if (i0 == j) = true then List.count D vh.domains else 0) = 0 := by
        simp [hne]
      simp only [h1, h2, Nat.zero_add]
      rw [ih (i0 + 1) j]
      constructor
      · rintro ⟨w, hle, hget, hc⟩
        refine ⟨w, by omega, ?_, hc⟩
        have : j - i0 = (j - (i0 + 1)) + 1 := by omega
        rw [this, List.getElem?_cons_succ]
        exact hget
      · rintro ⟨w, hle, hget, hc⟩
        have hlt : i0 < j := by omega
        refine ⟨w, by omega, ?_, hc⟩
        have : j - i0 = (j - (i0 + 1)) + 1 := by omega
        rw [this, List.getElem?_cons_succ] at hget
        exact hget

theorem countP_claims_le_length_claimIdxs (D : String) :
    ∀ (vhs : List VirtualHost) (i0 : Nat),
      vhs.countP (claimsDomain D) ≤ (claimIdxs D i0 vhs).length := by
  intro vhs
  induction vhs with
  | nil => intro _; simp [claimIdxs]
  | cons vh rest ih =>
    intro i0
    have hrest := ih (i0 + 1)
    simp only [claimIdxs, List.length_append, List.length_replicate, List.countP_cons]
    by_cases hc : claimsDomain D vh = true
    · have hpos : 1 ≤ (if vh.domains.length = 0 ∧ D = "*" then [i0] else []).length
          + vh.domains.count D := by
        rw [claimsDomain_iff] at hc
        rcases hc with hc | ⟨he, hD⟩
        · have := List.count_pos_iff.mpr hc
          omega
        · simp [he, hD]
      simp only [hc, if_true]
      omega
    · simp only [hc]
      simp
      omega

theorem countP_eq_of_getElem? {α β : Type} (p : α → Bool) (q : β → Bool) :
    ∀ (l1 : List α) (l2 : List β), l1.length = l2.length →
      (∀ (j : Nat) (a : α) (b : β), l1[j]? = some a → l2[j]? = some b →
        (p a = true ↔ q b = true)) →
      l1.countP p = l2.countP q := by
  intro l1
  induction l1 with
  | nil =>
    intro l2 hlen _
    cases l2 with
    | nil => rfl
    | cons _ _ => simp at hlen
  | cons a t ih =>
    intro l2 hlen h
    cases l2 with
    | nil => simp at hlen
    | cons b t2 =>
      have hhead : (p a = true ↔ q b = true) := h 0 a b (by simp) (by simp)
      have htail : t.countP p = t2.countP q :=
        ih t2 (by simpa using hlen)
          (fun j x y hx hy => h (j + 1) x y (by simpa using hx) (by simpa using hy))
      simp only [List.countP_cons, htail]
      by_cases hp : p a = true
      · have hq : q b = true := hhead.mp hp
        simp [hp, hq]
      · have hq : ¬ q b = true := fun e => hp (hhead.mpr e)
        simp [hp, hq]

/-! ### Claim C1 -/

theorem flaggedFor_iff_dnuCount_pos (D : String) (r : VirtualHostReport) :
    flaggedFor D r = true ↔ 0 < dnuCount D r := by
  simp [flaggedFor, dnuCount, List.countP_pos_iff]

/-- C1: for index-aligned reports that carry no DomainsNotUniqueError for `D` yet, and a
domain `D` claimed by two or more virtual hosts (an empty domain list claims "*"),
`ValidateVirtualHostDomains` returns, and afterwards the report of a virtual host is
flagged with a DomainsNotUniqueError for `D` exactly when that virtual host claims
`D`; so the number of flagged reports equals the number of claimants. This holds for
every order in which the map of domains is visited. -/
theorem C1_domains_not_unique_flags_every_claimant
    (order : DomainMap → DomainMap) (horder : ∀ m, (order m).Perm m)
    (virtualHosts : List VirtualHost) (report : HttpListenerReport) (D : String)
    (halign : report.virtualHostReports.length = virtualHosts.length)
    (hfresh : ∀ r ∈ report.virtualHostReports, flaggedFor D r = false)
    (hD : 2 ≤ virtualHosts.countP (claimsDomain D)) :
    ∃ report1, ValidateVirtualHostDomains order virtualHosts report = some report1 ∧
      report1.virtualHostReports.length = virtualHosts.length ∧
      (∀ (j : Nat) (vh : VirtualHost) (r : VirtualHostReport),
        virtualHosts[j]? = some vh → report1.virtualHostReports[j]? = some r →
        (flaggedFor D r = true ↔ claimsDomain D vh = true)) ∧
      report1.virtualHostReports.countP (flaggedFor D)
        = virtualHosts.countP (claimsDomain D) := by
  obtain ⟨m, rs, hrun, hlen, hcnt, hget, hnd, hbd⟩ :=
    collectVirtualHosts_spec virtualHosts.length virtualHosts 0 [] report.virtualHostReports
      halign (by omega)
  have hnd1 : (m.map Prod.fst).Nodup := hnd (by simp)
  have hbd1 : ∀ b ∈ m, ∀ x ∈ b.2, x < virtualHosts.length := hbd (by simp)
  have hperm := horder m
  have hbd2 : ∀ b ∈ order m, ∀ x ∈ b.2, x < virtualHosts.length :=
    fun b hb => hbd1 b (hperm.mem_iff.mp hb)
  have hnd2 : ((order m).map Prod.fst).Nodup :=
    (List.Perm.nodup_iff (hperm.map Prod.fst)).mpr hnd1
  obtain ⟨rs1, hrun1, hlen1, hcnt1⟩ :=
    reportConflicts_spec D virtualHosts (order m) rs hlen hbd2
  have hbucket : DomainMap.get m D = claimIdxs D 0 virtualHosts := by
    rw [hget D]; simp [DomainMap.get]
  have hblen : 2 ≤ (claimIdxs D 0 virtualHosts).length :=
    le_trans hD (countP_claims_le_length_claimIdxs D virtualHosts 0)
  have hmem : (D, claimIdxs D 0 virtualHosts) ∈ order m := by
    apply hperm.mem_iff.mpr
    rw [← hbucket]
    apply DomainMap.mem_of_get_ne_nil
    rw [hbucket]
    intro h
    rw [h] at hblen
    simp at hblen
  have hfinal : ∀ j, dnuCountAt D rs1 j = (claimIdxs D 0 virtualHosts).count j := by
    intro j
    rw [hcnt1 j, hcnt D j, conflictBump_of_mem D j _ (order m) hnd2 hmem]
    have hzero : dnuCountAt D report.virtualHostReports j = 0 := by
      unfold dnuCountAt
      cases hr : report.virtualHostReports[j]? with
      | none => rfl
      | some r =>
        have hr' : r ∈ report.virtualHostReports := List.getElem?_mem hr
        have hf := hfresh r hr'
        have : ¬ 0 < dnuCount D r := by
          rw [← flaggedFor_iff_dnuCount_pos]; simp [hf]
        simp only
        omega
    have hgt : (claimIdxs D 0 virtualHosts).length > 1 := by omega
    simp [hzero, hgt]
  have hpoint : ∀ (j : Nat) (vh : VirtualHost) (r : VirtualHostReport),
      virtualHosts[j]? = some vh → rs1[j]? = some r →
      (flaggedFor D r = true ↔ claimsDomain D vh = true) := by
    intro j vh r hvh hr
    rw [flaggedFor_iff_dnuCount_pos]
    have h1 : dnuCountAt D rs1 j = dnuCount D r := by simp [dnuCountAt, hr]
    rw [← h1, hfinal j, count_claimIdxs_pos]
    constructor
    · rintro ⟨w, _, hw, hc⟩
      simp only [Nat.sub_zero] at hw
      rw [hvh] at hw
      cases hw
      exact hc
    · intro hc
      exact ⟨vh, Nat.zero_le _, by simpa using hvh, hc⟩
  refine ⟨{ report with virtualHostReports := rs1 }, ?_, hlen1, hpoint, ?_⟩
  · simp [ValidateVirtualHostDomains, hrun, hrun1]
  · exact countP_eq_of_getElem? (flaggedFor D) (claimsDomain D) rs1 virtualHosts hlen1
      (fun j r vh hr hvh => hpoint j vh r hvh hr)

/-- Witness of C1: two virtual hosts that both list "x". -/
theorem C1_domains_not_unique_flags_every_claimant_witness :
    ∃ report1,
      ValidateVirtualHostDomains id
        [⟨"a", ["x"], []⟩, ⟨"b", ["x", "y"], []⟩, ⟨"c", ["z"], []⟩]
        ⟨[], [⟨[], []⟩, ⟨[], []⟩, ⟨[], []⟩]⟩ = some report1 ∧
      report1.virtualHostReports.length
        = ([⟨"a", ["x"], []⟩, ⟨"b", ["x", "y"], []⟩, ⟨"c", ["z"], []⟩] :
            List VirtualHost).length ∧
      (∀ (j : Nat) (vh : VirtualHost) (r : VirtualHostReport),
        ([⟨"a", ["x"], []⟩, ⟨"b", ["x", "y"], []⟩, ⟨"c", ["z"], []⟩] :
            List VirtualHost)[j]? = some vh →
        report1.virtualHostReports[j]? = some r →
        (flaggedFor "x" r = true ↔ claimsDomain "x" vh = true)) ∧
      report1.virtualHostReports.countP (flaggedFor "x")
        = ([⟨"a", ["x"], []⟩, ⟨"b", ["x", "y"], []⟩, ⟨"c", ["z"], []⟩] :
            List VirtualHost).countP (claimsDomain "x") :=
  C1_domains_not_unique_flags_every_claimant id (fun m => List.Perm.refl m)
    [⟨"a", ["x"], []⟩, ⟨"b", ["x", "y"], []⟩, ⟨"c", ["z"], []⟩]
    ⟨[], [⟨[], []⟩, ⟨[], []⟩, ⟨[], []⟩]⟩ "x" (by decide) (by decide) (by decide)

/-! ### Plugin loops of `setAction` never write warnings -/

theorem runRoutePlugins_warnings (params : RouteParams) (input : Route) :
    ∀ (plugins : List Plugin) (out : Envoy.Route) (routeReport : RouteReport),
      (runRoutePlugins params input plugins (out, routeReport)).2.warnings
        = routeReport.warnings := by
  intro plugins
  induction plugins with
  | nil => intro out routeReport; rfl
  | cons plug rest ih =>
    intro out routeReport
    unfold runRoutePlugins
    cases hp : plug.ProcessRoute with
    | none => simp only [ih]
    | some hook =>
      simp only
      rcases hh : hook params input out with ⟨out1, _ | err⟩
      · simp only [ih]
      · simp only
        split
        · simp only [ih]
        · simp only [ih, AppendRouteError]

theorem runRouteActionPlugins_warnings (params : RouteParams) (input : Route)
    (inAction : RouteAction) :
    ∀ (plugins : List Plugin) (out : Envoy.Route) (routeReport : RouteReport),
      (runRouteActionPlugins params input inAction plugins (out, routeReport)).2.warnings
        = routeReport.warnings := by
  intro plugins
  induction plugins with
  | nil => intro out routeReport; rfl
  | cons plug rest ih =>
    intro out routeReport
    unfold runRouteActionPlugins
    cases hp : plug.ProcessRouteAction with
    | none => simp only [ih]
    | some hook =>
      cases ho : out.GetRoute with
      | none => simp only [ih]
      | some outRoute =>
        simp only
        rcases hh : hook ⟨params, input⟩ inAction outRoute with ⟨out1, _ | err⟩
        · simp only [ih]
        · simp only
          split
          · simp only [ih]
          · simp only [ih, AppendRouteError]

/-! ### Claim C2 -/

/-- C2, counterexample: a route with the subset `env: prod` to an upstream that is in the
snapshot and declares no subset spec. `setAction` records no error at all; the
subset-misconfigured failure is recorded as a warning. -/
theorem C2_subsets_misconfigured_is_not_an_error :
    (setAction sampleExternal sampleTranslator sampleParams ⟨[], []⟩
        sampleSubsetRoute sampleOut).2.errors = [] ∧
    (setAction sampleExternal sampleTranslator sampleParams ⟨[], []⟩
        sampleSubsetRoute sampleOut).2.warnings
      = [⟨.InvalidDestinationWarning, .errText .SubsetsMisconfiguredErr⟩] := by
  decide

/-- C2, amended: for a Single destination with a non-empty subset selector whose upstream
is in the snapshot and declares no subset spec, `setAction` sets the cluster specifier
and hands the route to the plugin hooks with the subset-misconfigured failure recorded
as an `InvalidDestinationWarning` and with no error added; the final report carries
exactly that one new warning, and without plugins its errors are unchanged. -/
theorem C2_subsets_misconfigured_is_a_warning
    (ext : External) (t : translatorInstance) (params : RouteParams)
    (routeReport : RouteReport) (input : Route) (out : Envoy.Route)
    (single : Destination) (subset : Subset) (ref : ResourceRef) (upstream : Upstream)
    (haction : input.action = .RouteAction ⟨.Single single⟩)
    (hsubset : single.subset = some subset)
    (hnonempty : GoMap.len subset.values ≠ 0)
    (hconv : ext.DestinationToUpstreamRef single = .ok ref)
    (hfound : UpstreamList.Find params.params.snapshot.upstreams ref.Namespace ref.name
      = some upstream)
    (hnospec : getSubsets upstream = none) :
    setAction ext t params routeReport input out
      = runRouteActionPlugins params input ⟨.Single single⟩ t.plugins
          (runRoutePlugins params input t.plugins
            ({ out with action := some (.Route
                ⟨some (.Cluster (ext.UpstreamToClusterName ref)),
                  getSubsetMatch ext single⟩) },
              AppendRouteWarning routeReport .InvalidDestinationWarning
                (.errText .SubsetsMisconfiguredErr))) ∧
    (setAction ext t params routeReport input out).2.warnings
      = routeReport.warnings
          ++ [⟨.InvalidDestinationWarning, .errText .SubsetsMisconfiguredErr⟩] ∧
    (t.plugins = [] →
      (setAction ext t params routeReport input out).2.errors = routeReport.errors) := by
  have hcheck : checkThatSubsetMatchesUpstream ext params.params single
      = some .SubsetsMisconfiguredErr := by
    simp [checkThatSubsetMatchesUpstream, hsubset, hnonempty, hconv, hfound, hnospec]
  have hval : ValidateRouteDestinations ext params.params.snapshot ⟨.Single single⟩ = none := by
    simp [ValidateRouteDestinations, validateSingleDestination, hconv, hfound]
  have heq : setAction ext t params routeReport input out
      = runRouteActionPlugins params input ⟨.Single single⟩ t.plugins
          (runRoutePlugins params input t.plugins
            ({ out with action := some (.Route
                ⟨some (.Cluster (ext.UpstreamToClusterName ref)),
                  getSubsetMatch ext single⟩) },
              AppendRouteWarning routeReport .InvalidDestinationWarning
                (.errText .SubsetsMisconfiguredErr))) := by
    simp [setAction, haction, hval, setRouteAction, hconv, hcheck, isWarningErr]
  refine ⟨heq, ?_, ?_⟩
  · rw [heq, runRouteActionPlugins_warnings, runRoutePlugins_warnings]
    rfl
  · intro hp
    rw [heq, hp]
    rfl

/-- Witness of C2 (amended): the sample route with the subset `env: prod`. -/
theorem C2_subsets_misconfigured_is_a_warning_witness :
    (setAction sampleExternal sampleTranslator sampleParams ⟨[], []⟩
        sampleSubsetRoute sampleOut).2.warnings
      = [] ++ [⟨.InvalidDestinationWarning, .errText .SubsetsMisconfiguredErr⟩] :=
  (C2_subsets_misconfigured_is_a_warning sampleExternal sampleTranslator sampleParams
    ⟨[], []⟩ sampleSubsetRoute sampleOut
    ⟨.Upstream ⟨"gloo-system", "web"⟩, some ⟨[("env", "prod")]⟩⟩ ⟨[("env", "prod")]⟩
    ⟨"gloo-system", "web"⟩ ⟨⟨"gloo-system", "web"⟩, .withSubsetSpecGetter "kube" none⟩
    rfl rfl (by decide) rfl (by decide) rfl).2.1

/-! ### Claim C3 -/

/-- C3, counterexample: with an empty destination list and an output route action whose
cluster specifier is unset, `setWeightedClusters` returns
`NoDestinationSpecifiedError` and leaves the cluster specifier set (to a weighted-cluster
specifier without clusters), not unset. -/
theorem C3_empty_destinations_specifier_is_set :
    (setWeightedClusters sampleExternal sampleTranslator sampleParams ⟨[]⟩ ⟨none, none⟩
        ⟨[], []⟩ "vh-route-0-matcher-0").2.2 = some .NoDestinationSpecifiedError ∧
    (setWeightedClusters sampleExternal sampleTranslator sampleParams ⟨[]⟩ ⟨none, none⟩
        ⟨[], []⟩ "vh-route-0-matcher-0").1.clusterSpecifier ≠ none := by
  decide

/-- C3, amended: for an empty weighted destination list `setWeightedClusters` returns
`NoDestinationSpecifiedError`, leaves the report as it was, and leaves the output route
action with a weighted-cluster specifier that has no clusters and no total weight. -/
theorem C3_empty_destinations_error_and_empty_specifier
    (ext : External) (t : translatorInstance) (params : RouteParams)
    (multiDest : MultiDestination) (out : Envoy.RouteAction) (routeReport : RouteReport)
    (routeName : String) (hempty : multiDest.destinations = []) :
    setWeightedClusters ext t params multiDest out routeReport routeName
      = ({ out with clusterSpecifier := some (.WeightedClusters ⟨[], none⟩) },
          routeReport, some .NoDestinationSpecifiedError) := by
  simp [setWeightedClusters, hempty]

/-- Witness of C3 (amended): the empty destination list. -/
theorem C3_empty_destinations_error_and_empty_specifier_witness :
    setWeightedClusters sampleExternal sampleTranslator sampleParams ⟨[]⟩ ⟨none, none⟩
        ⟨[], []⟩ "vh-route-0-matcher-0"
      = (⟨some (.WeightedClusters ⟨[], none⟩), none⟩, ⟨[], []⟩,
          some .NoDestinationSpecifiedError) :=
  C3_empty_destinations_error_and_empty_specifier sampleExternal sampleTranslator
    sampleParams ⟨[]⟩ ⟨none, none⟩ ⟨[], []⟩ "vh-route-0-matcher-0" rfl

/-! ### Claim C4 -/

theorem weightedClustersLoop_totalWeight (ext : External) (t : translatorInstance)
    (params : RouteParams) (routeName : String) :
    ∀ (dests : List WeightedDestination) (st st1 : WeightedState),
      st.totalWeight < 2 ^ 32 →
      weightedClustersLoop ext t params routeName dests st = (st1, none) →
      st1.totalWeight = (st.totalWeight + (dests.map (·.weight)).sum) % 2 ^ 32 := by
  intro dests
  induction dests with
  | nil =>
    intro st st1 hlt h
    simp only [weightedClustersLoop, Prod.mk.injEq, and_true] at h
    subst h
    have h32 : st.totalWeight < 4294967296 := by simpa using hlt
    simp [Nat.mod_eq_of_lt h32]
  | cons d rest ih =>
    intro st st1 hlt h
    unfold weightedClustersLoop at h
    cases hconv : ext.DestinationToUpstreamRef d.destination with
    | error err => simp [hconv] at h
    | ok usRef =>
      simp only [hconv] at h
      cases hchk : checkThatSubsetMatchesUpstream ext params.params d.destination with
      | some err => simp [hchk] at h
      | none =>
        simp only [hchk] at h
        have hstep := ih _ st1 (Nat.mod_lt _ (by norm_num)) h
        rw [hstep]
        simp only [List.map_cons, List.sum_cons]
        rw [Nat.add_mod, Nat.mod_mod, ← Nat.add_mod, Nat.add_assoc]

/-- C4, counterexample: two destinations of weight `2^31` each. `setWeightedClusters`
returns no error and emits `TotalWeight = 0`, while the sum of the weights is `2^32`. -/
theorem C4_total_weight_wraps :
    (setWeightedClusters sampleExternal sampleTranslator sampleParams
        sampleHeavyDestinations ⟨none, none⟩ ⟨[], []⟩ "vh-route-0-matcher-0").2.2 = none ∧
    (setWeightedClusters sampleExternal sampleTranslator sampleParams
        sampleHeavyDestinations ⟨none, none⟩ ⟨[], []⟩ "vh-route-0-matcher-0").1.clusterSpecifier
      = some (.WeightedClusters
          ⟨[⟨"web_gloo-system", some 2147483648, none⟩,
            ⟨"web_gloo-system", some 2147483648, none⟩], some 0⟩) ∧
    (sampleHeavyDestinations.destinations.map (·.weight)).sum = 4294967296 := by
  decide

/-- C4, amended: for every non-empty weighted destination list for which
`setWeightedClusters` returns no error, the emitted `TotalWeight` is the sum of the listed
weights reduced modulo `2^32`; it is the exact sum whenever that sum is below `2^32`. -/
theorem C4_total_weight_is_sum_mod_2_32
    (ext : External) (t : translatorInstance) (params : RouteParams)
    (multiDest : MultiDestination) (out : Envoy.RouteAction) (routeReport : RouteReport)
    (routeName : String) (hne : multiDest.destinations ≠ [])
    (hok : (setWeightedClusters ext t params multiDest out routeReport routeName).2.2 = none) :
    (∃ clusters,
      (setWeightedClusters ext t params multiDest out routeReport routeName).1.clusterSpecifier
        = some (.WeightedClusters
            ⟨clusters, some ((multiDest.destinations.map (·.weight)).sum % 2 ^ 32)⟩)) ∧
    ((multiDest.destinations.map (·.weight)).sum < 2 ^ 32 →
      ∃ clusters,
        (setWeightedClusters ext t params multiDest out routeReport
            routeName).1.clusterSpecifier
          = some (.WeightedClusters
              ⟨clusters, some (multiDest.destinations.map (·.weight)).sum⟩)) := by
  have hlen : ¬ multiDest.destinations.length = 0 := by
    intro h; exact hne (List.length_eq_zero.mp h)
  have key : ∃ clusters,
      (setWeightedClusters ext t params multiDest out routeReport routeName).1.clusterSpecifier
        = some (.WeightedClusters
            ⟨clusters, some ((multiDest.destinations.map (·.weight)).sum % 2 ^ 32)⟩) := by
    unfold setWeightedClusters at hok ⊢
    simp only [hlen, if_false] at hok ⊢
    rcases hloop : weightedClustersLoop ext t params routeName multiDest.destinations
        ⟨[], 0, routeReport⟩ with ⟨st, _ | err⟩
    · have htot := weightedClustersLoop_totalWeight ext t params routeName
        multiDest.destinations ⟨[], 0, routeReport⟩ st (by norm_num) hloop
      simp only [Nat.zero_add] at htot
      exact ⟨st.clusters, by simp [htot]⟩
    · simp [hloop] at hok
  refine ⟨key, ?_⟩
  intro hlt
  obtain ⟨clusters, hc⟩ := key
  exact ⟨clusters, by rw [hc, Nat.mod_eq_of_lt hlt]⟩

/-- Witness of C4 (amended): the two heavy destinations, whose weights sum to `2^32`. -/
theorem C4_total_weight_is_sum_mod_2_32_witness :
    ∃ clusters,
      (setWeightedClusters sampleExternal sampleTranslator sampleParams
          sampleHeavyDestinations ⟨none, none⟩ ⟨[], []⟩
          "vh-route-0-matcher-0").1.clusterSpecifier
        = some (.WeightedClusters
            ⟨clusters,
              some ((sampleHeavyDestinations.destinations.map (·.weight)).sum % 2 ^ 32)⟩) :=
  (C4_total_weight_is_sum_mod_2_32 sampleExternal sampleTranslator sampleParams
    sampleHeavyDestinations ⟨none, none⟩ ⟨[], []⟩ "vh-route-0-matcher-0"
    (by decide) (by decide)).1

/-! ### Claim C5 -/

/-- C5: for a route whose route action names an upstream group that the snapshot lacks,
`setAction` gives the route a cluster specifier with the empty cluster name and hands
it to the plugin hooks with two upstream-group-not-found warnings appended (one from
destination validation, one from action resolution) and no error added. The final
report carries exactly these new warnings, and without plugins the emitted route has
the empty-named cluster and the errors of the report are unchanged. -/
theorem C5_missing_upstream_group_warns_and_keeps_route
    (ext : External) (t : translatorInstance) (params : RouteParams)
    (routeReport : RouteReport) (input : Route) (out : Envoy.Route) (ref : ResourceRef)
    (haction : input.action = .RouteAction ⟨.UpstreamGroup ref⟩)
    (hmissing : UpstreamGroupList.Find params.params.snapshot.upstreamGroups
      ref.Namespace ref.name = none) :
    setAction ext t params routeReport input out
      = runRouteActionPlugins params input ⟨.UpstreamGroup ref⟩ t.plugins
          (runRoutePlugins params input t.plugins
            ({ out with action := some (.Route ⟨some (.Cluster ""), none⟩) },
              AppendRouteWarning
                (AppendRouteWarning routeReport .InvalidDestinationWarning
                  (.errText (.UpstreamGroupNotFoundErr ref)))
                .InvalidDestinationWarning (.errText (.UpstreamGroupNotFoundErr ref)))) ∧
    (setAction ext t params routeReport input out).2.warnings
      = routeReport.warnings
          ++ [⟨.InvalidDestinationWarning, .errText (.UpstreamGroupNotFoundErr ref)⟩,
              ⟨.InvalidDestinationWarning, .errText (.UpstreamGroupNotFoundErr ref)⟩] ∧
    (t.plugins = [] →
      (setAction ext t params routeReport input out).1
        = { out with action := some (.Route ⟨some (.Cluster ""), none⟩) } ∧
      (setAction ext t params routeReport input out).2.errors = routeReport.errors) := by
  have hval : ValidateRouteDestinations ext params.params.snapshot ⟨.UpstreamGroup ref⟩
      = some (.UpstreamGroupNotFoundErr ref) := by
    simp [ValidateRouteDestinations, validateUpstreamGroup, hmissing]
  have heq : setAction ext t params routeReport input out
      = runRouteActionPlugins params input ⟨.UpstreamGroup ref⟩ t.plugins
          (runRoutePlugins params input t.plugins
            ({ out with action := some (.Route ⟨some (.Cluster ""), none⟩) },
              AppendRouteWarning
                (AppendRouteWarning routeReport .InvalidDestinationWarning
                  (.errText (.UpstreamGroupNotFoundErr ref)))
                .InvalidDestinationWarning (.errText (.UpstreamGroupNotFoundErr ref)))) := by
    simp [setAction, haction, hval, setRouteAction, hmissing, isWarningErr,
      IsDestinationNotFoundErr]
  refine ⟨heq, ?_, ?_⟩
  · rw [heq, runRouteActionPlugins_warnings, runRoutePlugins_warnings]
    simp [AppendRouteWarning]
  · intro hp
    rw [heq, hp]
    exact ⟨rfl, rfl⟩

/-- Witness of C5: the sample route to the upstream group `gloo-system/missing`. -/
theorem C5_missing_upstream_group_warns_and_keeps_route_witness :
    (setAction sampleExternal sampleTranslator sampleParams ⟨[], []⟩
        sampleGroupRoute sampleOut).2.warnings
      = [] ++ [⟨.InvalidDestinationWarning,
                .errText (.UpstreamGroupNotFoundErr ⟨"gloo-system", "missing"⟩)⟩,
              ⟨.InvalidDestinationWarning,
                .errText (.UpstreamGroupNotFoundErr ⟨"gloo-system", "missing"⟩)⟩] :=
  (C5_missing_upstream_group_warns_and_keeps_route sampleExternal sampleTranslator
    sampleParams ⟨[], []⟩ sampleGroupRoute sampleOut ⟨"gloo-system", "missing"⟩
    rfl (by decide)).2.1

/-! ### Claim C6 -/

/-- C6: for a route without matchers `initRoutes` returns exactly one route, whose match
has the path specifier prefix "/" and neither header nor query-parameter matchers,
and it leaves the route report as it was. -/
theorem C6_no_matchers_single_prefix_route
    (ext : External) (input : Route) (routeReport : RouteReport) (generatedName : String)
    (hnone : input.matchers = []) :
    initRoutes ext input routeReport generatedName
      = ([⟨"", some ⟨some (.Prefix "/"), [], [], none⟩, none⟩], routeReport) := by
  simp [initRoutes, hnone]

/-- Witness of C6: the sample route, which has no matchers. -/
theorem C6_no_matchers_single_prefix_route_witness :
    initRoutes sampleExternal sampleGroupRoute ⟨[], []⟩ "vh-route-0"
      = ([⟨"", some ⟨some (.Prefix "/"), [], [], none⟩, none⟩], ⟨[], []⟩) :=
  C6_no_matchers_single_prefix_route sampleExternal sampleGroupRoute ⟨[], []⟩ "vh-route-0" rfl

/-! ### Claim C7 -/

/-- C7: when the network filter translator returns an empty filter list,
`httpFilterChainTranslator.ComputeFilterChains` returns the empty chain list, for all
TLS configs, default TLS config and source-prefix ranges of the translator. -/
theorem C7_no_filters_no_chains
    (ext : External) (h : httpFilterChainTranslator) (params : Params)
    (parentReport : ListenerReport)
    (hempty : (h.networkFilterTranslator.ComputeNetworkFilters params parentReport).1.1 = []) :
    (h.ComputeFilterChains ext params parentReport).1 = [] := by
  unfold httpFilterChainTranslator.ComputeFilterChains
  rcases hres : h.networkFilterTranslator.ComputeNetworkFilters params parentReport with
    ⟨⟨networkFilters, _ | err⟩, parentReport1⟩
  · rw [hres] at hempty
    simp only at hempty
    subst hempty
    simp
  · simp

/-- Witness of C7: a translator with two TLS configs and a source-prefix range whose
network filter translator builds no filter. -/
theorem C7_no_filters_no_chains_witness :
    (sampleEmptyHttpFilterChainTranslator.ComputeFilterChains sampleExternal
        ⟨sampleTlsSnapshot⟩ ⟨[], .unset⟩).1 = [] :=
  C7_no_filters_no_chains sampleExternal sampleEmptyHttpFilterChainTranslator
    ⟨sampleTlsSnapshot⟩ ⟨[], .unset⟩ rfl

/-! ### Claims C8 and C9 -/

theorem secureFilterChainsLoop_eq (ext : External) (h : httpFilterChainTranslator)
    (snap : ApiSnapshot) (networkFilters : List Envoy.Filter) :
    ∀ (sslConfigurations : List SslConfig) (acc : List Envoy.FilterChain)
      (parentReport : ListenerReport),
      secureFilterChainsLoop ext h snap networkFilters sslConfigurations (acc, parentReport)
        = (acc ++ sslConfigurations.filterMap
              (fun c => sslFilterChainOf.chain? (sslFilterChainOf ext h snap networkFilters c)),
            { parentReport with
              errors := parentReport.errors ++ sslConfigurations.filterMap
                (fun c =>
                  sslFilterChainOf.error? (sslFilterChainOf ext h snap networkFilters c)) }) := by
  intro sslConfigurations
  induction sslConfigurations with
  | nil => intro acc parentReport; simp [secureFilterChainsLoop]
  | cons c rest ih =>
    intro acc parentReport
    unfold secureFilterChainsLoop
    cases hres : h.sslConfigTranslator.ResolveDownstreamSslConfig snap.secrets c with
    | error err =>
      simp only [ih]
      simp [sslFilterChainOf, hres, sslFilterChainOf.chain?, sslFilterChainOf.error?,
        AppendListenerError, List.filterMap_cons]
    | ok ctx =>
      simp only
      cases hnew : newSslFilterChain ext ctx c.sniDomains networkFilters
          c.transportSocketConnectTimeout with
      | error err =>
        simp only [ih]
        simp [sslFilterChainOf, hres, hnew, sslFilterChainOf.chain?,
          sslFilterChainOf.error?, AppendListenerError, List.filterMap_cons]
      | ok filterChain =>
        simp only [ih]
        simp [sslFilterChainOf, hres, hnew, sslFilterChainOf.chain?,
          sslFilterChainOf.error?, List.filterMap_cons]

theorem sslFilterChainOf.chain?_ok (fc : Envoy.FilterChain) :
    sslFilterChainOf.chain? (.ok fc) = some fc := rfl

theorem sslFilterChainOf.chain?_error (err : Err) :
    sslFilterChainOf.chain? (.error err) = none := rfl

theorem sslFilterChainOf.error?_ok (fc : Envoy.FilterChain) :
    sslFilterChainOf.error? (.ok fc) = none := rfl

theorem sslFilterChainOf.error?_error (err : Err) :
    sslFilterChainOf.error? (.error err) = some ⟨.SSLConfigError, .errText err⟩ := rfl

theorem length_filterMap_chain_add_error {α : Type} (f : α → Except Err Envoy.FilterChain) :
    ∀ l : List α,
      (l.filterMap (fun c => sslFilterChainOf.chain? (f c))).length
        + (l.filterMap (fun c => sslFilterChainOf.error? (f c))).length = l.length := by
  intro l
  induction l with
  | nil => rfl
  | cons a rest ih =>
    cases hf : f a with
    | error err =>
      simp only [List.filterMap_cons, hf, sslFilterChainOf.chain?_error,
        sslFilterChainOf.error?_error, List.length_cons]
      omega
    | ok fc =>
      simp only [List.filterMap_cons, hf, sslFilterChainOf.chain?_ok,
        sslFilterChainOf.error?_ok, List.length_cons]
      omega

/-- C8: for a non-empty list of TLS configs, `createFilterChainsFromSslConfiguration`
returns, in the original order, the chain of every config whose downstream TLS context
resolves and serialises, and appends to the report one `SSLConfigError` for every
config that fails and nothing else; so the number of chains plus the number of
appended errors is the number of configs. -/
theorem C8_one_chain_or_one_error_per_tls_config
    (ext : External) (h : httpFilterChainTranslator) (snap : ApiSnapshot)
    (networkFilters : List Envoy.Filter) (sslConfigurations : List SslConfig)
    (parentReport : ListenerReport) (hne : sslConfigurations ≠ []) :
    (createFilterChainsFromSslConfiguration ext h snap networkFilters sslConfigurations
        parentReport).1
      = sslConfigurations.filterMap
          (fun c => sslFilterChainOf.chain? (sslFilterChainOf ext h snap networkFilters c)) ∧
    (createFilterChainsFromSslConfiguration ext h snap networkFilters sslConfigurations
        parentReport).2
      = { parentReport with
          errors := parentReport.errors ++ sslConfigurations.filterMap
            (fun c =>
              sslFilterChainOf.error? (sslFilterChainOf ext h snap networkFilters c)) } ∧
    (∀ e ∈ sslConfigurations.filterMap
        (fun c => sslFilterChainOf.error? (sslFilterChainOf ext h snap networkFilters c)),
      e.type = .SSLConfigError) ∧
    (createFilterChainsFromSslConfiguration ext h snap networkFilters sslConfigurations
        parentReport).1.length
      + ((createFilterChainsFromSslConfiguration ext h snap networkFilters sslConfigurations
          parentReport).2.errors.length - parentReport.errors.length)
      = sslConfigurations.length := by
  have hlen : ¬ sslConfigurations.length = 0 := by
    intro hz; exact hne (List.length_eq_zero.mp hz)
  have heq : createFilterChainsFromSslConfiguration ext h snap networkFilters
      sslConfigurations parentReport
      = (sslConfigurations.filterMap
          (fun c => sslFilterChainOf.chain? (sslFilterChainOf ext h snap networkFilters c)),
        { parentReport with
          errors := parentReport.errors ++ sslConfigurations.filterMap
            (fun c =>
              sslFilterChainOf.error? (sslFilterChainOf ext h snap networkFilters c)) }) := by
    simp [createFilterChainsFromSslConfiguration, hlen, secureFilterChainsLoop_eq]
  refine ⟨by rw [heq], by rw [heq], ?_, ?_⟩
  · intro e he
    simp only [List.mem_filterMap] at he
    obtain ⟨c, _, hc⟩ := he
    cases hr : sslFilterChainOf ext h snap networkFilters c with
    | error err =>
      rw [hr] at hc
      simp only [sslFilterChainOf.error?, Option.some.injEq] at hc
      rw [← hc]
    | ok fc =>
      rw [hr] at hc
      simp [sslFilterChainOf.error?] at hc
  · rw [heq]
    simp only [List.length_append, Nat.add_sub_cancel_left]
    exact length_filterMap_chain_add_error _ sslConfigurations

/-- Witness of C8: three TLS configs of which the second fails to resolve give two
chains and one appended error. -/
theorem C8_one_chain_or_one_error_per_tls_config_witness :
    (createFilterChainsFromSslConfiguration sampleExternal sampleHttpFilterChainTranslator
        sampleTlsSnapshot sampleFilters sampleMixedSslConfigs ⟨[], .unset⟩).1.length
      + ((createFilterChainsFromSslConfiguration sampleExternal
          sampleHttpFilterChainTranslator sampleTlsSnapshot sampleFilters
          sampleMixedSslConfigs ⟨[], .unset⟩).2.errors.length - 0)
      = 3 :=
  (C8_one_chain_or_one_error_per_tls_config sampleExternal sampleHttpFilterChainTranslator
    sampleTlsSnapshot sampleFilters sampleMixedSslConfigs ⟨[], .unset⟩ (by decide)).2.2.2

/-- C9: for `k` built network filters and a non-empty list of `N` TLS configs that all
resolve and serialise, `createFilterChainsFromSslConfiguration` returns exactly `N`
chains and leaves the report as it was; the chain of the i-th config carries that
config's SNI domains as server names, the TLS transport socket built from that config's
resolved context, that config's transport-socket connect timeout, and the `k` built
filters in the same order. -/
theorem C9_one_tls_chain_per_resolved_config
    (ext : External) (h : httpFilterChainTranslator) (snap : ApiSnapshot)
    (networkFilters : List Envoy.Filter) (sslConfigurations : List SslConfig)
    (parentReport : ListenerReport)
    (ctxOf : SslConfig → Envoy.DownstreamTlsContext) (anyOf : SslConfig → Envoy.Any)
    (hne : sslConfigurations ≠ [])
    (hresolve : ∀ c ∈ sslConfigurations,
      h.sslConfigTranslator.ResolveDownstreamSslConfig snap.secrets c = .ok (ctxOf c) ∧
      ext.MessageToAny (ctxOf c) = .ok (anyOf c)) :
    createFilterChainsFromSslConfiguration ext h snap networkFilters sslConfigurations
        parentReport
      = (sslConfigurations.map (fun c =>
          ({ filterChainMatch := some
              { destinationPort := none, serverNames := c.sniDomains,
                transportProtocol := "", sourcePrefixRanges := [] }
             filters := networkFilters
             transportSocket := some ⟨ext.TransportSocketTls, some (anyOf c)⟩
             transportSocketConnectTimeout := c.transportSocketConnectTimeout } :
            Envoy.FilterChain)),
          parentReport) ∧
    (createFilterChainsFromSslConfiguration ext h snap networkFilters sslConfigurations
        parentReport).1.length = sslConfigurations.length := by
  have hlen : ¬ sslConfigurations.length = 0 := by
    intro hz; exact hne (List.length_eq_zero.mp hz)
  have hof : ∀ c ∈ sslConfigurations,
      sslFilterChainOf ext h snap networkFilters c
        = .ok { filterChainMatch := some
                  { destinationPort := none, serverNames := c.sniDomains,
                    transportProtocol := "", sourcePrefixRanges := [] }
                filters := networkFilters
                transportSocket := some ⟨ext.TransportSocketTls, some (anyOf c)⟩
                transportSocketConnectTimeout := c.transportSocketConnectTimeout } := by
    intro c hc
    obtain ⟨h1, h2⟩ := hresolve c hc
    simp [sslFilterChainOf, h1, newSslFilterChain, h2, cloneListenerFilters]
  have hchains : ∀ l : List SslConfig, (∀ c ∈ l, c ∈ sslConfigurations) →
      l.filterMap
          (fun c => sslFilterChainOf.chain? (sslFilterChainOf ext h snap networkFilters c))
        = l.map (fun c =>
          ({ filterChainMatch := some
              { destinationPort := none, serverNames := c.sniDomains,
                transportProtocol := "", sourcePrefixRanges := [] }
             filters := networkFilters
             transportSocket := some ⟨ext.TransportSocketTls, some (anyOf c)⟩
             transportSocketConnectTimeout := c.transportSocketConnectTimeout } :
            Envoy.FilterChain)) := by
    intro l
    induction l with
    | nil => intro _; rfl
    | cons c rest ih =>
      intro hsub
      have hc := hof c (hsub c (List.mem_cons_self _ _))
      rw [List.filterMap_cons, hc, sslFilterChainOf.chain?_ok, List.map_cons,
        ih (fun x hx => hsub x (List.mem_cons_of_mem _ hx))]
  have herrs : ∀ l : List SslConfig, (∀ c ∈ l, c ∈ sslConfigurations) →
      l.filterMap
          (fun c => sslFilterChainOf.error? (sslFilterChainOf ext h snap networkFilters c))
        = [] := by
    intro l
    induction l with
    | nil => intro _; rfl
    | cons c rest ih =>
      intro hsub
      have hc := hof c (hsub c (List.mem_cons_self _ _))
      rw [List.filterMap_cons, hc, sslFilterChainOf.error?_ok,
        ih (fun x hx => hsub x (List.mem_cons_of_mem _ hx))]
  have heq : createFilterChainsFromSslConfiguration ext h snap networkFilters
      sslConfigurations parentReport
      = (sslConfigurations.map (fun c =>
          ({ filterChainMatch := some
              { destinationPort := none, serverNames := c.sniDomains,
                transportProtocol := "", sourcePrefixRanges := [] }
             filters := networkFilters
             transportSocket := some ⟨ext.TransportSocketTls, some (anyOf c)⟩
             transportSocketConnectTimeout := c.transportSocketConnectTimeout } :
            Envoy.FilterChain)),
          parentReport) := by
    simp only [createFilterChainsFromSslConfiguration, hlen, if_false,
      secureFilterChainsLoop_eq, List.nil_append,
      hchains sslConfigurations (fun _ hc => hc), herrs sslConfigurations (fun _ hc => hc),
      List.append_nil]
  refine ⟨heq, ?_⟩
  rw [heq]
  simp

/-- Witness of C9: two TLS configs and three filters give exactly two chains. -/
theorem C9_one_tls_chain_per_resolved_config_witness :
    (createFilterChainsFromSslConfiguration sampleExternal sampleHttpFilterChainTranslator
        sampleTlsSnapshot sampleFilters sampleSslConfigs ⟨[], .unset⟩).1.length = 2 :=
  (C9_one_tls_chain_per_resolved_config sampleExternal sampleHttpFilterChainTranslator
    sampleTlsSnapshot sampleFilters sampleSslConfigs ⟨[], .unset⟩
    (fun c => match c.secretRef with
      | some ⟨_, "cert-a"⟩ => ⟨"A", none⟩
      | _ => ⟨"B", none⟩)
    (fun c => match c.secretRef with
      | some ⟨_, "cert-a"⟩ =>
        ⟨"type.googleapis.com/envoy.extensions.transport_sockets.tls.v3.DownstreamTlsContext",
          "A"⟩
      | _ =>
        ⟨"type.googleapis.com/envoy.extensions.transport_sockets.tls.v3.DownstreamTlsContext",
          "B"⟩)
    (by decide)
    (by
      intro c hc
      simp only [sampleSslConfigs, List.mem_cons, List.mem_singleton, List.mem_nil_iff,
        or_false] at hc
      rcases hc with hc | hc <;> subst hc <;> exact ⟨rfl, rfl⟩)).2

/-! ### Claim C10 -/

theorem allKeysInRouteSubset_iff (routeSubset : GoMap) :
    ∀ keys : List String,
      allKeysInRouteSubset routeSubset keys = true
        ↔ ∀ k ∈ keys, k ∈ routeSubset.map Prod.fst := by
  intro keys
  induction keys with
  | nil => simp [allKeysInRouteSubset]
  | cons k rest ih =>
    by_cases hk : k ∈ routeSubset.map Prod.fst
    · simp only [allKeysInRouteSubset, GoMap.contains, hk, decide_True, if_true, ih,
        List.mem_cons, forall_eq_or_imp, true_and]
    · simp only [allKeysInRouteSubset, GoMap.contains, hk, decide_False, List.mem_cons,
        forall_eq_or_imp, false_and]
      simp

/-- What the selector loop of `checkThatSubsetMatchesUpstream` decides: some selector
lists as many keys as the route subset has, all of them keys of the route subset. -/
theorem findMatchingSelector_iff (routeSubset : GoMap) :
    ∀ selectors : List Selector,
      findMatchingSelector routeSubset selectors = true
        ↔ ∃ s ∈ selectors, s.keys.length = GoMap.len routeSubset ∧
            ∀ k ∈ s.keys, k ∈ routeSubset.map Prod.fst := by
  intro selectors
  induction selectors with
  | nil => simp [findMatchingSelector]
  | cons s rest ih =>
    by_cases hlen : s.keys.length = GoMap.len routeSubset
    · by_cases hall : allKeysInRouteSubset routeSubset s.keys = true
      · have hall1 := (allKeysInRouteSubset_iff routeSubset s.keys).mp hall
        have hstep : findMatchingSelector routeSubset (s :: rest) = true := by
          simp [findMatchingSelector, hlen, hall]
        rw [hstep]
        simp only [true_iff]
        exact ⟨s, List.mem_cons_self _ _, hlen, hall1⟩
      · have hall1 : ¬ ∀ k ∈ s.keys, k ∈ routeSubset.map Prod.fst :=
          fun hx => hall ((allKeysInRouteSubset_iff routeSubset s.keys).mpr hx)
        have hstep : findMatchingSelector routeSubset (s :: rest)
            = findMatchingSelector routeSubset rest := by
          simp [findMatchingSelector, hlen, hall]
        rw [hstep, ih]
        constructor
        · rintro ⟨x, hx, h1, h2⟩
          exact ⟨x, List.mem_cons_of_mem _ hx, h1, h2⟩
        · rintro ⟨x, hx, h1, h2⟩
          rcases List.mem_cons.mp hx with hxs | hx
          · subst hxs
            exact absurd h2 hall1
          · exact ⟨x, hx, h1, h2⟩
    · have hstep : findMatchingSelector routeSubset (s :: rest)
          = findMatchingSelector routeSubset rest := by
        simp [findMatchingSelector, hlen]
      rw [hstep, ih]
      constructor
      · rintro ⟨x, hx, h1, h2⟩
        exact ⟨x, List.mem_cons_of_mem _ hx, h1, h2⟩
      · rintro ⟨x, hx, h1, h2⟩
        rcases List.mem_cons.mp hx with hxs | hx
        · subst hxs
          exact absurd h1 hlen
        · exact ⟨x, hx, h1, h2⟩

/-- For a selector that lists no key twice, the test of the selector loop is equality
of key sets. -/
theorem sameKeySet_iff_of_nodup (keys : List String) (routeSubset : GoMap)
    (hnd : keys.Nodup) :
    sameKeySet keys routeSubset = true
      ↔ keys.length = GoMap.len routeSubset ∧ ∀ k ∈ keys, k ∈ routeSubset.map Prod.fst := by
  have hcard1 : keys.toFinset.card = keys.length := List.toFinset_card_of_nodup hnd
  have hcard2 : (routeSubset.map Prod.fst).toFinset.card = GoMap.len routeSubset := by
    simp [GoMap.len, GoMap.keySet, List.card_toFinset]
  constructor
  · intro h
    simp only [sameKeySet, GoMap.contains, Bool.and_eq_true, List.all_eq_true,
      decide_eq_true_eq] at h
    obtain ⟨h1, h2⟩ := h
    refine ⟨?_, h1⟩
    have heq : keys.toFinset = (routeSubset.map Prod.fst).toFinset := by
      ext x
      simp only [List.mem_toFinset]
      exact ⟨h1 x, h2 x⟩
    rw [← hcard1, ← hcard2, heq]
  · rintro ⟨hlen, hsub⟩
    simp only [sameKeySet, GoMap.contains, Bool.and_eq_true, List.all_eq_true,
      decide_eq_true_eq]
    refine ⟨hsub, ?_⟩
    have hss : keys.toFinset ⊆ (routeSubset.map Prod.fst).toFinset := by
      intro x hx
      simp only [List.mem_toFinset] at hx ⊢
      exact hsub x hx
    have heq : keys.toFinset = (routeSubset.map Prod.fst).toFinset :=
      Finset.eq_of_subset_of_card_le hss (by rw [hcard1, hcard2, hlen])
    intro x hx
    have : x ∈ keys.toFinset := by
      rw [heq]; simpa using hx
    simpa using this

/-- For an upstream whose selectors list no key twice, `checkThatSubsetMatchesUpstream`
returns no error exactly when some selector has the key set of the route subset. -/
theorem checkThatSubsetMatchesUpstream_iff_of_nodup
    (ext : External) (params : Params) (dest : Destination) (subset : Subset)
    (ref : ResourceRef) (upstream : Upstream) (subsetConfig : SubsetSpec)
    (hsubset : dest.subset = some subset)
    (hnonempty : GoMap.len subset.values ≠ 0)
    (hconv : ext.DestinationToUpstreamRef dest = .ok ref)
    (hfound : UpstreamList.Find params.snapshot.upstreams ref.Namespace ref.name
      = some upstream)
    (hspec : getSubsets upstream = some subsetConfig)
    (hnd : ∀ s ∈ subsetConfig.selectors, s.keys.Nodup) :
    checkThatSubsetMatchesUpstream ext params dest = none
      ↔ ∃ s ∈ subsetConfig.selectors, sameKeySet s.keys subset.values = true := by
  have hiff : findMatchingSelector subset.values subsetConfig.selectors = true
      ↔ ∃ s ∈ subsetConfig.selectors, sameKeySet s.keys subset.values = true := by
    rw [findMatchingSelector_iff]
    constructor
    · rintro ⟨s, hs, h1, h2⟩
      exact ⟨s, hs, (sameKeySet_iff_of_nodup s.keys subset.values (hnd s hs)).mpr ⟨h1, h2⟩⟩
    · rintro ⟨s, hs, h⟩
      have := (sameKeySet_iff_of_nodup s.keys subset.values (hnd s hs)).mp h
      exact ⟨s, hs, this.1, this.2⟩
  rw [← hiff]
  by_cases hf : findMatchingSelector subset.values subsetConfig.selectors = true
  · simp [checkThatSubsetMatchesUpstream, hsubset, hnonempty, hconv, hfound, hspec, hf]
  · simp [checkThatSubsetMatchesUpstream, hsubset, hnonempty, hconv, hfound, hspec, hf]

/-- C10, the code at the failing input: the upstream `gloo-system/db` declares the single
selector `[a, a]` and the route subset has the keys `a` and `b`.
`checkThatSubsetMatchesUpstream` returns no error, although no selector has the key
set of the route subset; and for the route subset with the single key `a`, whose key
set equals that of the selector, it returns the no-match error. -/
theorem C10_duplicate_selector_key_accepts_mismatch :
    checkThatSubsetMatchesUpstream sampleExternal ⟨sampleSnapshot⟩ sampleTwoKeyDestination
      = none ∧
    (([⟨["a", "a"]⟩] : List Selector).any
      (fun s => sameKeySet s.keys [("a", "1"), ("b", "2")])) = false ∧
    checkThatSubsetMatchesUpstream sampleExternal ⟨sampleSnapshot⟩ sampleOneKeyDestination
      = some (.errorf
          "route has a subset config, but none of the subsets in the upstream match it") ∧
    (([⟨["a", "a"]⟩] : List Selector).any
      (fun s => sameKeySet s.keys [("a", "1")])) = true := by
  decide

/-! ### Claim C11 -/

/-- C11: `isWarningErr` is true exactly for `SubsetsMisconfiguredErr` and for the errors
`IsDestinationNotFoundErr` accepts, which are the upstream-not-found and the
upstream-group-not-found errors; it is false for every other error, among them
`NoDestinationSpecifiedError` and the error saying that none of the subsets in the
upstream match. -/
theorem C11_isWarningErr_exactly_subsets_or_not_found (err : Err) :
    (isWarningErr err = true
      ↔ (err = .SubsetsMisconfiguredErr ∨ IsDestinationNotFoundErr err = true)) ∧
    (isWarningErr err = true
      ↔ (err = .SubsetsMisconfiguredErr ∨
          ∃ ref, err = .UpstreamNotFoundErr ref ∨ err = .UpstreamGroupNotFoundErr ref)) ∧
    isWarningErr .NoDestinationSpecifiedError = false ∧
    isWarningErr (.errorf
      "route has a subset config, but none of the subsets in the upstream match it") = false := by
  refine ⟨?_, ?_, by decide, by decide⟩
  · by_cases h1 : err = .SubsetsMisconfiguredErr
    · simp [isWarningErr, h1]
    · by_cases h2 : IsDestinationNotFoundErr err = true
      · simp [isWarningErr, h1, h2]
      · simp [isWarningErr, h1, h2]
  · cases err <;> simp [isWarningErr, IsDestinationNotFoundErr]

/-! ### Claim C12 -/

theorem checkThatSubsetMatchesUpstream_of_absent
    (ext : External) (params : Params) (dest : Destination) (ref : ResourceRef)
    (hconv : ext.DestinationToUpstreamRef dest = .ok ref)
    (habsent : UpstreamList.Find params.snapshot.upstreams ref.Namespace ref.name = none) :
    checkThatSubsetMatchesUpstream ext params dest = none ∨
    checkThatSubsetMatchesUpstream ext params dest = some (.UpstreamNotFoundErr ref) := by
  unfold checkThatSubsetMatchesUpstream
  cases hs : dest.subset with
  | none => left; rfl
  | some subset =>
    by_cases hl : GoMap.len subset.values = 0
    · left; simp [hl]
    · right; simp [hl, hconv, habsent]

/-- C12: for a route with a Single destination whose upstream reference converts and
names an upstream that the snapshot lacks, `setAction` gives the route the cluster
specifier with the cluster name of that reference and hands it to the plugin hooks
with no error added and with one or two upstream-not-found warnings appended (one from
destination validation, a second one when the destination has a non-empty subset).
The final report carries exactly these new warnings, and without plugins the emitted
route and the errors of the report are as stated. -/
theorem C12_absent_upstream_warns_and_keeps_cluster
    (ext : External) (t : translatorInstance) (params : RouteParams)
    (routeReport : RouteReport) (input : Route) (out : Envoy.Route)
    (single : Destination) (ref : ResourceRef)
    (haction : input.action = .RouteAction ⟨.Single single⟩)
    (hconv : ext.DestinationToUpstreamRef single = .ok ref)
    (habsent : UpstreamList.Find params.params.snapshot.upstreams ref.Namespace ref.name
      = none) :
    ∃ report1 : RouteReport,
      report1.errors = routeReport.errors ∧
      (report1.warnings = routeReport.warnings
          ++ [⟨.InvalidDestinationWarning, .errText (.UpstreamNotFoundErr ref)⟩] ∨
        report1.warnings = routeReport.warnings
          ++ [⟨.InvalidDestinationWarning, .errText (.UpstreamNotFoundErr ref)⟩,
              ⟨.InvalidDestinationWarning, .errText (.UpstreamNotFoundErr ref)⟩]) ∧
      setAction ext t params routeReport input out
        = runRouteActionPlugins params input ⟨.Single single⟩ t.plugins
            (runRoutePlugins params input t.plugins
              ({ out with action := some (.Route
                  ⟨some (.Cluster (ext.UpstreamToClusterName ref)),
                    getSubsetMatch ext single⟩) }, report1)) ∧
      (setAction ext t params routeReport input out).2.warnings = report1.warnings ∧
      (t.plugins = [] →
        (setAction ext t params routeReport input out).1
          = { out with action := some (.Route
                ⟨some (.Cluster (ext.UpstreamToClusterName ref)),
                  getSubsetMatch ext single⟩) } ∧
        (setAction ext t params routeReport input out).2.errors = routeReport.errors) := by
  have hval : ValidateRouteDestinations ext params.params.snapshot ⟨.Single single⟩
      = some (.UpstreamNotFoundErr ref) := by
    simp [ValidateRouteDestinations, validateSingleDestination, hconv, habsent]
  have key : ∀ (report1 : RouteReport),
      setAction ext t params routeReport input out
        = runRouteActionPlugins params input ⟨.Single single⟩ t.plugins
            (runRoutePlugins params input t.plugins
              ({ out with action := some (.Route
                  ⟨some (.Cluster (ext.UpstreamToClusterName ref)),
                    getSubsetMatch ext single⟩) }, report1)) →
      (setAction ext t params routeReport input out).2.warnings = report1.warnings ∧
      (t.plugins = [] →
        (setAction ext t params routeReport input out).1
          = { out with action := some (.Route
                ⟨some (.Cluster (ext.UpstreamToClusterName ref)),
                  getSubsetMatch ext single⟩) } ∧
        (setAction ext t params routeReport input out).2.errors = report1.errors) := by
    intro report1 heq
    refine ⟨?_, ?_⟩
    · rw [heq, runRouteActionPlugins_warnings, runRoutePlugins_warnings]
    · intro hp
      rw [heq, hp]
      exact ⟨rfl, rfl⟩
  rcases checkThatSubsetMatchesUpstream_of_absent ext params.params single ref hconv habsent
    with hchk | hchk
  · have heq : setAction ext t params routeReport input out
        = runRouteActionPlugins params input ⟨.Single single⟩ t.plugins
            (runRoutePlugins params input t.plugins
              ({ out with action := some (.Route
                  ⟨some (.Cluster (ext.UpstreamToClusterName ref)),
                    getSubsetMatch ext single⟩) },
                AppendRouteWarning routeReport .InvalidDestinationWarning
                  (.errText (.UpstreamNotFoundErr ref)))) := by
      simp [setAction, haction, hval, setRouteAction, hconv, hchk]
    obtain ⟨h1, h2⟩ := key _ heq
    exact ⟨AppendRouteWarning routeReport .InvalidDestinationWarning
      (.errText (.UpstreamNotFoundErr ref)), rfl, Or.inl rfl, heq, h1, h2⟩
  · have heq : setAction ext t params routeReport input out
        = runRouteActionPlugins params input ⟨.Single single⟩ t.plugins
            (runRoutePlugins params input t.plugins
              ({ out with action := some (.Route
                  ⟨some (.Cluster (ext.UpstreamToClusterName ref)),
                    getSubsetMatch ext single⟩) },
                AppendRouteWarning
                  (AppendRouteWarning routeReport .InvalidDestinationWarning
                    (.errText (.UpstreamNotFoundErr ref)))
                  .InvalidDestinationWarning (.errText (.UpstreamNotFoundErr ref)))) := by
      simp [setAction, haction, hval, setRouteAction, hconv, hchk, isWarningErr,
        IsDestinationNotFoundErr]
    obtain ⟨h1, h2⟩ := key _ heq
    exact ⟨AppendRouteWarning
        (AppendRouteWarning routeReport .InvalidDestinationWarning
          (.errText (.UpstreamNotFoundErr ref)))
        .InvalidDestinationWarning (.errText (.UpstreamNotFoundErr ref)),
      rfl, Or.inr (by simp [AppendRouteWarning]), heq, h1, h2⟩

/-- Witness of C12: the sample route to the upstream `gloo-system/absent`, without
plugins; the emitted route points at the cluster named after the reference. -/
theorem C12_absent_upstream_warns_and_keeps_cluster_witness :
    ∃ report1 : RouteReport,
      report1.errors = [] ∧
      (report1.warnings = []
          ++ [⟨.InvalidDestinationWarning,
                .errText (.UpstreamNotFoundErr ⟨"gloo-system", "absent"⟩)⟩] ∨
        report1.warnings = []
          ++ [⟨.InvalidDestinationWarning,
                .errText (.UpstreamNotFoundErr ⟨"gloo-system", "absent"⟩)⟩,
              ⟨.InvalidDestinationWarning,
                .errText (.UpstreamNotFoundErr ⟨"gloo-system", "absent"⟩)⟩]) ∧
      (setAction sampleExternal sampleTranslator sampleParams ⟨[], []⟩
          sampleAbsentUpstreamRoute sampleOut).2.warnings = report1.warnings :=
  match C12_absent_upstream_warns_and_keeps_cluster sampleExternal sampleTranslator
      sampleParams ⟨[], []⟩ sampleAbsentUpstreamRoute sampleOut
      ⟨.Upstream ⟨"gloo-system", "absent"⟩, some ⟨[("env", "prod")]⟩⟩
      ⟨"gloo-system", "absent"⟩ rfl rfl (by decide) with
  | ⟨report1, h1, h2, _, h4, _⟩ => ⟨report1, h1, h2, h4⟩

/-! ### `initRoutes`: claims C13 and C15 -/

theorem initRoutesLoop_spec (ext : External) (input : Route) (generatedName : String) :
    ∀ (matchers : List Matcher) (i : Nat) (routeReport : RouteReport),
      (initRoutesLoop ext input generatedName i matchers routeReport).1.length
        = matchers.length ∧
      (∀ (j : Nat) (m : Matcher), matchers[j]? = some m →
        (initRoutesLoop ext input generatedName i matchers routeReport).1[j]?
          = some ⟨(if input.name ≠ "" then
                    generatedName ++ "-" ++ input.name ++ "-matcher-" ++ toString (i + j)
                  else generatedName ++ "-matcher-" ++ toString (i + j)),
              some (GlooMatcherToEnvoyMatcher ext m), none⟩) ∧
      (initRoutesLoop ext input generatedName i matchers routeReport).2
        = { routeReport with
            errors := routeReport.errors ++
              (matchers.filter (fun m => m.pathSpecifier.isNone)).map
                (fun _ => ⟨.InvalidMatcherError, .literal "no path specifier provided",
                  generatedName⟩) } := by
  intro matchers
  induction matchers with
  | nil =>
    intro i routeReport
    simp [initRoutesLoop]
  | cons m rest ih =>
    intro i routeReport
    unfold initRoutesLoop
    cases hp : m.pathSpecifier with
    | none =>
      obtain ⟨hlen, hget, hrep⟩ := ih (i + 1)
        (AppendRouteError routeReport .InvalidMatcherError
          (.literal "no path specifier provided") generatedName)
      refine ⟨by simp [hlen], ?_, ?_⟩
      · intro j m1 hj
        cases j with
        | zero =>
          simp only [List.getElem?_cons_zero, Option.some.injEq] at hj
          subst hj
          simp
        | succ k =>
          simp only [List.getElem?_cons_succ] at hj
          have := hget k m1 hj
          simp only [List.getElem?_cons_succ]
          rw [this]
          have hidx : i + 1 + k = i + (k + 1) := by omega
          rw [hidx]
      · simp only [hrep]
        simp [AppendRouteError, List.filter_cons, hp]
    | some ps =>
      obtain ⟨hlen, hget, hrep⟩ := ih (i + 1) routeReport
      refine ⟨by simp [hlen], ?_, ?_⟩
      · intro j m1 hj
        cases j with
        | zero =>
          simp only [List.getElem?_cons_zero, Option.some.injEq] at hj
          subst hj
          simp
        | succ k =>
          simp only [List.getElem?_cons_succ] at hj
          have := hget k m1 hj
          simp only [List.getElem?_cons_succ]
          rw [this]
          have hidx : i + 1 + k = i + (k + 1) := by omega
          rw [hidx]
      · simp only [hrep]
        simp [List.filter_cons, hp]

/-- C13: for a route with `n >= 1` matchers `initRoutes` returns exactly `n` routes, the
j-th one carrying the conversion of the j-th matcher; the report gains one
`InvalidMatcherError` for every matcher without a path specifier (whose route is still
returned) and nothing else. -/
theorem C13_one_route_per_matcher
    (ext : External) (input : Route) (routeReport : RouteReport) (generatedName : String)
    (hne : input.matchers ≠ []) :
    (initRoutes ext input routeReport generatedName).1.length = input.matchers.length ∧
    (∀ (j : Nat) (m : Matcher), input.matchers[j]? = some m →
      ∃ route, (initRoutes ext input routeReport generatedName).1[j]? = some route ∧
        route.Match = some (GlooMatcherToEnvoyMatcher ext m)) ∧
    (initRoutes ext input routeReport generatedName).2.errors
      = routeReport.errors ++
          (input.matchers.filter (fun m => m.pathSpecifier.isNone)).map
            (fun _ => ⟨.InvalidMatcherError, .literal "no path specifier provided",
              generatedName⟩) ∧
    (initRoutes ext input routeReport generatedName).2.warnings = routeReport.warnings := by
  have hlen : ¬ input.matchers.length = 0 := by
    intro hz; exact hne (List.length_eq_zero.mp hz)
  obtain ⟨h1, h2, h3⟩ := initRoutesLoop_spec ext input generatedName input.matchers 0 routeReport
  simp only [initRoutes, hlen, if_false]
  refine ⟨h1, ?_, by rw [h3], by rw [h3]⟩
  intro j m hj
  exact ⟨_, h2 j m hj, rfl⟩

/-- Witness of C13: the sample route with two matchers, the second without a path
specifier, yields two routes. -/
theorem C13_one_route_per_matcher_witness :
    (initRoutes sampleExternal sampleMatcherRoute ⟨[], []⟩ "vh-route-0").1.length = 2 :=
  (C13_one_route_per_matcher sampleExternal sampleMatcherRoute ⟨[], []⟩ "vh-route-0"
    (by decide)).1

theorem matcher_suffix_ne_empty (a b : String) : a ++ "-matcher-" ++ b ≠ "" := by
  intro h
  have hl := congrArg String.length h
  simp only [String.length_append] at hl
  have h9 : ("-matcher-" : String).length = 9 := by decide
  have h0 : ("" : String).length = 0 := by decide
  rw [h9, h0] at hl
  omega

/-- C15, counterexample: the single route `initRoutes` returns for a route without
matchers has the empty name. -/
theorem C15_implicit_route_has_no_name :
    (initRoutes sampleExternal sampleGroupRoute ⟨[], []⟩ ("vh" ++ "-route-" ++ toString 0)).1.map
      (fun route => route.name) = [""] := by
  decide

/-- C15, amended: every route generated from a matcher of the route at index `i` gets a
non-empty name that starts with "{virtualHostName}-route-{i}" and is determined by
the virtual-host name, the index, the route's own name and the matcher index; the
single implicit route of a route without matchers is left with the empty name. -/
theorem C15_matcher_routes_are_named
    (ext : External) (input : Route) (routeReport : RouteReport)
    (virtualHostName : String) (i : Nat) (hne : input.matchers ≠ []) :
    (∀ route ∈ (initRoutes ext input routeReport
          (virtualHostName ++ "-route-" ++ toString i)).1,
      route.name ≠ "" ∧
      ∃ suffix, route.name = virtualHostName ++ "-route-" ++ toString i ++ suffix) ∧
    (initRoutes ext { input with matchers := [] } routeReport
        (virtualHostName ++ "-route-" ++ toString i)).1.map (fun route => route.name)
      = [""] := by
  have hlen : ¬ input.matchers.length = 0 := by
    intro hz; exact hne (List.length_eq_zero.mp hz)
  refine ⟨?_, by simp [initRoutes]⟩
  intro route hroute
  obtain ⟨h1, h2, _⟩ := initRoutesLoop_spec ext input
    (virtualHostName ++ "-route-" ++ toString i) input.matchers 0 routeReport
  simp only [initRoutes, hlen, if_false] at hroute
  obtain ⟨j, hj⟩ := List.mem_iff_getElem?.mp hroute
  have hjlt : j < input.matchers.length := by
    have := (List.getElem?_eq_some.mp hj).1
    rw [h1] at this
    exact this
  have hm : input.matchers[j]? = some input.matchers[j] := List.getElem?_eq_getElem hjlt
  have hget := h2 j _ hm
  rw [hget] at hj
  simp only [Option.some.injEq] at hj
  subst hj
  by_cases hn : input.name = ""
  · simp only [hn, ne_eq, not_true_eq_false, if_false]
    exact ⟨matcher_suffix_ne_empty _ _, "-matcher-" ++ toString (0 + j),
      by simp [String.append_assoc]⟩
  · simp only [ne_eq, hn, not_false_eq_true, if_true]
    exact ⟨matcher_suffix_ne_empty _ _,
      "-" ++ input.name ++ "-matcher-" ++ toString (0 + j),
      by simp [String.append_assoc]⟩

/-- Witness of C15 (amended): the sample route with two matchers, as the route at index 0
of the virtual host `vh`. -/
theorem C15_matcher_routes_are_named_witness :
    (∀ route ∈ (initRoutes sampleExternal sampleMatcherRoute ⟨[], []⟩
          ("vh" ++ "-route-" ++ toString 0)).1,
      route.name ≠ "" ∧
      ∃ suffix, route.name = "vh" ++ "-route-" ++ toString 0 ++ suffix) ∧
    (initRoutes sampleExternal { sampleMatcherRoute with matchers := [] } ⟨[], []⟩
        ("vh" ++ "-route-" ++ toString 0)).1.map (fun route => route.name)
      = [""] :=
  C15_matcher_routes_are_named sampleExternal sampleMatcherRoute ⟨[], []⟩ "vh" 0
    (by decide)

/-! ### Claim C16 -/

/-- C16: with zero TLS configs `createFilterChainsFromSslConfiguration` returns exactly one
chain, which carries the built filters in order and has no transport socket, no
connect timeout and no match criteria (so no SNI match), and it leaves the report as
it was. -/
theorem C16_no_tls_config_single_plain_chain
    (ext : External) (h : httpFilterChainTranslator) (snap : ApiSnapshot)
    (networkFilters : List Envoy.Filter) (sslConfigurations : List SslConfig)
    (parentReport : ListenerReport) (hnone : sslConfigurations = []) :
    createFilterChainsFromSslConfiguration ext h snap networkFilters sslConfigurations
        parentReport
      = ([{ filterChainMatch := none, filters := networkFilters, transportSocket := none,
            transportSocketConnectTimeout := none }], parentReport) := by
  simp [createFilterChainsFromSslConfiguration, hnone]

/-- Witness of C16: three built filters and no TLS config. -/
theorem C16_no_tls_config_single_plain_chain_witness :
    createFilterChainsFromSslConfiguration sampleExternal sampleHttpFilterChainTranslator
        sampleTlsSnapshot sampleFilters [] ⟨[], .unset⟩
      = ([{ filterChainMatch := none, filters := sampleFilters, transportSocket := none,
            transportSocketConnectTimeout := none }], ⟨[], .unset⟩) :=
  C16_no_tls_config_single_plain_chain sampleExternal sampleHttpFilterChainTranslator
    sampleTlsSnapshot sampleFilters [] ⟨[], .unset⟩ rfl

/-! ### Claim C14 -/

theorem setAction_name_of_no_plugins (ext : External) (t : translatorInstance)
    (params : RouteParams) (routeReport : RouteReport) (input : Route) (out : Envoy.Route)
    (hp : t.plugins = []) :
    (setAction ext t params routeReport input out).1.name = out.name := by
  unfold setAction
  cases input.action with
  | RouteAction action =>
    simp only [hp, runRoutePlugins, runRouteActionPlugins]
  | DirectResponseAction action =>
    simp only [hp, runHeadersPlugins]
  | RedirectAction action => rfl
  | unset => rfl

theorem setActions_names (ext : External) (t : translatorInstance) (params : RouteParams)
    (input : Route) (hp : t.plugins = []) :
    ∀ (outs : List Envoy.Route) (routeReport : RouteReport),
      (setActions ext t params input outs routeReport).1.map (fun route => route.name)
        = outs.map (fun route => route.name) := by
  intro outs
  induction outs with
  | nil => intro _; rfl
  | cons out rest ih =>
    intro routeReport
    simp only [setActions, List.map_cons, ih,
      setAction_name_of_no_plugins ext t params routeReport input out hp]

theorem initRoutes_names (ext : External) (input : Route) (routeReport : RouteReport)
    (vh : String) (i : Nat) :
    (initRoutes ext input routeReport (vh ++ "-route-" ++ toString i)).1.map
        (fun route => route.name)
      = specRouteNames vh i input := by
  by_cases hlen : input.matchers.length = 0
  · simp [initRoutes, specRouteNames, hlen]
  · obtain ⟨h1, h2, _⟩ := initRoutesLoop_spec ext input (vh ++ "-route-" ++ toString i)
      input.matchers 0 routeReport
    simp only [initRoutes, specRouteNames, hlen, if_false]
    apply List.ext_getElem?
    intro j
    rw [List.getElem?_map, List.getElem?_map]
    by_cases hj : j < input.matchers.length
    · have hm : input.matchers[j]? = some input.matchers[j] := List.getElem?_eq_getElem hj
      rw [h2 j _ hm, List.getElem?_range hj]
      by_cases hn : input.name = ""
      · simp [specRouteName, hn]
      · simp [specRouteName, hn]
    · have hnone1 : (initRoutesLoop ext input (vh ++ "-route-" ++ toString i) 0
          input.matchers routeReport).1[j]? = none := by
        apply List.getElem?_eq_none
        rw [h1]; omega
      have hnone2 : (List.range input.matchers.length)[j]? = none := by
        apply List.getElem?_eq_none
        simp; omega
      rw [hnone1, hnone2]
      rfl

theorem computeRoutesLoop_names (ext : External) (t : translatorInstance)
    (params : VirtualHostParams) (virtualHost : VirtualHost) (hp : t.plugins = []) :
    ∀ (routes : List Route) (i : Nat) (acc : List Envoy.Route)
      (vhostReport : VirtualHostReport),
      i + routes.length ≤ vhostReport.routeReports.length →
      ∃ envoyRoutes1 vhostReport1,
        computeRoutesLoop ext t params virtualHost i routes (acc, vhostReport)
          = some (envoyRoutes1, vhostReport1) ∧
        vhostReport1.routeReports.length = vhostReport.routeReports.length ∧
        vhostReport1.errors = vhostReport.errors ∧
        envoyRoutes1.map (fun route => route.name)
          = acc.map (fun route => route.name)
              ++ specVirtualHostRouteNames virtualHost.name i routes := by
  intro routes
  induction routes with
  | nil =>
    intro i acc vhostReport _
    exact ⟨acc, vhostReport, rfl, rfl, rfl, by simp [specVirtualHostRouteNames]⟩
  | cons route rest ih =>
    intro i acc vhostReport hle
    simp only [List.length_cons] at hle
    have hi : i < vhostReport.routeReports.length := by omega
    have hget : vhostReport.routeReports[i]? = some vhostReport.routeReports[i] :=
      List.getElem?_eq_getElem hi
    have hnames : (envoyRoutes ext t ⟨params.params, virtualHost⟩ vhostReport.routeReports[i]
        route (virtualHost.name ++ "-route-" ++ toString i)).1.map (fun route => route.name)
        = specRouteNames virtualHost.name i route := by
      unfold envoyRoutes
      simp only [setActions_names ext t _ route hp]
      exact initRoutes_names ext route _ virtualHost.name i
    obtain ⟨er, vr, hrun, hl, he, hn⟩ := ih (i + 1)
      (acc ++ (envoyRoutes ext t ⟨params.params, virtualHost⟩ vhostReport.routeReports[i]
        route (virtualHost.name ++ "-route-" ++ toString i)).1)
      ⟨vhostReport.errors, vhostReport.routeReports.set i
          (envoyRoutes ext t ⟨params.params, virtualHost⟩ vhostReport.routeReports[i]
            route (virtualHost.name ++ "-route-" ++ toString i)).2⟩
      (by simp only [List.length_set]; omega)
    refine ⟨er, vr, ?_, ?_, ?_, ?_⟩
    · simp only [computeRoutesLoop, hget]
      exact hrun
    · rw [hl]; simp
    · rw [he]
    · rw [hn]
      simp only [List.map_append, hnames, specVirtualHostRouteNames, List.append_assoc]

/-- C14: the route generated for matcher `j` of the route at index `i` is named
"{vh}-route-{i}-matcher-{j}" when the route has no name and
"{vh}-route-{i}-{routeName}-matcher-{j}" when it has one, where `vh` is the sanitized
virtual-host name and the indices are in decimal. `initRoutes` assigns these names,
and for a translator without plugins and a virtual-host report with one route report
per route, `computeVirtualHost` returns and the names of the emitted routes are these
names, route after route (the implicit route of a route without matchers has the empty
name); the names are a function of the sanitized name, the indices and the routes'
own names only. -/
theorem C14_generated_route_names
    (ext : External) (t : translatorInstance) (params : VirtualHostParams)
    (virtualHost : VirtualHost) (requireTls : Bool) (vhostReport : VirtualHostReport)
    (hp : t.plugins = [])
    (halign : vhostReport.routeReports.length = virtualHost.routes.length) :
    (∀ (i j : Nat) (route : Route) (routeReport : RouteReport) (m : Matcher),
      route.matchers[j]? = some m →
      ∃ out, (initRoutes ext route routeReport
            (ext.SanitizeForEnvoy virtualHost.name ++ "-route-" ++ toString i)).1[j]?
          = some out ∧
        out.name = specRouteName (ext.SanitizeForEnvoy virtualHost.name) i route.name j) ∧
    (∃ out vhostReport1,
      computeVirtualHost ext t params virtualHost requireTls vhostReport
        = some (out, vhostReport1) ∧
      out.routes.map (fun route => route.name)
        = specVirtualHostRouteNames (ext.SanitizeForEnvoy virtualHost.name) 0
            virtualHost.routes) := by
  constructor
  · intro i j route routeReport m hm
    have hne : ¬ route.matchers.length = 0 := by
      intro hz
      have := List.length_eq_zero.mp hz
      rw [this] at hm
      simp at hm
    obtain ⟨_, h2, _⟩ := initRoutesLoop_spec ext route
      (ext.SanitizeForEnvoy virtualHost.name ++ "-route-" ++ toString i)
      route.matchers 0 routeReport
    refine ⟨⟨(if route.name ≠ "" then
        ext.SanitizeForEnvoy virtualHost.name ++ "-route-" ++ toString i ++ "-" ++ route.name
          ++ "-matcher-" ++ toString (0 + j)
      else ext.SanitizeForEnvoy virtualHost.name ++ "-route-" ++ toString i ++ "-matcher-"
          ++ toString (0 + j)), some (GlooMatcherToEnvoyMatcher ext m), none⟩, ?_, ?_⟩
    · simp only [initRoutes, hne, if_false]
      exact h2 j m hm
    · by_cases hn : route.name = ""
      · simp [specRouteName, hn]
      · simp [specRouteName, hn]
  · obtain ⟨er, vr, hrun, _, _, hn⟩ :=
      computeRoutesLoop_names ext t params
        { virtualHost with name := ext.SanitizeForEnvoy virtualHost.name } hp
        virtualHost.routes 0 [] vhostReport (by omega)
    have hcv : computeVirtualHost ext t params virtualHost requireTls vhostReport
        = some (⟨ext.SanitizeForEnvoy virtualHost.name,
            (if virtualHost.domains.length = 0 ∨
                (virtualHost.domains.length = 1 ∧ virtualHost.domains.head? = some "") then
              ["*"]
            else virtualHost.domains), er, (if requireTls then .ALL else .NONE)⟩, vr) := by
      simp only [computeVirtualHost, hrun, hp, runVirtualHostPlugins]
    exact ⟨_, _, hcv, by simpa using hn⟩

/-- Witness of C14: the sample virtual host with two routes, translated without
plugins. -/
theorem C14_generated_route_names_witness :
    ∃ out vhostReport1,
      computeVirtualHost sampleExternal sampleTranslator ⟨⟨sampleSnapshot⟩⟩ sampleVirtualHost
          false sampleVirtualHostReport = some (out, vhostReport1) ∧
      out.routes.map (fun route => route.name)
        = specVirtualHostRouteNames (sampleExternal.SanitizeForEnvoy sampleVirtualHost.name) 0
            sampleVirtualHost.routes :=
  (C14_generated_route_names sampleExternal sampleTranslator ⟨⟨sampleSnapshot⟩⟩
    sampleVirtualHost false sampleVirtualHostReport rfl rfl).2

/-! ### Claim C17 -/

theorem tcpPluginsLoop_eq (t : tcpFilterChainTranslator) (params : Params) :
    ∀ (plugins : List TcpFilterChainPlugin) (acc : List Envoy.FilterChain)
      (report : TcpListenerReport),
      tcpPluginsLoop t params plugins (acc, report)
        = (acc ++ plugins.flatMap (tcpPluginChains t params),
            { report with
              errors := report.errors ++ plugins.filterMap (tcpPluginError t params) }) := by
  intro plugins
  induction plugins with
  | nil => intro acc report; simp [tcpPluginsLoop]
  | cons plug rest ih =>
    intro acc report
    unfold tcpPluginsLoop
    rcases hres : plug.CreateTcpFilterChains params t.parentListener t.listener with
      ⟨chains, _ | err⟩
    · simp only [ih]
      simp [tcpPluginChains, tcpPluginError, hres, List.filterMap_cons]
    · simp only [ih]
      simp [tcpPluginChains, tcpPluginError, hres, List.filterMap_cons,
        AppendTCPListenerError]

theorem length_filterMap_tcpPluginError (t : tcpFilterChainTranslator) (params : Params) :
    ∀ plugins : List TcpFilterChainPlugin,
      (plugins.filterMap (tcpPluginError t params)).length
        = plugins.countP
            (fun plug =>
              (plug.CreateTcpFilterChains params t.parentListener t.listener).2.isSome) := by
  intro plugins
  induction plugins with
  | nil => rfl
  | cons plug rest ih =>
    rcases hres : plug.CreateTcpFilterChains params t.parentListener t.listener with
      ⟨chains, _ | err⟩
    · simp [List.filterMap_cons, tcpPluginError, hres, List.countP_cons, ih]
    · simp [List.filterMap_cons, tcpPluginError, hres, List.countP_cons, ih]

/-- C17: `tcpFilterChainTranslator.ComputeFilterChains` uses the outcome of every plugin
once, in registration order. Its chains are the concatenation, in that order, of the
chains of the plugins that succeed (a failing plugin contributes nothing and stops no
later plugin), each with the source-prefix ranges of the translator applied; without
source-prefix ranges the result is that concatenation itself. The TCP report gains
exactly one `ProcessingError` per failing plugin and nothing else. -/
theorem C17_tcp_plugins_concatenate_and_report (t : tcpFilterChainTranslator)
    (params : Params) (report : TcpListenerReport) :
    (t.ComputeFilterChains params report).1
      = (t.plugins.flatMap (tcpPluginChains t params)).map
          (fun fc => applySourcePrefixRangesToFilterChain fc t.sourcePrefixRanges) ∧
    (({ t with sourcePrefixRanges := [] } : tcpFilterChainTranslator).ComputeFilterChains
        params report).1
      = t.plugins.flatMap (tcpPluginChains t params) ∧
    (t.ComputeFilterChains params report).1.length
      = (t.plugins.map (fun plug => (tcpPluginChains t params plug).length)).sum ∧
    (t.ComputeFilterChains params report).2
      = { report with
          errors := report.errors ++ t.plugins.filterMap (tcpPluginError t params) } ∧
    (∀ e ∈ t.plugins.filterMap (tcpPluginError t params), e.type = .ProcessingError) ∧
    (t.plugins.filterMap (tcpPluginError t params)).length
      = t.plugins.countP
          (fun plug =>
            (plug.CreateTcpFilterChains params t.parentListener t.listener).2.isSome) := by
  have hfst : (t.ComputeFilterChains params report).1
      = (t.plugins.flatMap (tcpPluginChains t params)).map
          (fun fc => applySourcePrefixRangesToFilterChain fc t.sourcePrefixRanges) := by
    unfold tcpFilterChainTranslator.ComputeFilterChains
    rw [tcpPluginsLoop_eq]
    by_cases hr : t.sourcePrefixRanges.length > 0
    · simp [hr]
    · have hz : t.sourcePrefixRanges = [] := by
        apply List.length_eq_zero.mp; omega
      simp [hz, applySourcePrefixRangesToFilterChain]
  refine ⟨hfst, ?_, ?_, ?_, ?_, length_filterMap_tcpPluginError t params t.plugins⟩
  · unfold tcpFilterChainTranslator.ComputeFilterChains
    rw [tcpPluginsLoop_eq]
    simp only [List.length_nil, gt_iff_lt, lt_self_iff_false, if_false, List.nil_append]
    rfl
  · rw [hfst, List.length_map, List.flatMap, List.length_flatten, List.map_map]
    rfl
  · unfold tcpFilterChainTranslator.ComputeFilterChains
    rw [tcpPluginsLoop_eq]
    by_cases hr : t.sourcePrefixRanges.length > 0
    · simp [hr]
    · simp [hr]
  · intro e he
    simp only [List.mem_filterMap] at he
    obtain ⟨plug, _, hplug⟩ := he
    rcases hres : plug.CreateTcpFilterChains params t.parentListener t.listener with
      ⟨chains, _ | err⟩
    · simp [tcpPluginError, hres] at hplug
    · have hsome : tcpPluginError t params plug
          = some ⟨.ProcessingError, .listenerErr t.parentListener.name err⟩ := by
        simp [tcpPluginError, hres]
      simp only [hsome, Option.some.injEq] at hplug
      rw [← hplug]

/-- The sample TCP translator: the failing plugin between the two working ones costs no
chain of theirs and adds one error. -/
theorem sampleTcpFilterChainTranslator_run :
    ((sampleTcpFilterChainTranslator.ComputeFilterChains ⟨sampleSnapshot⟩ ⟨[]⟩).1.map
        (fun fc => fc.filters.map (fun f => f.name)))
      = [["envoy.filters.network.tcp_proxy"], ["envoy.filters.network.tcp_proxy"],
          ["envoy.filters.network.echo"]] ∧
    (sampleTcpFilterChainTranslator.ComputeFilterChains ⟨sampleSnapshot⟩ ⟨[]⟩).2
      = ⟨[⟨.ProcessingError, .listenerErr "tcp-listener" (.other "boom")⟩]⟩ := by
  decide

/-! ### Claim C18 -/

theorem multiFilterChainsLoop_eq {σ : Type} (params : Params) :
    ∀ (children : List (FilterChainTranslator σ)) (acc : List Envoy.FilterChain) (s : σ),
      multiFilterChainsLoop params (children.map some) (acc, s)
        = some (acc ++ (childFilterChains params children s).1.flatten,
            (childFilterChains params children s).2) := by
  intro children
  induction children with
  | nil => intro acc s; simp [multiFilterChainsLoop, childFilterChains]
  | cons child rest ih =>
    intro acc s
    rcases hres : child.ComputeFilterChains params s with ⟨chains, s1⟩
    have hc : childFilterChains params (child :: rest) s
        = (chains :: (childFilterChains params rest s1).1,
            (childFilterChains params rest s1).2) := by
      simp [childFilterChains, hres]
    rw [hc]
    cases chains with
    | nil => simp [multiFilterChainsLoop, hres, ih]
    | cons c cs => simp [multiFilterChainsLoop, hres, ih]

/-- C18: for children that are all present, `multiFilterChainTranslator.ComputeFilterChains`
returns the concatenation, in child order, of the chain lists the children return when
they run one after the other; a child that returns `nil` contributes nothing and is no
error. So the length of the result is the sum of the lengths of the children's results. -/
theorem C18_multi_concatenates_children {σ : Type} (m : multiFilterChainTranslator σ)
    (children : List (FilterChainTranslator σ)) (params : Params) (s : σ)
    (hchildren : m.translators = children.map some) :
    m.ComputeFilterChains params s
      = some ((childFilterChains params children s).1.flatten,
          (childFilterChains params children s).2) ∧
    (childFilterChains params children s).1.length = children.length ∧
    ((childFilterChains params children s).1.flatten).length
      = ((childFilterChains params children s).1.map List.length).sum := by
  refine ⟨?_, ?_, List.length_flatten _⟩
  · unfold multiFilterChainTranslator.ComputeFilterChains
    rw [hchildren, multiFilterChainsLoop_eq]
    simp
  · clear hchildren
    induction children generalizing s with
    | nil => rfl
    | cons child rest ih =>
      simp only [childFilterChains, List.length_cons]
      rw [ih]

/-- Witness of C18: a child with two chains, a child returning `nil`, and the first
child again give four chains. -/
theorem C18_multi_concatenates_children_witness :
    (⟨[some sampleChildTwo, some sampleChildNil, some sampleChildTwo]⟩ :
        multiFilterChainTranslator Nat).ComputeFilterChains ⟨sampleSnapshot⟩ 0
      = some ((childFilterChains ⟨sampleSnapshot⟩
            [sampleChildTwo, sampleChildNil, sampleChildTwo] 0).1.flatten,
          (childFilterChains ⟨sampleSnapshot⟩
            [sampleChildTwo, sampleChildNil, sampleChildTwo] 0).2) :=
  (C18_multi_concatenates_children
    ⟨[some sampleChildTwo, some sampleChildNil, some sampleChildTwo]⟩
    [sampleChildTwo, sampleChildNil, sampleChildTwo] ⟨sampleSnapshot⟩ 0 rfl).1

/-! ### Claim C19 -/

/-- C19: for a chain and a non-empty list of source-prefix ranges,
`applySourcePrefixRangesToFilterChain` leaves the chain with match criteria (created
empty when absent) whose source-prefix ranges are the supplied ranges, one entry per
range in order with the same address prefix and prefix length; the other match
criteria, the filters, the transport socket and the connect timeout are unchanged.
With an empty range list the chain is unchanged, and a `nil` chain stays `nil`. -/
theorem C19_source_prefix_ranges_applied
    (filterChain : Envoy.FilterChain) (sourcePrefixRanges : List CidrRange)
    (hne : sourcePrefixRanges ≠ []) :
    (∃ m, (applySourcePrefixRangesToFilterChain filterChain sourcePrefixRanges).filterChainMatch
        = some m ∧
      m.sourcePrefixRanges
        = sourcePrefixRanges.map (fun spr => ⟨spr.addressPrefix, spr.prefixLen⟩) ∧
      m.sourcePrefixRanges.length = sourcePrefixRanges.length ∧
      (∀ m0, filterChain.filterChainMatch = some m0 →
        m.destinationPort = m0.destinationPort ∧ m.serverNames = m0.serverNames ∧
        m.transportProtocol = m0.transportProtocol) ∧
      (filterChain.filterChainMatch = none →
        m.destinationPort = none ∧ m.serverNames = [] ∧ m.transportProtocol = "")) ∧
    (applySourcePrefixRangesToFilterChain filterChain sourcePrefixRanges).filters
      = filterChain.filters ∧
    (applySourcePrefixRangesToFilterChain filterChain sourcePrefixRanges).transportSocket
      = filterChain.transportSocket ∧
    (applySourcePrefixRangesToFilterChain filterChain
        sourcePrefixRanges).transportSocketConnectTimeout
      = filterChain.transportSocketConnectTimeout ∧
    applySourcePrefixRangesToFilterChain filterChain [] = filterChain ∧
    applySourcePrefixRangesToFilterChainPtr (some filterChain) [] = some filterChain ∧
    applySourcePrefixRangesToFilterChainPtr none sourcePrefixRanges = none := by
  have hlen : ¬ sourcePrefixRanges.length = 0 := by
    intro hz; exact hne (List.length_eq_zero.mp hz)
  refine ⟨?_, ?_, ?_, ?_, ?_, ?_, rfl⟩
  · cases hm : filterChain.filterChainMatch with
    | none =>
      refine ⟨⟨none, [], "",
        sourcePrefixRanges.map (fun spr => ⟨spr.addressPrefix, spr.prefixLen⟩)⟩, ?_, rfl,
        by simp, ?_, ?_⟩
      · simp [applySourcePrefixRangesToFilterChain, hlen, hm]
      · intro m0 h0; cases h0
      · intro _; exact ⟨rfl, rfl, rfl⟩
    | some m0 =>
      refine ⟨{ m0 with sourcePrefixRanges :=
          sourcePrefixRanges.map (fun spr => ⟨spr.addressPrefix, spr.prefixLen⟩) }, ?_, rfl,
        by simp, ?_, ?_⟩
      · simp [applySourcePrefixRangesToFilterChain, hlen, hm]
      · intro m1 h1
        cases h1
        exact ⟨rfl, rfl, rfl⟩
      · intro h0; cases h0
  · simp [applySourcePrefixRangesToFilterChain, hlen]
  · simp [applySourcePrefixRangesToFilterChain, hlen]
  · simp [applySourcePrefixRangesToFilterChain, hlen]
  · simp [applySourcePrefixRangesToFilterChain]
  · simp [applySourcePrefixRangesToFilterChainPtr, applySourcePrefixRangesToFilterChain]

/-- Witness of C19: two ranges applied to a chain with an SNI match, filters, a transport
socket and a connect timeout. -/
theorem C19_source_prefix_ranges_applied_witness :
    (applySourcePrefixRangesToFilterChain sampleTlsChain
        [⟨"10.0.0.0", some 8⟩, ⟨"192.168.0.0", some 16⟩]).filters = sampleTlsChain.filters :=
  (C19_source_prefix_ranges_applied sampleTlsChain
    [⟨"10.0.0.0", some 8⟩, ⟨"192.168.0.0", some 16⟩] (by decide)).2.1

/-! ### Claim C20 -/

theorem length_claimIdxs (D : String) :
    ∀ (vhs : List VirtualHost) (i0 : Nat),
      (claimIdxs D i0 vhs).length = claimCount D vhs := by
  intro vhs
  induction vhs with
  | nil => intro _; rfl
  | cons vh rest ih =>
    intro i0
    have hrest := ih (i0 + 1)
    have hcc : claimCount D (vh :: rest)
        = ((if vh.domains.length = 0 ∧ D = "*" then 1 else 0) + vh.domains.count D)
            + claimCount D rest := by
      simp only [claimCount, List.map_cons, List.sum_cons]
    rw [hcc, ← hrest]
    simp only [claimIdxs, List.length_append, List.length_replicate]
    by_cases hc : vh.domains.length = 0 ∧ D = "*"
    · rw [if_pos hc, if_pos hc]
      rfl
    · rw [if_neg hc, if_neg hc]
      rfl

theorem DomainMap.get_of_mem_nodup (m : DomainMap) (d : String) (v : List Nat)
    (hnd : (m.map Prod.fst).Nodup) (hmem : (d, v) ∈ m) : DomainMap.get m d = v := by
  induction m with
  | nil => simp at hmem
  | cons b rest ih =>
    obtain ⟨k, w⟩ := b
    simp only [List.map_cons, List.nodup_cons] at hnd
    simp only [List.mem_cons, Prod.mk.injEq] at hmem
    rcases hmem with ⟨hk, hw⟩ | hmem
    · subst hk; subst hw
      simp [DomainMap.get]
    · have hne : ¬ k = d := by
        intro e
        subst e
        exact hnd.1 (List.mem_map_of_mem Prod.fst hmem)
      simp only [DomainMap.get, hne, if_false]
      exact ih hnd.2 hmem

theorem conflictBump_of_small_bucket (D : String) (j : Nat) (m : DomainMap)
    (hnd : (m.map Prod.fst).Nodup) (hsmall : (DomainMap.get m D).length ≤ 1) :
    conflictBump D j m = 0 := by
  by_cases hkey : D ∈ m.map Prod.fst
  · obtain ⟨b, hb, hbD⟩ := List.mem_map.mp hkey
    obtain ⟨d, v⟩ := b
    simp only at hbD
    subst hbD
    have hv := DomainMap.get_of_mem_nodup m d v hnd hb
    rw [conflictBump_of_mem d j v m hnd hb]
    rw [hv] at hsmall
    have : ¬ v.length > 1 := by omega
    simp [this]
  · exact conflictBump_of_not_mem D j m hkey

theorem hasErrorAt_iff (reports : List VirtualHostReport) (j : Nat)
    (e : VirtualHostReport_Error) :
    hasErrorAt reports j e = true ↔ ∃ r, reports[j]? = some r ∧ e ∈ r.errors := by
  unfold hasErrorAt
  cases h : reports[j]? with
  | none => simp
  | some r => simp

theorem appendVirtualHostErrorAt_keeps (reports rs : List VirtualHostReport) (i : Nat)
    (t : VirtualHostReport_Error_Type) (reason : Reason)
    (hrun : appendVirtualHostErrorAt reports i t reason = some rs) :
    (∀ j e, hasErrorAt reports j e = true → hasErrorAt rs j e = true) ∧
    hasErrorAt rs i ⟨t, reason⟩ = true := by
  unfold appendVirtualHostErrorAt at hrun
  cases hget : reports[i]? with
  | none => simp [hget] at hrun
  | some r =>
    simp only [hget, Option.some.injEq] at hrun
    subst hrun
    have hi : i < reports.length := (List.getElem?_eq_some.mp hget).1
    constructor
    · intro j e he
      rw [hasErrorAt_iff] at he ⊢
      obtain ⟨r0, hr0, hmem⟩ := he
      by_cases hj : i = j
      · subst hj
        rw [hget] at hr0
        cases hr0
        exact ⟨_, List.getElem?_set_self hi, by simp [AppendVirtualHostError, hmem]⟩
      · exact ⟨r0, by rw [List.getElem?_set_ne hj]; exact hr0, hmem⟩
    · rw [hasErrorAt_iff]
      exact ⟨_, List.getElem?_set_self hi, by simp [AppendVirtualHostError]⟩

theorem collectDomains_keeps (i : Nat) (vh : VirtualHost) :
    ∀ (ds : List String) (m m1 : DomainMap) (reports rs : List VirtualHostReport),
      collectDomains i vh ds (m, reports) = some (m1, rs) →
      (∀ j e, hasErrorAt reports j e = true → hasErrorAt rs j e = true) ∧
      ("" ∈ ds → hasErrorAt rs i ⟨.EmptyDomainError, .emptyDomain vh.name⟩ = true) := by
  intro ds
  induction ds with
  | nil =>
    intro m m1 reports rs hrun
    simp only [collectDomains, Option.some.injEq, Prod.mk.injEq] at hrun
    obtain ⟨_, hrs⟩ := hrun
    subst hrs
    exact ⟨fun _ _ h => h, by simp⟩
  | cons d rest ih =>
    intro m m1 reports rs hrun
    unfold collectDomains at hrun
    by_cases hd : d = ""
    · simp only [hd, if_true] at hrun
      cases happ : appendVirtualHostErrorAt reports i .EmptyDomainError
          (.emptyDomain vh.name) with
      | none => simp [happ] at hrun
      | some reports1 =>
        simp only [happ] at hrun
        obtain ⟨hk1, hnew⟩ := appendVirtualHostErrorAt_keeps reports reports1 i _ _ happ
        obtain ⟨hk2, _⟩ := ih _ m1 reports1 rs hrun
        exact ⟨fun j e h => hk2 j e (hk1 j e h), fun _ => hk2 i _ hnew⟩
    · simp only [hd, if_false] at hrun
      obtain ⟨hk2, hin⟩ := ih _ m1 reports rs hrun
      refine ⟨hk2, ?_⟩
      intro hmem
      simp only [List.mem_cons] at hmem
      rcases hmem with hmem | hmem
      · exact absurd hmem.symm hd
      · exact hin hmem

theorem collectVirtualHosts_keeps :
    ∀ (vhs : List VirtualHost) (i0 : Nat) (m m1 : DomainMap)
      (reports rs : List VirtualHostReport),
      collectVirtualHosts i0 vhs (m, reports) = some (m1, rs) →
      (∀ j e, hasErrorAt reports j e = true → hasErrorAt rs j e = true) ∧
      (∀ (k : Nat) (vh : VirtualHost), vhs[k]? = some vh → "" ∈ vh.domains →
        hasErrorAt rs (i0 + k) ⟨.EmptyDomainError, .emptyDomain vh.name⟩ = true) := by
  intro vhs
  induction vhs with
  | nil =>
    intro i0 m m1 reports rs hrun
    simp only [collectVirtualHosts, Option.some.injEq, Prod.mk.injEq] at hrun
    obtain ⟨_, hrs⟩ := hrun
    subst hrs
    exact ⟨fun _ _ h => h, by simp⟩
  | cons vh rest ih =>
    intro i0 m m1 reports rs hrun
    change (match collectDomains i0 vh vh.domains
        (if vh.domains.length = 0 then DomainMap.appendIdx m "*" i0 else m, reports) with
      | none => none
      | some st => collectVirtualHosts (i0 + 1) rest st) = some (m1, rs) at hrun
    cases hcd : collectDomains i0 vh vh.domains
        (if vh.domains.length = 0 then DomainMap.appendIdx m "*" i0 else m, reports) with
    | none =>
      rw [hcd] at hrun
      cases hrun
    | some st =>
      obtain ⟨m2, rs2⟩ := st
      simp only [hcd] at hrun
      obtain ⟨hk1, hnew⟩ := collectDomains_keeps i0 vh vh.domains _ m2 reports rs2 hcd
      obtain ⟨hk2, hrest⟩ := ih (i0 + 1) m2 m1 rs2 rs hrun
      refine ⟨fun j e h => hk2 j e (hk1 j e h), ?_⟩
      intro k vh1 hk hmem
      cases k with
      | zero =>
        simp only [List.getElem?_cons_zero, Option.some.injEq] at hk
        subst hk
        exact hk2 _ _ (hnew hmem)
      | succ k1 =>
        simp only [List.getElem?_cons_succ] at hk
        have := hrest k1 vh1 hk hmem
        have hidx : i0 + 1 + k1 = i0 + (k1 + 1) := by omega
        rw [hidx] at this
        exact this

theorem reportBucket_keeps (d : String) (names : List String) :
    ∀ (idxs : List Nat) (reports rs : List VirtualHostReport),
      reportBucket d names idxs reports = some rs →
      ∀ j e, hasErrorAt reports j e = true → hasErrorAt rs j e = true := by
  intro idxs
  induction idxs with
  | nil =>
    intro reports rs hrun
    simp only [reportBucket, Option.some.injEq] at hrun
    subst hrun
    exact fun _ _ h => h
  | cons x rest ih =>
    intro reports rs hrun
    unfold reportBucket at hrun
    cases happ : appendVirtualHostErrorAt reports x .DomainsNotUniqueError
        (.domainShared d names) with
    | none => simp [happ] at hrun
    | some reports1 =>
      simp only [happ] at hrun
      obtain ⟨hk1, _⟩ := appendVirtualHostErrorAt_keeps reports reports1 x _ _ happ
      exact fun j e h => ih reports1 rs hrun j e (hk1 j e h)

theorem reportConflicts_keeps (vhs : List VirtualHost) :
    ∀ (bs : List (String × List Nat)) (reports rs : List VirtualHostReport),
      reportConflicts vhs bs reports = some rs →
      ∀ j e, hasErrorAt reports j e = true → hasErrorAt rs j e = true := by
  intro bs
  induction bs with
  | nil =>
    intro reports rs hrun
    simp only [reportConflicts, Option.some.injEq] at hrun
    subst hrun
    exact fun _ _ h => h
  | cons b rest ih =>
    obtain ⟨d, idxs⟩ := b
    intro reports rs hrun
    unfold reportConflicts at hrun
    by_cases hgt : idxs.length > 1
    · simp only [hgt, if_true] at hrun
      cases hnames : collectNames vhs idxs with
      | none => simp [hnames] at hrun
      | some names =>
        simp only [hnames] at hrun
        cases hb : reportBucket d names idxs reports with
        | none => simp [hb] at hrun
        | some reports1 =>
          simp only [hb] at hrun
          exact fun j e h =>
            ih reports1 rs hrun j e (reportBucket_keeps d names idxs reports reports1 hb j e h)
    · simp only [hgt, if_false] at hrun
      exact ih reports rs hrun

/-- C20, counterexample: one virtual host lists the domain "" and a different one has an
empty domain list (or lists "*"). `ValidateVirtualHostDomains` records the
`EmptyDomainError` on the first and no `DomainsNotUniqueError` on either. -/
theorem C20_empty_domain_not_folded_into_wildcard :
    ValidateVirtualHostDomains id sampleEmptyDomainVirtualHosts sampleTwoVirtualHostReports
      = some ⟨[], [⟨[⟨.EmptyDomainError, .emptyDomain "a"⟩], []⟩, ⟨[], []⟩]⟩ ∧
    ValidateVirtualHostDomains id sampleEmptyAndWildcardVirtualHosts
        sampleTwoVirtualHostReports
      = some ⟨[], [⟨[⟨.EmptyDomainError, .emptyDomain "a"⟩], []⟩, ⟨[], []⟩]⟩ := by
  decide

/-- C20, amended: `ValidateVirtualHostDomains` keeps every domain string, the empty string
included, in a bucket of its own. For index-aligned reports not yet flagged for `D`,
and a domain `D` that is put into its bucket at most once (for `D` the empty string:
listed at most once; for `D` the wildcard: claimed at most once by listing it or by an
empty domain list), the call returns and no report is flagged with a
`DomainsNotUniqueError` for `D`; and every virtual host that lists the empty string
has the `EmptyDomainError` in its report. So a virtual host listing "" and a different
one with an empty domain list (or listing "*") are not in conflict. -/
theorem C20_empty_domain_has_its_own_bucket
    (order : DomainMap → DomainMap) (horder : ∀ m, (order m).Perm m)
    (virtualHosts : List VirtualHost) (report : HttpListenerReport) (D : String)
    (halign : report.virtualHostReports.length = virtualHosts.length)
    (hfresh : ∀ r ∈ report.virtualHostReports, flaggedFor D r = false)
    (honce : claimCount D virtualHosts ≤ 1) :
    ∃ report1, ValidateVirtualHostDomains order virtualHosts report = some report1 ∧
      (∀ r ∈ report1.virtualHostReports, flaggedFor D r = false) ∧
      (∀ (j : Nat) (vh : VirtualHost), virtualHosts[j]? = some vh → "" ∈ vh.domains →
        hasErrorAt report1.virtualHostReports j
          ⟨.EmptyDomainError, .emptyDomain vh.name⟩ = true) := by
  obtain ⟨m, rs, hrun, hlen, hcnt, hget, hnd, hbd⟩ :=
    collectVirtualHosts_spec virtualHosts.length virtualHosts 0 [] report.virtualHostReports
      halign (by omega)
  have hnd1 : (m.map Prod.fst).Nodup := hnd (by simp)
  have hbd1 : ∀ b ∈ m, ∀ x ∈ b.2, x < virtualHosts.length := hbd (by simp)
  have hperm := horder m
  have hbd2 : ∀ b ∈ order m, ∀ x ∈ b.2, x < virtualHosts.length :=
    fun b hb => hbd1 b (hperm.mem_iff.mp hb)
  obtain ⟨rs1, hrun1, hlen1, hcnt1⟩ :=
    reportConflicts_spec D virtualHosts (order m) rs hlen hbd2
  have hbucket : (DomainMap.get m D).length ≤ 1 := by
    rw [hget D]
    simp only [DomainMap.get, List.nil_append, length_claimIdxs]
    exact honce
  have hbump : ∀ j, conflictBump D j (order m) = 0 := by
    intro j
    rw [conflictBump_perm D j hperm]
    exact conflictBump_of_small_bucket D j m hnd1 hbucket
  obtain ⟨hkeep1, hempty⟩ :=
    collectVirtualHosts_keeps virtualHosts 0 [] m report.virtualHostReports rs hrun
  have hkeep2 := reportConflicts_keeps virtualHosts (order m) rs rs1 hrun1
  refine ⟨{ report with virtualHostReports := rs1 }, ?_, ?_, ?_⟩
  · simp [ValidateVirtualHostDomains, hrun, hrun1]
  · intro r hr
    obtain ⟨j, hj⟩ := List.mem_iff_getElem?.mp hr
    have h1 : dnuCountAt D rs1 j = dnuCount D r := by simp [dnuCountAt, hj]
    have hzero : dnuCountAt D report.virtualHostReports j = 0 := by
      unfold dnuCountAt
      cases hr0 : report.virtualHostReports[j]? with
      | none => rfl
      | some r0 =>
        have hf := hfresh r0 (List.getElem?_mem hr0)
        have : ¬ 0 < dnuCount D r0 := by
          rw [← flaggedFor_iff_dnuCount_pos]; simp [hf]
        simp only
        omega
    have h2 : dnuCount D r = 0 := by
      rw [← h1, hcnt1 j, hcnt D j, hzero, hbump j]
    cases hflag : flaggedFor D r with
    | false => rfl
    | true =>
      have := (flaggedFor_iff_dnuCount_pos D r).mp hflag
      omega
  · intro j vh hvh hmem
    have := hempty j vh hvh hmem
    rw [Nat.zero_add] at this
    exact hkeep2 j _ this

/-- Witness of C20 (amended): the virtual host `a` listing "" and the virtual host `b`
with an empty domain list; nobody is flagged for the wildcard. -/
theorem C20_empty_domain_has_its_own_bucket_witness :
    ∃ report1,
      ValidateVirtualHostDomains id sampleEmptyDomainVirtualHosts sampleTwoVirtualHostReports
        = some report1 ∧
      (∀ r ∈ report1.virtualHostReports, flaggedFor "*" r = false) ∧
      (∀ (j : Nat) (vh : VirtualHost), sampleEmptyDomainVirtualHosts[j]? = some vh →
        "" ∈ vh.domains →
        hasErrorAt report1.virtualHostReports j
          ⟨.EmptyDomainError, .emptyDomain vh.name⟩ = true) :=
  C20_empty_domain_has_its_own_bucket id (fun m => List.Perm.refl m)
    sampleEmptyDomainVirtualHosts sampleTwoVirtualHostReports "*"
    (by decide) (by decide) (by decide)

/-! ### Claim C24 -/

theorem UInt8.toNat_lor_gt_127 (x y : UInt8) (hy : Nat.testBit y.toNat 7 = true) :
    (x ||| y).toNat > 127 := by
  have h : (x ||| y).toNat = x.toNat ||| y.toNat := by
    show (x.toBitVec ||| y.toBitVec).toNat = _
    simp [BitVec.toNat_or, UInt8.toNat]
  have hb : Nat.testBit (x.toNat ||| y.toNat) 7 = true := by
    rw [Nat.testBit_or, hy]; simp
  have := Nat.testBit_implies_ge hb
  rw [h]
  omega

theorem utf8EncodeChar_of_not_ascii (c : Char) (h : ¬ c.val ≤ 0x7f) :
    ∃ b ∈ (String.utf8EncodeChar c).map UInt8.toNat, b > 127 := by
  unfold String.utf8EncodeChar
  simp only [h, if_false]
  split
  · exact ⟨_, by simp; left; rfl, UInt8.toNat_lor_gt_127 _ _ (by decide)⟩
  · split
    · exact ⟨_, by simp; left; rfl, UInt8.toNat_lor_gt_127 _ _ (by decide)⟩
    · exact ⟨_, by simp; left; rfl, UInt8.toNat_lor_gt_127 _ _ (by decide)⟩

theorem utf8EncodeChar_of_ascii (c : Char) (h : c.val ≤ 0x7f) :
    (String.utf8EncodeChar c).map UInt8.toNat = [c.toNat] := by
  unfold String.utf8EncodeChar
  simp only [h, if_true, List.map_cons, List.map_nil]
  have h1 : c.val.toNat ≤ 127 := h
  simp [UInt32.toUInt8, Char.toNat, UInt8.toNat, Nat.toUInt8, UInt8.ofNat]
  omega

/-- A character contributes a byte above 127 or the byte of the colon exactly when it is
not ASCII or is the colon. -/
theorem utf8EncodeChar_invalid_iff (c : Char) :
    (∃ b ∈ (String.utf8EncodeChar c).map UInt8.toNat, b > 127 ∨ b = 58)
      ↔ (c.toNat > 127 ∨ c.toNat = 58) := by
  by_cases h : c.val ≤ 0x7f
  · have h1 : c.val.toNat ≤ 127 := h
    rw [utf8EncodeChar_of_ascii c h]
    simp
  · have h1 : ¬ c.val.toNat ≤ 127 := h
    have h2 : c.toNat > 127 := by
      show c.val.toNat > 127
      omega
    constructor
    · intro _; exact Or.inl h2
    · intro _
      obtain ⟨b, hb, hgt⟩ := utf8EncodeChar_of_not_ascii c h
      exact ⟨b, hb, Or.inl hgt⟩

theorem goBytes_invalid_iff (header : String) :
    (∃ b ∈ goBytes header, b > 127 ∨ b = 58)
      ↔ ∃ c ∈ header.data, c.toNat > 127 ∨ c.toNat = 58 := by
  unfold goBytes
  constructor
  · rintro ⟨b, hb, hbad⟩
    simp only [List.mem_map, List.mem_flatMap] at hb
    obtain ⟨u, ⟨c, hc, hu⟩, hub⟩ := hb
    refine ⟨c, hc, (utf8EncodeChar_invalid_iff c).mp ⟨b, ?_, hbad⟩⟩
    exact List.mem_map.mpr ⟨u, hu, hub⟩
  · rintro ⟨c, hc, hbad⟩
    obtain ⟨b, hb, hbbad⟩ := (utf8EncodeChar_invalid_iff c).mpr hbad
    obtain ⟨u, hu, hub⟩ := List.mem_map.mp hb
    refine ⟨b, ?_, hbbad⟩
    simp only [List.mem_map, List.mem_flatMap]
    exact ⟨u, ⟨c, hc, hu⟩, hub⟩

/-- C24: `validateClusterHeader` returns an error exactly when the header has a byte above
127 or the byte of the colon (58), which is exactly when it has a character that is not
ASCII or is the colon; the empty header is accepted. For a ClusterHeader destination
`ValidateRouteDestinations` gives the same result for any two snapshots. -/
theorem C24_cluster_header_ascii_without_colon (ext : External) (header : String)
    (snap1 snap2 : ApiSnapshot) :
    ((validateClusterHeader header).isSome = true
      ↔ ∃ b ∈ goBytes header, b > 127 ∨ b = 58) ∧
    ((validateClusterHeader header).isSome = true
      ↔ ∃ c ∈ header.data, c.toNat > 127 ∨ c.toNat = (':' : Char).toNat) ∧
    validateClusterHeader "" = none ∧
    ValidateRouteDestinations ext snap1 ⟨.ClusterHeader header⟩
      = ValidateRouteDestinations ext snap2 ⟨.ClusterHeader header⟩ := by
  have hbytes : (validateClusterHeader header).isSome = true
      ↔ ∃ b ∈ goBytes header, b > 127 ∨ b = 58 := by
    unfold validateClusterHeader
    by_cases h : (goBytes header).any (fun b => decide (b > 127) || decide (b = 58)) = true
    · simp only [h, if_true, Option.isSome_some, true_iff]
      simpa using h
    · simp only [h, Option.isSome_none]
      have h' : ¬ ∃ b ∈ goBytes header, b > 127 ∨ b = 58 := by
        intro hex
        apply h
        simpa using hex
      simp [h']
  refine ⟨hbytes, ?_, by decide, rfl⟩
  rw [hbytes, goBytes_invalid_iff]
  rfl

/-- The byte loop of `validateClusterHeader` on sample headers: a plain name passes, a
colon and a non-ASCII letter are refused. -/
theorem validateClusterHeader_samples :
    validateClusterHeader "x-cluster" = none ∧
    validateClusterHeader "x:cluster" = some (.errorf "x:cluster is an invalid HTTP header name") ∧
    (validateClusterHeader "clustér").isSome = true := by
  decide

/-! ### Claim C26 -/

theorem envoyHeaderMatcher_eq_map (ext : External) :
    ∀ headers : List HeaderMatcher,
      envoyHeaderMatcher ext headers = headers.map (specHeaderMatcher ext) := by
  intro headers
  induction headers with
  | nil => rfl
  | cons matcher rest ih =>
    simp only [envoyHeaderMatcher, List.map_cons, ih, specHeaderMatcher]
    cases matcher.invertMatch <;> simp

/-- C26: the header matchers `GlooMatcherToEnvoyMatcher` yields are the conversions of the
input header matchers in order (empty value: present match; non-empty value with the
regex flag: regex match; otherwise an exact match; the invert flag copied), followed,
when the method list is non-empty, by exactly one header matcher named ":method" whose
regex is the methods joined by "|", and by nothing when the method list is empty. -/
theorem C26_header_matchers_then_method_header (ext : External) (matcher : Matcher) :
    (GlooMatcherToEnvoyMatcher ext matcher).headers
      = matcher.headers.map (specHeaderMatcher ext) ++
          (if matcher.methods = [] then []
            else [⟨":method",
              some (.SafeRegexMatch (ext.NewRegex (String.intercalate "|" matcher.methods))),
              false⟩]) := by
  have hpath : ∀ m : Envoy.RouteMatch,
      (setEnvoyPathMatcher ext matcher m).headers = m.headers := by
    intro m
    unfold setEnvoyPathMatcher
    cases matcher.pathSpecifier with
    | none => rfl
    | some ps => cases ps <;> rfl
  unfold GlooMatcherToEnvoyMatcher
  simp only [hpath, envoyHeaderMatcher_eq_map]
  cases hm : matcher.methods with
  | nil => simp
  | cons m ms => simp

/-- The sample matcher with one header and the methods GET and POST. -/
theorem GlooMatcherToEnvoyMatcher_sample :
    (GlooMatcherToEnvoyMatcher sampleExternal
        ⟨none, none, [⟨"x-env", "prod", false, false⟩], [], ["GET", "POST"]⟩).headers
      = [⟨"x-env", some (.ExactMatch "prod"), false⟩,
          ⟨":method", some (.SafeRegexMatch ⟨none, "GET|POST"⟩), false⟩] := by
  decide

/-! ### Claim C28 -/

/-- C28, counterexample: a redirect that sets neither a path redirect nor a prefix rewrite
is emitted with neither of them set. -/
theorem C28_redirect_without_path_rewrite :
    (setAction sampleExternal sampleTranslator sampleParams ⟨[], []⟩
        sampleHttpsRedirectRoute sampleOut).1.action
      = some (.Redirect ⟨"", 0, true, false, none⟩) := by
  decide

/-- C28, amended: for a Redirect action the emitted redirect copies host redirect, response
code, https-redirect and strip-query from the input unchanged, and its path rewrite is
the one the input sets, with the input's value: a path redirect, a prefix rewrite, or
neither when the input sets neither. The report is left as it was. -/
theorem C28_redirect_copies_fields
    (ext : External) (t : translatorInstance) (params : RouteParams)
    (routeReport : RouteReport) (input : Route) (out : Envoy.Route) (action : RedirectAction)
    (haction : input.action = .RedirectAction action) :
    setAction ext t params routeReport input out
      = ({ out with action := some (.Redirect
            { hostRedirect := action.hostRedirect
              responseCode := action.responseCode
              httpsRedirect := action.httpsRedirect
              stripQuery := action.stripQuery
              pathRewriteSpecifier :=
                match action.pathRewriteSpecifier with
                | .PathRedirect s => some (.PathRedirect s)
                | .PrefixRewrite s => some (.PrefixRewrite s)
                | .unset => none }) },
          routeReport) := by
  simp [setAction, haction]

/-- Witness of C28 (amended): the sample redirect with a prefix rewrite. -/
theorem C28_redirect_copies_fields_witness :
    setAction sampleExternal sampleTranslator sampleParams ⟨[], []⟩
        samplePrefixRedirectRoute sampleOut
      = ({ sampleOut with action := some (.Redirect
            ⟨"example.com", 1, false, true, some (.PrefixRewrite "/new")⟩) }, ⟨[], []⟩) :=
  C28_redirect_copies_fields sampleExternal sampleTranslator sampleParams ⟨[], []⟩
    samplePrefixRedirectRoute sampleOut ⟨"example.com", 1, false, true, .PrefixRewrite "/new"⟩
    rfl

/-! ### Claim C23 -/

theorem runRoutePlugins_eq (params : RouteParams) (input : Route) :
    ∀ (plugins : List Plugin) (out : Envoy.Route) (routeReport : RouteReport),
      runRoutePlugins params input plugins (out, routeReport)
        = (routeAfterRoutePlugins params input plugins out,
            { routeReport with
              errors := routeReport.errors ++
                ((routePluginFailures params input plugins out).filter
                  (fun f => !isWarningErr f.err)).map
                  (fun f => ⟨.ProcessingError, .pluginErr f.pluginType f.err,
                    f.routeName⟩) }) := by
  intro plugins
  induction plugins with
  | nil => intro out routeReport; simp [runRoutePlugins, routeAfterRoutePlugins,
      routePluginFailures]
  | cons plug rest ih =>
    intro out routeReport
    unfold runRoutePlugins routeAfterRoutePlugins routePluginFailures
    cases hp : plug.ProcessRoute with
    | none => simp only [ih]
    | some hook =>
      simp only
      rcases hh : hook params input out with ⟨out1, _ | err⟩
      · simp only [ih]
      · simp only
        by_cases hw : isWarningErr err = true
        · simp only [hw, if_true, ih]
          simp [List.filter_cons, hw]
        · simp only [hw, ih]
          simp [List.filter_cons, hw, AppendRouteError]

theorem runRouteActionPlugins_report (params : RouteParams) (input : Route)
    (inAction : RouteAction) :
    ∀ (plugins : List Plugin) (out : Envoy.Route) (routeReport : RouteReport),
      (runRouteActionPlugins params input inAction plugins (out, routeReport)).2
        = { routeReport with
            errors := routeReport.errors ++
              ((routeActionPluginFailures params input inAction plugins out).filter
                (fun f => !isWarningErr f.err)).map
                (fun f => ⟨.ProcessingError, .errText f.err, f.routeName⟩) } := by
  intro plugins
  induction plugins with
  | nil => intro out routeReport; simp [runRouteActionPlugins, routeActionPluginFailures]
  | cons plug rest ih =>
    intro out routeReport
    unfold runRouteActionPlugins routeActionPluginFailures
    cases hp : plug.ProcessRouteAction with
    | none => simp only [ih]
    | some hook =>
      cases ho : out.GetRoute with
      | none => simp only [ih]
      | some outRoute =>
        simp only
        rcases hh : hook ⟨params, input⟩ inAction outRoute with ⟨outRoute1, _ | err⟩
        · simp only [ih]
        · simp only
          by_cases hw : isWarningErr err = true
          · simp only [hw, if_true, ih]
            simp [List.filter_cons, hw]
          · simp only [hw, ih]
            simp [List.filter_cons, hw, AppendRouteError, ih]

/-- C23, counterexample: a route plugin that fails with an upstream-not-found error,
followed by a route plugin that fails with an error of its own. The first failure is
recorded nowhere (the report gains no warning); the second is appended as an error. -/
theorem C23_warning_kind_plugin_failure_is_dropped :
    (setAction sampleExternal ⟨[sampleNotFoundPlugin, sampleFailingPlugin]⟩ sampleParams
        ⟨[], []⟩ sampleClusterHeaderRoute sampleOut).2
      = ⟨[⟨.ProcessingError, .pluginErr "*sample.failingPlugin" (.other "bad option"),
            "vh-route-0-matcher-0"⟩], []⟩ := by
  decide

/-- C23, amended: for a route with a RouteAction, the Route-level hooks and then the
RouteAction-level hooks all run, in registration order, whatever fails. Every failure
that is not of a warning kind is appended to the route report as a `ProcessingError`,
in the order in which the failures occur, and nothing else is appended; a failure of
a warning kind (subset-misconfigured, destination-not-found) is skipped and recorded
nowhere, so the hooks add no warning. -/
theorem C23_plugin_failures_errors_only
    (ext : External) (t : translatorInstance) (params : RouteParams)
    (routeReport : RouteReport) (input : Route) (out : Envoy.Route) (action : RouteAction)
    (haction : input.action = .RouteAction action) :
    ∃ (out1 : Envoy.Route) (report1 : RouteReport),
      setAction ext t params routeReport input out
        = runRouteActionPlugins params input action t.plugins
            (runRoutePlugins params input t.plugins (out1, report1)) ∧
      (setAction ext t params routeReport input out).2.warnings = report1.warnings ∧
      (setAction ext t params routeReport input out).2.errors
        = report1.errors ++
            ((routePluginFailures params input t.plugins out1).filter
              (fun f => !isWarningErr f.err)).map
              (fun f => ⟨.ProcessingError, .pluginErr f.pluginType f.err, f.routeName⟩) ++
            ((routeActionPluginFailures params input action t.plugins
                (routeAfterRoutePlugins params input t.plugins out1)).filter
              (fun f => !isWarningErr f.err)).map
              (fun f => ⟨.ProcessingError, .errText f.err, f.routeName⟩) := by
  rcases hset : setRouteAction ext t params action ⟨none, none⟩
      (match ValidateRouteDestinations ext params.params.snapshot action with
        | some err => AppendRouteWarning routeReport .InvalidDestinationWarning (.errText err)
        | none => routeReport) out.name with ⟨outRoute, report2, err⟩
  have key : ∀ report1 : RouteReport,
      setAction ext t params routeReport input out
        = runRouteActionPlugins params input action t.plugins
            (runRoutePlugins params input t.plugins
              ({ out with action := some (.Route outRoute) }, report1)) →
      ∃ (out1 : Envoy.Route) (report1 : RouteReport),
        setAction ext t params routeReport input out
          = runRouteActionPlugins params input action t.plugins
              (runRoutePlugins params input t.plugins (out1, report1)) ∧
        (setAction ext t params routeReport input out).2.warnings = report1.warnings ∧
        (setAction ext t params routeReport input out).2.errors
          = report1.errors ++
              ((routePluginFailures params input t.plugins out1).filter
                (fun f => !isWarningErr f.err)).map
                (fun f => ⟨.ProcessingError, .pluginErr f.pluginType f.err, f.routeName⟩) ++
              ((routeActionPluginFailures params input action t.plugins
                  (routeAfterRoutePlugins params input t.plugins out1)).filter
                (fun f => !isWarningErr f.err)).map
                (fun f => ⟨.ProcessingError, .errText f.err, f.routeName⟩) := by
    intro report1 heq
    refine ⟨{ out with action := some (.Route outRoute) }, report1, heq, ?_, ?_⟩
    · rw [heq, runRouteActionPlugins_warnings, runRoutePlugins_warnings]
    · rw [heq, runRoutePlugins_eq, runRouteActionPlugins_report]
  cases err with
  | none =>
    exact key report2 (by simp only [setAction, haction, hset])
  | some e =>
    by_cases hw : isWarningErr e = true
    · exact key (AppendRouteWarning report2 .InvalidDestinationWarning (.errText e))
        (by simp only [setAction, haction, hset, hw, if_true])
    · exact key (AppendRouteError report2 .ProcessingError (.errText e) out.name)
        (by simp only [setAction, haction, hset, hw]; rfl)

/-- Witness of C23 (amended): the sample route to a header-named cluster with the two
failing sample plugins. -/
theorem C23_plugin_failures_errors_only_witness :
    ∃ (out1 : Envoy.Route) (report1 : RouteReport),
      setAction sampleExternal ⟨[sampleNotFoundPlugin, sampleFailingPlugin]⟩ sampleParams
          ⟨[], []⟩ sampleClusterHeaderRoute sampleOut
        = runRouteActionPlugins sampleParams sampleClusterHeaderRoute
            ⟨.ClusterHeader "x-cluster"⟩ [sampleNotFoundPlugin, sampleFailingPlugin]
            (runRoutePlugins sampleParams sampleClusterHeaderRoute
              [sampleNotFoundPlugin, sampleFailingPlugin] (out1, report1)) ∧
      (setAction sampleExternal ⟨[sampleNotFoundPlugin, sampleFailingPlugin]⟩ sampleParams
          ⟨[], []⟩ sampleClusterHeaderRoute sampleOut).2.warnings = report1.warnings :=
  match C23_plugin_failures_errors_only sampleExternal
      ⟨[sampleNotFoundPlugin, sampleFailingPlugin]⟩ sampleParams ⟨[], []⟩
      sampleClusterHeaderRoute sampleOut ⟨.ClusterHeader "x-cluster"⟩ rfl with
  | ⟨out1, report1, h1, h2, _⟩ => ⟨out1, report1, h1, h2⟩


/-! ### Virtual hosts: the translation returns for index-aligned reports -/

theorem computeRoutesLoop_succeeds (ext : External) (t : translatorInstance)
    (params : VirtualHostParams) (virtualHost : VirtualHost) :
    ∀ (routes : List Route) (i : Nat) (acc : List Envoy.Route)
      (vhostReport : VirtualHostReport),
      i + routes.length ≤ vhostReport.routeReports.length →
      ∃ envoyRoutes1 vhostReport1,
        computeRoutesLoop ext t params virtualHost i routes (acc, vhostReport)
          = some (envoyRoutes1, vhostReport1) ∧
        vhostReport1.routeReports.length = vhostReport.routeReports.length := by
  intro routes
  induction routes with
  | nil =>
    intro i acc vhostReport _
    exact ⟨acc, vhostReport, rfl, rfl⟩
  | cons route rest ih =>
    intro i acc vhostReport hle
    simp only [List.length_cons] at hle
    have hi : i < vhostReport.routeReports.length := by omega
    have hget : vhostReport.routeReports[i]? = some vhostReport.routeReports[i] :=
      List.getElem?_eq_getElem hi
    obtain ⟨er, vr, hrun, hl⟩ := ih (i + 1)
      (acc ++ (envoyRoutes ext t ⟨params.params, virtualHost⟩ vhostReport.routeReports[i]
        route (virtualHost.name ++ "-route-" ++ toString i)).1)
      ⟨vhostReport.errors, vhostReport.routeReports.set i
          (envoyRoutes ext t ⟨params.params, virtualHost⟩ vhostReport.routeReports[i]
            route (virtualHost.name ++ "-route-" ++ toString i)).2⟩
      (by simp only [List.length_set]; omega)
    refine ⟨er, vr, ?_, ?_⟩
    · simp only [computeRoutesLoop, hget]
      exact hrun
    · rw [hl]; simp

theorem runVirtualHostPlugins_domains (params : VirtualHostParams) (virtualHost : VirtualHost) :
    ∀ (plugs : List Plugin) (out : Envoy.VirtualHost) (vhostReport : VirtualHostReport),
      (∀ plug ∈ plugs, ∀ hook, plug.ProcessVirtualHost = some hook →
        ∀ p v o, (hook p v o).1.domains = o.domains) →
      (runVirtualHostPlugins params virtualHost plugs (out, vhostReport)).1.domains
        = out.domains := by
  intro plugs
  induction plugs with
  | nil => intro out vhostReport _; rfl
  | cons plug rest ih =>
    intro out vhostReport hdom
    have hrest : ∀ plug ∈ rest, ∀ hook, plug.ProcessVirtualHost = some hook →
        ∀ p v o, (hook p v o).1.domains = o.domains :=
      fun q hq => hdom q (List.mem_cons_of_mem _ hq)
    cases hh : plug.ProcessVirtualHost with
    | none =>
      simp only [runVirtualHostPlugins, hh]
      exact ih out vhostReport hrest
    | some hook =>
      have hk := hdom plug (List.mem_cons_self _ _) hook hh params virtualHost out
      cases hr : hook params virtualHost out with
      | mk out1 err =>
        rw [hr] at hk
        cases err with
        | none =>
          simp only [runVirtualHostPlugins, hh, hr]
          rw [ih out1 vhostReport hrest]
          exact hk
        | some e =>
          simp only [runVirtualHostPlugins, hh, hr]
          rw [ih out1 _ hrest]
          exact hk

theorem specDomains_eq (domains : List String) :
    (if domains.length = 0 ∨ (domains.length = 1 ∧ domains.head? = some "") then ["*"]
      else domains) = specDomains domains := by
  unfold specDomains
  cases domains with
  | nil => simp
  | cons d rest =>
    cases rest with
    | nil => simp
    | cons d2 rest2 => simp

theorem specDomains_ne_nil (domains : List String) : specDomains domains ≠ [] := by
  unfold specDomains
  by_cases h : domains = [] ∨ domains = [""]
  · simp [h]
  · rw [if_neg h]
    exact fun hc => h (Or.inl hc)

/-- C27: `computeVirtualHost` gives the emitted virtual host the domains `["*"]` when
the input domain list is empty or is exactly `[""]`, and the input domain list unchanged
otherwise, so the emitted list is never empty. The call returns whenever the report holds
a route report for every route; the virtual-host plugins run on the emitted message
afterwards, and the domains are these for every plugin set whose virtual-host hooks leave
the domains of the message alone (in particular for a plugin set without such hooks). -/
theorem C27_domains_default_to_wildcard
    (ext : External) (t : translatorInstance) (params : VirtualHostParams)
    (virtualHost : VirtualHost) (requireTls : Bool) (vhostReport : VirtualHostReport)
    (hlen : virtualHost.routes.length ≤ vhostReport.routeReports.length)
    (hdom : ∀ plug ∈ t.plugins, ∀ hook, plug.ProcessVirtualHost = some hook →
      ∀ p v o, (hook p v o).1.domains = o.domains) :
    ∃ out vhostReport1,
      computeVirtualHost ext t params virtualHost requireTls vhostReport
        = some (out, vhostReport1) ∧
      out.domains
        = (if virtualHost.domains = [] ∨ virtualHost.domains = [""] then ["*"]
            else virtualHost.domains) ∧
      out.domains ≠ [] := by
  obtain ⟨er, vr, hrun, _⟩ := computeRoutesLoop_succeeds ext t params
    { virtualHost with name := ext.SanitizeForEnvoy virtualHost.name }
    virtualHost.routes 0 [] vhostReport (by simpa using hlen)
  have hd := runVirtualHostPlugins_domains params
    { virtualHost with name := ext.SanitizeForEnvoy virtualHost.name } t.plugins
    { name := ext.SanitizeForEnvoy virtualHost.name
      domains := specDomains virtualHost.domains
      routes := er
      requireTls := if requireTls then .ALL else .NONE } vr hdom
  have hres : computeVirtualHost ext t params virtualHost requireTls vhostReport
      = some (runVirtualHostPlugins params
          { virtualHost with name := ext.SanitizeForEnvoy virtualHost.name } t.plugins
          ({ name := ext.SanitizeForEnvoy virtualHost.name
             domains := specDomains virtualHost.domains
             routes := er
             requireTls := if requireTls then .ALL else .NONE }, vr)) := by
    unfold computeVirtualHost
    simp only [hrun, specDomains_eq]
  rw [hres]
  refine ⟨_, _, rfl, ?_, ?_⟩
  · rw [hd]; rfl
  · rw [hd]; exact specDomains_ne_nil virtualHost.domains

/-- C27 at a virtual host without domains, one with the single domain `""` and one with
two domains. -/
theorem C27_domains_default_to_wildcard_witness :
    (∃ out vhostReport1,
      computeVirtualHost sampleExternal sampleTranslator ⟨⟨sampleSnapshot⟩⟩
          ⟨"vh", [""], []⟩ false ⟨[], []⟩ = some (out, vhostReport1) ∧
      out.domains = (if ([""] : List String) = [] ∨ ([""] : List String) = [""] then ["*"]
        else [""]) ∧
      out.domains ≠ []) ∧
    (computeVirtualHost sampleExternal sampleTranslator ⟨⟨sampleSnapshot⟩⟩
        ⟨"vh", [], []⟩ false ⟨[], []⟩).map (fun r => r.1.domains) = some ["*"] ∧
    (computeVirtualHost sampleExternal sampleTranslator ⟨⟨sampleSnapshot⟩⟩
        ⟨"vh", [""], []⟩ false ⟨[], []⟩).map (fun r => r.1.domains) = some ["*"] ∧
    (computeVirtualHost sampleExternal sampleTranslator ⟨⟨sampleSnapshot⟩⟩
        ⟨"vh", ["a.com", ""], []⟩ false ⟨[], []⟩).map (fun r => r.1.domains)
      = some ["a.com", ""] :=
  ⟨C27_domains_default_to_wildcard sampleExternal sampleTranslator ⟨⟨sampleSnapshot⟩⟩
      ⟨"vh", [""], []⟩ false ⟨[], []⟩ (by decide)
      (by intro plug hplug; simp [sampleTranslator] at hplug),
    by decide, by decide, by decide⟩

/-! ### Route configuration: `ValidateVirtualHostDomains` keeps the route reports -/

theorem appendVirtualHostErrorAt_routeReports (reports rs : List VirtualHostReport) (i : Nat)
    (t : VirtualHostReport_Error_Type) (reason : Reason)
    (hrun : appendVirtualHostErrorAt reports i t reason = some rs) :
    rs.map (fun r => r.routeReports) = reports.map (fun r => r.routeReports) := by
  unfold appendVirtualHostErrorAt at hrun
  cases hget : reports[i]? with
  | none => simp [hget] at hrun
  | some r =>
    simp only [hget, Option.some.injEq] at hrun
    subst hrun
    apply List.ext_getElem?
    intro j
    simp only [List.getElem?_map, List.getElem?_set]
    by_cases hij : i = j
    · subst hij
      have hi : i < reports.length := by
        by_contra hc
        rw [List.getElem?_eq_none (by omega)] at hget
        cases hget
      simp [hi, hget, AppendVirtualHostError]
    · simp [hij]

theorem collectDomains_routeReports (i : Nat) (vh : VirtualHost) :
    ∀ (ds : List String) (m m1 : DomainMap) (reports rs : List VirtualHostReport),
      collectDomains i vh ds (m, reports) = some (m1, rs) →
      rs.map (fun r => r.routeReports) = reports.map (fun r => r.routeReports) := by
  intro ds
  induction ds with
  | nil =>
    intro m m1 reports rs hrun
    simp only [collectDomains, Option.some.injEq, Prod.mk.injEq] at hrun
    rw [hrun.2]
  | cons d rest ih =>
    intro m m1 reports rs hrun
    by_cases hd : d = ""
    · cases ha : appendVirtualHostErrorAt reports i .EmptyDomainError
          (.emptyDomain vh.name) with
      | none => simp [collectDomains, hd, ha] at hrun
      | some reports1 =>
        simp only [collectDomains, hd, if_true, ha] at hrun
        rw [ih _ _ _ _ hrun]
        exact appendVirtualHostErrorAt_routeReports _ _ _ _ _ ha
    · simp only [collectDomains, hd, if_false] at hrun
      exact ih _ _ _ _ hrun

theorem collectVirtualHosts_routeReports :
    ∀ (vhs : List VirtualHost) (i0 : Nat) (m m1 : DomainMap)
      (reports rs : List VirtualHostReport),
      collectVirtualHosts i0 vhs (m, reports) = some (m1, rs) →
      rs.map (fun r => r.routeReports) = reports.map (fun r => r.routeReports) := by
  intro vhs
  induction vhs with
  | nil =>
    intro i0 m m1 reports rs hrun
    simp only [collectVirtualHosts, Option.some.injEq, Prod.mk.injEq] at hrun
    rw [hrun.2]
  | cons vh rest ih =>
    intro i0 m m1 reports rs hrun
    cases hc : collectDomains i0 vh vh.domains
        (if vh.domains.length = 0 then DomainMap.appendIdx m "*" i0 else m, reports) with
    | none => simp only [collectVirtualHosts, hc, reduceCtorEq] at hrun
    | some st =>
      obtain ⟨m2, rs2⟩ := st
      simp only [collectVirtualHosts, hc] at hrun
      rw [ih _ _ _ _ _ hrun]
      exact collectDomains_routeReports _ _ _ _ _ _ _ hc

theorem reportBucket_routeReports (d : String) (names : List String) :
    ∀ (idxs : List Nat) (reports rs : List VirtualHostReport),
      reportBucket d names idxs reports = some rs →
      rs.map (fun r => r.routeReports) = reports.map (fun r => r.routeReports) := by
  intro idxs
  induction idxs with
  | nil =>
    intro reports rs hrun
    simp only [reportBucket, Option.some.injEq] at hrun
    rw [hrun]
  | cons x rest ih =>
    intro reports rs hrun
    cases ha : appendVirtualHostErrorAt reports x .DomainsNotUniqueError
        (.domainShared d names) with
    | none => simp [reportBucket, ha] at hrun
    | some reports1 =>
      simp only [reportBucket, ha] at hrun
      rw [ih _ _ hrun]
      exact appendVirtualHostErrorAt_routeReports _ _ _ _ _ ha

theorem reportConflicts_routeReports (vhs : List VirtualHost) :
    ∀ (bs : List (String × List Nat)) (reports rs : List VirtualHostReport),
      reportConflicts vhs bs reports = some rs →
      rs.map (fun r => r.routeReports) = reports.map (fun r => r.routeReports) := by
  intro bs
  induction bs with
  | nil =>
    intro reports rs hrun
    simp only [reportConflicts, Option.some.injEq] at hrun
    rw [hrun]
  | cons b rest ih =>
    obtain ⟨d, idxs⟩ := b
    intro reports rs hrun
    by_cases hlen : idxs.length > 1
    · cases hn : collectNames vhs idxs with
      | none => simp [reportConflicts, hlen, hn] at hrun
      | some names =>
        cases hb : reportBucket d names idxs reports with
        | none => simp [reportConflicts, hlen, hn, hb] at hrun
        | some reports1 =>
          simp only [reportConflicts, hlen, if_true, hn, hb] at hrun
          rw [ih _ _ hrun]
          exact reportBucket_routeReports _ _ _ _ _ hb
    · simp only [reportConflicts, hlen, if_false] at hrun
      exact ih _ _ hrun

/-- With one virtual-host report per virtual host, `ValidateVirtualHostDomains` returns,
and it changes neither the number of virtual-host reports nor their route reports. -/
theorem ValidateVirtualHostDomains_succeeds (order : DomainMap → DomainMap)
    (horder : ∀ m, (order m).Perm m) (virtualHosts : List VirtualHost)
    (httpListenerReport : HttpListenerReport)
    (hlen : httpListenerReport.virtualHostReports.length = virtualHosts.length) :
    ∃ httpListenerReport1,
      ValidateVirtualHostDomains order virtualHosts httpListenerReport
        = some httpListenerReport1 ∧
      httpListenerReport1.errors = httpListenerReport.errors ∧
      httpListenerReport1.virtualHostReports.map (fun r => r.routeReports)
        = httpListenerReport.virtualHostReports.map (fun r => r.routeReports) := by
  obtain ⟨m1, rs1, hrun1, hl1, _, _, _, hb1⟩ :=
    collectVirtualHosts_spec virtualHosts.length virtualHosts 0 []
      httpListenerReport.virtualHostReports hlen (by omega)
  have hbound : ∀ b ∈ order m1, ∀ x ∈ b.2, x < virtualHosts.length := by
    intro b hb
    exact hb1 (by simp) b ((horder m1).mem_iff.mp hb)
  obtain ⟨rs2, hrun2, _, _⟩ :=
    reportConflicts_spec "" virtualHosts (order m1) rs1 hl1 hbound
  refine ⟨{ httpListenerReport with virtualHostReports := rs2 }, ?_, rfl, ?_⟩
  · simp only [ValidateVirtualHostDomains, hrun1, hrun2]
  · show rs2.map (fun r => r.routeReports) = _
    rw [reportConflicts_routeReports _ _ _ _ hrun2]
    exact collectVirtualHosts_routeReports _ _ _ _ _ _ hrun1

/-! ### Route configuration: the pass returns for index-aligned reports -/

theorem reportsAligned_iff :
    ∀ (vhs : List VirtualHost) (reports : List VirtualHostReport),
      reportsAligned vhs reports = true ↔
        reports.map (fun r => r.routeReports.length) = vhs.map (fun v => v.routes.length) := by
  intro vhs
  induction vhs with
  | nil =>
    intro reports
    cases reports with
    | nil => simp [reportsAligned]
    | cons r rs => simp [reportsAligned]
  | cons vh rest ih =>
    intro reports
    cases reports with
    | nil => simp [reportsAligned]
    | cons r rs =>
      simp only [reportsAligned, Bool.and_eq_true, decide_eq_true_eq, ih rs, List.map_cons,
        List.cons.injEq]

theorem computeVirtualHost_succeeds (ext : External) (t : translatorInstance)
    (params : VirtualHostParams) (virtualHost : VirtualHost) (requireTls : Bool)
    (vhostReport : VirtualHostReport)
    (hlen : virtualHost.routes.length ≤ vhostReport.routeReports.length) :
    ∃ r, computeVirtualHost ext t params virtualHost requireTls vhostReport = some r := by
  obtain ⟨er, vr, hrun, _⟩ := computeRoutesLoop_succeeds ext t params
    { virtualHost with name := ext.SanitizeForEnvoy virtualHost.name }
    virtualHost.routes 0 [] vhostReport (by simpa using hlen)
  unfold computeVirtualHost
  simp only [hrun]
  exact ⟨_, rfl⟩

theorem computeVirtualHostsLoop_succeeds (ext : External) (t : translatorInstance)
    (params : VirtualHostParams) (requireTls : Bool) :
    ∀ (rest : List VirtualHost) (i : Nat) (acc : List Envoy.VirtualHost)
      (reports : List VirtualHostReport),
      (reports.drop i).map (fun r => r.routeReports.length)
        = rest.map (fun v => v.routes.length) →
      ∃ r, computeVirtualHostsLoop ext t params requireTls i rest (acc, reports) = some r ∧
        r.1.length = acc.length + rest.length := by
  intro rest
  induction rest with
  | nil =>
    intro i acc reports _
    exact ⟨(acc, reports), rfl, by simp⟩
  | cons vh rest ih =>
    intro i acc reports hal
    have hi : i < reports.length := by
      by_contra hc
      rw [List.drop_eq_nil_of_le (by omega)] at hal
      simp at hal
    rw [List.drop_eq_getElem_cons hi] at hal
    simp only [List.map_cons, List.cons.injEq] at hal
    obtain ⟨hhead, htail⟩ := hal
    obtain ⟨r, hr⟩ := computeVirtualHost_succeeds ext t params vh requireTls reports[i]
      (by omega)
    obtain ⟨out, vhostReport1⟩ := r
    obtain ⟨res, hres, hlen⟩ := ih (i + 1) (acc ++ [out]) (reports.set i vhostReport1)
      (by rw [List.drop_set_of_lt _ _ (by omega)]; exact htail)
    refine ⟨res, ?_, ?_⟩
    · simp only [computeVirtualHostsLoop, List.getElem?_eq_getElem hi, hr]
      exact hres
    · rw [hlen]
      simp only [List.length_append, List.length_cons, List.length_nil]
      omega

theorem computeVirtualHosts_succeeds (ext : External) (order : DomainMap → DomainMap)
    (horder : ∀ m, (order m).Perm m) (t : translatorInstance) (params : Params)
    (listener : Listener) (httpListener : HttpListener)
    (httpListenerReport : HttpListenerReport)
    (hl : listener.listenerType = .HttpListener httpListener)
    (hal : reportsAligned httpListener.virtualHosts httpListenerReport.virtualHostReports
      = true) :
    ∃ r, computeVirtualHosts ext order t params listener httpListenerReport = some r ∧
      r.1.length = httpListener.virtualHosts.length := by
  rw [reportsAligned_iff] at hal
  have hlen : httpListenerReport.virtualHostReports.length = httpListener.virtualHosts.length := by
    have := congrArg List.length hal
    simpa using this
  obtain ⟨rep1, hv, _, hrr⟩ := ValidateVirtualHostDomains_succeeds order horder
    httpListener.virtualHosts httpListenerReport hlen
  have hal1 : (rep1.virtualHostReports.drop 0).map (fun r => r.routeReports.length)
      = httpListener.virtualHosts.map (fun v => v.routes.length) := by
    rw [List.drop_zero, ← hal]
    have := congrArg (List.map List.length) hrr
    simpa [List.map_map, Function.comp_def] using this
  obtain ⟨res, hres, hlen1⟩ := computeVirtualHostsLoop_succeeds ext t ⟨params⟩
    (decide (listener.sslConfigurations.length > 0)) httpListener.virtualHosts 0 []
    rep1.virtualHostReports hal1
  obtain ⟨envoyVirtualHosts, reports⟩ := res
  refine ⟨(envoyVirtualHosts, { rep1 with virtualHostReports := reports }), ?_, ?_⟩
  · unfold computeVirtualHosts
    simp only [hl, hv, hres]
  · simpa using hlen1

/-- C25: `computeRouteConfig` returns `nil` exactly when the listener is not HTTP-shaped:
for such a listener it returns `nil` and leaves the report alone, and whenever it
returns for an HTTP-shaped listener the result is a route configuration. For an
HTTP-shaped listener whose HTTP report is index-aligned with its virtual hosts (one
virtual-host report per virtual host, one route report per route) the pass returns a
route configuration whose name is the supplied name, with one virtual host per input
virtual host, for every plugin set, snapshot and TLS resolver, whatever was recorded in
the report; `order` is any order in which the domain map is visited. -/
theorem C25_route_config_nil_iff_not_http
    (ext : External) (sslCfgTranslator : SslConfigTranslator) (order : DomainMap → DomainMap)
    (horder : ∀ m, (order m).Perm m)
    (t : translatorInstance) (params : Params) (listener : Listener) (routeCfgName : String)
    (listenerReport : ListenerReport) :
    (listener.GetHttpListener = none →
      computeRouteConfig ext sslCfgTranslator order t params listener routeCfgName
        listenerReport = some (none, listenerReport)) ∧
    (∀ cfg listenerReport1,
      computeRouteConfig ext sslCfgTranslator order t params listener routeCfgName
        listenerReport = some (cfg, listenerReport1) →
      (cfg = none ↔ listener.GetHttpListener = none)) ∧
    (∀ httpListener httpListenerReport,
      listener.GetHttpListener = some httpListener →
      listenerReport.GetHttpListenerReport = some httpListenerReport →
      reportsAligned httpListener.virtualHosts httpListenerReport.virtualHostReports = true →
      ∃ cfg listenerReport1,
        computeRouteConfig ext sslCfgTranslator order t params listener routeCfgName
          listenerReport = some (some cfg, listenerReport1) ∧
        cfg.name = routeCfgName ∧
        cfg.virtualHosts.length = httpListener.virtualHosts.length) := by
  refine ⟨?_, ?_, ?_⟩
  · intro hnone
    simp only [computeRouteConfig, hnone]
  · intro cfg listenerReport1 hrun
    cases hh : listener.GetHttpListener with
    | none =>
      simp only [computeRouteConfig, hh, Option.some.injEq, Prod.mk.injEq] at hrun
      simp [← hrun.1]
    | some httpListener =>
      simp only [computeRouteConfig, hh] at hrun
      cases hc : computeVirtualHosts ext order t params listener
          (listenerReport.GetHttpListenerReport.getD ⟨[], []⟩) with
      | none => simp only [hc, reduceCtorEq] at hrun
      | some r =>
        obtain ⟨virtualHosts, httpListenerReport1⟩ := r
        simp only [hc, Option.some.injEq, Prod.mk.injEq] at hrun
        simp [← hrun.1]
  · intro httpListener httpListenerReport hh hr hal
    have hl : listener.listenerType = .HttpListener httpListener := by
      unfold Listener.GetHttpListener at hh
      cases hlt : listener.listenerType with
      | HttpListener l0 => simp only [hlt, Option.some.injEq] at hh; rw [hh]
      | TcpListener l0 => simp only [hlt, reduceCtorEq] at hh
      | HybridListener l0 => simp only [hlt, reduceCtorEq] at hh
      | AggregateListener l0 => simp only [hlt, reduceCtorEq] at hh
      | unset => simp only [hlt, reduceCtorEq] at hh
    obtain ⟨r, hc, hlen⟩ := computeVirtualHosts_succeeds ext order horder t params listener
      httpListener httpListenerReport hl hal
    obtain ⟨virtualHosts, httpListenerReport1⟩ := r
    simp only [computeRouteConfig, hh, hr, Option.getD_some, hc]
    exact ⟨_, _, rfl, rfl, hlen⟩

/-- C25 at an HTTP listener with a domain conflict, a missing upstream group and TLS
configs that do not resolve, and at a TCP listener. -/
theorem C25_route_config_nil_iff_not_http_witness :
    (∃ cfg listenerReport1,
      computeRouteConfig sampleExternal sampleSslConfigTranslator id sampleTranslator
          ⟨sampleSnapshot⟩ sampleHttpListenerResource "http-routes"
          sampleHttpListenerResourceReport = some (some cfg, listenerReport1) ∧
      cfg.name = "http-routes" ∧ cfg.virtualHosts.length = 2) ∧
    computeRouteConfig sampleExternal sampleSslConfigTranslator id sampleTranslator
        ⟨sampleSnapshot⟩ sampleTcpListenerResource "tcp-routes" ⟨[], .TcpListenerReport ⟨[]⟩⟩
      = some (none, ⟨[], .TcpListenerReport ⟨[]⟩⟩) :=
  ⟨(C25_route_config_nil_iff_not_http sampleExternal sampleSslConfigTranslator id
      (fun m => List.Perm.refl m) sampleTranslator ⟨sampleSnapshot⟩
      sampleHttpListenerResource "http-routes" sampleHttpListenerResourceReport).2.2
      ⟨[sampleVirtualHost, ⟨"b", ["example.com"], [sampleGroupRoute]⟩], none⟩
      ⟨[], [sampleVirtualHostReport, ⟨[], [⟨[], []⟩]⟩]⟩ rfl rfl (by decide),
    (C25_route_config_nil_iff_not_http sampleExternal sampleSslConfigTranslator id
      (fun m => List.Perm.refl m) sampleTranslator ⟨sampleSnapshot⟩
      sampleTcpListenerResource "tcp-routes" ⟨[], .TcpListenerReport ⟨[]⟩⟩).1 rfl⟩

/-! ### The listener subsystem factory -/

theorem hybridTranslatorsLoop_eq
    (utils : RouteConfigNames) (l : ListenerSubsystemTranslatorFactory)
    (listener : Listener) (listenerReport : ListenerReport)
    (hybridListenerReport : HybridListenerReport) :
    ∀ (matchedListeners : List MatchedListener)
      (rcts : List (Option Factory.RouteConfigurationTranslator))
      (fcts : List (Option Factory.FilterChainTranslator)),
      hybridTranslatorsLoop utils l listener listenerReport hybridListenerReport
          matchedListeners (rcts, fcts)
        = (rcts ++ matchedListeners.map (fun ml =>
              (hybridMatchedListenerTranslators utils l listener listenerReport
                hybridListenerReport ml).2),
            fcts ++ matchedListeners.map (fun ml =>
              (hybridMatchedListenerTranslators utils l listener listenerReport
                hybridListenerReport ml).1)) := by
  intro matchedListeners
  induction matchedListeners with
  | nil => intro rcts fcts; simp [hybridTranslatorsLoop]
  | cons ml rest ih =>
    intro rcts fcts
    simp only [hybridTranslatorsLoop, ih, List.map_cons, List.append_assoc,
      List.singleton_append]

theorem GetHybridListenerTranslators_eq
    (utils : RouteConfigNames) (l : ListenerSubsystemTranslatorFactory)
    (listener : Listener) (listenerReport : ListenerReport)
    (hybridListener : HybridListener) (hybridListenerReport : HybridListenerReport)
    (hl : listener.listenerType = .HybridListener hybridListener)
    (hr : listenerReport.listenerTypeReport = .HybridListenerReport hybridListenerReport) :
    l.GetHybridListenerTranslators utils listener listenerReport
      = (some (.listenerTranslatorInstance
          { listener := listener
            report := listenerReport
            plugins := l.pluginRegistry.listenerPlugins
            filterChainTranslator := .multiFilterChainTranslator
              (hybridListener.matchedListeners.map (fun ml =>
                (hybridMatchedListenerTranslators utils l listener listenerReport
                  hybridListenerReport ml).1)) }),
        some (.multiRouteConfigurationTranslator
          (hybridListener.matchedListeners.map (fun ml =>
            (hybridMatchedListenerTranslators utils l listener listenerReport
              hybridListenerReport ml).2)))) := by
  simp only [ListenerSubsystemTranslatorFactory.GetHybridListenerTranslators,
    ListenerReport.GetHybridListenerReport, Listener.GetHybridListener, hl, hr,
    hybridTranslatorsLoop_eq, List.nil_append]

/-- C22: for a Hybrid listener with a Hybrid report, `GetTranslators` returns a listener
translator whose filter-chain translator is the multi translator and the multi
route-configuration translator, each with exactly one child per matched listener, the
child at index `i` being that of the matched listener at index `i`. For an HTTP matched
listener the children are an HTTP filter-chain translator and an HTTP route-configuration
translator over that listener, the former carrying the matched listener's own TLS
configs, its matcher's TLS config as the default and its matcher's source-prefix ranges;
for a TCP matched listener they are a TCP filter-chain translator over that listener and
the empty route-configuration translator. -/
theorem C22_hybrid_children_in_declaration_order
    (utils : RouteConfigNames) (l : ListenerSubsystemTranslatorFactory)
    (listener : Listener) (listenerReport : ListenerReport)
    (hybridListener : HybridListener) (hybridListenerReport : HybridListenerReport)
    (hl : listener.listenerType = .HybridListener hybridListener)
    (hr : listenerReport.listenerTypeReport = .HybridListenerReport hybridListenerReport) :
    ∃ (lt : Factory.listenerTranslatorInstance)
      (fcts : List (Option Factory.FilterChainTranslator))
      (rcts : List (Option Factory.RouteConfigurationTranslator)),
      l.GetTranslators utils listener listenerReport
        = (some (.listenerTranslatorInstance lt),
            some (.multiRouteConfigurationTranslator rcts)) ∧
      lt.filterChainTranslator = .multiFilterChainTranslator fcts ∧
      fcts.length = hybridListener.matchedListeners.length ∧
      rcts.length = hybridListener.matchedListeners.length ∧
      ∀ (i : Nat) (matchedListener : MatchedListener),
        hybridListener.matchedListeners[i]? = some matchedListener →
        (∀ httpListener, matchedListener.listenerType = .HttpListener httpListener →
          ∃ fct rct,
            fcts[i]? = some (some (.httpFilterChainTranslator fct)) ∧
            rcts[i]? = some (some (.httpRouteConfigurationTranslator rct)) ∧
            fct.sslConfigurations = matchedListener.sslConfigurations.map some ∧
            fct.defaultSslConfig = Listener_Matcher.GetSslConfig matchedListener.matcher ∧
            fct.sourcePrefixRanges
              = Listener_Matcher.GetSourcePrefixRanges matchedListener.matcher ∧
            fct.networkFilterTranslator.listener = some httpListener.ptr ∧
            rct.listener = some httpListener.ptr ∧
            rct.routeConfigName = fct.networkFilterTranslator.routeConfigName) ∧
        (∀ tcpListener, matchedListener.listenerType = .TcpListener tcpListener →
          ∃ fct,
            fcts[i]? = some (some (.tcpFilterChainTranslator fct)) ∧
            fct.listener = some tcpListener ∧
            fct.sourcePrefixRanges
              = Listener_Matcher.GetSourcePrefixRanges matchedListener.matcher ∧
            rcts[i]? = some (some .emptyRouteConfigurationTranslator)) := by
  refine ⟨⟨listener, listenerReport, l.pluginRegistry.listenerPlugins,
      .multiFilterChainTranslator (hybridListener.matchedListeners.map (fun ml =>
        (hybridMatchedListenerTranslators utils l listener listenerReport
          hybridListenerReport ml).1))⟩,
    hybridListener.matchedListeners.map (fun ml =>
      (hybridMatchedListenerTranslators utils l listener listenerReport
        hybridListenerReport ml).1),
    hybridListener.matchedListeners.map (fun ml =>
      (hybridMatchedListenerTranslators utils l listener listenerReport
        hybridListenerReport ml).2), ?_, rfl, ?_, ?_, ?_⟩
  · simp only [ListenerSubsystemTranslatorFactory.GetTranslators, hl]
    exact GetHybridListenerTranslators_eq utils l listener listenerReport hybridListener
      hybridListenerReport hl hr
  · simp
  · simp
  · intro i matchedListener hi
    constructor
    · intro httpListener hh
      simp only [List.getElem?_map, hi, Option.map_some',
        hybridMatchedListenerTranslators, hh]
      refine ⟨_, _, rfl, rfl, ?_⟩
      simp
    · intro tcpListener ht
      simp only [List.getElem?_map, hi, Option.map_some',
        hybridMatchedListenerTranslators, ht]
      refine ⟨_, rfl, ?_⟩
      simp

/-- C22 at a Hybrid listener with an HTTP, a TCP and a second HTTP matched listener. -/
theorem C22_hybrid_children_in_declaration_order_witness :
    ∃ (lt : Factory.listenerTranslatorInstance)
      (fcts : List (Option Factory.FilterChainTranslator))
      (rcts : List (Option Factory.RouteConfigurationTranslator)),
      sampleFactory.GetTranslators sampleRouteConfigNames sampleHybridListener
          sampleHybridListenerReport
        = (some (.listenerTranslatorInstance lt),
            some (.multiRouteConfigurationTranslator rcts)) ∧
      lt.filterChainTranslator = .multiFilterChainTranslator fcts ∧
      fcts.length = 3 ∧ rcts.length = 3 ∧
      (∃ fct, fcts[0]? = some (some (.httpFilterChainTranslator fct)) ∧
        fct.sslConfigurations = sampleSslConfigs.map some ∧
        fct.sourcePrefixRanges = [⟨"10.0.0.0", some 8⟩]) ∧
      rcts[1]? = some (some .emptyRouteConfigurationTranslator) := by
  obtain ⟨lt, fcts, rcts, h1, h2, h3, h4, h5⟩ :=
    C22_hybrid_children_in_declaration_order sampleRouteConfigNames sampleFactory
      sampleHybridListener sampleHybridListenerReport _ _ rfl rfl
  obtain ⟨fct, rct, hf, _, hs, _, hp, _⟩ := (h5 0 _ rfl).1 _ rfl
  obtain ⟨_, _, _, _, hr⟩ := (h5 1 _ rfl).2 _ rfl
  exact ⟨lt, fcts, rcts, h1, h2, h3, h4, ⟨fct, hf, hs, hp⟩, hr⟩

/-- C21, counterexample: for a Hybrid listener whose report is an HTTP report and for an
Aggregate listener whose report is unset, `GetTranslators` returns `nil, nil`. -/
theorem C21_report_mismatch_gives_missing_pair :
    sampleFactory.GetTranslators sampleRouteConfigNames sampleHybridListener
        sampleHttpListenerResourceReport = (none, none) ∧
    sampleFactory.GetTranslators sampleRouteConfigNames sampleAggregateListener
        ⟨[], .unset⟩ = (none, none) :=
  ⟨rfl, rfl⟩

/-- C21, amended: `GetTranslators` returns either two translators or none at all. It
returns the missing pair `nil, nil` exactly for a Hybrid listener whose report is not a
Hybrid report and for an Aggregate listener whose report is not an Aggregate report. For
an HTTP or a TCP listener it returns two translators also when the report is of another
type, and for a listener of unset type it returns the empty listener translator and the
empty route-configuration translator. -/
theorem C21_missing_pair_iff_hybrid_or_aggregate_mismatch
    (utils : RouteConfigNames) (l : ListenerSubsystemTranslatorFactory)
    (listener : Listener) (listenerReport : ListenerReport) :
    (l.GetTranslators utils listener listenerReport = (none, none) ∨
      ((l.GetTranslators utils listener listenerReport).1.isSome = true ∧
        (l.GetTranslators utils listener listenerReport).2.isSome = true)) ∧
    (l.GetTranslators utils listener listenerReport = (none, none) ↔
      (listener.GetHybridListener.isSome = true ∧
          listenerReport.GetHybridListenerReport = none) ∨
        (listener.GetAggregateListener.isSome = true ∧
          listenerReport.GetAggregateListenerReport = none)) ∧
    (listener.listenerType = .unset →
      l.GetTranslators utils listener listenerReport
        = (some .emptyListenerTranslator, some .emptyRouteConfigurationTranslator)) := by
  cases hl : listener.listenerType with
  | HttpListener h =>
    simp [ListenerSubsystemTranslatorFactory.GetTranslators, hl,
      ListenerSubsystemTranslatorFactory.GetHttpListenerTranslators,
      Listener.GetHybridListener, Listener.GetAggregateListener]
  | TcpListener h =>
    simp [ListenerSubsystemTranslatorFactory.GetTranslators, hl,
      ListenerSubsystemTranslatorFactory.GetTcpListenerTranslators,
      Listener.GetHybridListener, Listener.GetAggregateListener]
  | HybridListener h =>
    cases hr : listenerReport.GetHybridListenerReport with
    | none =>
      simp [ListenerSubsystemTranslatorFactory.GetTranslators, hl,
        ListenerSubsystemTranslatorFactory.GetHybridListenerTranslators,
        Listener.GetHybridListener, Listener.GetAggregateListener, hr]
    | some r =>
      simp [ListenerSubsystemTranslatorFactory.GetTranslators, hl,
        ListenerSubsystemTranslatorFactory.GetHybridListenerTranslators,
        Listener.GetHybridListener, Listener.GetAggregateListener, hr]
  | AggregateListener h =>
    cases hr : listenerReport.GetAggregateListenerReport with
    | none =>
      simp [ListenerSubsystemTranslatorFactory.GetTranslators, hl,
        ListenerSubsystemTranslatorFactory.GetAggregateListenerTranslators,
        Listener.GetHybridListener, Listener.GetAggregateListener, hr]
    | some r =>
      simp [ListenerSubsystemTranslatorFactory.GetTranslators, hl,
        ListenerSubsystemTranslatorFactory.GetAggregateListenerTranslators,
        Listener.GetHybridListener, Listener.GetAggregateListener, hr]
  | unset =>
    simp [ListenerSubsystemTranslatorFactory.GetTranslators, hl,
      Listener.GetHybridListener, Listener.GetAggregateListener]

/-! ### Filter lists in memory -/

theorem FilterHeap.deref_bound (heap : FilterHeap) :
    ∀ (ptrs : List Nat) (vals : List Envoy.Filter),
      FilterHeap.deref heap ptrs = some vals →
      vals.length = ptrs.length ∧ ∀ p ∈ ptrs, p < heap.messages.length := by
  intro ptrs
  induction ptrs with
  | nil =>
    intro vals h
    simp only [FilterHeap.deref, Option.some.injEq] at h
    subst h
    simp
  | cons p rest ih =>
    intro vals h
    cases hp : heap.messages[p]? with
    | none => simp [FilterHeap.deref, hp] at h
    | some v =>
      cases hr : FilterHeap.deref heap rest with
      | none => simp [FilterHeap.deref, hp, hr] at h
      | some vs =>
        simp only [FilterHeap.deref, hp, hr, Option.some.injEq] at h
        subst h
        obtain ⟨hl, hb⟩ := ih vs hr
        refine ⟨by simp [hl], ?_⟩
        intro q hq
        rcases List.mem_cons.mp hq with hq | hq
        · subst hq
          by_contra hc
          rw [List.getElem?_eq_none (by omega)] at hp
          cases hp
        · exact hb q hq

theorem FilterHeap.deref_congr (heap heap1 : FilterHeap) :
    ∀ (ptrs : List Nat),
      (∀ p ∈ ptrs, heap1.messages[p]? = heap.messages[p]?) →
      FilterHeap.deref heap1 ptrs = FilterHeap.deref heap ptrs := by
  intro ptrs
  induction ptrs with
  | nil => intro _; rfl
  | cons p rest ih =>
    intro h
    simp only [FilterHeap.deref, h p (List.mem_cons_self _ _),
      ih (fun q hq => h q (List.mem_cons_of_mem _ hq))]

theorem FilterHeap.deref_of_prefix (heap heap1 : FilterHeap)
    (hp : heap.messages <+: heap1.messages) (ptrs : List Nat) (vals : List Envoy.Filter)
    (h : FilterHeap.deref heap ptrs = some vals) :
    FilterHeap.deref heap1 ptrs = some vals := by
  rw [← h]
  apply FilterHeap.deref_congr
  intro p hmem
  obtain ⟨extra, he⟩ := hp
  rw [← he]
  exact List.getElem?_append_left ((FilterHeap.deref_bound heap ptrs vals h).2 p hmem)

theorem FilterHeap.deref_range (arrays : List (List Nat)) :
    ∀ (vals before after : List Envoy.Filter),
      FilterHeap.deref ⟨before ++ vals ++ after, arrays⟩
        (List.range' before.length vals.length) = some vals := by
  intro vals
  induction vals with
  | nil => intro before after; rfl
  | cons v vs ih =>
    intro before after
    have hih : FilterHeap.deref ⟨before ++ v :: (vs ++ after), arrays⟩
        (List.range' (before.length + 1) vs.length) = some vs := by
      simpa using ih (before ++ [v]) after
    have hget : (before ++ v :: (vs ++ after))[before.length]? = some v := by
      rw [List.getElem?_append_right (Nat.le_refl _)]
      simp
    simp only [List.length_cons, List.range'_succ, FilterHeap.deref, List.append_assoc,
      List.cons_append, hih, hget]

theorem cloneListenerFiltersLoop_eq :
    ∀ (ptrs : List Nat) (vals : List Envoy.Filter) (cloned : List Nat) (heap : FilterHeap),
      FilterHeap.deref heap ptrs = some vals →
      cloneListenerFiltersLoop ptrs (cloned, heap)
        = some (cloned ++ List.range' heap.messages.length vals.length,
            { heap with messages := heap.messages ++ vals }) := by
  intro ptrs
  induction ptrs with
  | nil =>
    intro vals cloned heap h
    simp only [FilterHeap.deref, Option.some.injEq] at h
    subst h
    simp [cloneListenerFiltersLoop]
  | cons p rest ih =>
    intro vals cloned heap h
    cases hp : heap.messages[p]? with
    | none => simp [FilterHeap.deref, hp] at h
    | some v =>
      cases hr : FilterHeap.deref heap rest with
      | none => simp [FilterHeap.deref, hp, hr] at h
      | some vs =>
        simp only [FilterHeap.deref, hp, hr, Option.some.injEq] at h
        subst h
        have hr1 : FilterHeap.deref { heap with messages := heap.messages ++ [v] } rest
            = some vs :=
          FilterHeap.deref_of_prefix heap _ ⟨[v], rfl⟩ rest vs hr
        simp only [cloneListenerFiltersLoop, FilterHeap.clone, hp, ih vs _ _ hr1,
          List.length_append, List.length_cons, List.length_nil, List.append_assoc,
          List.singleton_append, List.range'_succ, Nat.zero_add]

/-- Go `cloneListenerFilters` gives a new backing array of new messages, equal in value
to the original ones, and changes no cell that existed before. -/
theorem cloneListenerFiltersOnHeap_eq (heap : FilterHeap) (original : Nat)
    (vals : List Envoy.Filter) (h : FilterHeap.read heap original = some vals) :
    cloneListenerFiltersOnHeap heap original
      = some (heap.arrays.length,
          { messages := heap.messages ++ vals
            arrays := heap.arrays
              ++ [List.range' heap.messages.length vals.length] }) := by
  unfold FilterHeap.read at h
  cases ha : heap.arrays[original]? with
  | none => simp [ha] at h
  | some ptrs =>
    simp only [ha] at h
    simp only [cloneListenerFiltersOnHeap, ha, cloneListenerFiltersLoop_eq ptrs vals [] heap h,
      List.nil_append]

theorem getElem?_of_isPrefix {α : Type} {l l1 : List α} (hp : l <+: l1) {i : Nat} {x : α}
    (h : l[i]? = some x) : l1[i]? = some x := by
  obtain ⟨t, rfl⟩ := hp
  have hi : i < l.length := by
    by_contra hc
    rw [List.getElem?_eq_none (by omega)] at h
    cases h
  rw [List.getElem?_append_left hi]
  exact h

theorem FilterHeap.read_of_prefix (heap heap1 : FilterHeap)
    (hm : heap.messages <+: heap1.messages) (ha : heap.arrays <+: heap1.arrays)
    (slice : Nat) (vals : List Envoy.Filter) (h : FilterHeap.read heap slice = some vals) :
    FilterHeap.read heap1 slice = some vals := by
  unfold FilterHeap.read at h ⊢
  cases hs : heap.arrays[slice]? with
  | none => simp [hs] at h
  | some ptrs =>
    simp only [hs] at h
    simp only [getElem?_of_isPrefix ha hs]
    exact FilterHeap.deref_of_prefix heap heap1 hm ptrs vals h

theorem FilterChainOnHeap.value_of_read (heap : FilterHeap) (fc : FilterChainOnHeap)
    (vals : List Envoy.Filter) (h : FilterHeap.read heap fc.filters = some vals) :
    FilterChainOnHeap.value heap fc
      = some ⟨fc.filterChainMatch, vals, fc.transportSocket,
          fc.transportSocketConnectTimeout⟩ := by
  simp only [FilterChainOnHeap.value, h]

theorem chainsOwnFilters_read (heap0 : FilterHeap) (vals : List Envoy.Filter)
    (heap : FilterHeap) (chains : List FilterChainOnHeap)
    (hown : chainsOwnFilters heap0 vals heap chains) :
    ∀ c ∈ chains, FilterHeap.read heap c.filters = some vals := by
  intro c hc
  obtain ⟨_, ptrs, hp, _, hd⟩ := hown.2.2.1 c hc
  simp only [FilterHeap.read, hp, hd]

/-- Ownership survives an extension of the heap. -/
theorem chainsOwnFilters_mono (heap0 : FilterHeap) (vals : List Envoy.Filter)
    (heap heap1 : FilterHeap) (chains : List FilterChainOnHeap)
    (hm : heap.messages <+: heap1.messages) (ha : heap.arrays <+: heap1.arrays)
    (hown : chainsOwnFilters heap0 vals heap chains) :
    chainsOwnFilters heap0 vals heap1 chains := by
  obtain ⟨h1, h2, h3, h4⟩ := hown
  refine ⟨h1.trans hm, h2.trans ha, ?_, ?_⟩
  · intro c hc
    obtain ⟨hle, ptrs, hp, hb, hd⟩ := h3 c hc
    exact ⟨hle, ptrs, getElem?_of_isPrefix ha hp, hb,
      FilterHeap.deref_of_prefix heap heap1 hm ptrs vals hd⟩
  · rw [List.pairwise_iff_forall_sublist] at h4 ⊢
    intro c d hsub
    obtain ⟨hne, hdis⟩ := h4 hsub
    refine ⟨hne, ?_⟩
    intro ptrs qtrs hp hq
    have hc : c ∈ chains := hsub.subset (by simp)
    have hd : d ∈ chains := hsub.subset (by simp)
    obtain ⟨_, ptrs0, hp0, _, _⟩ := h3 c hc
    obtain ⟨_, qtrs0, hq0, _, _⟩ := h3 d hd
    have hpe : ptrs = ptrs0 :=
      Option.some.inj (hp.symm.trans (getElem?_of_isPrefix ha hp0))
    have hqe : qtrs = qtrs0 :=
      Option.some.inj (hq.symm.trans (getElem?_of_isPrefix ha hq0))
    rw [hpe, hqe]
    exact hdis ptrs0 qtrs0 hp0 hq0

/-- Ownership survives the allocation of a chain by `cloneListenerFilters`. -/
theorem chainsOwnFilters_snoc (heap0 : FilterHeap) (vals : List Envoy.Filter)
    (heap : FilterHeap) (chains : List FilterChainOnHeap)
    (hown : chainsOwnFilters heap0 vals heap chains) (fc : FilterChainOnHeap)
    (hfc : fc.filters = heap.arrays.length) :
    chainsOwnFilters heap0 vals
      { messages := heap.messages ++ vals
        arrays := heap.arrays ++ [List.range' heap.messages.length vals.length] }
      (chains ++ [fc]) := by
  have hm : heap.messages <+: heap.messages ++ vals := ⟨vals, rfl⟩
  have ha : heap.arrays
      <+: heap.arrays ++ [List.range' heap.messages.length vals.length] := ⟨_, rfl⟩
  have hown1 := chainsOwnFilters_mono heap0 vals heap
    { messages := heap.messages ++ vals
      arrays := heap.arrays ++ [List.range' heap.messages.length vals.length] }
    chains hm ha hown
  obtain ⟨g1, g2, g3, g4⟩ := hown
  obtain ⟨h1, h2, h3, h4⟩ := hown1
  have hnew : (heap.arrays ++ [List.range' heap.messages.length vals.length])[fc.filters]?
      = some (List.range' heap.messages.length vals.length) := by
    rw [hfc, List.getElem?_append_right (Nat.le_refl _)]
    simp
  have hlen0 : heap0.messages.length ≤ heap.messages.length := g1.length_le
  have hlena : heap0.arrays.length ≤ heap.arrays.length := g2.length_le
  refine ⟨h1, h2, ?_, ?_⟩
  · intro c hc
    rcases List.mem_append.mp hc with hc | hc
    · exact h3 c hc
    · simp only [List.mem_singleton] at hc
      subst hc
      refine ⟨by omega, _, hnew, ?_, ?_⟩
      · intro p hp
        have := (List.mem_range'_1.mp hp).1
        omega
      · have := FilterHeap.deref_range
          (heap.arrays ++ [List.range' heap.messages.length vals.length]) vals
          heap.messages []
        simpa using this
  · rw [List.pairwise_append]
    refine ⟨h4, by simp, ?_⟩
    intro c hc d hd
    simp only [List.mem_singleton] at hd
    subst hd
    obtain ⟨_, ptrs0, hp0, _, hd0⟩ := g3 c hc
    have hclt : c.filters < heap.arrays.length := by
      by_contra hcon
      rw [List.getElem?_eq_none (by omega)] at hp0
      cases hp0
    refine ⟨by omega, ?_⟩
    intro ptrs qtrs hp hq p hpm hqm
    have hqe : qtrs = List.range' heap.messages.length vals.length :=
      Option.some.inj (hq.symm.trans hnew)
    have hpe : ptrs = ptrs0 :=
      Option.some.inj (hp.symm.trans (getElem?_of_isPrefix ha hp0))
    rw [hpe] at hpm
    rw [hqe] at hqm
    have hlt := (FilterHeap.deref_bound heap ptrs0 vals hd0).2 p hpm
    have := (List.mem_range'_1.mp hqm).1
    omega

theorem chainsOwnFilters_values (heap0 : FilterHeap) (vals : List Envoy.Filter)
    (heap heap1 : FilterHeap) (chains : List FilterChainOnHeap)
    (hm : heap.messages <+: heap1.messages) (ha : heap.arrays <+: heap1.arrays)
    (hown : chainsOwnFilters heap0 vals heap chains) :
    chains.map (FilterChainOnHeap.value heap1) = chains.map (FilterChainOnHeap.value heap) := by
  apply List.map_congr_left
  intro c hc
  have hr := chainsOwnFilters_read heap0 vals heap chains hown c hc
  rw [FilterChainOnHeap.value_of_read heap c vals hr,
    FilterChainOnHeap.value_of_read heap1 c vals
      (FilterHeap.read_of_prefix heap heap1 hm ha c.filters vals hr)]

/-- The loop of `createFilterChainsFromSslConfiguration` on the heap returns, keeps the
chains' ownership of their filters, and agrees by value with the loop on values. -/
theorem secureFilterChainsLoopOnHeap_spec (ext : External) (h : httpFilterChainTranslator)
    (snap : ApiSnapshot) (heap0 : FilterHeap) (networkFilters : Nat)
    (vals : List Envoy.Filter)
    (hread0 : FilterHeap.read heap0 networkFilters = some vals) :
    ∀ (cfgs : List SslConfig) (st : SecureChainsState) (acc : List Envoy.FilterChain),
      chainsOwnFilters heap0 vals st.heap st.secureFilterChains →
      st.secureFilterChains.map (FilterChainOnHeap.value st.heap) = acc.map some →
      ∃ st1, secureFilterChainsLoopOnHeap ext h snap networkFilters cfgs st = some st1 ∧
        chainsOwnFilters heap0 vals st1.heap st1.secureFilterChains ∧
        st1.secureFilterChains.map (FilterChainOnHeap.value st1.heap)
          = (secureFilterChainsLoop ext h snap vals cfgs (acc, st.parentReport)).1.map some ∧
        st1.parentReport
          = (secureFilterChainsLoop ext h snap vals cfgs (acc, st.parentReport)).2 := by
  intro cfgs
  induction cfgs with
  | nil =>
    intro st acc hown hval
    exact ⟨st, rfl, hown, hval, rfl⟩
  | cons sslConfig rest ih =>
    intro st acc hown hval
    cases hres : h.sslConfigTranslator.ResolveDownstreamSslConfig snap.secrets sslConfig with
    | error err =>
      obtain ⟨st1, hrun, hown1, hval1, hrep1⟩ := ih
        { st with
          parentReport := AppendListenerError st.parentReport .SSLConfigError (.errText err) }
        acc hown hval
      refine ⟨st1, ?_, hown1, ?_, ?_⟩
      · simp only [secureFilterChainsLoopOnHeap, hres]
        exact hrun
      · simp only [secureFilterChainsLoop, hres]
        exact hval1
      · simp only [secureFilterChainsLoop, hres]
        exact hrep1
    | ok downstreamTlsContext =>
      have hread : FilterHeap.read st.heap networkFilters = some vals :=
        FilterHeap.read_of_prefix heap0 st.heap hown.1 hown.2.1 networkFilters vals hread0
      have hclone := cloneListenerFiltersOnHeap_eq st.heap networkFilters vals hread
      have hm : st.heap.messages <+: st.heap.messages ++ vals := ⟨vals, rfl⟩
      have ha : st.heap.arrays
          <+: st.heap.arrays ++ [List.range' st.heap.messages.length vals.length] :=
        ⟨_, rfl⟩
      have hvals := chainsOwnFilters_values heap0 vals st.heap
        { messages := st.heap.messages ++ vals
          arrays := st.heap.arrays ++ [List.range' st.heap.messages.length vals.length] }
        st.secureFilterChains hm ha hown
      cases hany : ext.MessageToAny downstreamTlsContext with
      | error err =>
        obtain ⟨st1, hrun, hown1, hval1, hrep1⟩ := ih
          { st with
            parentReport :=
              AppendListenerError st.parentReport .SSLConfigError (.errText err),
            heap :=
              { messages := st.heap.messages ++ vals
                arrays := st.heap.arrays
                  ++ [List.range' st.heap.messages.length vals.length] } }
          acc (chainsOwnFilters_mono heap0 vals st.heap _ _ hm ha hown)
          (by rw [← hval]; exact hvals)
        refine ⟨st1, ?_, hown1, ?_, ?_⟩
        · simp only [secureFilterChainsLoopOnHeap, hres, newSslFilterChainOnHeap, hclone, hany]
          exact hrun
        · simp only [secureFilterChainsLoop, hres, newSslFilterChain, hany]
          exact hval1
        · simp only [secureFilterChainsLoop, hres, newSslFilterChain, hany]
          exact hrep1
      | ok typedConfig =>
        have hown2 := chainsOwnFilters_snoc heap0 vals st.heap st.secureFilterChains hown
          { filterChainMatch := some
              { destinationPort := none, serverNames := sslConfig.sniDomains,
                transportProtocol := "", sourcePrefixRanges := [] }
            filters := st.heap.arrays.length
            transportSocket := some ⟨ext.TransportSocketTls, some typedConfig⟩
            transportSocketConnectTimeout := sslConfig.transportSocketConnectTimeout } rfl
        obtain ⟨st1, hrun, hown1, hval1, hrep1⟩ := ih
          { st with
            secureFilterChains := st.secureFilterChains ++
              [{ filterChainMatch := some
                  { destinationPort := none, serverNames := sslConfig.sniDomains,
                    transportProtocol := "", sourcePrefixRanges := [] }
                 filters := st.heap.arrays.length
                 transportSocket := some ⟨ext.TransportSocketTls, some typedConfig⟩
                 transportSocketConnectTimeout := sslConfig.transportSocketConnectTimeout }],
            heap :=
              { messages := st.heap.messages ++ vals
                arrays := st.heap.arrays
                  ++ [List.range' st.heap.messages.length vals.length] } }
          (acc ++
            [{ filterChainMatch := some
                { destinationPort := none, serverNames := sslConfig.sniDomains,
                  transportProtocol := "", sourcePrefixRanges := [] }
               filters := vals
               transportSocket := some ⟨ext.TransportSocketTls, some typedConfig⟩
               transportSocketConnectTimeout := sslConfig.transportSocketConnectTimeout }])
          hown2
          (by
            have hr := chainsOwnFilters_read heap0 vals _ _ hown2 _
              (List.mem_append_right _ (List.mem_singleton_self _))
            simp only [List.map_append, List.map_cons, List.map_nil, hvals, hval,
              FilterChainOnHeap.value_of_read _ _ vals hr])
        refine ⟨st1, ?_, hown1, ?_, ?_⟩
        · simp only [secureFilterChainsLoopOnHeap, hres, newSslFilterChainOnHeap, hclone, hany]
          exact hrun
        · simp only [secureFilterChainsLoop, hres, newSslFilterChain, hany,
            cloneListenerFilters, List.map_id']
          exact hval1
        · simp only [secureFilterChainsLoop, hres, newSslFilterChain, hany,
            cloneListenerFilters, List.map_id']
          exact hrep1

theorem FilterHeap.read_store (heap : FilterHeap) (p : Nat) (v : Envoy.Filter) (slice : Nat)
    (hfree : ∀ ptrs, heap.arrays[slice]? = some ptrs → p ∉ ptrs) :
    FilterHeap.read (FilterHeap.store heap p v) slice = FilterHeap.read heap slice := by
  unfold FilterHeap.read
  simp only [FilterHeap.store]
  cases hs : heap.arrays[slice]? with
  | none => rfl
  | some ptrs =>
    apply FilterHeap.deref_congr
    intro q hq
    have hne : p ≠ q := fun hc => hfree ptrs hs (hc ▸ hq)
    exact List.getElem?_set_ne hne

theorem FilterHeap.read_storeAt (heap : FilterHeap) (slice i p other : Nat)
    (hne : slice ≠ other) :
    FilterHeap.read (FilterHeap.storeAt heap slice i p) other = FilterHeap.read heap other := by
  unfold FilterHeap.storeAt
  cases hs : heap.arrays[slice]? with
  | none => rfl
  | some ptrs =>
    simp only [FilterHeap.read, List.getElem?_set_ne hne]
    cases ho : heap.arrays[other]? with
    | none => rfl
    | some qtrs => exact FilterHeap.deref_congr _ _ qtrs (fun _ _ => rfl)

/-- The frame of a set of chains that own their filters: a write through a filter
pointer of one chain, or to an element of its slice, changes neither the filters of
another chain nor those of a slice that existed before the chains were built. -/
theorem chainsOwnFilters_frame (heap0 : FilterHeap) (vals : List Envoy.Filter)
    (heap : FilterHeap) (chains : List FilterChainOnHeap)
    (hown : chainsOwnFilters heap0 vals heap chains)
    (networkFilters : Nat) (hread0 : FilterHeap.read heap0 networkFilters = some vals)
    (i : Nat) (c : FilterChainOnHeap) (ptrs : List Nat)
    (hc : chains[i]? = some c) (hptrs : heap.arrays[c.filters]? = some ptrs) :
    (∀ p ∈ ptrs, ∀ v,
      FilterHeap.read (FilterHeap.store heap p v) networkFilters = some vals ∧
      ∀ j d, j ≠ i → chains[j]? = some d →
        FilterHeap.read (FilterHeap.store heap p v) d.filters = some vals) ∧
    (∀ k p,
      FilterHeap.read (FilterHeap.storeAt heap c.filters k p) networkFilters = some vals ∧
      ∀ j d, j ≠ i → chains[j]? = some d →
        FilterHeap.read (FilterHeap.storeAt heap c.filters k p) d.filters = some vals) := by
  obtain ⟨h1, h2, h3, h4⟩ := hown
  have hown : chainsOwnFilters heap0 vals heap chains := ⟨h1, h2, h3, h4⟩
  have hcm : c ∈ chains := List.getElem?_mem hc
  obtain ⟨hcle, ptrs1, hp1, hb1, _⟩ := h3 c hcm
  have hpe : ptrs1 = ptrs := Option.some.inj (hp1.symm.trans hptrs)
  subst hpe
  have hreadnf : FilterHeap.read heap networkFilters = some vals :=
    FilterHeap.read_of_prefix heap0 heap h1 h2 networkFilters vals hread0
  -- the original slice lies in the earlier heap
  have hnf : ∃ ptrs0, heap0.arrays[networkFilters]? = some ptrs0 ∧
      FilterHeap.deref heap0 ptrs0 = some vals := by
    unfold FilterHeap.read at hread0
    cases hs : heap0.arrays[networkFilters]? with
    | none => simp [hs] at hread0
    | some ptrs0 => exact ⟨ptrs0, rfl, by simpa [hs] using hread0⟩
  obtain ⟨ptrs0, hs0, hd0⟩ := hnf
  have hnflt : networkFilters < heap0.arrays.length := by
    by_contra hcon
    rw [List.getElem?_eq_none (by omega)] at hs0
    cases hs0
  -- two different chains
  have hpair : ∀ j d, j ≠ i → chains[j]? = some d →
      c.filters ≠ d.filters ∧ ∀ qtrs, heap.arrays[d.filters]? = some qtrs →
        ∀ p ∈ ptrs1, p ∉ qtrs := by
    intro j d hji hd
    have hil : i < chains.length := by
      by_contra hcon
      rw [List.getElem?_eq_none (by omega)] at hc
      cases hc
    have hjl : j < chains.length := by
      by_contra hcon
      rw [List.getElem?_eq_none (by omega)] at hd
      cases hd
    have hci : chains[i] = c := by
      rw [List.getElem?_eq_getElem hil] at hc
      exact Option.some.inj hc
    have hdj : chains[j] = d := by
      rw [List.getElem?_eq_getElem hjl] at hd
      exact Option.some.inj hd
    rw [List.pairwise_iff_getElem] at h4
    rcases Nat.lt_or_gt_of_ne hji with hlt | hgt
    · obtain ⟨hne, hdis⟩ := h4 j i hjl hil hlt
      rw [hci, hdj] at hne hdis
      refine ⟨fun e => hne e.symm, ?_⟩
      intro qtrs hq p hp hpq
      exact hdis qtrs ptrs1 hq hptrs p hpq hp
    · obtain ⟨hne, hdis⟩ := h4 i j hil hjl hgt
      rw [hci, hdj] at hne hdis
      exact ⟨hne, fun qtrs hq p hp => hdis ptrs1 qtrs hptrs hq p hp⟩
  constructor
  · intro p hp v
    constructor
    · rw [FilterHeap.read_store heap p v networkFilters, hreadnf]
      intro qtrs hq hmem
      have hqe : qtrs = ptrs0 :=
        Option.some.inj (hq.symm.trans (getElem?_of_isPrefix h2 hs0))
      rw [hqe] at hmem
      have := (FilterHeap.deref_bound heap0 ptrs0 vals hd0).2 p hmem
      have := hb1 p hp
      omega
    · intro j d hji hd
      rw [FilterHeap.read_store heap p v d.filters,
        chainsOwnFilters_read heap0 vals heap chains hown d (List.getElem?_mem hd)]
      intro qtrs hq
      exact (hpair j d hji hd).2 qtrs hq p hp
  · intro k p
    constructor
    · rw [FilterHeap.read_storeAt heap c.filters k p networkFilters (by omega), hreadnf]
    · intro j d hji hd
      rw [FilterHeap.read_storeAt heap c.filters k p d.filters (hpair j d hji hd).1,
        chainsOwnFilters_read heap0 vals heap chains hown d (List.getElem?_mem hd)]

/-- C29: on a heap where the slice `networkFilters` holds the filters built for the
segment, `createFilterChainsFromSslConfiguration` with at least one TLS config returns,
and by value its chains and report are those of the translation on values. The slice
`networkFilters` still holds the same filters afterwards, and every chain holds them in
a backing array of its own. A write through a filter pointer of one chain (mutating a
filter) or to an element of its slice (replacing a filter) leaves the filters of every
other chain and the filters of `networkFilters` as they were. -/
theorem C29_each_chain_owns_its_filter_list
    (ext : External) (h : httpFilterChainTranslator) (snap : ApiSnapshot)
    (networkFilters : Nat) (sslConfigurations : List SslConfig)
    (parentReport : ListenerReport) (heap : FilterHeap) (filters : List Envoy.Filter)
    (hread : FilterHeap.read heap networkFilters = some filters)
    (hssl : 0 < sslConfigurations.length) :
    ∃ st,
      createFilterChainsFromSslConfigurationOnHeap ext h snap networkFilters
        sslConfigurations parentReport heap = some st ∧
      st.secureFilterChains.map (FilterChainOnHeap.value st.heap)
        = (createFilterChainsFromSslConfiguration ext h snap filters sslConfigurations
            parentReport).1.map some ∧
      st.parentReport
        = (createFilterChainsFromSslConfiguration ext h snap filters sslConfigurations
            parentReport).2 ∧
      FilterHeap.read st.heap networkFilters = some filters ∧
      (∀ c ∈ st.secureFilterChains,
        c.filters ≠ networkFilters ∧ FilterHeap.read st.heap c.filters = some filters) ∧
      ∀ (i : Nat) (c : FilterChainOnHeap) (ptrs : List Nat),
        st.secureFilterChains[i]? = some c →
        st.heap.arrays[c.filters]? = some ptrs →
        (∀ p ∈ ptrs, ∀ v,
          FilterHeap.read (FilterHeap.store st.heap p v) networkFilters = some filters ∧
          ∀ (j : Nat) (d : FilterChainOnHeap), j ≠ i → st.secureFilterChains[j]? = some d →
            FilterHeap.read (FilterHeap.store st.heap p v) d.filters = some filters) ∧
        (∀ k p,
          FilterHeap.read (FilterHeap.storeAt st.heap c.filters k p) networkFilters
            = some filters ∧
          ∀ (j : Nat) (d : FilterChainOnHeap), j ≠ i → st.secureFilterChains[j]? = some d →
            FilterHeap.read (FilterHeap.storeAt st.heap c.filters k p) d.filters
              = some filters) := by
  have hne : ¬ sslConfigurations.length = 0 := by omega
  have hinit : chainsOwnFilters heap filters heap [] :=
    ⟨List.prefix_refl _, List.prefix_refl _, by simp, List.Pairwise.nil⟩
  obtain ⟨st, hrun, hown, hval, hrep⟩ :=
    secureFilterChainsLoopOnHeap_spec ext h snap heap networkFilters filters hread
      sslConfigurations ⟨[], parentReport, heap⟩ [] hinit rfl
  have hnflt : networkFilters < heap.arrays.length := by
    by_contra hcon
    unfold FilterHeap.read at hread
    rw [List.getElem?_eq_none (by omega)] at hread
    cases hread
  refine ⟨st, ?_, ?_, ?_, ?_, ?_, ?_⟩
  · unfold createFilterChainsFromSslConfigurationOnHeap
    rw [if_neg hne]
    exact hrun
  · unfold createFilterChainsFromSslConfiguration
    rw [if_neg hne]
    exact hval
  · unfold createFilterChainsFromSslConfiguration
    rw [if_neg hne]
    exact hrep
  · exact FilterHeap.read_of_prefix heap st.heap hown.1 hown.2.1 networkFilters filters hread
  · intro c hc
    refine ⟨?_, chainsOwnFilters_read heap filters st.heap _ hown c hc⟩
    have := (hown.2.2.1 c hc).1
    omega
  · intro i c ptrs hc hptrs
    exact chainsOwnFilters_frame heap filters st.heap st.secureFilterChains hown
      networkFilters hread i c ptrs hc hptrs

/-- C29 at a heap holding three filters and two TLS configs that resolve. -/
theorem C29_each_chain_owns_its_filter_list_witness :
    ∃ st,
      createFilterChainsFromSslConfigurationOnHeap sampleExternal
        sampleHttpFilterChainTranslator sampleTlsSnapshot 0 sampleSslConfigs ⟨[], .unset⟩
        sampleFilterHeap = some st ∧
      FilterHeap.read st.heap 0 = some sampleFilters ∧
      ∀ c ∈ st.secureFilterChains,
        c.filters ≠ 0 ∧ FilterHeap.read st.heap c.filters = some sampleFilters := by
  obtain ⟨st, hrun, _, _, h0, h1, _⟩ :=
    C29_each_chain_owns_its_filter_list sampleExternal sampleHttpFilterChainTranslator
      sampleTlsSnapshot 0 sampleSslConfigs ⟨[], .unset⟩ sampleFilterHeap sampleFilters
      (by decide) (by decide)
  exact ⟨st, hrun, h0, h1⟩

/-- The two sample chains get the backing arrays `1` and `2`, filled with the new
messages `3, 4, 5` and `6, 7, 8`. -/
theorem createFilterChainsFromSslConfigurationOnHeap_sample :
    (createFilterChainsFromSslConfigurationOnHeap sampleExternal
        sampleHttpFilterChainTranslator sampleTlsSnapshot 0 sampleSslConfigs ⟨[], .unset⟩
        sampleFilterHeap).map
      (fun st => (st.secureFilterChains.map (fun c => c.filters), st.heap.arrays))
      = some ([1, 2], [[0, 1, 2], [3, 4, 5], [6, 7, 8]]) := by
  decide

/-! ### Virtual hosts in memory -/

theorem computeVirtualHostOnHeap_eq (ext : External) (t : translatorInstance)
    (params : VirtualHostParams) (virtualHost : Nat) (requireTls : Bool)
    (vhostReport : VirtualHostReport) (heap : VirtualHostHeap) (original : VirtualHost)
    (hptr : heap[virtualHost]? = some original) :
    computeVirtualHostOnHeap ext t params virtualHost requireTls vhostReport heap
      = (computeVirtualHost ext t params original requireTls vhostReport).map
          (fun r => (r, heap ++ [{ original with
            name := ext.SanitizeForEnvoy original.name }])) := by
  have hset : (heap ++ [original]).set heap.length
      { original with name := ext.SanitizeForEnvoy original.name }
      = heap ++ [{ original with name := ext.SanitizeForEnvoy original.name }] := by
    rw [List.set_append_right _ _ (Nat.le_refl _)]
    simp
  have hget : (heap ++ [{ original with name := ext.SanitizeForEnvoy original.name }])[
      heap.length]? = some { original with name := ext.SanitizeForEnvoy original.name } := by
    rw [List.getElem?_append_right (Nat.le_refl _)]
    simp
  unfold computeVirtualHostOnHeap computeVirtualHost
  simp only [hptr, hset, hget]
  cases computeRoutesLoop ext t params
      { original with name := ext.SanitizeForEnvoy original.name } 0 original.routes
      ([], vhostReport) with
  | none => rfl
  | some r => rfl

/-- C30: `computeVirtualHost` writes to no cell that existed before the call. Run on a
pointer to the virtual host `original`, with a route report for every route, it returns
what the translation of `original` by value returns; afterwards the pointer still refers
to `original`, name included, every other earlier cell is unchanged, and the one new
cell is the clone that carries the sanitized name. A second translation from the same
pointer, as for a second filter chain that references the same virtual host, therefore
starts from the same value `original`, returns what the translation by value returns,
works on a new clone of its own and leaves the first clone and the original alone. -/
theorem C30_input_virtual_host_is_not_mutated
    (ext : External) (t : translatorInstance) (params : VirtualHostParams)
    (virtualHost : Nat) (heap : VirtualHostHeap) (original : VirtualHost)
    (requireTls requireTls2 : Bool) (vhostReport vhostReport2 : VirtualHostReport)
    (hptr : heap[virtualHost]? = some original)
    (hlen : original.routes.length ≤ vhostReport.routeReports.length)
    (hlen2 : original.routes.length ≤ vhostReport2.routeReports.length) :
    ∃ (r1 r2 : Envoy.VirtualHost × VirtualHostReport) (heap1 heap2 : VirtualHostHeap),
      computeVirtualHostOnHeap ext t params virtualHost requireTls vhostReport heap
        = some (r1, heap1) ∧
      computeVirtualHost ext t params original requireTls vhostReport = some r1 ∧
      heap1[virtualHost]? = some original ∧
      (∀ q, q < heap.length → heap1[q]? = heap[q]?) ∧
      heap1.length = heap.length + 1 ∧
      heap1[heap.length]?
        = some { original with name := ext.SanitizeForEnvoy original.name } ∧
      computeVirtualHostOnHeap ext t params virtualHost requireTls2 vhostReport2 heap1
        = some (r2, heap2) ∧
      computeVirtualHost ext t params original requireTls2 vhostReport2 = some r2 ∧
      heap2[virtualHost]? = some original ∧
      (∀ q, q < heap1.length → heap2[q]? = heap1[q]?) ∧
      heap2.length = heap1.length + 1 := by
  obtain ⟨r1, hr1⟩ := computeVirtualHost_succeeds ext t params original requireTls
    vhostReport hlen
  obtain ⟨r2, hr2⟩ := computeVirtualHost_succeeds ext t params original requireTls2
    vhostReport2 hlen2
  have hlt : virtualHost < heap.length := by
    by_contra hc
    rw [List.getElem?_eq_none (by omega)] at hptr
    cases hptr
  have hptr1 : (heap ++ [{ original with name := ext.SanitizeForEnvoy original.name }])[
      virtualHost]? = some original := by
    rw [List.getElem?_append_left hlt]
    exact hptr
  refine ⟨r1, r2, heap ++ [{ original with name := ext.SanitizeForEnvoy original.name }],
    (heap ++ [{ original with name := ext.SanitizeForEnvoy original.name }])
      ++ [{ original with name := ext.SanitizeForEnvoy original.name }],
    ?_, hr1, hptr1, ?_, ?_, ?_, ?_, hr2, ?_, ?_, ?_⟩
  · rw [computeVirtualHostOnHeap_eq ext t params virtualHost requireTls vhostReport heap
      original hptr, hr1]
    rfl
  · intro q hq
    exact List.getElem?_append_left hq
  · simp
  · rw [List.getElem?_append_right (Nat.le_refl _)]
    simp
  · rw [computeVirtualHostOnHeap_eq ext t params virtualHost requireTls2 vhostReport2 _
      original hptr1, hr2]
    rfl
  · rw [List.getElem?_append_left (by simp; omega)]
    exact hptr1
  · intro q hq
    exact List.getElem?_append_left hq
  · simp

/-- C30 at a heap whose first virtual host has a name that the sanitizer changes. -/
theorem C30_input_virtual_host_is_not_mutated_witness :
    ∃ (r1 r2 : Envoy.VirtualHost × VirtualHostReport) (heap1 heap2 : VirtualHostHeap),
      computeVirtualHostOnHeap sampleSanitizingExternal sampleTranslator ⟨⟨sampleSnapshot⟩⟩
        0 false sampleVirtualHostReport sampleVirtualHostHeap = some (r1, heap1) ∧
      computeVirtualHostOnHeap sampleSanitizingExternal sampleTranslator ⟨⟨sampleSnapshot⟩⟩
        0 true sampleVirtualHostReport heap1 = some (r2, heap2) ∧
      heap1[0]? = sampleVirtualHostHeap[0]? ∧ heap2[0]? = sampleVirtualHostHeap[0]? ∧
      heap2.length = sampleVirtualHostHeap.length + 2 := by
  obtain ⟨r1, r2, heap1, heap2, h1, _, h3, _, h5, _, h7, _, h9, _, h11⟩ :=
    C30_input_virtual_host_is_not_mutated sampleSanitizingExternal sampleTranslator
      ⟨⟨sampleSnapshot⟩⟩ 0 sampleVirtualHostHeap
      ⟨"My Host", ["example.com"], [sampleMatcherRoute, sampleGroupRoute]⟩
      false true sampleVirtualHostReport sampleVirtualHostReport rfl (by decide) (by decide)
  exact ⟨r1, r2, heap1, heap2, h1, h7, h3, h9, by omega⟩

/-- The sample translation leaves the name `My Host` in the snapshot and gives the
emitted virtual host and the clone the sanitized name. -/
theorem computeVirtualHostOnHeap_sample :
    (computeVirtualHostOnHeap sampleSanitizingExternal sampleTranslator ⟨⟨sampleSnapshot⟩⟩
        0 false sampleVirtualHostReport sampleVirtualHostHeap).map
      (fun r => (r.1.1.name, r.2.map (fun v => v.name)))
      = some ("My-Host", ["My Host", "vh", "My-Host"]) := by
  decide

/-! ### Claim C36 -/

theorem newSslFilterChain_transportSocket (ext : External)
    (downstreamTlsContext : Envoy.DownstreamTlsContext) (sniDomains : List String)
    (listenerFilters : List Envoy.Filter) (timeout : Option Envoy.Duration)
    (fc : Envoy.FilterChain)
    (h : newSslFilterChain ext downstreamTlsContext sniDomains listenerFilters timeout
      = .ok fc) :
    ∃ typedConfig, fc.transportSocket = some ⟨ext.TransportSocketTls, some typedConfig⟩ := by
  unfold newSslFilterChain at h
  cases hany : ext.MessageToAny downstreamTlsContext with
  | error err => simp only [hany, reduceCtorEq] at h
  | ok typedConfig =>
    simp only [hany, Except.ok.injEq] at h
    exact ⟨typedConfig, by rw [← h]⟩

theorem sslFilterChainOf_transportSocket (ext : External) (h : httpFilterChainTranslator)
    (snap : ApiSnapshot) (networkFilters : List Envoy.Filter) (sslConfig : SslConfig)
    (fc : Envoy.FilterChain)
    (hc : sslFilterChainOf.chain? (sslFilterChainOf ext h snap networkFilters sslConfig)
      = some fc) :
    ∃ typedConfig, fc.transportSocket = some ⟨ext.TransportSocketTls, some typedConfig⟩ := by
  unfold sslFilterChainOf at hc
  cases hres : h.sslConfigTranslator.ResolveDownstreamSslConfig snap.secrets sslConfig with
  | error err => simp only [hres, sslFilterChainOf.chain?, reduceCtorEq] at hc
  | ok ctx =>
    simp only [hres] at hc
    cases hnew : newSslFilterChain ext ctx sslConfig.sniDomains networkFilters
        sslConfig.transportSocketConnectTimeout with
    | error err => simp only [hnew, sslFilterChainOf.chain?, reduceCtorEq] at hc
    | ok fc1 =>
      simp only [hnew, sslFilterChainOf.chain?, Option.some.injEq] at hc
      subst hc
      exact newSslFilterChain_transportSocket ext ctx _ _ _ fc1 hnew

/-- C36: for a non-empty list of TLS configs, every chain that
`createFilterChainsFromSslConfiguration` returns carries the TLS transport socket (the
socket named `wellknown.TransportSocketTls` with a typed config), and there are at most
as many chains as configs: a config that fails to resolve or to serialise contributes no
chain, and no chain without a transport socket takes its place. -/
theorem C36_tls_configs_give_only_tls_chains
    (ext : External) (h : httpFilterChainTranslator) (snap : ApiSnapshot)
    (networkFilters : List Envoy.Filter) (sslConfigurations : List SslConfig)
    (parentReport : ListenerReport) (hne : 0 < sslConfigurations.length) :
    (∀ fc ∈ (createFilterChainsFromSslConfiguration ext h snap networkFilters
        sslConfigurations parentReport).1,
      ∃ typedConfig,
        fc.transportSocket = some ⟨ext.TransportSocketTls, some typedConfig⟩) ∧
    (createFilterChainsFromSslConfiguration ext h snap networkFilters sslConfigurations
      parentReport).1.length ≤ sslConfigurations.length := by
  have hlen : ¬ sslConfigurations.length = 0 := by omega
  have heq : (createFilterChainsFromSslConfiguration ext h snap networkFilters
      sslConfigurations parentReport).1
      = sslConfigurations.filterMap (fun c =>
          sslFilterChainOf.chain? (sslFilterChainOf ext h snap networkFilters c)) := by
    unfold createFilterChainsFromSslConfiguration
    rw [if_neg hlen, secureFilterChainsLoop_eq]
    simp
  rw [heq]
  constructor
  · intro fc hfc
    obtain ⟨c, _, hc⟩ := List.mem_filterMap.mp hfc
    exact sslFilterChainOf_transportSocket ext h snap networkFilters c fc hc
  · exact List.length_filterMap_le _ _

/-- C36 at three TLS configs of which the second does not resolve, and at two TLS configs
with a snapshot that holds no secret. -/
theorem C36_tls_configs_give_only_tls_chains_witness :
    ((∀ fc ∈ (createFilterChainsFromSslConfiguration sampleExternal
        sampleHttpFilterChainTranslator sampleTlsSnapshot sampleFilters
        sampleMixedSslConfigs ⟨[], .unset⟩).1,
      ∃ typedConfig,
        fc.transportSocket = some ⟨sampleExternal.TransportSocketTls, some typedConfig⟩) ∧
    (createFilterChainsFromSslConfiguration sampleExternal sampleHttpFilterChainTranslator
      sampleTlsSnapshot sampleFilters sampleMixedSslConfigs ⟨[], .unset⟩).1.length
        ≤ sampleMixedSslConfigs.length) ∧
    (createFilterChainsFromSslConfiguration sampleExternal sampleHttpFilterChainTranslator
      sampleTlsSnapshot sampleFilters sampleMixedSslConfigs ⟨[], .unset⟩).1.length = 2 ∧
    (createFilterChainsFromSslConfiguration sampleExternal sampleHttpFilterChainTranslator
      sampleSnapshot sampleFilters sampleSslConfigs ⟨[], .unset⟩).1 = [] :=
  ⟨C36_tls_configs_give_only_tls_chains sampleExternal sampleHttpFilterChainTranslator
      sampleTlsSnapshot sampleFilters sampleMixedSslConfigs ⟨[], .unset⟩ (by decide),
    by decide, by decide⟩

/-! ### Claim C39 -/

theorem validateSingleDestination_eq_none_iff (ext : External) (upstreams : List Upstream)
    (destination : Destination) :
    validateSingleDestination ext upstreams destination = none ↔
      ∃ ref, ext.DestinationToUpstreamRef destination = .ok ref ∧
        (UpstreamList.Find upstreams ref.Namespace ref.name).isSome = true := by
  unfold validateSingleDestination
  cases hconv : ext.DestinationToUpstreamRef destination with
  | error err => simp
  | ok ref =>
    cases hfind : UpstreamList.Find upstreams ref.Namespace ref.name with
    | none => simp [hfind]
    | some us => simp [hfind]

/-- The loop of `validateMultiDestination` stops at the first destination that fails
and wraps its error. -/
theorem validateMultiDestination_spec (ext : External) (upstreams : List Upstream) :
    ∀ destinations : List WeightedDestination,
      (validateMultiDestination ext upstreams destinations = none ∧
        ∀ dest ∈ destinations,
          validateSingleDestination ext upstreams dest.destination = none) ∨
      (∃ before dest after err,
        destinations = before ++ dest :: after ∧
        (∀ d ∈ before, validateSingleDestination ext upstreams d.destination = none) ∧
        validateSingleDestination ext upstreams dest.destination = some err ∧
        validateMultiDestination ext upstreams destinations
          = some (.wrap err "invalid destination in weighted destination list")) := by
  intro destinations
  induction destinations with
  | nil => exact Or.inl ⟨rfl, by simp⟩
  | cons dest rest ih =>
    cases hd : validateSingleDestination ext upstreams dest.destination with
    | some err =>
      refine Or.inr ⟨[], dest, rest, err, rfl, by simp, hd, ?_⟩
      simp only [validateMultiDestination, hd]
    | none =>
      rcases ih with ⟨hnone, hall⟩ | ⟨before, d, after, err, hsplit, hbefore, hfail, hres⟩
      · refine Or.inl ⟨?_, ?_⟩
        · simp only [validateMultiDestination, hd, hnone]
        · intro x hx
          rcases List.mem_cons.mp hx with hx | hx
          · subst hx; exact hd
          · exact hall x hx
      · refine Or.inr ⟨dest :: before, d, after, err, by rw [hsplit]; rfl, ?_, hfail, ?_⟩
        · intro x hx
          rcases List.mem_cons.mp hx with hx | hx
          · subst hx; exact hd
          · exact hbefore x hx
        · simp only [validateMultiDestination, hd, hres]

/-- C39: for a Multi destination `ValidateRouteDestinations` returns no error exactly
when the upstream reference of every listed destination converts and is found in the
snapshot, so the empty list is accepted; for an UpstreamGroup destination it returns no
error exactly when the group is found in the snapshot and the same holds for the
destinations of the group, and a missing group gives the group-not-found error. When a
destination fails, the error returned is the error of the first failing destination in
list order, wrapped by `errors.Wrap` with the text "invalid destination in weighted
destination list". -/
theorem C39_multi_destination_valid_iff_all_found
    (ext : External) (snap : ApiSnapshot) (multi : MultiDestination) (ref : ResourceRef) :
    (ValidateRouteDestinations ext snap ⟨.Multi multi⟩ = none ↔
      ∀ dest ∈ multi.destinations,
        ∃ r, ext.DestinationToUpstreamRef dest.destination = .ok r ∧
          (UpstreamList.Find snap.upstreams r.Namespace r.name).isSome = true) ∧
    (ValidateRouteDestinations ext snap ⟨.Multi ⟨[]⟩⟩ = none) ∧
    (∀ err, ValidateRouteDestinations ext snap ⟨.Multi multi⟩ = some err →
      ∃ before dest after e,
        multi.destinations = before ++ dest :: after ∧
        (∀ d ∈ before, validateSingleDestination ext snap.upstreams d.destination = none) ∧
        validateSingleDestination ext snap.upstreams dest.destination = some e ∧
        err = .wrap e "invalid destination in weighted destination list") ∧
    (ValidateRouteDestinations ext snap ⟨.UpstreamGroup ref⟩ = none ↔
      ∃ upstreamGroup,
        UpstreamGroupList.Find snap.upstreamGroups ref.Namespace ref.name
          = some upstreamGroup ∧
        ∀ dest ∈ upstreamGroup.destinations,
          ∃ r, ext.DestinationToUpstreamRef dest.destination = .ok r ∧
            (UpstreamList.Find snap.upstreams r.Namespace r.name).isSome = true) ∧
    (UpstreamGroupList.Find snap.upstreamGroups ref.Namespace ref.name = none →
      ValidateRouteDestinations ext snap ⟨.UpstreamGroup ref⟩
        = some (.UpstreamGroupNotFoundErr ref)) ∧
    (∀ upstreamGroup err,
      UpstreamGroupList.Find snap.upstreamGroups ref.Namespace ref.name
        = some upstreamGroup →
      ValidateRouteDestinations ext snap ⟨.UpstreamGroup ref⟩ = some err →
      ∃ before dest after e,
        upstreamGroup.destinations = before ++ dest :: after ∧
        (∀ d ∈ before, validateSingleDestination ext snap.upstreams d.destination = none) ∧
        validateSingleDestination ext snap.upstreams dest.destination = some e ∧
        err = .wrap e "invalid destination in weighted destination list") := by
  have hiff : ∀ destinations : List WeightedDestination,
      validateMultiDestination ext snap.upstreams destinations = none ↔
        ∀ dest ∈ destinations,
          ∃ r, ext.DestinationToUpstreamRef dest.destination = .ok r ∧
            (UpstreamList.Find snap.upstreams r.Namespace r.name).isSome = true := by
    intro destinations
    rcases validateMultiDestination_spec ext snap.upstreams destinations with
      ⟨hnone, hall⟩ | ⟨before, dest, after, e, hsplit, _, hfail, hres⟩
    · constructor
      · intro _ dest hdest
        exact (validateSingleDestination_eq_none_iff ext snap.upstreams _).mp (hall dest hdest)
      · intro _; exact hnone
    · constructor
      · intro hc; rw [hres] at hc; cases hc
      · intro hall
        have := (validateSingleDestination_eq_none_iff ext snap.upstreams _).mpr
          (hall dest (by rw [hsplit]; simp))
        rw [this] at hfail
        cases hfail
  have hfirst : ∀ (destinations : List WeightedDestination) (err : Err),
      validateMultiDestination ext snap.upstreams destinations = some err →
      ∃ before dest after e,
        destinations = before ++ dest :: after ∧
        (∀ d ∈ before, validateSingleDestination ext snap.upstreams d.destination = none) ∧
        validateSingleDestination ext snap.upstreams dest.destination = some e ∧
        err = .wrap e "invalid destination in weighted destination list" := by
    intro destinations err herr
    rcases validateMultiDestination_spec ext snap.upstreams destinations with
      ⟨hnone, _⟩ | ⟨before, dest, after, e, hsplit, hbefore, hfail, hres⟩
    · rw [hnone] at herr; cases herr
    · rw [hres] at herr
      exact ⟨before, dest, after, e, hsplit, hbefore, hfail, (Option.some.inj herr).symm⟩
  refine ⟨?_, rfl, ?_, ?_, ?_, ?_⟩
  · exact hiff multi.destinations
  · intro err herr
    exact hfirst multi.destinations err herr
  · cases hfind : UpstreamGroupList.Find snap.upstreamGroups ref.Namespace ref.name with
    | none => simp [ValidateRouteDestinations, validateUpstreamGroup, hfind]
    | some upstreamGroup =>
      cases hm : validateMultiDestination ext snap.upstreams upstreamGroup.destinations with
      | none =>
        simp only [ValidateRouteDestinations, validateUpstreamGroup, hfind, hm,
          Option.some.injEq, exists_eq_left', true_iff]
        exact (hiff upstreamGroup.destinations).mp hm
      | some err =>
        simp only [ValidateRouteDestinations, validateUpstreamGroup, hfind, hm,
          Option.some.injEq, exists_eq_left', reduceCtorEq, false_iff]
        intro hall
        rw [(hiff upstreamGroup.destinations).mpr hall] at hm
        cases hm
  · intro hfind
    simp only [ValidateRouteDestinations, validateUpstreamGroup, hfind]
  · intro upstreamGroup err hfind herr
    apply hfirst upstreamGroup.destinations err
    simp only [ValidateRouteDestinations, validateUpstreamGroup, hfind] at herr
    cases hm : validateMultiDestination ext snap.upstreams upstreamGroup.destinations with
    | none => rw [hm] at herr; cases herr
    | some e => rw [hm] at herr; exact herr

/-! ### Claim C35 -/

/-- The loop of `computeVirtualHosts` returns for index-aligned reports, and it builds the
output at position `k` from the virtual host at position `k` and the report at the same
index, which it replaces by the report that translation leaves. -/
theorem computeVirtualHostsLoop_spec (ext : External) (t : translatorInstance)
    (params : VirtualHostParams) (requireTls : Bool) :
    ∀ (rest : List VirtualHost) (i : Nat) (acc : List Envoy.VirtualHost)
      (reports : List VirtualHostReport),
      (reports.drop i).map (fun r => r.routeReports.length)
        = rest.map (fun v => v.routes.length) →
      ∃ outs reports1,
        computeVirtualHostsLoop ext t params requireTls i rest (acc, reports)
          = some (outs, reports1) ∧
        outs.length = acc.length + rest.length ∧
        reports1.length = reports.length ∧
        (∀ j, j < acc.length → outs[j]? = acc[j]?) ∧
        (∀ j, j < i → reports1[j]? = reports[j]?) ∧
        ∀ (k : Nat) (vh : VirtualHost), rest[k]? = some vh →
          ∃ r res, reports[i + k]? = some r ∧
            computeVirtualHost ext t params vh requireTls r = some res ∧
            outs[acc.length + k]? = some res.1 ∧
            reports1[i + k]? = some res.2 := by
  intro rest
  induction rest with
  | nil =>
    intro i acc reports _
    exact ⟨acc, reports, rfl, by simp, rfl, fun _ _ => rfl, fun _ _ => rfl,
      by intro k vh hk; simp at hk⟩
  | cons vh rest ih =>
    intro i acc reports hal
    have hi : i < reports.length := by
      by_contra hc
      rw [List.drop_eq_nil_of_le (by omega)] at hal
      simp at hal
    rw [List.drop_eq_getElem_cons hi] at hal
    simp only [List.map_cons, List.cons.injEq] at hal
    obtain ⟨hhead, htail⟩ := hal
    obtain ⟨res0, hr0⟩ := computeVirtualHost_succeeds ext t params vh requireTls reports[i]
      (by omega)
    obtain ⟨outs, reports1, hrun, hlen, hrlen, hacc, hlow, hspec⟩ :=
      ih (i + 1) (acc ++ [res0.1]) (reports.set i res0.2)
        (by rw [List.drop_set_of_lt _ _ (by omega)]; exact htail)
    refine ⟨outs, reports1, ?_, ?_, ?_, ?_, ?_, ?_⟩
    · simp only [computeVirtualHostsLoop, List.getElem?_eq_getElem hi, hr0]
      exact hrun
    · rw [hlen]
      simp only [List.length_append, List.length_cons, List.length_nil]
      omega
    · rw [hrlen, List.length_set]
    · intro j hj
      rw [hacc j (by simp; omega), List.getElem?_append_left hj]
    · intro j hj
      rw [hlow j (by omega), List.getElem?_set_ne (by omega)]
    · intro k vh1 hk
      cases k with
      | zero =>
        simp only [List.getElem?_cons_zero, Option.some.injEq] at hk
        subst hk
        refine ⟨reports[i], res0, List.getElem?_eq_getElem hi, hr0, ?_, ?_⟩
        · rw [Nat.add_zero, hacc acc.length (by simp),
            List.getElem?_append_right (Nat.le_refl _)]
          simp
        · rw [Nat.add_zero, hlow i (by omega), List.getElem?_set_self hi]
      | succ k =>
        simp only [List.getElem?_cons_succ] at hk
        obtain ⟨r, res, hr, hres, hout, hrep⟩ := hspec k vh1 hk
        refine ⟨r, res, ?_, hres, ?_, ?_⟩
        · rw [List.getElem?_set_ne (by omega)] at hr
          rw [← hr]
          congr 1
          omega
        · rw [← hout]
          congr 1
          simp only [List.length_append, List.length_cons, List.length_nil]
          omega
        · rw [← hrep]
          congr 1
          omega

/-- C35: if the HTTP listener report holds exactly one virtual-host report per virtual
host and each of those holds exactly one route report per route, then
`ValidateVirtualHostDomains` returns (leaving the number of virtual-host reports and
their route reports as they were) and `computeVirtualHosts` returns: no lookup by index
fails, in `computeVirtualHost` either. `computeVirtualHosts` emits exactly one virtual
host per input virtual host, and the output at index `i` is what `computeVirtualHost`
builds from the virtual host at index `i` and the report at index `i` (as
`ValidateVirtualHostDomains` left it), whose resulting report takes its place at index
`i`; `order` is any order in which the domain map is visited. -/
theorem C35_aligned_reports_index_in_range
    (ext : External) (order : DomainMap → DomainMap) (horder : ∀ m, (order m).Perm m)
    (t : translatorInstance) (params : Params) (listener : Listener)
    (httpListener : HttpListener) (httpListenerReport : HttpListenerReport)
    (hl : listener.listenerType = .HttpListener httpListener)
    (hal : reportsAligned httpListener.virtualHosts httpListenerReport.virtualHostReports
      = true) :
    ∃ validated outs httpListenerReport1,
      ValidateVirtualHostDomains order httpListener.virtualHosts httpListenerReport
        = some validated ∧
      validated.virtualHostReports.map (fun r => r.routeReports)
        = httpListenerReport.virtualHostReports.map (fun r => r.routeReports) ∧
      computeVirtualHosts ext order t params listener httpListenerReport
        = some (outs, httpListenerReport1) ∧
      outs.length = httpListener.virtualHosts.length ∧
      httpListenerReport1.virtualHostReports.length = httpListener.virtualHosts.length ∧
      ∀ (i : Nat) (vh : VirtualHost), httpListener.virtualHosts[i]? = some vh →
        ∃ r res, validated.virtualHostReports[i]? = some r ∧
          computeVirtualHost ext t ⟨params⟩ vh
            (decide (listener.sslConfigurations.length > 0)) r = some res ∧
          outs[i]? = some res.1 ∧
          httpListenerReport1.virtualHostReports[i]? = some res.2 := by
  rw [reportsAligned_iff] at hal
  have hlen : httpListenerReport.virtualHostReports.length = httpListener.virtualHosts.length := by
    have := congrArg List.length hal
    simpa using this
  obtain ⟨rep1, hv, _, hrr⟩ := ValidateVirtualHostDomains_succeeds order horder
    httpListener.virtualHosts httpListenerReport hlen
  have hal1 : (rep1.virtualHostReports.drop 0).map (fun r => r.routeReports.length)
      = httpListener.virtualHosts.map (fun v => v.routes.length) := by
    rw [List.drop_zero, ← hal]
    have := congrArg (List.map List.length) hrr
    simpa [List.map_map, Function.comp_def] using this
  obtain ⟨outs, reports1, hrun, hlen1, hrlen, _, _, hspec⟩ :=
    computeVirtualHostsLoop_spec ext t ⟨params⟩
      (decide (listener.sslConfigurations.length > 0)) httpListener.virtualHosts 0 []
      rep1.virtualHostReports hal1
  refine ⟨rep1, outs, { rep1 with virtualHostReports := reports1 }, hv, hrr, ?_, ?_, ?_, ?_⟩
  · unfold computeVirtualHosts
    simp only [hl, hv, hrun]
  · simpa using hlen1
  · show reports1.length = _
    rw [hrlen]
    have := congrArg List.length hrr
    simp only [List.length_map] at this
    omega
  · intro i vh hi
    obtain ⟨r, res, hr, hres, hout, hrep⟩ := hspec i vh hi
    simp only [Nat.zero_add, List.length_nil] at hr hout hrep
    exact ⟨r, res, hr, hres, hout, hrep⟩

/-- C35 at the sample HTTP listener, whose two virtual hosts share a domain. -/
theorem C35_aligned_reports_index_in_range_witness :
    ∃ validated outs httpListenerReport1,
      ValidateVirtualHostDomains id
          [sampleVirtualHost, ⟨"b", ["example.com"], [sampleGroupRoute]⟩]
          ⟨[], [sampleVirtualHostReport, ⟨[], [⟨[], []⟩]⟩]⟩ = some validated ∧
      computeVirtualHosts sampleExternal id sampleTranslator ⟨sampleSnapshot⟩
          sampleHttpListenerResource ⟨[], [sampleVirtualHostReport, ⟨[], [⟨[], []⟩]⟩]⟩
        = some (outs, httpListenerReport1) ∧
      outs.length = 2 ∧ httpListenerReport1.virtualHostReports.length = 2 := by
  obtain ⟨validated, outs, rep1, h1, _, h3, h4, h5, _⟩ :=
    C35_aligned_reports_index_in_range sampleExternal id (fun m => List.Perm.refl m)
      sampleTranslator ⟨sampleSnapshot⟩ sampleHttpListenerResource
      ⟨[sampleVirtualHost, ⟨"b", ["example.com"], [sampleGroupRoute]⟩], none⟩
      ⟨[], [sampleVirtualHostReport, ⟨[], [⟨[], []⟩]⟩]⟩ rfl (by decide)
  exact ⟨validated, outs, rep1, h1, h3, h4, h5⟩

/-! ### Claim C32 -/

theorem runWeightedDestinationPlugins_fst (params : RouteParams)
    (weightedDest : WeightedDestination) (routeName : String) :
    ∀ (plugs : List Plugin) (weightedCluster : Envoy.ClusterWeight)
      (routeReport routeReport1 : RouteReport),
      (runWeightedDestinationPlugins params weightedDest routeName plugs
          (weightedCluster, routeReport)).1
        = (runWeightedDestinationPlugins params weightedDest routeName plugs
          (weightedCluster, routeReport1)).1 := by
  intro plugs
  induction plugs with
  | nil => intro _ _ _; rfl
  | cons plug rest ih =>
    intro weightedCluster routeReport routeReport1
    cases hh : plug.ProcessWeightedDestination with
    | none =>
      simp only [runWeightedDestinationPlugins, hh]
      exact ih _ _ _
    | some hook =>
      cases hr : hook params weightedDest weightedCluster with
      | mk c err =>
        cases err with
        | none =>
          simp only [runWeightedDestinationPlugins, hh, hr]
          exact ih _ _ _
        | some e =>
          simp only [runWeightedDestinationPlugins, hh, hr]
          exact ih _ _ _

/-- The loop of `setWeightedClusters` appends the cluster of every destination up to
and including the first one whose subset check fails, and stops there. -/
theorem weightedClustersLoop_spec (ext : External) (t : translatorInstance)
    (params : RouteParams) (routeName : String) :
    ∀ (dests : List WeightedDestination) (st : WeightedState),
      (∀ wd ∈ dests, ∃ ref, ext.DestinationToUpstreamRef wd.destination = .ok ref) →
      ((∀ wd ∈ dests,
          checkThatSubsetMatchesUpstream ext params.params wd.destination = none) →
        ∃ st1, weightedClustersLoop ext t params routeName dests st = (st1, none) ∧
          st1.clusters.map some
            = st.clusters.map some ++ dests.map (weightedClusterFor ext t params routeName)) ∧
      (∀ before wd after err, dests = before ++ wd :: after →
        (∀ d ∈ before,
          checkThatSubsetMatchesUpstream ext params.params d.destination = none) →
        checkThatSubsetMatchesUpstream ext params.params wd.destination = some err →
        ∃ st1, weightedClustersLoop ext t params routeName dests st = (st1, some err) ∧
          st1.clusters.map some
            = st.clusters.map some
              ++ (before ++ [wd]).map (weightedClusterFor ext t params routeName)) := by
  intro dests
  induction dests with
  | nil =>
    intro st _
    refine ⟨fun _ => ⟨st, rfl, by simp⟩, ?_⟩
    intro before wd after err hsplit
    simp at hsplit
  | cons d rest ih =>
    intro st hconv
    obtain ⟨ref, href⟩ := hconv d (List.mem_cons_self _ _)
    have hrest : ∀ wd ∈ rest, ∃ ref, ext.DestinationToUpstreamRef wd.destination = .ok ref :=
      fun wd hwd => hconv wd (List.mem_cons_of_mem _ hwd)
    have hfor : weightedClusterFor ext t params routeName d
        = some (runWeightedDestinationPlugins params d routeName t.plugins
            ({ name := ext.UpstreamToClusterName ref
               weight := some d.weight
               metadataMatch := getSubsetMatch ext d.destination }, st.routeReport)).1 := by
      simp only [weightedClusterFor, href]
      rw [runWeightedDestinationPlugins_fst params d routeName t.plugins _ ⟨[], []⟩
        st.routeReport]
    constructor
    · intro hall
      have hd := hall d (List.mem_cons_self _ _)
      obtain ⟨st1, hrun, hcl⟩ := (ih
        { clusters := st.clusters ++ [(runWeightedDestinationPlugins params d routeName
            t.plugins ({ name := ext.UpstreamToClusterName ref
                         weight := some d.weight
                         metadataMatch := getSubsetMatch ext d.destination },
              st.routeReport)).1]
          totalWeight := (st.totalWeight + d.weight) % 2 ^ 32
          routeReport := (runWeightedDestinationPlugins params d routeName
            t.plugins ({ name := ext.UpstreamToClusterName ref
                         weight := some d.weight
                         metadataMatch := getSubsetMatch ext d.destination },
              st.routeReport)).2 } hrest).1
        (fun wd hwd => hall wd (List.mem_cons_of_mem _ hwd))
      refine ⟨st1, ?_, ?_⟩
      · simp only [weightedClustersLoop, href, hd]
        exact hrun
      · rw [hcl]
        simp only [List.map_append, List.map_cons, List.map_nil, hfor, List.append_assoc,
          List.singleton_append]
    · intro before wd after err hsplit hbefore hfail
      cases before with
      | nil =>
        simp only [List.nil_append, List.cons.injEq] at hsplit
        obtain ⟨hdw, _⟩ := hsplit
        subst hdw
        refine ⟨⟨st.clusters ++ [(runWeightedDestinationPlugins params d routeName t.plugins
              (⟨ext.UpstreamToClusterName ref, some d.weight,
                getSubsetMatch ext d.destination⟩, st.routeReport)).1],
            (st.totalWeight + d.weight) % 2 ^ 32,
            (runWeightedDestinationPlugins params d routeName t.plugins
              (⟨ext.UpstreamToClusterName ref, some d.weight,
                getSubsetMatch ext d.destination⟩, st.routeReport)).2⟩, ?_, ?_⟩
        · simp only [weightedClustersLoop, href, hfail]
        · simp only [List.map_append, List.map_cons, List.map_nil, hfor, List.nil_append]
      | cons b before1 =>
        simp only [List.cons_append, List.cons.injEq] at hsplit
        obtain ⟨hdb, hsplit1⟩ := hsplit
        subst hdb
        have hd := hbefore d (List.mem_cons_self _ _)
        obtain ⟨st1, hrun, hcl⟩ := (ih
          { clusters := st.clusters ++ [(runWeightedDestinationPlugins params d routeName
              t.plugins ({ name := ext.UpstreamToClusterName ref
                           weight := some d.weight
                           metadataMatch := getSubsetMatch ext d.destination },
                st.routeReport)).1]
            totalWeight := (st.totalWeight + d.weight) % 2 ^ 32
            routeReport := (runWeightedDestinationPlugins params d routeName
              t.plugins ({ name := ext.UpstreamToClusterName ref
                           weight := some d.weight
                           metadataMatch := getSubsetMatch ext d.destination },
                st.routeReport)).2 } hrest).2
          before1 wd after err hsplit1
          (fun x hx => hbefore x (List.mem_cons_of_mem _ hx)) hfail
        refine ⟨st1, ?_, ?_⟩
        · simp only [weightedClustersLoop, href, hd]
          exact hrun
        · rw [hcl]
          simp only [List.map_append, List.map_cons, List.map_nil, hfor, List.append_assoc,
            List.singleton_append, List.cons_append, List.nil_append]

/-- C32, counterexample: three weighted destinations whose references all convert, the
second with a subset that its upstream does not declare. `setWeightedClusters` returns
the subset error and emits two weighted clusters, not three: the third destination is
dropped, and the total weight is left unset. -/
theorem C32_failing_subset_drops_later_entries :
    (∀ wd ∈ sampleSecondSubsetFails.destinations,
      ∃ ref, sampleExternal.DestinationToUpstreamRef wd.destination = .ok ref) ∧
    setWeightedClusters sampleExternal sampleTranslator sampleParams sampleSecondSubsetFails
        ⟨none, none⟩ ⟨[], []⟩ "vh-route-0-matcher-0"
      = (⟨some (.WeightedClusters
            ⟨[⟨"web_gloo-system", some 1, none⟩,
              ⟨"web_gloo-system", some 2, some ⟨[("envoy.lb", [("env", "prod")])]⟩⟩],
              none⟩), none⟩,
          ⟨[], []⟩, some .SubsetsMisconfiguredErr) := by
  constructor
  · intro wd hwd
    simp only [sampleSecondSubsetFails, List.mem_cons, List.mem_singleton, List.mem_nil_iff,
      or_false] at hwd
    rcases hwd with hwd | hwd | hwd <;> subst hwd <;> exact ⟨_, rfl⟩
  · decide

/-- C32, amended: for a non-empty weighted destination list whose upstream references
all convert, `setWeightedClusters` emits one weighted cluster per listed destination, in
order (the cluster named after the destination's upstream with the destination's weight,
as the weighted-destination plugins leave it), up to and including the first destination
whose subset validation fails. When none fails, all destinations are emitted and no
error is returned. When one fails, the function returns that destination's error, the
destinations after it are not emitted, and the total weight is left unset. -/
theorem C32_weighted_clusters_up_to_first_failure
    (ext : External) (t : translatorInstance) (params : RouteParams)
    (multiDest : MultiDestination) (out : Envoy.RouteAction) (routeReport : RouteReport)
    (routeName : String) (hne : multiDest.destinations ≠ [])
    (hconv : ∀ wd ∈ multiDest.destinations,
      ∃ ref, ext.DestinationToUpstreamRef wd.destination = .ok ref) :
    ((∀ wd ∈ multiDest.destinations,
        checkThatSubsetMatchesUpstream ext params.params wd.destination = none) →
      ∃ clusters totalWeight routeReport1,
        setWeightedClusters ext t params multiDest out routeReport routeName
          = (⟨some (.WeightedClusters ⟨clusters, some totalWeight⟩), out.metadataMatch⟩,
              routeReport1, none) ∧
        clusters.map some
          = multiDest.destinations.map (weightedClusterFor ext t params routeName)) ∧
    (∀ before wd after err, multiDest.destinations = before ++ wd :: after →
      (∀ d ∈ before, checkThatSubsetMatchesUpstream ext params.params d.destination = none) →
      checkThatSubsetMatchesUpstream ext params.params wd.destination = some err →
      ∃ clusters routeReport1,
        setWeightedClusters ext t params multiDest out routeReport routeName
          = (⟨some (.WeightedClusters ⟨clusters, none⟩), out.metadataMatch⟩,
              routeReport1, some err) ∧
        clusters.map some
          = (before ++ [wd]).map (weightedClusterFor ext t params routeName)) ∧
    (t.plugins = [] → ∀ wd ∈ multiDest.destinations, ∃ ref,
      ext.DestinationToUpstreamRef wd.destination = .ok ref ∧
      weightedClusterFor ext t params routeName wd
        = some ⟨ext.UpstreamToClusterName ref, some wd.weight,
            getSubsetMatch ext wd.destination⟩) := by
  have hlen : ¬ multiDest.destinations.length = 0 := by
    intro h; exact hne (List.length_eq_zero.mp h)
  obtain ⟨hok, hfail⟩ := weightedClustersLoop_spec ext t params routeName
    multiDest.destinations ⟨[], 0, routeReport⟩ hconv
  refine ⟨?_, ?_, ?_⟩
  · intro hall
    obtain ⟨st1, hrun, hcl⟩ := hok hall
    refine ⟨st1.clusters, st1.totalWeight, st1.routeReport, ?_, by simpa using hcl⟩
    simp only [setWeightedClusters, hlen, if_false, hrun]
  · intro before wd after err hsplit hbefore hchk
    obtain ⟨st1, hrun, hcl⟩ := hfail before wd after err hsplit hbefore hchk
    refine ⟨st1.clusters, st1.routeReport, ?_, by simpa using hcl⟩
    simp only [setWeightedClusters, hlen, if_false, hrun]
  · intro hp wd hwd
    obtain ⟨ref, href⟩ := hconv wd hwd
    refine ⟨ref, href, ?_⟩
    simp only [weightedClusterFor, href, hp, runWeightedDestinationPlugins]

/-- C32 (amended) at the three sample destinations, the second of which fails. -/
theorem C32_weighted_clusters_up_to_first_failure_witness :
    ∃ clusters routeReport1,
      setWeightedClusters sampleExternal sampleTranslator sampleParams
          sampleSecondSubsetFails ⟨none, none⟩ ⟨[], []⟩ "vh-route-0-matcher-0"
        = (⟨some (.WeightedClusters ⟨clusters, none⟩), none⟩, routeReport1,
            some .SubsetsMisconfiguredErr) ∧
      clusters.length = 2 := by
  obtain ⟨clusters, rep, hrun, hcl⟩ :=
    (C32_weighted_clusters_up_to_first_failure sampleExternal sampleTranslator sampleParams
      sampleSecondSubsetFails ⟨none, none⟩ ⟨[], []⟩ "vh-route-0-matcher-0" (by decide)
      (by
        intro wd hwd
        simp only [sampleSecondSubsetFails, List.mem_cons, List.mem_singleton,
          List.mem_nil_iff, or_false] at hwd
        rcases hwd with hwd | hwd | hwd <;> subst hwd <;> exact ⟨_, rfl⟩)).2.1
      [⟨⟨.Upstream ⟨"gloo-system", "web"⟩, none⟩, 1⟩]
      ⟨⟨.Upstream ⟨"gloo-system", "web"⟩, some ⟨[("env", "prod")]⟩⟩, 2⟩
      [⟨⟨.Upstream ⟨"gloo-system", "db"⟩, none⟩, 3⟩] .SubsetsMisconfiguredErr rfl
      (by decide) (by decide)
  refine ⟨clusters, rep, hrun, ?_⟩
  have := congrArg List.length hcl
  simpa using this

/-! ### Claims C33 and C34 -/

/-- C34: at a Hybrid listener with a Hybrid report whose second matched listener has no
listener type, the factory hands the `nil` interface to both multi translators as the
second child, and `multiFilterChainTranslator.ComputeFilterChains` over these children
fails at the method call on the `nil` child, whatever the translators of the other
children do. -/
theorem C34_unset_matched_listener_gives_nil_children :
    ∃ (lt : Factory.listenerTranslatorInstance)
      (fcts : List (Option Factory.FilterChainTranslator))
      (rcts : List (Option Factory.RouteConfigurationTranslator)),
      sampleFactory.GetTranslators sampleRouteConfigNames sampleHybridUnsetListener
          sampleHybridListenerReport
        = (some (.listenerTranslatorInstance lt),
            some (.multiRouteConfigurationTranslator rcts)) ∧
      lt.filterChainTranslator = .multiFilterChainTranslator fcts ∧
      fcts.map Option.isSome = [true, false] ∧
      rcts.map Option.isSome = [true, false] ∧
      ∀ (σ : Type) (run : Factory.FilterChainTranslator → FilterChainTranslator σ)
        (params : Params) (s : σ),
        multiFilterChainTranslator.ComputeFilterChains
          ⟨fcts.map (Option.map run)⟩ params s = none := by
  have h := GetHybridListenerTranslators_eq sampleRouteConfigNames sampleFactory
    sampleHybridUnsetListener sampleHybridListenerReport ⟨sampleUnsetMatchedListeners⟩ _
    rfl rfl
  refine ⟨_, _, _, h, rfl, rfl, rfl, ?_⟩
  intro σ run params s
  simp only [multiFilterChainTranslator.ComputeFilterChains, sampleUnsetMatchedListeners,
    List.map_cons, List.map_nil, hybridMatchedListenerTranslators, Option.map_some',
    Option.map_none', multiFilterChainsLoop]
  split <;> rfl

/-- C33, counterexample: in a Hybrid listener, an HTTP matched listener with two TLS
configs and a matcher without TLS config gets the require-TLS flag `false` although its
filter-chain translator turns two TLS configs into chains, and an HTTP matched listener
without TLS configs and with a matcher that has a TLS config gets the flag `true`
although its filter-chain translator has no TLS config to turn into a chain. -/
theorem C33_require_tls_differs_from_tls_configs :
    ∃ fct1 rct1 fct2 rct2 h1 h2,
      sampleTlsMismatchMatchedListeners.map
          (hybridMatchedListenerTranslators sampleRouteConfigNames sampleFactory
            sampleHybridTlsMismatch sampleHybridListenerReport ⟨[]⟩)
        = [(some (.httpFilterChainTranslator fct1),
              some (.httpRouteConfigurationTranslator rct1)),
           (some (.httpFilterChainTranslator fct2),
              some (.httpRouteConfigurationTranslator rct2))] ∧
      fct1.toTranslator sampleNetworkFilterTranslator = some h1 ∧
      fct2.toTranslator sampleNetworkFilterTranslator = some h2 ∧
      rct1.requireTlsOnVirtualHosts = false ∧
      (getSslConfigurationWithDefaults sampleExternal h1).length = 2 ∧
      rct2.requireTlsOnVirtualHosts = true ∧
      getSslConfigurationWithDefaults sampleExternal h2 = [] :=
  ⟨_, _, _, _, _, _, rfl, rfl, rfl, rfl, by decide, rfl, by decide⟩

/-- C33, amended: the require-TLS flag of the route-configuration translator is computed
per segment kind. For a top-level HTTP listener it is true exactly when the listener has
at least one TLS config, and its filter-chain translator gets that list with no default,
so whenever consolidation maps exactly the empty list to the empty list the flag is true
exactly when the list turned into chains is non-empty. For an HTTP matched listener of a
Hybrid listener and for an HTTP filter chain of an Aggregate listener the flag is true
exactly when the matcher has a TLS config, whatever TLS configs the filter-chain
translator turns into chains (the matched listener's own list with the matcher's config
as default; for the Aggregate listener the one-element list holding the matcher's
config, `nil` included). -/
theorem C33_require_tls_flag_per_segment_kind
    (utils : RouteConfigNames) (l : ListenerSubsystemTranslatorFactory)
    (listener : Listener) (listenerReport : ListenerReport) :
    (∃ lt fct rct,
      l.GetHttpListenerTranslators utils listener listenerReport
        = (some (.listenerTranslatorInstance lt),
            some (.httpRouteConfigurationTranslator rct)) ∧
      lt.filterChainTranslator = .httpFilterChainTranslator fct ∧
      fct.sslConfigurations = listener.sslConfigurations.map some ∧
      fct.defaultSslConfig = none ∧
      (rct.requireTlsOnVirtualHosts = true ↔ listener.sslConfigurations ≠ []) ∧
      ∀ (ext : External) (net : NetworkFilterTranslator),
        (∀ cfgs, ext.ConsolidateSslConfigurations cfgs = [] ↔ cfgs = []) →
        ∃ h, fct.toTranslator net = some h ∧
          (rct.requireTlsOnVirtualHosts = true ↔
            getSslConfigurationWithDefaults ext h ≠ [])) ∧
    (∀ (hybridListenerReport : HybridListenerReport) (matchedListener : MatchedListener)
        (httpListener : HttpListener),
      matchedListener.listenerType = .HttpListener httpListener →
      ∃ fct rct,
        hybridMatchedListenerTranslators utils l listener listenerReport
            hybridListenerReport matchedListener
          = (some (.httpFilterChainTranslator fct),
              some (.httpRouteConfigurationTranslator rct)) ∧
        fct.sslConfigurations = matchedListener.sslConfigurations.map some ∧
        fct.defaultSslConfig = Listener_Matcher.GetSslConfig matchedListener.matcher ∧
        (rct.requireTlsOnVirtualHosts = true ↔
          Listener_Matcher.GetSslConfig matchedListener.matcher ≠ none)) ∧
    (∀ (aggregateListenerReport : AggregateListenerReport)
        (httpResources : AggregateListener_HttpResources)
        (httpFilterChain : AggregateListener_HttpFilterChain),
      ∃ fct rct,
        aggregateFilterChainTranslators utils l listener listenerReport
            aggregateListenerReport httpResources httpFilterChain
          = (some (.httpFilterChainTranslator fct),
              some (.httpRouteConfigurationTranslator rct)) ∧
        fct.sslConfigurations = [Listener_Matcher.GetSslConfig httpFilterChain.matcher] ∧
        fct.defaultSslConfig = none ∧
        (rct.requireTlsOnVirtualHosts = true ↔
          Listener_Matcher.GetSslConfig httpFilterChain.matcher ≠ none)) := by
  have hall : ∀ cfgs : List SslConfig, (cfgs.map some).allSome = some cfgs := by
    intro cfgs
    induction cfgs with
    | nil => rfl
    | cons c rest ih =>
      simp only [List.allSome, List.map_cons, List.mapM_cons, id_eq] at ih ⊢
      rw [ih]
      rfl
  refine ⟨?_, ?_, ?_⟩
  · refine ⟨_, _, _, rfl, rfl, rfl, rfl, ?_, ?_⟩
    · simp [List.length_pos]
    · intro ext net hcons
      refine ⟨_, by simp only [Factory.httpFilterChainTranslator.toTranslator, hall]; rfl, ?_⟩
      simp only [getSslConfigurationWithDefaults, decide_eq_true_eq, gt_iff_lt,
        List.length_pos, ne_eq, hcons]
  · intro hybridListenerReport matchedListener httpListener hh
    simp only [hybridMatchedListenerTranslators, hh]
    refine ⟨_, _, rfl, rfl, rfl, ?_⟩
    simp [Option.isSome_iff_ne_none]
  · intro aggregateListenerReport httpResources httpFilterChain
    refine ⟨_, _, rfl, rfl, rfl, ?_⟩
    simp [Option.isSome_iff_ne_none]

/-! ### Claim C31 -/

theorem specMergeSslConfig_idem (ssl defaults : SslConfig) :
    specMergeSslConfig (specMergeSslConfig ssl defaults) defaults
      = specMergeSslConfig ssl defaults := by
  have hopt : ∀ {α : Type} (a b : Option α), ((a <|> b) <|> b) = (a <|> b) := by
    intro α a b
    cases a <;> cases b <;> rfl
  have hlist : ∀ {α : Type} [DecidableEq α] (a b : List α),
      (if (if a = [] then b else a) = [] then b else (if a = [] then b else a))
        = (if a = [] then b else a) := by
    intro α _ a b
    by_cases ha : a = []
    · simp [ha]
    · simp [ha]
  simp only [specMergeSslConfig, hopt, hlist]

theorem specConsolidateInto_subset :
    ∀ (rest kept : List SslConfig),
      ∀ c ∈ specConsolidateInto kept rest, c ∈ kept ∨ c ∈ rest := by
  intro rest
  induction rest with
  | nil => intro kept c hc; exact Or.inl hc
  | cons x rest ih =>
    intro kept c hc
    by_cases hany : kept.any (fun k => specSameTlsIdentity x k) = true
    · simp only [specConsolidateInto, hany, if_true] at hc
      rcases ih kept c hc with h | h
      · exact Or.inl h
      · exact Or.inr (List.mem_cons_of_mem _ h)
    · simp only [specConsolidateInto, hany] at hc
      rcases ih (kept ++ [x]) c hc with h | h
      · rcases List.mem_append.mp h with h | h
        · exact Or.inl h
        · simp only [List.mem_singleton] at h
          subst h
          exact Or.inr (List.mem_cons_self _ _)
      · exact Or.inr (List.mem_cons_of_mem _ h)

theorem specConsolidateInto_distinct :
    ∀ (rest kept : List SslConfig), tlsIdentitiesDistinct kept →
      tlsIdentitiesDistinct (specConsolidateInto kept rest) := by
  intro rest
  induction rest with
  | nil => intro kept h; exact h
  | cons x rest ih =>
    intro kept h
    by_cases hany : kept.any (fun k => specSameTlsIdentity x k) = true
    · simp only [specConsolidateInto, hany, if_true]
      exact ih kept h
    · simp only [specConsolidateInto, hany]
      apply ih
      unfold tlsIdentitiesDistinct
      rw [List.pairwise_append]
      refine ⟨h, by simp, ?_⟩
      intro a ha b hb
      simp only [List.mem_singleton] at hb
      subst hb
      simp only [List.any_eq_true, not_exists, not_and, Bool.not_eq_true] at hany
      exact hany a ha

theorem specConsolidateInto_of_distinct :
    ∀ (rest kept : List SslConfig), tlsIdentitiesDistinct (kept ++ rest) →
      specConsolidateInto kept rest = kept ++ rest := by
  intro rest
  induction rest with
  | nil => intro kept _; simp [specConsolidateInto]
  | cons x rest ih =>
    intro kept h
    have hx : ¬ kept.any (fun k => specSameTlsIdentity x k) = true := by
      simp only [List.any_eq_true, not_exists, not_and, Bool.not_eq_true]
      intro a ha
      unfold tlsIdentitiesDistinct at h
      rw [List.pairwise_append] at h
      exact h.2.2 a ha x (List.mem_cons_self _ _)
    simp only [specConsolidateInto, hx]
    rw [ih (kept ++ [x]) (by simpa using h)]
    simp

theorem specConsolidate_eq_self_iff (sslConfigurations : List SslConfig) :
    specConsolidateSslConfigurations sslConfigurations = sslConfigurations ↔
      tlsIdentitiesDistinct sslConfigurations := by
  constructor
  · intro h
    rw [← h]
    exact specConsolidateInto_distinct sslConfigurations [] List.Pairwise.nil
  · intro h
    simpa [specConsolidateSslConfigurations] using
      specConsolidateInto_of_distinct sslConfigurations [] (by simpa using h)

/-- C31, counterexample: with the default naming a secret, a config that names no secret
and a config that names that secret, both for the same SNI domain, survive the first
application as two equal configs; the second application keeps only one of them. -/
theorem C31_second_application_drops_a_config :
    specSslConfigStep sampleExternal sampleHttpFilterChainTranslator
        sampleDefaultedSslConfigs (some sampleDefaultSslConfig)
      = [⟨some ⟨"gloo-system", "cert-a"⟩, ["a.example.com"], [], [], none, none, none⟩,
         ⟨some ⟨"gloo-system", "cert-a"⟩, ["a.example.com"], [], [], none, none, none⟩] ∧
    specSslConfigStep sampleExternal sampleHttpFilterChainTranslator
        (specSslConfigStep sampleExternal sampleHttpFilterChainTranslator
          sampleDefaultedSslConfigs (some sampleDefaultSslConfig))
        (some sampleDefaultSslConfig)
      = [⟨some ⟨"gloo-system", "cert-a"⟩, ["a.example.com"], [], [], none, none, none⟩] ∧
    specSslConfigStep sampleExternal sampleHttpFilterChainTranslator
        (specSslConfigStep sampleExternal sampleHttpFilterChainTranslator
          sampleDefaultedSslConfigs (some sampleDefaultSslConfig))
        (some sampleDefaultSslConfig)
      ≠ specSslConfigStep sampleExternal sampleHttpFilterChainTranslator
          sampleDefaultedSslConfigs (some sampleDefaultSslConfig) := by
  decide

/-- C31, amended: applying the consolidate-then-merge step to the result of a first
application with the same default yields the first result consolidated once more: the
merge changes nothing the second time. The second result is the first result exactly
when no two configs of the first result have the same secret reference and SNI set; that
is always so when no default is given. -/
theorem C31_second_application_only_consolidates
    (ext : External) (h : httpFilterChainTranslator) (sslConfigurations : List SslConfig)
    (defaultSslConfig : Option SslConfig) :
    specSslConfigStep ext h (specSslConfigStep ext h sslConfigurations defaultSslConfig)
        defaultSslConfig
      = specConsolidateSslConfigurations
          (specSslConfigStep ext h sslConfigurations defaultSslConfig) ∧
    (specSslConfigStep ext h (specSslConfigStep ext h sslConfigurations defaultSslConfig)
        defaultSslConfig
      = specSslConfigStep ext h sslConfigurations defaultSslConfig ↔
      tlsIdentitiesDistinct (specSslConfigStep ext h sslConfigurations defaultSslConfig)) ∧
    specSslConfigStep ext h (specSslConfigStep ext h sslConfigurations none) none
      = specSslConfigStep ext h sslConfigurations none := by
  have hnone : ∀ cfgs, specSslConfigStep ext h cfgs none
      = specConsolidateSslConfigurations cfgs := fun _ => rfl
  have hsome : ∀ cfgs d, specSslConfigStep ext h cfgs (some d)
      = (specConsolidateSslConfigurations cfgs).map (fun ssl => specMergeSslConfig ssl d) :=
    fun _ _ => rfl
  have hfirst : specSslConfigStep ext h
      (specSslConfigStep ext h sslConfigurations defaultSslConfig) defaultSslConfig
      = specConsolidateSslConfigurations
          (specSslConfigStep ext h sslConfigurations defaultSslConfig) := by
    cases defaultSslConfig with
    | none => rw [hnone]
    | some d =>
      rw [hsome (specSslConfigStep ext h sslConfigurations (some d)) d]
      have hid : ∀ c ∈ specConsolidateSslConfigurations
          (specSslConfigStep ext h sslConfigurations (some d)),
          specMergeSslConfig c d = c := by
        intro c hc
        rcases specConsolidateInto_subset _ [] c hc with hc | hc
        · simp at hc
        · rw [hsome] at hc
          obtain ⟨y, _, hy⟩ := List.mem_map.mp hc
          rw [← hy, specMergeSslConfig_idem]
      rw [List.map_congr_left hid, List.map_id']
  refine ⟨hfirst, ?_, ?_⟩
  · rw [hfirst]
    exact specConsolidate_eq_self_iff _
  · rw [hnone, hnone]
    exact (specConsolidate_eq_self_iff _).mpr
      (specConsolidateInto_distinct sslConfigurations [] List.Pairwise.nil)

/-! ### Claim C38: decimal numerals -/

theorem digitChar_val (k : Nat) (hk : k < 10) :
    (Nat.digitChar k).toNat - 48 = k ∧ Nat.digitChar k ≠ '-' := by
  interval_cases k <;> exact ⟨by decide, by decide⟩

theorem toDigitsCore_spec :
    ∀ (fuel n : Nat) (ds : List Char), n < fuel →
      ∃ l, Nat.toDigitsCore 10 fuel n ds = l ++ ds ∧
        l.foldl (fun acc c => acc * 10 + (c.toNat - 48)) 0 = n ∧
        ∀ c ∈ l, c ≠ '-' := by
  intro fuel
  induction fuel with
  | zero => intro n ds h; omega
  | succ fuel ih =>
    intro n ds hn
    have hd := digitChar_val (n % 10) (Nat.mod_lt _ (by norm_num))
    by_cases hz : n / 10 = 0
    · refine ⟨[Nat.digitChar (n % 10)], ?_, ?_, ?_⟩
      · simp [Nat.toDigitsCore, hz]
      · simp only [List.foldl_cons, List.foldl_nil, Nat.zero_mul, Nat.zero_add, hd.1]
        omega
      · intro c hc
        simp only [List.mem_singleton] at hc
        rw [hc]
        exact hd.2
    · obtain ⟨l, hl, hv, hc⟩ := ih (n / 10) (Nat.digitChar (n % 10) :: ds) (by omega)
      refine ⟨l ++ [Nat.digitChar (n % 10)], ?_, ?_, ?_⟩
      · simp [Nat.toDigitsCore, hz, hl]
      · simp only [List.foldl_append, List.foldl_cons, List.foldl_nil, hv, hd.1]
        omega
      · intro c hcm
        rcases List.mem_append.mp hcm with hcm | hcm
        · exact hc c hcm
        · simp only [List.mem_singleton] at hcm
          rw [hcm]
          exact hd.2

theorem toString_nat_data (n : Nat) :
    (toString n).data = Nat.toDigits 10 n := rfl

theorem toString_nat_no_dash (n : Nat) : ∀ c ∈ (toString n).data, c ≠ '-' := by
  obtain ⟨l, hl, _, hc⟩ := toDigitsCore_spec (n + 1) n [] (by omega)
  intro c hcm
  rw [toString_nat_data, Nat.toDigits, hl, List.append_nil] at hcm
  exact hc c hcm

theorem toString_nat_injective (n m : Nat) (h : (toString n).data = (toString m).data) :
    n = m := by
  obtain ⟨l, hl, hv, _⟩ := toDigitsCore_spec (n + 1) n [] (by omega)
  obtain ⟨l1, hl1, hv1, _⟩ := toDigitsCore_spec (m + 1) m [] (by omega)
  rw [toString_nat_data, toString_nat_data, Nat.toDigits, Nat.toDigits, hl, hl1,
    List.append_nil, List.append_nil] at h
  rw [← hv, ← hv1, h]

/-- Two lists without the separator, each followed by the separator, are equal when the
whole lists are. -/
theorem eq_of_append_separator {sep : Char} :
    ∀ (a b x y : List Char), (∀ c ∈ a, c ≠ sep) → (∀ c ∈ b, c ≠ sep) →
      a ++ sep :: x = b ++ sep :: y → a = b ∧ x = y := by
  intro a
  induction a with
  | nil =>
    intro b x y _ hb h
    cases b with
    | nil => simpa using h
    | cons c b =>
      simp only [List.nil_append, List.cons_append, List.cons.injEq] at h
      exact absurd h.1.symm (hb c (List.mem_cons_self _ _))
  | cons c a ih =>
    intro b x y ha hb h
    cases b with
    | nil =>
      simp only [List.nil_append, List.cons_append, List.cons.injEq] at h
      exact absurd h.1 (ha c (List.mem_cons_self _ _))
    | cons d b =>
      simp only [List.cons_append, List.cons.injEq] at h
      obtain ⟨hab, hxy⟩ := ih b x y (fun c hc => ha c (List.mem_cons_of_mem _ hc))
        (fun c hc => hb c (List.mem_cons_of_mem _ hc)) h.2
      exact ⟨by rw [h.1, hab], hxy⟩

theorem specRouteName_data (vh : String) (i : Nat) (routeName : String) (j : Nat) :
    ∃ tail : List Char,
      (specRouteName vh i routeName j).data
        = vh.data ++ ("-route-".data ++ ((toString i).data ++ '-' :: tail)) ∧
      (specRouteName vh i routeName j).data
        = (if routeName = "" then
            vh.data ++ ("-route-".data ++ ((toString i).data ++ "-matcher-".data))
          else
            vh.data ++ ("-route-".data ++ ((toString i).data
              ++ ("-".data ++ (routeName.data ++ "-matcher-".data)))))
          ++ (toString j).data := by
  by_cases hn : routeName = ""
  · refine ⟨"matcher-".data ++ (toString j).data, ?_, ?_⟩
    · simp only [specRouteName, hn, if_true, String.data_append, List.append_assoc]
      rfl
    · simp only [specRouteName, hn, if_true, String.data_append, List.append_assoc]
  · refine ⟨routeName.data ++ ("-matcher-".data ++ (toString j).data), ?_, ?_⟩
    · simp only [specRouteName, hn, if_false, String.data_append, List.append_assoc]
      rfl
    · simp only [specRouteName, hn, if_false, String.data_append, List.append_assoc]

/-- The generated names determine the route index, and for one route the matcher
index. -/
theorem specRouteName_injective (vh : String) (i i1 : Nat) (routeName routeName1 : String)
    (j j1 : Nat)
    (h : specRouteName vh i routeName j = specRouteName vh i1 routeName1 j1) :
    i = i1 ∧ (routeName = routeName1 → j = j1) := by
  have hdata := congrArg String.data h
  obtain ⟨tail, ht, hfull⟩ := specRouteName_data vh i routeName j
  obtain ⟨tail1, ht1, hfull1⟩ := specRouteName_data vh i1 routeName1 j1
  have hi : i = i1 := by
    rw [ht, ht1] at hdata
    have h1 := List.append_cancel_left (List.append_cancel_left hdata)
    exact toString_nat_injective i i1
      (eq_of_append_separator _ _ _ _ (toString_nat_no_dash i) (toString_nat_no_dash i1) h1).1
  refine ⟨hi, ?_⟩
  intro hname
  subst hi
  subst hname
  rw [hfull, hfull1] at hdata
  exact toString_nat_injective j j1 (List.append_cancel_left hdata)

theorem initRoutes_name_at (ext : External) (input : Route) (routeReport : RouteReport)
    (vh : String) (i j : Nat) (out : Envoy.Route) (hm : input.matchers ≠ [])
    (hout : (initRoutes ext input routeReport (vh ++ "-route-" ++ toString i)).1[j]?
      = some out) :
    out.name = specRouteName vh i input.name j ∧ j < input.matchers.length := by
  have hnames := initRoutes_names ext input routeReport vh i
  have hlen : ¬ input.matchers.length = 0 := fun h => hm (List.length_eq_zero.mp h)
  simp only [specRouteNames, hlen, if_false] at hnames
  have hj := congrArg (fun l => l[j]?) hnames
  simp only [List.getElem?_map, hout, Option.map_some'] at hj
  by_cases hlt : j < input.matchers.length
  · rw [List.getElem?_range hlt] at hj
    simp only [Option.map_some', Option.some.injEq] at hj
    exact ⟨hj, hlt⟩
  · rw [List.getElem?_eq_none (by simp; omega)] at hj
    simp at hj

/-- C38: within one virtual host, the routes that `initRoutes` generates from matchers
get different names: for the routes at the indices `i` and `i1` of the route list, each
with at least one matcher, the generated route of matcher `j` of the first and that of
matcher `j1` of the second have different names whenever `i ≠ i1` or `j ≠ j1`, whatever
the virtual-host name and the names of the two routes are. The generated name passed to
`initRoutes` is the one `computeVirtualHost` builds, with the index in decimal. -/
theorem C38_generated_route_names_are_distinct
    (ext : External) (vh : String) (routes : List Route) (i i1 j j1 : Nat)
    (route route1 : Route) (routeReport routeReport1 : RouteReport)
    (out out1 : Envoy.Route)
    (hr : routes[i]? = some route) (hr1 : routes[i1]? = some route1)
    (hm : route.matchers ≠ []) (hm1 : route1.matchers ≠ [])
    (hout : (initRoutes ext route routeReport (vh ++ "-route-" ++ toString i)).1[j]?
      = some out)
    (hout1 : (initRoutes ext route1 routeReport1 (vh ++ "-route-" ++ toString i1)).1[j1]?
      = some out1)
    (hne : i ≠ i1 ∨ j ≠ j1) :
    out.name ≠ out1.name := by
  obtain ⟨hn, _⟩ := initRoutes_name_at ext route routeReport vh i j out hm hout
  obtain ⟨hn1, _⟩ := initRoutes_name_at ext route1 routeReport1 vh i1 j1 out1 hm1 hout1
  intro heq
  rw [hn, hn1] at heq
  obtain ⟨hi, hj⟩ := specRouteName_injective vh i i1 route.name route1.name j j1 heq
  subst hi
  have hroute : route = route1 := Option.some.inj (hr.symm.trans hr1)
  rcases hne with hne | hne
  · exact hne rfl
  · exact hne (hj (by rw [hroute]))

/-- C38 at the sample virtual host extended by a route whose own name imitates a
generated suffix. -/
theorem C38_generated_route_names_are_distinct_witness :
    ∃ out out1,
      (initRoutes sampleExternal sampleMatcherRoute ⟨[], []⟩ ("vh" ++ "-route-" ++ toString 1)).1[0]?
        = some out ∧
      (initRoutes sampleExternal ⟨"1-api", sampleMatcherRoute.matchers, .unset⟩ ⟨[], []⟩
          ("vh" ++ "-route-" ++ toString 11)).1[1]? = some out1 ∧
      out.name ≠ out1.name :=
  ⟨_, _, rfl, rfl,
    C38_generated_route_names_are_distinct sampleExternal "vh"
      ([sampleGroupRoute, sampleMatcherRoute] ++ List.replicate 9 sampleGroupRoute
        ++ [⟨"1-api", sampleMatcherRoute.matchers, .unset⟩]) 1 11 0 1
      sampleMatcherRoute ⟨"1-api", sampleMatcherRoute.matchers, .unset⟩ ⟨[], []⟩ ⟨[], []⟩ _ _
      rfl rfl (by decide) (by decide) rfl rfl (by decide)⟩

/-! ### Claim C37 -/

/-- The number of `DomainsNotUniqueError` entries for `D` that
`ValidateVirtualHostDomains` adds to the report at index `j`: when `D` was put into its
bucket more than once, one entry per time the virtual host at index `j` was put there. -/
theorem ValidateVirtualHostDomains_dnuCount
    (order : DomainMap → DomainMap) (horder : ∀ m, (order m).Perm m)
    (virtualHosts : List VirtualHost) (report : HttpListenerReport) (D : String)
    (halign : report.virtualHostReports.length = virtualHosts.length) :
    ∃ report1, ValidateVirtualHostDomains order virtualHosts report = some report1 ∧
      report1.virtualHostReports.length = virtualHosts.length ∧
      ∀ j, dnuCountAt D report1.virtualHostReports j
        = dnuCountAt D report.virtualHostReports j
          + (if 1 < claimCount D virtualHosts then (claimIdxs D 0 virtualHosts).count j
              else 0) := by
  obtain ⟨m, rs, hrun, hlen, hcnt, hget, hnd, hbd⟩ :=
    collectVirtualHosts_spec virtualHosts.length virtualHosts 0 [] report.virtualHostReports
      halign (by omega)
  have hnd1 : (m.map Prod.fst).Nodup := hnd (by simp)
  have hbd1 : ∀ b ∈ m, ∀ x ∈ b.2, x < virtualHosts.length := hbd (by simp)
  have hperm := horder m
  have hbd2 : ∀ b ∈ order m, ∀ x ∈ b.2, x < virtualHosts.length :=
    fun b hb => hbd1 b (hperm.mem_iff.mp hb)
  obtain ⟨rs1, hrun1, hlen1, hcnt1⟩ :=
    reportConflicts_spec D virtualHosts (order m) rs hlen hbd2
  have hbucket : DomainMap.get m D = claimIdxs D 0 virtualHosts := by
    rw [hget D]; simp [DomainMap.get]
  refine ⟨{ report with virtualHostReports := rs1 }, ?_, hlen1, ?_⟩
  · simp [ValidateVirtualHostDomains, hrun, hrun1]
  · intro j
    show dnuCountAt D rs1 j = _
    rw [hcnt1 j, hcnt D j, conflictBump_perm D j hperm]
    by_cases hgt : 1 < claimCount D virtualHosts
    · have hne : DomainMap.get m D ≠ [] := by
        rw [hbucket]
        intro h
        have hl := length_claimIdxs D virtualHosts 0
        rw [h, List.length_nil] at hl
        omega
      have hmem := DomainMap.mem_of_get_ne_nil m D hne
      rw [conflictBump_of_mem D j _ m hnd1 hmem, hbucket, length_claimIdxs]
    · rw [conflictBump_of_small_bucket D j m hnd1
        (by rw [hbucket, length_claimIdxs]; omega)]
      simp [hgt]

/-- C37, counterexample: a listener with the single virtual host `a` that lists the
domain `x` twice; its report receives a `DomainsNotUniqueError` (two of them). -/
theorem C37_single_virtual_host_is_flagged :
    ValidateVirtualHostDomains id [⟨"a", ["x", "x"], []⟩] ⟨[], [⟨[], []⟩]⟩
      = some ⟨[], [⟨[⟨.DomainsNotUniqueError, .domainShared "x" ["a", "a"]⟩,
          ⟨.DomainsNotUniqueError, .domainShared "x" ["a", "a"]⟩], []⟩]⟩ := by
  decide

/-- C37, amended: for index-aligned reports that carry no `DomainsNotUniqueError` for
`D` yet, `ValidateVirtualHostDomains` returns, and afterwards the report of a virtual
host carries a `DomainsNotUniqueError` for the domain `D` exactly when that virtual host
claims `D` and `D` is claimed at least twice in the listener, where every listing counts
(an empty domain list is one claim of "*"): by a different virtual host, or twice by the
virtual host itself. So the report of a listener's only virtual host carries the error
for `D` exactly when that virtual host lists `D` at least twice. This holds for every
order in which the map of domains is visited. -/
theorem C37_domains_not_unique_iff_claimed_twice
    (order : DomainMap → DomainMap) (horder : ∀ m, (order m).Perm m)
    (virtualHosts : List VirtualHost) (report : HttpListenerReport) (D : String)
    (halign : report.virtualHostReports.length = virtualHosts.length)
    (hfresh : ∀ r ∈ report.virtualHostReports, flaggedFor D r = false) :
    ∃ report1, ValidateVirtualHostDomains order virtualHosts report = some report1 ∧
      (∀ (j : Nat) (vh : VirtualHost) (r : VirtualHostReport),
        virtualHosts[j]? = some vh → report1.virtualHostReports[j]? = some r →
        (flaggedFor D r = true ↔
          claimsDomain D vh = true ∧ 2 ≤ claimCount D virtualHosts)) ∧
      (∀ (vh : VirtualHost) (r : VirtualHostReport), virtualHosts = [vh] →
        report1.virtualHostReports[0]? = some r →
        (flaggedFor D r = true ↔ 2 ≤ vh.domains.count D)) := by
  obtain ⟨report1, hrun, hlen, hcnt⟩ :=
    ValidateVirtualHostDomains_dnuCount order horder virtualHosts report D halign
  have hzero : ∀ j, dnuCountAt D report.virtualHostReports j = 0 := by
    intro j
    unfold dnuCountAt
    cases hr : report.virtualHostReports[j]? with
    | none => rfl
    | some r =>
      have hf := hfresh r (List.getElem?_mem hr)
      have : ¬ 0 < dnuCount D r := by
        rw [← flaggedFor_iff_dnuCount_pos]; simp [hf]
      simp only
      omega
  have hpoint : ∀ (j : Nat) (vh : VirtualHost) (r : VirtualHostReport),
      virtualHosts[j]? = some vh → report1.virtualHostReports[j]? = some r →
      (flaggedFor D r = true ↔
        claimsDomain D vh = true ∧ 2 ≤ claimCount D virtualHosts) := by
    intro j vh r hvh hr
    rw [flaggedFor_iff_dnuCount_pos]
    have h1 : dnuCountAt D report1.virtualHostReports j = dnuCount D r := by
      simp [dnuCountAt, hr]
    rw [← h1, hcnt j, hzero j, Nat.zero_add]
    have hclaim : 0 < (claimIdxs D 0 virtualHosts).count j ↔ claimsDomain D vh = true := by
      rw [count_claimIdxs_pos]
      constructor
      · rintro ⟨w, _, hw, hc⟩
        simp only [Nat.sub_zero] at hw
        rw [hvh] at hw
        cases hw
        exact hc
      · intro hc
        exact ⟨vh, Nat.zero_le _, by simpa using hvh, hc⟩
    by_cases hgt : 1 < claimCount D virtualHosts
    · simp only [hgt, if_true, hclaim]
      constructor
      · intro hc; exact ⟨hc, by omega⟩
      · intro hc; exact hc.1
    · simp only [hgt, if_false]
      constructor
      · intro hc; omega
      · intro hc; omega
  refine ⟨report1, hrun, hpoint, ?_⟩
  intro vh r hvhs hr
  subst hvhs
  rw [hpoint 0 vh r rfl hr]
  have hcc : claimCount D [vh]
      = (if vh.domains.length = 0 ∧ D = "*" then 1 else 0) + vh.domains.count D := by
    simp [claimCount]
  rw [hcc]
  constructor
  · rintro ⟨_, h2⟩
    by_cases he : vh.domains.length = 0 ∧ D = "*"
    · have hnil : vh.domains = [] := List.length_eq_zero.mp he.1
      rw [if_pos he, hnil, List.count_nil] at h2
      omega
    · rw [if_neg he, Nat.zero_add] at h2
      exact h2
  · intro h2
    refine ⟨?_, by omega⟩
    have hpos : 0 < vh.domains.count D := by omega
    have hmem : D ∈ vh.domains := List.count_pos_iff.mp hpos
    simp [claimsDomain, hmem]

/-- C37 (amended) at a listener whose only virtual host lists `x` twice and `y` once. -/
theorem C37_domains_not_unique_iff_claimed_twice_witness :
    ∃ report1,
      ValidateVirtualHostDomains id [⟨"a", ["x", "y", "x"], []⟩] ⟨[], [⟨[], []⟩]⟩
        = some report1 ∧
      (∀ (r : VirtualHostReport), report1.virtualHostReports[0]? = some r →
        (flaggedFor "y" r = true ↔ 2 ≤ (["x", "y", "x"] : List String).count "y")) := by
  obtain ⟨report1, hrun, _, hsingle⟩ :=
    C37_domains_not_unique_iff_claimed_twice id (fun m => List.Perm.refl m)
      [⟨"a", ["x", "y", "x"], []⟩] ⟨[], [⟨[], []⟩]⟩ "y" (by decide) (by decide)
  exact ⟨report1, hrun, fun r hr => hsingle ⟨"a", ["x", "y", "x"], []⟩ r rfl hr⟩

/-! ## C40: `roundToSecond` -/

/-- `specRoundUpSeconds d` is the least whole number of seconds not less than a
non-negative duration `d`. -/
theorem specRoundUpSeconds_least (d : Envoy.Duration) (s : Nat) :
    DurationFromProto d ≤ specRoundUpSeconds d * 1000000000 ∧
    (DurationFromProto d ≤ s * 1000000000 → specRoundUpSeconds d ≤ s) := by
  unfold specRoundUpSeconds
  generalize DurationFromProto d = x
  omega

/-- A nil duration maps to nil. -/
theorem roundToSecond_nil : roundToSecond none = none := rfl

set_option maxRecDepth 100000 in
/-- The constants of `roundToSecond` in binary64: `0.4999` is `2251349453722511 / 2 ^ 52`,
and one nanosecond is `4835703278458517 / 2 ^ 82` seconds. -/
theorem roundFloat64_constants :
    roundFloat64 4999 10000 = ⟨9005397814890044, 2 ^ 54⟩ ∧
    Seconds 1 = ⟨4835703278458517, 2 ^ 82⟩ := by
  decide

set_option maxRecDepth 100000 in
/-- One nanosecond is converted to 0 seconds. -/
theorem roundToSecond_one_nanosecond : roundToSecond (some ⟨0, 1⟩) = some 0 := by
  decide

set_option maxRecDepth 100000 in
/-- Two seconds and fifty microseconds are converted to 2 seconds. -/
theorem roundToSecond_below_tenth_of_millisecond :
    roundToSecond (some ⟨2, 50000⟩) = some 2 := by
  decide

set_option maxRecDepth 100000 in
/-- Whole seconds are kept, and a fraction of a tenth of a millisecond or more is rounded
up, on these inputs. -/
theorem roundToSecond_rounds_up_larger_fractions :
    roundToSecond (some ⟨2, 0⟩) = some 2 ∧
    roundToSecond (some ⟨0, 100000⟩) = some 1 ∧
    roundToSecond (some ⟨1, 500000000⟩) = some 2 ∧
    roundToSecond (some ⟨4294967294, 999999999⟩) = some 4294967295 := by
  decide

/-- C40 (the code at the failing inputs): a duration of one nanosecond is converted to 0
seconds, and one of two seconds and fifty microseconds to 2 seconds, while the least whole
numbers of seconds not less than these durations are 1 and 3; `convertTcpKeepAlive`
passes the results on as the keep-alive time and interval. -/
theorem C40_small_fraction_is_rounded_down :
    roundToSecond (some ⟨0, 1⟩) = some 0 ∧ specRoundUpSeconds ⟨0, 1⟩ = 1 ∧
    roundToSecond (some ⟨2, 50000⟩) = some 2 ∧ specRoundUpSeconds ⟨2, 50000⟩ = 3 ∧
    convertTcpKeepAlive ⟨3, some ⟨0, 1⟩, some ⟨2, 50000⟩⟩ = ⟨some 3, some 0, some 2⟩ := by
  refine ⟨roundToSecond_one_nanosecond, by decide, roundToSecond_below_tenth_of_millisecond,
    by decide, ?_⟩
  simp only [convertTcpKeepAlive, roundToSecond_one_nanosecond,
    roundToSecond_below_tenth_of_millisecond]
  decide
end Gloo
